import Mathlib

/-!
Cluster load balancer (`src/yb/master/cluster_balance.cc`).

A shallow embedding of the balancing decision engine of the master: the
activity/idleness tracker, the per-run budgets, the add / remove / leader-move
decision procedures and the run orchestration, followed by theorems about them.

Conventions of the embedding.

* C++ `int` values are `Int`; the unsigned counters whose wrap-around could be
  observed (`num_idle_runs_`, the `uint32_t` task total) are `Nat` with explicit
  reduction modulo a power of two.
* `std::set` / `std::vector` values are lists holding the elements in iteration
  order; `std::map` values are association lists, read with `lookupD` (for
  `operator[]` and `.at`, an absent key reads as the default value) or
  `List.lookup` (for `find`).
* A C++ member function that mutates the balancer and returns `Status` or
  `Result<bool>` becomes a function returning the result paired with the new
  balancer.
* Declarations that live outside `cluster_balance.cc` are parameters: the
  `PerTableLoadState` helpers of `cluster_balance_util.h` are fields of the `Env`
  record, the catalog is a `CatalogManager` value, the gflags a `Flags` value.
  Only the concrete inputs of the witnesses give them a body.
-/

set_option autoImplicit false

namespace ClusterBalance

/-! ## Identifiers, statuses -/

abbrev TabletId := String
abbrev TabletServerId := String
abbrev TableId := String
abbrev PlacementId := String
abbrev MonoTime := Int

/-- Status codes used by the balancer. -/
inductive Code where
  | IllegalState
  | TryAgain
  | InvalidArgument
  | Other
  deriving DecidableEq, Repr

/-- Master error attached to a status. -/
inductive MasterErrorPB where
  | LOAD_BALANCER_RECENTLY_ACTIVE
  deriving DecidableEq, Repr

/-- A non-OK `Status`: code, message (the format string, without the substituted
arguments) and the optional master error. `Status::OK()` is `Except.ok`. -/
structure Status where
  code : Code
  message : String
  master_error : Option MasterErrorPB
  deriving DecidableEq, Repr

/-- The C++ `Status` type: `Except.ok ()` is `Status::OK()`. -/
abbrev StatusOr (α : Type) := Except Status α

/-- The macro `STATUS(code, msg)`. -/
def STATUS (c : Code) (msg : String) : Status := ⟨c, msg, none⟩

/-- Reading `m[k]` / `m.at(k)` of a `std::map`. -/
def lookupD {κ ν : Type} [BEq κ] (m : List (κ × ν)) (k : κ) (d : ν) : ν :=
  (m.lookup k).getD d

/-- The call `m.erase(k)` of a `std::map`. -/
def eraseKey {κ ν : Type} [BEq κ] (m : List (κ × ν)) (k : κ) : List (κ × ν) :=
  m.filter (fun e => !(e.1 == k))

/-- The assignment `m[k] = v` of a `std::map`. -/
def insertKey {κ ν : Type} [BEq κ] (m : List (κ × ν)) (k : κ) (v : ν) : List (κ × ν) :=
  if (m.lookup k).isSome then m.map (fun e => if e.1 == k then (k, v) else e)
  else m ++ [(k, v)]

/-! ## Data model -/

structure CloudInfoPB where
  placement_cloud : String
  placement_region : String
  placement_zone : String
  deriving DecidableEq, Repr, Inhabited

structure PlacementBlockPB where
  cloud_info : CloudInfoPB
  min_num_replicas : Int
  deriving DecidableEq, Repr, Inhabited

structure PlacementInfoPB where
  num_replicas : Int
  placement_blocks : List PlacementBlockPB
  placement_uuid : String
  deriving DecidableEq, Repr, Inhabited

structure ReplicationInfoPB where
  live_replicas : PlacementInfoPB
  read_replicas : List PlacementInfoPB
  affinitized_leaders : List CloudInfoPB
  deriving DecidableEq, Repr, Inhabited

/-- The node descriptor (a snapshot of `TSDescriptor`). -/
structure TSDescriptor where
  permanent_uuid : TabletServerId
  cloud_info : CloudInfoPB
  has_tablet_delete_pending : Bool
  deriving DecidableEq, Repr, Inhabited

inductive ReplicaType where
  | LIVE
  | READ_ONLY
  deriving DecidableEq, Repr, Inhabited

/-- The per-pass `Options` (the budget knobs read by `cluster_balance.cc`). -/
structure Options where
  type : ReplicaType
  placement_uuid : String
  live_placement_uuid : String
  kMinLoadVarianceToBalance : Int
  kMinGlobalLoadVarianceToBalance : Int
  kMinLeaderLoadVarianceToBalance : Int
  kMinGlobalLeaderLoadVarianceToBalance : Int
  kAllowLimitStartingTablets : Bool
  kMaxTabletRemoteBootstraps : Int
  kMaxTabletRemoteBootstrapsPerTable : Int
  kAllowLimitOverReplicatedTablets : Bool
  kMaxOverReplicatedTablets : Int
  kMaxConcurrentAdds : Int
  kMaxConcurrentRemovals : Int
  kMaxConcurrentLeaderMoves : Int
  kMaxConcurrentLeaderMovesPerTable : Int
  deriving DecidableEq, Repr, Inhabited

/-- The per-node bookkeeping `CBTabletServerMetadata`. -/
structure CBTabletServerMetadata where
  running_tablets : List TabletId
  starting_tablets : List TabletId
  leaders : List TabletId
  sorted_path_load : List String
  path_to_tablets : List (String × List TabletId)
  disabled_by_ts_tablets : List TabletId
  descriptor : TSDescriptor
  deriving DecidableEq, Repr, Inhabited

/-- The per-tablet bookkeeping `CBTabletMetadata`. -/
structure CBTabletMetadata where
  leader_uuid : TabletServerId
  starting : Int
  under_replicated_placements : List PlacementId
  over_replicated_tablet_servers : List TabletServerId
  wrong_placement_tablet_servers : List TabletServerId
  blacklisted_tablet_servers : List TabletServerId
  leader_stepdown_failures : List (TabletServerId × MonoTime)
  deriving DecidableEq, Repr, Inhabited

abbrev TabletToTabletServerMap := List (TabletId × TabletServerId)

/-- The per-table state `PerTableLoadState` (the members that
`cluster_balance.cc` reads or writes). -/
structure PerTableLoadState where
  table_id_ : TableId
  options_ : Options
  use_preferred_zones_ : Bool
  allow_only_leader_balancing_ : Bool
  per_ts_meta_ : List (TabletServerId × CBTabletServerMetadata)
  per_tablet_meta_ : List (TabletId × CBTabletMetadata)
  tablets_missing_replicas_ : List TabletId
  tablets_over_replicated_ : List TabletId
  tablets_wrong_placement_ : List TabletId
  sorted_load_ : List TabletServerId
  sorted_leader_load_ : List TabletServerId
  sorted_non_affinitized_leader_load_ : List TabletServerId
  blacklisted_servers_ : List TabletServerId
  leader_blacklisted_servers_ : List TabletServerId
  affinitized_zones_ : List CloudInfoPB
  placement_by_table_ : List (TableId × PlacementInfoPB)
  pending_add_replica_tasks_ : List (TableId × TabletToTabletServerMap)
  pending_remove_replica_tasks_ : List (TableId × TabletToTabletServerMap)
  pending_stepdown_leader_tasks_ : List (TableId × TabletToTabletServerMap)
  total_starting_ : Int
  total_running_ : Int
  deriving DecidableEq, Repr, Inhabited

/-- The cluster-wide state `GlobalLoadState`. -/
structure GlobalLoadState where
  ts_descs_ : List TSDescriptor
  total_starting_tablets_ : Int
  drive_aware_ : Bool
  deriving DecidableEq, Repr, Inhabited

/-- One run's outcome, `struct ActivityInfo {table_tasks, master_errors}`. -/
structure ActivityInfo where
  table_tasks : Nat
  master_errors : Nat
  deriving DecidableEq, Repr, Inhabited

/-- Modelled from the spec: `ActivityInfo::IsIdle` is declared in the header
`cluster_balance.h`, which is missing; the spec says "idle" = zero tasks and
zero errors. -/
def ActivityInfo.IsIdle (ai : ActivityInfo) : Bool :=
  ai.table_tasks == 0 && ai.master_errors == 0

/-- The member type of a replica being added, `consensus::RaftPeerPB::MemberType`. -/
inductive MemberType where
  | PRE_VOTER
  | PRE_OBSERVER
  deriving DecidableEq, Repr

/-- A command handed to the catalog manager (fire-and-forget):
`SendAddServerRequest`, `SendRemoveServerRequest`, `SendLeaderStepDownRequest`. -/
inductive Command where
  | AddServer (tablet : TabletId) (ts : TabletServerId) (member_type : MemberType)
  | RemoveServer (tablet : TabletId) (ts : TabletServerId)
  | LeaderStepDown (tablet : TabletId) (ts : TabletServerId)
      (should_remove_leader : Bool) (new_leader_ts_uuid : TabletServerId)
  deriving DecidableEq, Repr

/-- The balancer object `ClusterLoadBalancer`. `state_` is the pointee of the
C++ `state_` pointer (the table being processed), `sent_` the commands handed so
far to the catalog manager, oldest first. `cbuf_capacity_` and
`cbuf_activities_` are the capacity and the contents (front first) of the
`boost::circular_buffer`. -/
structure ClusterLoadBalancer where
  is_enabled_ : Bool
  cbuf_capacity_ : Nat
  cbuf_activities_ : List ActivityInfo
  num_idle_runs_ : Nat
  is_idle_ : Bool
  can_perform_global_operations_ : Bool
  state_ : PerTableLoadState
  global_state_ : GlobalLoadState
  per_table_states_ : List (TableId × PerTableLoadState)
  skipped_tables_per_run_ : List TableId
  skipped_tables_ : List TableId
  sent_ : List Command
  deriving DecidableEq, Repr, Inhabited

/-! ## Flags -/

/-- The gflags read by `cluster_balance.cc`. -/
structure Flags where
  enable_load_balancing : Bool
  transaction_tables_use_preferred_zones : Bool
  enable_global_load_balancing : Bool
  load_balancer_num_idle_runs : Int
  TEST_load_balancer_handle_under_replicated_tablets_only : Bool
  load_balancer_skip_leader_as_remove_victim : Bool
  load_balancer_count_move_as_add : Bool
  load_balancer_drive_aware : Bool
  min_leader_stepdown_retry_interval_ms : Int
  deriving DecidableEq, Repr, Inhabited

/-! ## Activity tracking -/

/-- The call `cbuf.full()` of `boost::circular_buffer`: size equals capacity. -/
def cbuf_full (capacity : Nat) (buf : List ActivityInfo) : Bool :=
  buf.length == capacity

/-- The call `cbuf.push_back(x)` of `boost::circular_buffer`: a full buffer drops
its front element; a buffer of capacity zero stores nothing. -/
def cbuf_push_back (capacity : Nat) (buf : List ActivityInfo) (x : ActivityInfo) :
    List ActivityInfo :=
  if capacity = 0 then buf
  else if cbuf_full capacity buf then buf.tail ++ [x]
  else buf ++ [x]

/-- Function `ClusterLoadBalancer::IsLoadBalancerEnabled`. -/
def IsLoadBalancerEnabled (flags : Flags) (lb : ClusterLoadBalancer) : Bool :=
  flags.enable_load_balancing && lb.is_enabled_

/-- Function `ClusterLoadBalancer::ResetGlobalState`, for `initialize_ts_descs = false`
(`ts_descs` is the result of `GetAllDescriptors` otherwise). -/
def ResetGlobalState (flags : Flags) (ts_descs : List TSDescriptor)
    (lb : ClusterLoadBalancer) : ClusterLoadBalancer :=
  { lb with
    per_table_states_ := []
    global_state_ :=
      { ts_descs_ := ts_descs, total_starting_tablets_ := 0,
        drive_aware_ := flags.load_balancer_drive_aware }
    skipped_tables_per_run_ := [] }

/-- Modelled from the spec: the default member initialisers of the class, which
are declared in the missing header `cluster_balance.h`. The idle-run counter
starts at zero with an empty history and `can_perform_global_operations_`
"starts true"; no table is current and no command has been sent. -/
def memberInitialisers : ClusterLoadBalancer :=
  { is_enabled_ := false
    cbuf_capacity_ := 0
    cbuf_activities_ := []
    num_idle_runs_ := 0
    is_idle_ := true
    can_perform_global_operations_ := true
    state_ := default
    global_state_ := default
    per_table_states_ := []
    skipped_tables_per_run_ := []
    skipped_tables_ := []
    sent_ := [] }

/-- The constructor `ClusterLoadBalancer::ClusterLoadBalancer`: `is_enabled_` and
the capacity of `cbuf_activities_` come from the flags, then
`ResetGlobalState(false)` runs. -/
def ClusterLoadBalancer.new (flags : Flags) : ClusterLoadBalancer :=
  ResetGlobalState flags []
    { memberInitialisers with
      is_enabled_ := flags.enable_load_balancing
      cbuf_capacity_ := flags.load_balancer_num_idle_runs.toNat }

/-- The increment `++` of an unsigned counter of `bits` bits. -/
def wrapInc (bits n : Nat) : Nat := (n + 1) % 2 ^ bits

/-- The decrement `--` of an unsigned counter of `bits` bits. -/
def wrapDec (bits n : Nat) : Nat := (n + 2 ^ bits - 1) % 2 ^ bits

/-- The `uint32_t` sum `table_tasks += table.second->NumLBTasks()` over the
table map. -/
def sumTableTasks (num_lb_tasks : List Nat) : Nat :=
  num_lb_tasks.foldl (fun acc t => (acc + t) % 2 ^ 32) 0

/-- Function `ClusterLoadBalancer::RecordActivity`. `num_lb_tasks` lists
`NumLBTasks()` of every table of the table map; `bits` is the width of the
unsigned type of `num_idle_runs_` (declared in the missing header), whose
increment and decrement wrap around. -/
def RecordActivity (bits : Nat) (lb : ClusterLoadBalancer) (num_lb_tasks : List Nat)
    (master_errors : Nat) : ClusterLoadBalancer :=
  let table_tasks := sumTableTasks num_lb_tasks
  let ai : ActivityInfo := { table_tasks := table_tasks, master_errors := master_errors }
  let n1 := if ai.IsIdle then wrapInc bits lb.num_idle_runs_ else lb.num_idle_runs_
  let front_idle :=
    match lb.cbuf_activities_.head? with
    | some f => f.IsIdle
    | none => false
  let n2 :=
    if cbuf_full lb.cbuf_capacity_ lb.cbuf_activities_ && front_idle
    then wrapDec bits n1 else n1
  let buf := cbuf_push_back lb.cbuf_capacity_ lb.cbuf_activities_ ai
  { lb with
    skipped_tables_ := lb.skipped_tables_per_run_
    num_idle_runs_ := n2
    cbuf_activities_ := buf
    is_idle_ := n2 == buf.length
    can_perform_global_operations_ := lb.can_perform_global_operations_ || ai.IsIdle }

/-- The status returned by `IsIdle` when the balancer was recently active. -/
def recentlyActive : Status :=
  { code := .IllegalState, message := "Task or error encountered recently.",
    master_error := some .LOAD_BALANCER_RECENTLY_ACTIVE }

/-- Function `ClusterLoadBalancer::IsIdle`. -/
def IsIdle (flags : Flags) (lb : ClusterLoadBalancer) : StatusOr Unit :=
  if IsLoadBalancerEnabled flags lb && !lb.is_idle_ then .error recentlyActive
  else .ok ()

/-- Function `ClusterLoadBalancer::CanBalanceGlobalLoad`. -/
def CanBalanceGlobalLoad (flags : Flags) (lb : ClusterLoadBalancer) : Bool :=
  flags.enable_global_load_balancing && lb.can_perform_global_operations_

/-- One recorded run: `NumLBTasks()` of every table, and the master errors. -/
abbrev RunInput := List Nat × Nat

/-- The `ActivityInfo` that `RecordActivity` builds from a run. -/
def RunInput.activity (r : RunInput) : ActivityInfo :=
  { table_tasks := sumTableTasks r.1, master_errors := r.2 }

/-- A sequence of `RecordActivity` calls, oldest first. -/
def recordAll (bits : Nat) (lb : ClusterLoadBalancer) (runs : List RunInput) :
    ClusterLoadBalancer :=
  runs.foldl (fun s r => RecordActivity bits s r.1 r.2) lb

/-- States of the balancer that can arise: the constructed object, a
`RecordActivity` call, or any other member function, none of which writes the
members of the activity tracker. -/
inductive Reachable (bits : Nat) (flags : Flags) : ClusterLoadBalancer → Prop
  | init : Reachable bits flags (ClusterLoadBalancer.new flags)
  | record (lb : ClusterLoadBalancer) (r : RunInput) :
      Reachable bits flags lb → Reachable bits flags (RecordActivity bits lb r.1 r.2)
  | other (lb lb2 : ClusterLoadBalancer) :
      Reachable bits flags lb →
      lb2.cbuf_capacity_ = lb.cbuf_capacity_ →
      lb2.cbuf_activities_ = lb.cbuf_activities_ →
      lb2.num_idle_runs_ = lb.num_idle_runs_ →
      Reachable bits flags lb2

/-! ## Run budgets -/

/-- The function `set_remaining(pending_tasks, &remaining_tasks)`: the value
left in `*remaining_tasks`. -/
def set_remaining (pending_tasks : Int) (remaining_tasks : Int) : Int :=
  if pending_tasks > remaining_tasks then 0 else remaining_tasks - pending_tasks

/-- The three run budgets of `RunLoadBalancerWithOptions`. -/
structure Budgets where
  remaining_adds : Int
  remaining_removals : Int
  remaining_leader_moves : Int
  deriving DecidableEq, Repr, Inhabited

/-- Lines 313-315 and 373-375 of `RunLoadBalancerWithOptions`: the budgets are
the configured maxima reduced by the pending-task totals. -/
def initialBudgets (options : Options) (pending_add_replica_tasks
    pending_remove_replica_tasks pending_stepdown_leader_tasks : Int) : Budgets :=
  { remaining_adds := set_remaining pending_add_replica_tasks options.kMaxConcurrentAdds
    remaining_removals :=
      set_remaining pending_remove_replica_tasks options.kMaxConcurrentRemovals
    remaining_leader_moves :=
      set_remaining pending_stepdown_leader_tasks options.kMaxConcurrentLeaderMoves }

/-! ## External collaborators -/

/-- A tablet record of the catalog manager, as read under its lock: owning table
(`none` for an orphaned tablet), running state, and the result of
`CountVotersInTransition` on its committed config. -/
structure TabletInfo where
  tablet_id : TabletId
  table : Option TableId
  is_running : Bool
  voters_in_transition : Int
  deriving DecidableEq, Repr, Inhabited

/-- A table record of the catalog manager with what the balancer asks about it. -/
structure TableInfo where
  id : TableId
  is_system_table : Bool
  is_colocated_user_table : Bool
  started_deleting : Bool
  is_transaction_status_table : Bool
  needs_refresh_to_find_table_placement : Bool
  num_lb_tasks : Nat
  tablets : List TabletInfo
  pb_replication_info : Option ReplicationInfoPB
  tablespace_replication_info : StatusOr (Option ReplicationInfoPB)
  pending_add_server_tasks : TabletToTabletServerMap
  pending_remove_server_tasks : TabletToTabletServerMap
  pending_stepdown_leader_tasks : TabletToTabletServerMap

instance : Inhabited TableInfo :=
  ⟨{ id := "", is_system_table := false, is_colocated_user_table := false,
     started_deleting := false, is_transaction_status_table := false,
     needs_refresh_to_find_table_placement := false, num_lb_tasks := 0, tablets := [],
     pb_replication_info := none, tablespace_replication_info := .ok none,
     pending_add_server_tasks := [], pending_remove_server_tasks := [],
     pending_stepdown_leader_tasks := [] }⟩

/-- The catalog manager, read-only during a pass: table map and tablet map in
iteration order, the cluster replication info, blacklists and node descriptors. -/
structure CatalogManager where
  table_ids_map_ : List (TableId × TableInfo)
  tablet_map_ : List (TabletId × TabletInfo)
  cluster_replication_info : ReplicationInfoPB
  server_blacklist : List TabletServerId
  leader_blacklist : List TabletServerId
  ts_descs : List TSDescriptor

/-- Declarations used by `cluster_balance.cc` whose bodies live elsewhere: the
clock, the width of `num_idle_runs_`, the default `Options`, and the helper
methods of `PerTableLoadState`, `GlobalLoadState`, `CBTabletMetadata` and
`TSDescriptor` (`cluster_balance_util.h`). A helper that mutates the per-table
and global state takes and returns the pair of them. -/
structure Env where
  flags : Flags
  counter_bits : Nat
  now : MonoTime
  default_options : Options
  PerTableLoadState_new : GlobalLoadState → PerTableLoadState
  GetLoad : PerTableLoadState → TabletServerId → Int
  GetLeaderLoad : PerTableLoadState → TabletServerId → Int
  IsLeaderLoadBelowThreshold : PerTableLoadState → TabletServerId → Bool
  GetGlobalLoad : GlobalLoadState → TabletServerId → Int
  GetGlobalLeaderLoad : GlobalLoadState → TabletServerId → Int
  CanAddTabletToTabletServer :
    PerTableLoadState → TabletId → TabletServerId → Option PlacementInfoPB → StatusOr Bool
  CanSelectWrongReplicaToMove :
    PerTableLoadState → TabletId → PlacementInfoPB →
      StatusOr (Option (TabletServerId × TabletServerId))
  CanAddTSToMissingPlacements : CBTabletMetadata → TSDescriptor → Bool
  GetValidPlacement :
    PerTableLoadState → TabletServerId → PlacementInfoPB → Option CloudInfoPB
  generate_placement_id : CloudInfoPB → String
  Comparator : PerTableLoadState → GlobalLoadState → TabletServerId → TabletServerId → Bool
  state_AddReplica : PerTableLoadState × GlobalLoadState → TabletId → TabletServerId →
    StatusOr Unit × (PerTableLoadState × GlobalLoadState)
  state_RemoveReplica : PerTableLoadState × GlobalLoadState → TabletId → TabletServerId →
    StatusOr Unit × (PerTableLoadState × GlobalLoadState)
  state_MoveLeader : PerTableLoadState × GlobalLoadState → TabletId → TabletServerId →
    TabletServerId → StatusOr Unit × (PerTableLoadState × GlobalLoadState)
  state_AddStartingTablet : PerTableLoadState × GlobalLoadState → TabletId →
    TabletServerId → StatusOr Unit × (PerTableLoadState × GlobalLoadState)
  state_UpdateTablet : PerTableLoadState × GlobalLoadState → TabletInfo →
    StatusOr Unit × (PerTableLoadState × GlobalLoadState)
  state_UpdateTabletServer : PerTableLoadState × GlobalLoadState → TSDescriptor →
    PerTableLoadState × GlobalLoadState
  state_SetBlacklist : PerTableLoadState → List TabletServerId → PerTableLoadState
  state_SetLeaderBlacklist : PerTableLoadState → List TabletServerId → PerTableLoadState
  state_AdjustLeaderBalanceThreshold : PerTableLoadState → PerTableLoadState
  state_SortLoad : PerTableLoadState × GlobalLoadState → PerTableLoadState
  state_SortLeaderLoad : PerTableLoadState × GlobalLoadState → PerTableLoadState
  state_SortTabletServerDriveLoad : PerTableLoadState × GlobalLoadState → PerTableLoadState

/-- The out-parameters of a decision procedure that returned `true`: the chosen
tablet and, where the procedure writes them, the source and target nodes. The
value of an out-parameter that a call did not write is not modelled. -/
structure Move where
  tablet_id : TabletId
  from_ts : Option TabletServerId
  to_ts : Option TabletServerId
  deriving DecidableEq, Repr

/-- The result of a decision procedure `Result<bool>`: `.ok (some m)` is `true`
with out-parameters `m`, `.ok none` is `false`. -/
abbrev Decision := StatusOr (Option Move)

/-! ## Catalog accessors and command sending -/

/-- Function `ClusterLoadBalancer::SkipLoadBalancing`. -/
def SkipLoadBalancing (table : TableInfo) : Bool :=
  table.is_system_table || table.is_colocated_user_table || table.started_deleting

/-- The tablet `GetTabletMap().at(tablet_id)`. The source reads the tablet map
with `.at()`, which throws `std::out_of_range` for an id that is not a key; here
such an id reads as the default tablet. The two agree on every id that is a key
of the tablet map, which is the case for the tablets that a pass handles. -/
def GetTablet (cat : CatalogManager) (tablet_id : TabletId) : TabletInfo :=
  lookupD cat.tablet_map_ tablet_id default

/-- The id `tablet->table()->id()`. -/
def TabletInfo.table_id (tablet : TabletInfo) : TableId :=
  tablet.table.getD ""

/-- Function `ClusterLoadBalancer::GetTableReplicationInfo`: the table's own policy, else
the policy of its tablespace, else the cluster policy. -/
def GetTableReplicationInfo (cat : CatalogManager) (table : TableInfo) :
    StatusOr ReplicationInfoPB :=
  match table.pb_replication_info with
  | some ri => .ok ri
  | none =>
    match table.tablespace_replication_info with
    | .error e => .error e
    | .ok (some ri) => .ok ri
    | .ok none => .ok cat.cluster_replication_info

/-- Function `ClusterLoadBalancer::GetPlacementByTablet`. The source reads
`placement_by_table_` with `.at()`, which throws `std::out_of_range` for a table
id that is not a key; here such an id reads as the default policy. The two agree
whenever the policy of the tablet's table is recorded, which `UpdateTabletInfo`
does before it classifies a tablet of the table. -/
def GetPlacementByTablet (cat : CatalogManager) (st : PerTableLoadState)
    (tablet_id : TabletId) : PlacementInfoPB :=
  lookupD st.placement_by_table_ (GetTablet cat tablet_id).table_id default

/-- Function `ClusterLoadBalancer::GetDefaultMemberType`. -/
def GetDefaultMemberType (st : PerTableLoadState) : MemberType :=
  if st.options_.type = .LIVE then .PRE_VOTER else .PRE_OBSERVER

/-- The number `m[table_id].count(tablet_id)` of a pending-task map. -/
def pendingCount (m : List (TableId × TabletToTabletServerMap)) (table_id : TableId)
    (tablet_id : TabletId) : Nat :=
  if ((lookupD m table_id []).lookup tablet_id).isSome then 1 else 0

/-- Function `ClusterLoadBalancer::SendReplicaChanges`. -/
def SendReplicaChanges (lb : ClusterLoadBalancer) (tablet : TabletInfo)
    (ts_uuid : TabletServerId) (is_add : Bool) (should_remove_leader : Bool)
    (new_leader_ts_uuid : TabletServerId) : StatusOr Unit × ClusterLoadBalancer :=
  if is_add then
    if pendingCount lb.state_.pending_add_replica_tasks_ tablet.table_id tablet.tablet_id ≠ 0
    then (.error (STATUS .IllegalState "Sending duplicate add replica task."), lb)
    else (.ok (), { lb with sent_ := lb.sent_ ++
      [Command.AddServer tablet.tablet_id ts_uuid (GetDefaultMemberType lb.state_)] })
  else if (lookupD lb.state_.per_tablet_meta_ tablet.tablet_id default).leader_uuid = ts_uuid
  then
    if pendingCount lb.state_.pending_stepdown_leader_tasks_ tablet.table_id tablet.tablet_id ≠ 0
    then (.error (STATUS .IllegalState "Sending duplicate leader stepdown task."), lb)
    else (.ok (), { lb with sent_ := lb.sent_ ++
      [Command.LeaderStepDown tablet.tablet_id ts_uuid should_remove_leader
        new_leader_ts_uuid] })
  else
    if pendingCount lb.state_.pending_remove_replica_tasks_ tablet.table_id tablet.tablet_id ≠ 0
    then (.error (STATUS .IllegalState "Sending duplicate remove replica task."), lb)
    else (.ok (), { lb with sent_ := lb.sent_ ++
      [Command.RemoveServer tablet.tablet_id ts_uuid] })

/-- Applies a `PerTableLoadState` helper to `state_` and `global_state_`. -/
def applyState (lb : ClusterLoadBalancer)
    (r : StatusOr Unit × (PerTableLoadState × GlobalLoadState)) :
    StatusOr Unit × ClusterLoadBalancer :=
  (r.1, { lb with state_ := r.2.1, global_state_ := r.2.2 })

/-- Function `ClusterLoadBalancer::AddReplica`. -/
def AddReplica (env : Env) (cat : CatalogManager) (lb : ClusterLoadBalancer)
    (tablet_id : TabletId) (to_ts : TabletServerId) : StatusOr Unit × ClusterLoadBalancer :=
  match SendReplicaChanges lb (GetTablet cat tablet_id) to_ts true true "" with
  | (.error e, lb1) => (.error e, lb1)
  | (.ok _, lb1) =>
    applyState lb1 (env.state_AddReplica (lb1.state_, lb1.global_state_) tablet_id to_ts)

/-- Function `ClusterLoadBalancer::MoveReplica`. -/
def MoveReplica (env : Env) (cat : CatalogManager) (lb : ClusterLoadBalancer)
    (tablet_id : TabletId) (from_ts to_ts : TabletServerId) :
    StatusOr Unit × ClusterLoadBalancer :=
  match SendReplicaChanges lb (GetTablet cat tablet_id) to_ts true true "" with
  | (.error e, lb1) => (.error e, lb1)
  | (.ok _, lb1) =>
    match applyState lb1
        (env.state_AddReplica (lb1.state_, lb1.global_state_) tablet_id to_ts) with
    | (.error e, lb2) => (.error e, lb2)
    | (.ok _, lb2) =>
      if env.flags.load_balancer_count_move_as_add then (.ok (), lb2)
      else applyState lb2
        (env.state_RemoveReplica (lb2.state_, lb2.global_state_) tablet_id from_ts)

/-- Function `ClusterLoadBalancer::RemoveReplica`. -/
def RemoveReplica (env : Env) (cat : CatalogManager) (lb : ClusterLoadBalancer)
    (tablet_id : TabletId) (ts_uuid : TabletServerId) :
    StatusOr Unit × ClusterLoadBalancer :=
  match SendReplicaChanges lb (GetTablet cat tablet_id) ts_uuid false true "" with
  | (.error e, lb1) => (.error e, lb1)
  | (.ok _, lb1) =>
    applyState lb1 (env.state_RemoveReplica (lb1.state_, lb1.global_state_) tablet_id ts_uuid)

/-- Function `ClusterLoadBalancer::MoveLeader`. -/
def MoveLeader (env : Env) (cat : CatalogManager) (lb : ClusterLoadBalancer)
    (tablet_id : TabletId) (from_ts to_ts : TabletServerId) :
    StatusOr Unit × ClusterLoadBalancer :=
  match SendReplicaChanges lb (GetTablet cat tablet_id) from_ts false false to_ts with
  | (.error e, lb1) => (.error e, lb1)
  | (.ok _, lb1) =>
    applyState lb1
      (env.state_MoveLeader (lb1.state_, lb1.global_state_) tablet_id from_ts to_ts)

/-- Function `ClusterLoadBalancer::get_total_over_replication`. -/
def get_total_over_replication (lb : ClusterLoadBalancer) : Int :=
  lb.state_.tablets_over_replicated_.length

/-- Function `ClusterLoadBalancer::get_total_starting_tablets`. -/
def get_total_starting_tablets (lb : ClusterLoadBalancer) : Int :=
  lb.global_state_.total_starting_tablets_

/-- Function `ClusterLoadBalancer::IsConfigMemberInTransitionMode`. -/
def IsConfigMemberInTransitionMode (cat : CatalogManager) (tablet_id : TabletId) : Bool :=
  (GetTablet cat tablet_id).voters_in_transition ≠ 0

/-! ## Add-replica decision -/

/-- The per-node test in the inner loop of `HandleAddIfMissingPlacement`: the
value of `can_choose_ts` for the tablet and the node. -/
def canChooseTs (env : Env) (cat : CatalogManager) (st : PerTableLoadState)
    (tablet_id : TabletId) (ts_uuid : TabletServerId) : StatusOr Bool :=
  let tablet_meta := lookupD st.per_tablet_meta_ tablet_id default
  let placement_info := GetPlacementByTablet cat st tablet_id
  let missing_placements := tablet_meta.under_replicated_placements
  if placement_info.placement_blocks.isEmpty then
    env.CanAddTabletToTabletServer st tablet_id ts_uuid none
  else
    let ts_meta := lookupD st.per_ts_meta_ ts_uuid default
    if missing_placements.isEmpty ||
        env.CanAddTSToMissingPlacements tablet_meta ts_meta.descriptor then
      env.CanAddTabletToTabletServer st tablet_id ts_uuid (some placement_info)
    else .ok false

/-- The inner loop of `HandleAddIfMissingPlacement` over `sorted_load_`: the
first node that can be chosen for the tablet. -/
def findTsForTablet (env : Env) (cat : CatalogManager) (st : PerTableLoadState)
    (tablet_id : TabletId) : List TabletServerId → StatusOr (Option TabletServerId)
  | [] => .ok none
  | ts_uuid :: rest =>
    match canChooseTs env cat st tablet_id ts_uuid with
    | .error e => .error e
    | .ok true => .ok (some ts_uuid)
    | .ok false => findTsForTablet env cat st tablet_id rest

/-- The outer loop of `HandleAddIfMissingPlacement` over
`tablets_missing_replicas_`. -/
def findMissingPlacement (env : Env) (cat : CatalogManager) (st : PerTableLoadState) :
    List TabletId → StatusOr (Option (TabletId × TabletServerId))
  | [] => .ok none
  | tablet_id :: rest =>
    match findTsForTablet env cat st tablet_id st.sorted_load_ with
    | .error e => .error e
    | .ok (some ts_uuid) => .ok (some (tablet_id, ts_uuid))
    | .ok none => findMissingPlacement env cat st rest

/-- Function `ClusterLoadBalancer::HandleAddIfMissingPlacement`. -/
def HandleAddIfMissingPlacement (env : Env) (cat : CatalogManager)
    (lb : ClusterLoadBalancer) : Decision × ClusterLoadBalancer :=
  match findMissingPlacement env cat lb.state_ lb.state_.tablets_missing_replicas_ with
  | .error e => (.error e, lb)
  | .ok none => (.ok none, lb)
  | .ok (some (tablet_id, ts_uuid)) =>
    match AddReplica env cat lb tablet_id ts_uuid with
    | (.error e, lb1) => (.error e, lb1)
    | (.ok _, lb1) =>
      (.ok (some { tablet_id := tablet_id, from_ts := none, to_ts := some ts_uuid }),
        { lb1 with state_ := { lb1.state_ with
            tablets_missing_replicas_ :=
              lb1.state_.tablets_missing_replicas_.filter (fun t => t ≠ tablet_id) } })

/-- The loop of `HandleAddIfWrongPlacement` over `tablets_wrong_placement_`. -/
def findWrongPlacement (env : Env) (cat : CatalogManager) (st : PerTableLoadState) :
    List TabletId → StatusOr (Option (TabletId × TabletServerId × TabletServerId))
  | [] => .ok none
  | tablet_id :: rest =>
    if tablet_id ∈ st.tablets_over_replicated_ then findWrongPlacement env cat st rest
    else
      match env.CanSelectWrongReplicaToMove st tablet_id
          (GetPlacementByTablet cat st tablet_id) with
      | .error e => .error e
      | .ok (some (from_ts, to_ts)) => .ok (some (tablet_id, from_ts, to_ts))
      | .ok none => findWrongPlacement env cat st rest

/-- Function `ClusterLoadBalancer::HandleAddIfWrongPlacement`. -/
def HandleAddIfWrongPlacement (env : Env) (cat : CatalogManager)
    (lb : ClusterLoadBalancer) : Decision × ClusterLoadBalancer :=
  match findWrongPlacement env cat lb.state_ lb.state_.tablets_wrong_placement_ with
  | .error e => (.error e, lb)
  | .ok none => (.ok none, lb)
  | .ok (some (tablet_id, from_ts, to_ts)) =>
    match MoveReplica env cat lb tablet_id from_ts to_ts with
    | (.error e, lb1) => (.error e, lb1)
    | (.ok _, lb1) =>
      (.ok (some { tablet_id := tablet_id, from_ts := some from_ts, to_ts := some to_ts }),
        lb1)

/-- The algorithm `std::merge` on two sorted ranges (`fuel` bounds the number of
output elements). -/
def stdMerge : Nat → List TabletId → List TabletId → List TabletId
  | 0, _, _ => []
  | _ + 1, [], ys => ys
  | _ + 1, xs, [] => xs
  | fuel + 1, x :: xs, y :: ys =>
    if y < x then y :: stdMerge fuel (x :: xs) ys else x :: stdMerge fuel xs (y :: ys)

/-- Function `GetTabletsOnTSToMove`. -/
def GetTabletsOnTSToMove (drive_aware : Bool) (from_ts_meta : CBTabletServerMetadata) :
    List TabletId :=
  if drive_aware then
    from_ts_meta.sorted_path_load.foldl (fun all_tablets path =>
      match from_ts_meta.path_to_tablets.lookup path with
      | none => all_tablets
      | some drive_tablets =>
        all_tablets ++ stdMerge (drive_tablets.length + from_ts_meta.starting_tablets.length)
          drive_tablets from_ts_meta.starting_tablets) []
  else
    stdMerge (from_ts_meta.running_tablets.length + from_ts_meta.starting_tablets.length)
      from_ts_meta.running_tablets from_ts_meta.starting_tablets

/-- The table `tablet->table()` of a tablet of the tablet map. -/
def GetTableOfTablet (cat : CatalogManager) (tablet_id : TabletId) : TableInfo :=
  lookupD cat.table_ids_map_ (GetTablet cat tablet_id).table_id default

/-- Function `ClusterLoadBalancer::ShouldSkipLeaderAsVictim`. -/
def ShouldSkipLeaderAsVictim (env : Env) (cat : CatalogManager) (tablet_id : TabletId) :
    StatusOr Bool :=
  match GetTableReplicationInfo cat (GetTableOfTablet cat tablet_id) with
  | .error e => .error e
  | .ok pb =>
    if pb.live_replicas.num_replicas > 1 then
      .ok env.flags.load_balancer_skip_leader_as_remove_victim
    else .ok false

/-- The first loop of `GetTabletToMove`: the tablets of `all_tablets` that are
not over-replicated, not disabled on the source and can be added to `to_ts`. -/
def nonOverReplicatedTablets (env : Env) (cat : CatalogManager) (st : PerTableLoadState)
    (from_ts_meta : CBTabletServerMetadata) (to_ts : TabletServerId) :
    List TabletId → StatusOr (List TabletId)
  | [] => .ok []
  | tablet_id :: rest =>
    if tablet_id ∈ st.tablets_over_replicated_ then
      nonOverReplicatedTablets env cat st from_ts_meta to_ts rest
    else if tablet_id ∈ from_ts_meta.disabled_by_ts_tablets then
      nonOverReplicatedTablets env cat st from_ts_meta to_ts rest
    else
      match env.CanAddTabletToTabletServer st tablet_id to_ts
          (some (GetPlacementByTablet cat st tablet_id)) with
      | .error e => .error e
      | .ok can_add =>
        match nonOverReplicatedTablets env cat st from_ts_meta to_ts rest with
        | .error e => .error e
        | .ok l => .ok (if can_add then tablet_id :: l else l)

/-- The value of `same_placement` in `GetTabletToMove`. -/
def samePlacement (env : Env) (st : PerTableLoadState) (from_ts to_ts : TabletServerId)
    (placement_info : PlacementInfoPB) : Bool :=
  match env.GetValidPlacement st from_ts placement_info,
      env.GetValidPlacement st to_ts placement_info with
  | some from_ts_ci, some to_ts_ci =>
    env.generate_placement_id from_ts_ci == env.generate_placement_id to_ts_ci
  | _, _ => false

/-- The second loop of `GetTabletToMove`; `found` is the tablet stored in
`*moving_tablet_id` when `found_tablet_move_from_leader` is set. -/
def pickTabletToMove (env : Env) (cat : CatalogManager) (st : PerTableLoadState)
    (from_ts to_ts : TabletServerId) :
    List TabletId → Option TabletId → StatusOr (Option TabletId)
  | [], found => .ok found
  | tablet_id :: rest, found =>
    let placement_info := GetPlacementByTablet cat st tablet_id
    if !placement_info.placement_blocks.isEmpty &&
        !samePlacement env st from_ts to_ts placement_info then
      pickTabletToMove env cat st from_ts to_ts rest found
    else
      match ShouldSkipLeaderAsVictim env cat tablet_id with
      | .error e => .error e
      | .ok skip_leader =>
        let moving_from_leader :=
          (lookupD st.per_tablet_meta_ tablet_id default).leader_uuid = from_ts
        if !moving_from_leader then .ok (some tablet_id)
        else if skip_leader then pickTabletToMove env cat st from_ts to_ts rest found
        else
          match found with
          | none => pickTabletToMove env cat st from_ts to_ts rest (some tablet_id)
          | some f => pickTabletToMove env cat st from_ts to_ts rest (some f)

/-- Function `ClusterLoadBalancer::GetTabletToMove`: `.ok (some t)` is `true` with
`*moving_tablet_id = t`. -/
def GetTabletToMove (env : Env) (cat : CatalogManager) (lb : ClusterLoadBalancer)
    (from_ts to_ts : TabletServerId) : StatusOr (Option TabletId) :=
  let from_ts_meta := lookupD lb.state_.per_ts_meta_ from_ts default
  let all_tablets := GetTabletsOnTSToMove lb.global_state_.drive_aware_ from_ts_meta
  match nonOverReplicatedTablets env cat lb.state_ from_ts_meta to_ts all_tablets with
  | .error e => .error e
  | .ok non_over_replicated_tablets =>
    pickTabletToMove env cat lb.state_ from_ts to_ts non_over_replicated_tablets none

/-- Lines 887-899 of `GetLoadToMove`: the search for a tablet to move from
`high_load_uuid` to `low_load_uuid` and the move itself; `next` is the rest of
the inner loop, run when no tablet is found. -/
def loadSearch (env : Env) (cat : CatalogManager) (lb : ClusterLoadBalancer)
    (high_load_uuid low_load_uuid : TabletServerId) (is_global_balancing_move : Bool)
    (next : Option (Decision × ClusterLoadBalancer)) :
    Option (Decision × ClusterLoadBalancer) :=
  match GetTabletToMove env cat lb high_load_uuid low_load_uuid with
  | .error e => some (.error e, lb)
  | .ok (some moving_tablet_id) =>
    match MoveReplica env cat lb moving_tablet_id high_load_uuid low_load_uuid with
    | (.error e, lb1) => some (.error e, lb1)
    | (.ok _, lb1) =>
      some (.ok (some { tablet_id := moving_tablet_id, from_ts := some high_load_uuid,
                        to_ts := some low_load_uuid }),
        if !is_global_balancing_move then
          { lb1 with can_perform_global_operations_ := false }
        else lb1)
  | .ok none => next

/-- The inner loop of `GetLoadToMove` for `right` running through `rights`:
`some r` when the function returns `r`, `none` when the loop ends (by `break` or
by exhaustion) and the outer loop goes on. -/
def loadInnerLoop (env : Env) (cat : CatalogManager) (lb : ClusterLoadBalancer)
    (last_pos : Nat) (left : Nat) : List Nat → Option (Decision × ClusterLoadBalancer)
  | [] => none
  | right :: rights =>
    let low_load_uuid := lb.state_.sorted_load_.getD left ""
    let high_load_uuid := lb.state_.sorted_load_.getD right ""
    let load_variance := env.GetLoad lb.state_ high_load_uuid - env.GetLoad lb.state_ low_load_uuid
    if left = right ∨ load_variance < lb.state_.options_.kMinLoadVarianceToBalance then
      if right = last_pos ∧ load_variance = 0 then some (.ok none, lb)
      else if load_variance > 0 ∧ CanBalanceGlobalLoad env.flags lb = true then
        let global_load_variance :=
          env.GetGlobalLoad lb.global_state_ high_load_uuid -
            env.GetGlobalLoad lb.global_state_ low_load_uuid
        if global_load_variance < lb.state_.options_.kMinGlobalLoadVarianceToBalance then
          some (.ok none, lb)
        else loadSearch env cat lb high_load_uuid low_load_uuid true
          (loadInnerLoop env cat lb last_pos left rights)
      else none
    else loadSearch env cat lb high_load_uuid low_load_uuid false
      (loadInnerLoop env cat lb last_pos left rights)

/-- The outer loop of `GetLoadToMove` for `left` running through `lefts`, and the
statement after it. -/
def loadOuterLoop (env : Env) (cat : CatalogManager) (lb : ClusterLoadBalancer)
    (last_pos : Nat) : List Nat → Decision × ClusterLoadBalancer
  | [] => (.error (STATUS .IllegalState "Load balancing algorithm reached illegal state."), lb)
  | left :: lefts =>
    match loadInnerLoop env cat lb last_pos left (List.range (last_pos + 1)).reverse with
    | some r => r
    | none => loadOuterLoop env cat lb last_pos lefts

/-- Function `ClusterLoadBalancer::GetLoadToMove`. -/
def GetLoadToMove (env : Env) (cat : CatalogManager) (lb : ClusterLoadBalancer) :
    Decision × ClusterLoadBalancer :=
  if lb.state_.sorted_load_.isEmpty then (.ok none, lb)
  else
    let last_pos := lb.state_.sorted_load_.length - 1
    loadOuterLoop env cat lb last_pos (List.range (last_pos + 1))

/-- The status `STATUS_SUBSTITUTE(TryAgain, ...)` of the budget checks. -/
def tryAgain (msg : String) : Status := STATUS .TryAgain msg

/-- Function `ClusterLoadBalancer::HandleAddReplicas`. -/
def HandleAddReplicas (env : Env) (cat : CatalogManager) (lb : ClusterLoadBalancer) :
    Decision × ClusterLoadBalancer :=
  if lb.state_.options_.kAllowLimitStartingTablets ∧
      lb.global_state_.total_starting_tablets_ ≥ lb.state_.options_.kMaxTabletRemoteBootstraps
  then (.error (tryAgain ("Cannot add replicas. Currently remote bootstrapping $0 " ++
      "tablets, when our max allowed is $1")), lb)
  else if lb.state_.options_.kAllowLimitStartingTablets ∧
      lb.state_.total_starting_ ≥ lb.state_.options_.kMaxTabletRemoteBootstrapsPerTable
  then (.error (tryAgain ("Cannot add replicas. Currently remote bootstrapping $0 " ++
      "tablets for table $1, when our max allowed is $2 per table")), lb)
  else if lb.state_.options_.kAllowLimitOverReplicatedTablets ∧
      get_total_over_replication lb ≥ lb.state_.options_.kMaxOverReplicatedTablets
  then (.error (tryAgain ("Cannot add replicas. Currently have a total overreplication " ++
      "of $0, when max allowed is $1, overreplicated tablets: $2")), lb)
  else
    match HandleAddIfMissingPlacement env cat lb with
    | (.error e, lb1) => (.error e, lb1)
    | (.ok (some m), lb1) => (.ok (some m), lb1)
    | (.ok none, lb1) =>
      match HandleAddIfWrongPlacement env cat lb1 with
      | (.error e, lb2) => (.error e, lb2)
      | (.ok (some m), lb2) => (.ok (some m), lb2)
      | (.ok none, lb2) => GetLoadToMove env cat lb2

/-! ## Leader-move decision -/

/-- The first loop of `GetLeaderToMove` ("find out if there are leaders to be
moved"), `right` running through `rights`: `true` when it executes
`return false`. -/
def leaderPrecheck (env : Env) (st : PerTableLoadState) : List Nat → Bool
  | [] => false
  | right :: rights =>
    let high_load_uuid := st.sorted_leader_load_.getD right ""
    if high_load_uuid ∈ st.leader_blacklisted_servers_ then
      if env.GetLeaderLoad st high_load_uuid > 0 then false
      else leaderPrecheck env st rights
    else if env.IsLeaderLoadBelowThreshold st high_load_uuid then true
    else false

/-- The loop of `GetLeaderToMove` over the intersection of the leaders of the
high node and the running tablets of the low node: the first tablet that has no
recorded step-down failure towards `low_load_uuid`. -/
def pickLeaderTablet (st : PerTableLoadState) (low_load_uuid : TabletServerId) :
    List TabletId → Option TabletId
  | [] => none
  | tablet_id :: rest =>
    match st.per_tablet_meta_.lookup tablet_id with
    | some tablet_meta =>
      match tablet_meta.leader_stepdown_failures.lookup low_load_uuid with
      | some _ => pickLeaderTablet st low_load_uuid rest
      | none => some tablet_id
    | none => some tablet_id

/-- Lines 1103-1148 of `GetLeaderToMove`: the search for a leader to move from
`high_load_uuid` to `low_load_uuid`; `next` is the rest of the inner loop, run
when no tablet is found. -/
def leaderSearch (lb : ClusterLoadBalancer) (high_load_uuid low_load_uuid : TabletServerId)
    (is_global_balancing_move : Bool) (next : Option (Decision × ClusterLoadBalancer)) :
    Option (Decision × ClusterLoadBalancer) :=
  let leaders := (lookupD lb.state_.per_ts_meta_ high_load_uuid default).leaders
  let peers := (lookupD lb.state_.per_ts_meta_ low_load_uuid default).running_tablets
  let intersection := leaders.filter (fun t => decide (t ∈ peers))
  match pickLeaderTablet lb.state_ low_load_uuid intersection with
  | some tablet_id =>
    some (.ok (some { tablet_id := tablet_id, from_ts := some high_load_uuid,
                      to_ts := some low_load_uuid }),
      if !is_global_balancing_move then
        { lb with can_perform_global_operations_ := false }
      else lb)
  | none => next

/-- The inner loop of `GetLeaderToMove` for `right` running through `rights`:
`some r` when the function returns `r`, `none` when the loop ends. -/
def leaderInnerLoop (env : Env) (lb : ClusterLoadBalancer) (last_pos : Nat) (left : Nat) :
    List Nat → Option (Decision × ClusterLoadBalancer)
  | [] => none
  | right :: rights =>
    let low_load_uuid := lb.state_.sorted_leader_load_.getD left ""
    let high_load_uuid := lb.state_.sorted_leader_load_.getD right ""
    let high_leader_blacklisted :=
      decide (high_load_uuid ∈ lb.state_.leader_blacklisted_servers_)
    let load_variance :=
      env.GetLeaderLoad lb.state_ high_load_uuid - env.GetLeaderLoad lb.state_ low_load_uuid
    if left = right ∨
        (load_variance < lb.state_.options_.kMinLeaderLoadVarianceToBalance ∧
          high_leader_blacklisted = false) then
      if load_variance = 0 ∧ right = last_pos then some (.ok none, lb)
      else if load_variance > 0 ∧ CanBalanceGlobalLoad env.flags lb = true then
        let global_load_variance :=
          env.GetGlobalLeaderLoad lb.global_state_ high_load_uuid -
            env.GetGlobalLeaderLoad lb.global_state_ low_load_uuid
        if global_load_variance <
            lb.state_.options_.kMinGlobalLeaderLoadVarianceToBalance then
          some (.ok none, lb)
        else leaderSearch lb high_load_uuid low_load_uuid true
          (leaderInnerLoop env lb last_pos left rights)
      else none
    else leaderSearch lb high_load_uuid low_load_uuid false
      (leaderInnerLoop env lb last_pos left rights)

/-- The status produced by `FATAL_ERROR` at the end of `GetLeaderToMove`. -/
def invalidState : Status := STATUS .Other "Load balancing algorithm reached invalid state!"

/-- The outer loop of `GetLeaderToMove` for `left` running through `lefts`, and
the statement after it. -/
def leaderOuterLoop (env : Env) (lb : ClusterLoadBalancer) (last_pos : Nat) :
    List Nat → Decision × ClusterLoadBalancer
  | [] => (.error invalidState, lb)
  | left :: lefts =>
    let low_load_uuid := lb.state_.sorted_leader_load_.getD left ""
    if low_load_uuid ∈ lb.state_.leader_blacklisted_servers_ then (.ok none, lb)
    else
      match leaderInnerLoop env lb last_pos left (List.range (last_pos + 1)).reverse with
      | some r => r
      | none => leaderOuterLoop env lb last_pos lefts

/-- Function `ClusterLoadBalancer::GetLeaderToMove`. The time of the call is `env.now`;
the retry interval only guards a log statement. -/
def GetLeaderToMove (env : Env) (lb : ClusterLoadBalancer) :
    Decision × ClusterLoadBalancer :=
  if lb.state_.sorted_leader_load_.isEmpty then (.ok none, lb)
  else if leaderPrecheck env lb.state_
      (List.range lb.state_.sorted_leader_load_.length).reverse then (.ok none, lb)
  else
    let last_pos := lb.state_.sorted_leader_load_.length - 1
    leaderOuterLoop env lb last_pos (List.range (last_pos + 1))

/-- The inner loop of `HandleLeaderLoadIfNonAffinitized` over
`sorted_leader_load_` for one non-affinitized node: `some r` when the function
returns `r`. -/
def nonAffinitizedInner (env : Env) (st : PerTableLoadState)
    (non_affinitized_uuid : TabletServerId) : List TabletServerId → Option (Option Move)
  | [] => none
  | affinitized_uuid :: rest =>
    if env.GetLeaderLoad st non_affinitized_uuid = 0 then some none
    else
      let leaders := (lookupD st.per_ts_meta_ non_affinitized_uuid default).leaders
      let peers := (lookupD st.per_ts_meta_ affinitized_uuid default).running_tablets
      match leaders.filter (fun t => decide (t ∈ peers)) with
      | tablet_id :: _ =>
        some (some { tablet_id := tablet_id, from_ts := some non_affinitized_uuid,
                     to_ts := some affinitized_uuid })
      | [] => nonAffinitizedInner env st non_affinitized_uuid rest

/-- The outer loop of `HandleLeaderLoadIfNonAffinitized`, the index running
through `idxs` (from the last position down). -/
def nonAffinitizedOuter (env : Env) (st : PerTableLoadState) : List Nat → Option Move
  | [] => none
  | non_affinitized_idx :: idxs =>
    match nonAffinitizedInner env st
        (st.sorted_non_affinitized_leader_load_.getD non_affinitized_idx "")
        st.sorted_leader_load_ with
    | some r => r
    | none => nonAffinitizedOuter env st idxs

/-- Function `ClusterLoadBalancer::HandleLeaderLoadIfNonAffinitized`. -/
def HandleLeaderLoadIfNonAffinitized (env : Env) (lb : ClusterLoadBalancer) : Decision :=
  .ok (nonAffinitizedOuter env lb.state_
    (List.range lb.state_.sorted_non_affinitized_leader_load_.length).reverse)

/-- The call `MoveLeader(*out_tablet_id, *out_from_ts, *out_to_ts)` on the
out-parameters of a leader-move decision. -/
def moveLeaderOf (env : Env) (cat : CatalogManager) (lb : ClusterLoadBalancer) (m : Move) :
    Decision × ClusterLoadBalancer :=
  match MoveLeader env cat lb m.tablet_id (m.from_ts.getD "") (m.to_ts.getD "") with
  | (.error e, lb1) => (.error e, lb1)
  | (.ok _, lb1) => (.ok (some m), lb1)

/-- Function `ClusterLoadBalancer::HandleLeaderMoves`. -/
def HandleLeaderMoves (env : Env) (cat : CatalogManager) (lb : ClusterLoadBalancer) :
    Decision × ClusterLoadBalancer :=
  let affinity : Decision :=
    if lb.state_.use_preferred_zones_ then HandleLeaderLoadIfNonAffinitized env lb
    else .ok none
  match affinity with
  | .error e => (.error e, lb)
  | .ok (some m) => moveLeaderOf env cat lb m
  | .ok none =>
    match GetLeaderToMove env lb with
    | (.error e, lb1) => (.error e, lb1)
    | (.ok (some m), lb1) => moveLeaderOf env cat lb1 m
    | (.ok none, lb1) => (.ok none, lb1)

/-! ## Remove-replica decision -/

/-- The loop of `HandleRemoveIfWrongPlacement` over `tablets_wrong_placement_`:
the chosen tablet and node. -/
def findRemoveWrongPlacement (cat : CatalogManager) (st : PerTableLoadState) :
    List TabletId → Option (TabletId × TabletServerId)
  | [] => none
  | tablet_id :: rest =>
    if ¬ tablet_id ∈ st.tablets_over_replicated_ then findRemoveWrongPlacement cat st rest
    else if IsConfigMemberInTransitionMode cat tablet_id then
      findRemoveWrongPlacement cat st rest
    else
      let tablet_meta := lookupD st.per_tablet_meta_ tablet_id default
      let target_uuid : TabletServerId := tablet_meta.blacklisted_tablet_servers.headD ""
      let target_uuid : TabletServerId :=
        if target_uuid.isEmpty then tablet_meta.wrong_placement_tablet_servers.headD ""
        else target_uuid
      if !target_uuid.isEmpty then some (tablet_id, target_uuid)
      else findRemoveWrongPlacement cat st rest

/-- Function `ClusterLoadBalancer::HandleRemoveIfWrongPlacement`. -/
def HandleRemoveIfWrongPlacement (env : Env) (cat : CatalogManager)
    (lb : ClusterLoadBalancer) : Decision × ClusterLoadBalancer :=
  match findRemoveWrongPlacement cat lb.state_ lb.state_.tablets_wrong_placement_ with
  | none => (.ok none, lb)
  | some (tablet_id, target_uuid) =>
    match RemoveReplica env cat lb tablet_id target_uuid with
    | (.error e, lb1) => (.error e, lb1)
    | (.ok _, lb1) =>
      (.ok (some { tablet_id := tablet_id, from_ts := some target_uuid, to_ts := none }), lb1)

/-- Insertion of one node into a list sorted by descending load (`lt` is the
load comparator). -/
def insertDesc (lt : TabletServerId → TabletServerId → Bool) (x : TabletServerId) :
    List TabletServerId → List TabletServerId
  | [] => [x]
  | y :: ys => if lt x y then y :: insertDesc lt x ys else x :: y :: ys

/-- The call `sort(sorted_ts.rbegin(), sorted_ts.rend(), comparator)`: the nodes
in descending order of the comparator (the order of equivalent nodes, which
`std::sort` leaves unspecified, is the one of an insertion sort). -/
def sortDesc (lt : TabletServerId → TabletServerId → Bool) (l : List TabletServerId) :
    List TabletServerId :=
  l.foldr (insertDesc lt) []

/-- The loop of `HandleRemoveReplicas` over `tablets_over_replicated_`: the
chosen tablet and node, or the IllegalState error. -/
def findRemoveOverReplicated (env : Env) (cat : CatalogManager) (lb : ClusterLoadBalancer) :
    List TabletId → StatusOr (Option (TabletId × TabletServerId))
  | [] => .ok none
  | tablet_id :: rest =>
    let tablet_meta := lookupD lb.state_.per_tablet_meta_ tablet_id default
    if IsConfigMemberInTransitionMode cat tablet_id ∨ tablet_meta.starting > 0 then
      findRemoveOverReplicated env cat lb rest
    else
      let tablet_servers := tablet_meta.over_replicated_tablet_servers
      let sorted_ts := tablet_servers.filter (fun ts_uuid =>
        !decide (tablet_id ∈ (lookupD lb.state_.per_ts_meta_ ts_uuid default).starting_tablets))
      match sortDesc (env.Comparator lb.state_ lb.global_state_) sorted_ts with
      | [] => .error (STATUS .IllegalState
          "No tservers to remove from over-replicated tablet $0")
      | remove_candidate :: others =>
        if remove_candidate = tablet_meta.leader_uuid then
          match ShouldSkipLeaderAsVictim env cat tablet_id with
          | .error e => .error e
          | .ok true =>
            match others with
            | next :: _ => .ok (some (tablet_id, next))
            | [] => findRemoveOverReplicated env cat lb rest
          | .ok false => .ok (some (tablet_id, remove_candidate))
        else .ok (some (tablet_id, remove_candidate))

/-- Function `ClusterLoadBalancer::HandleRemoveReplicas`. -/
def HandleRemoveReplicas (env : Env) (cat : CatalogManager) (lb : ClusterLoadBalancer) :
    Decision × ClusterLoadBalancer :=
  match HandleRemoveIfWrongPlacement env cat lb with
  | (.error e, lb1) => (.error e, lb1)
  | (.ok (some m), lb1) => (.ok (some m), lb1)
  | (.ok none, lb1) =>
    match findRemoveOverReplicated env cat lb1 lb1.state_.tablets_over_replicated_ with
    | .error e => (.error e, lb1)
    | .ok none => (.ok none, lb1)
    | .ok (some (tablet_id, remove_candidate)) =>
      match RemoveReplica env cat lb1 tablet_id remove_candidate with
      | (.error e, lb2) => (.error e, lb2)
      | (.ok _, lb2) =>
        (.ok (some { tablet_id := tablet_id, from_ts := some remove_candidate,
                     to_ts := none }), lb2)

/-! ## Run orchestration -/

/-- Function `ClusterLoadBalancer::ResetTableStatePtr`: a fresh per-table state becomes
the current one. -/
def ResetTableStatePtr (env : Env) (lb : ClusterLoadBalancer) (table_id : TableId)
    (options : Options) : ClusterLoadBalancer :=
  let table_state :=
    { env.PerTableLoadState_new lb.global_state_ with options_ := options, table_id_ := table_id }
  { lb with
    state_ := table_state
    per_table_states_ := insertKey lb.per_table_states_ table_id table_state }

/-- Function `ClusterLoadBalancer::InitializeTSDescriptors`. -/
def InitializeTSDescriptors (env : Env) (cat : CatalogManager) (lb : ClusterLoadBalancer) :
    ClusterLoadBalancer :=
  let st := lb.state_
  let zones := List.foldl (fun zones ci => if ci ∈ zones then zones else zones ++ [ci])
    st.affinitized_zones_ cat.cluster_replication_info.affinitized_leaders
  let st := if st.use_preferred_zones_ then { st with affinitized_zones_ := zones } else st
  let st := env.state_SetBlacklist st cat.server_blacklist
  let st := env.state_SetLeaderBlacklist st cat.leader_blacklist
  let r := lb.global_state_.ts_descs_.foldl
    (fun sg ts_desc => env.state_UpdateTabletServer sg ts_desc) (st, lb.global_state_)
  { lb with state_ := r.1, global_state_ := r.2 }

/-- The loop of `CountPendingTasksUnlocked` over the pending add tasks. -/
def addStartingTablets (env : Env) :
    List (TabletId × TabletServerId) → PerTableLoadState × GlobalLoadState →
      StatusOr Unit × (PerTableLoadState × GlobalLoadState)
  | [], sg => (.ok (), sg)
  | e :: rest, sg =>
    match env.state_AddStartingTablet sg e.1 e.2 with
    | (.error err, sg1) => (.error err, sg1)
    | (.ok _, sg1) => addStartingTablets env rest sg1

/-- The three pending-task totals of a pass. -/
structure PendingTotals where
  pending_add_replica_tasks : Int
  pending_remove_replica_tasks : Int
  pending_stepdown_leader_tasks : Int
  deriving DecidableEq, Repr, Inhabited

/-- Function `ClusterLoadBalancer::CountPendingTasksUnlocked` (with `GetPendingTasks`). -/
def CountPendingTasksUnlocked (env : Env) (table : TableInfo) (lb : ClusterLoadBalancer)
    (totals : PendingTotals) : StatusOr Unit × ClusterLoadBalancer × PendingTotals :=
  let st := { lb.state_ with
    pending_add_replica_tasks_ :=
      insertKey lb.state_.pending_add_replica_tasks_ table.id table.pending_add_server_tasks
    pending_remove_replica_tasks_ :=
      insertKey lb.state_.pending_remove_replica_tasks_ table.id
        table.pending_remove_server_tasks
    pending_stepdown_leader_tasks_ :=
      insertKey lb.state_.pending_stepdown_leader_tasks_ table.id
        table.pending_stepdown_leader_tasks }
  let totals1 : PendingTotals :=
    { pending_add_replica_tasks :=
        totals.pending_add_replica_tasks + table.pending_add_server_tasks.length
      pending_remove_replica_tasks :=
        totals.pending_remove_replica_tasks + table.pending_remove_server_tasks.length
      pending_stepdown_leader_tasks :=
        totals.pending_stepdown_leader_tasks + table.pending_stepdown_leader_tasks.length }
  let r := addStartingTablets env table.pending_add_server_tasks (st, lb.global_state_)
  (r.1, { lb with state_ := r.2.1, global_state_ := r.2.2 }, totals1)

/-- The state of the table loops of a pass: the balancer, the pending totals
and the `uint32_t` error counter. -/
structure CountState where
  lb : ClusterLoadBalancer
  totals : PendingTotals
  master_errors : Nat

/-- One iteration of the first table loop of `RunLoadBalancerWithOptions`
(lines 322-359). -/
def countPendingStep (env : Env) (cat : CatalogManager) (options : Options)
    (s : CountState) (table : TableId × TableInfo) : CountState :=
  if SkipLoadBalancing table.2 then
    { s with lb := { s.lb with
        skipped_tables_per_run_ := s.lb.skipped_tables_per_run_ ++ [table.1] } }
  else if table.2.needs_refresh_to_find_table_placement then
    { s with master_errors := wrapInc 32 s.master_errors }
  else
    let lb := ResetTableStatePtr env s.lb table.1 options
    let lb := { lb with state_ := { lb.state_ with
      use_preferred_zones_ := !table.2.is_transaction_status_table ||
        env.flags.transaction_tables_use_preferred_zones } }
    let lb := InitializeTSDescriptors env cat lb
    match CountPendingTasksUnlocked env { table.2 with id := table.1 } lb s.totals with
    | (.error _, lb1, totals1) =>
      { lb := { lb1 with per_table_states_ := eraseKey lb1.per_table_states_ table.1 }
        totals := totals1
        master_errors := wrapInc 32 s.master_errors }
    | (.ok _, lb1, totals1) =>
      { lb := { lb1 with
          per_table_states_ := insertKey lb1.per_table_states_ table.1 lb1.state_ }
        totals := totals1
        master_errors := s.master_errors }

/-- Function `ClusterLoadBalancer::GetReadOnlyPlacementFromUuid`. -/
def GetReadOnlyPlacementFromUuid (st : PerTableLoadState)
    (replication_info : ReplicationInfoPB) : PlacementInfoPB :=
  match replication_info.read_replicas.find?
      (fun p => p.placement_uuid == st.options_.placement_uuid) with
  | some p => p
  | none => replication_info.read_replicas.headD default

/-- Function `ClusterLoadBalancer::GetClusterPlacementInfo`. -/
def GetClusterPlacementInfo (cat : CatalogManager) (st : PerTableLoadState) :
    PlacementInfoPB :=
  if st.options_.type = .LIVE then cat.cluster_replication_info.live_replicas
  else GetReadOnlyPlacementFromUuid st cat.cluster_replication_info

/-- Function `ClusterLoadBalancer::PopulatePlacementInfo`. -/
def PopulatePlacementInfo (cat : CatalogManager) (st : PerTableLoadState)
    (table : TableInfo) : StatusOr PlacementInfoPB :=
  if st.options_.type = .LIVE then
    match GetTableReplicationInfo cat table with
    | .error e => .error e
    | .ok replication_info => .ok replication_info.live_replicas
  else
    match table.pb_replication_info with
    | some ri =>
      if st.options_.type = .READ_ONLY ∧ ¬ ri.read_replicas.isEmpty then
        .ok (GetReadOnlyPlacementFromUuid st ri)
      else .ok (GetClusterPlacementInfo cat st)
    | none => .ok (GetClusterPlacementInfo cat st)

/-- Function `ClusterLoadBalancer::UpdateTabletInfo`. -/
def UpdateTabletInfo (env : Env) (cat : CatalogManager) (lb : ClusterLoadBalancer)
    (tablet : TabletInfo) : StatusOr Unit × ClusterLoadBalancer :=
  let table_id := tablet.table_id
  let placed : StatusOr ClusterLoadBalancer :=
    if (lb.state_.placement_by_table_.lookup table_id).isSome then .ok lb
    else
      match PopulatePlacementInfo cat lb.state_ (lookupD cat.table_ids_map_ table_id default) with
      | .error e => .error e
      | .ok pb => .ok { lb with state_ := { lb.state_ with
          placement_by_table_ := insertKey lb.state_.placement_by_table_ table_id pb } }
  match placed with
  | .error e => (.error e, lb)
  | .ok lb1 => applyState lb1 (env.state_UpdateTablet (lb1.state_, lb1.global_state_) tablet)

/-- The first tablet loop of `AnalyzeTabletsUnlocked` (lines 624-648). -/
def analyzeRunning (env : Env) (cat : CatalogManager) :
    List TabletInfo → ClusterLoadBalancer → StatusOr Unit × ClusterLoadBalancer
  | [], lb => (.ok (), lb)
  | tablet :: rest, lb =>
    if tablet.table.isNone then analyzeRunning env cat rest lb
    else if tablet.is_running then
      match UpdateTabletInfo env cat lb tablet with
      | (.error e, lb1) => (.error e, lb1)
      | (.ok _, lb1) => analyzeRunning env cat rest lb1
    else analyzeRunning env cat rest lb

/-- Runs a `PerTableLoadState` helper when `cond` holds. -/
def whenPending (cond : Bool) (lb : ClusterLoadBalancer)
    (f : PerTableLoadState × GlobalLoadState →
      StatusOr Unit × (PerTableLoadState × GlobalLoadState)) :
    StatusOr Unit × ClusterLoadBalancer :=
  if cond then applyState lb (f (lb.state_, lb.global_state_)) else (.ok (), lb)

/-- The second tablet loop of `AnalyzeTabletsUnlocked` (lines 672-688): the
pending remove, step-down and add tasks are applied to the in-memory state. -/
def applyPending (env : Env) (table_uuid : TableId) :
    List TabletInfo → ClusterLoadBalancer → StatusOr Unit × ClusterLoadBalancer
  | [], lb => (.ok (), lb)
  | tablet :: rest, lb =>
    let tablet_id := tablet.tablet_id
    let removes := lookupD lb.state_.pending_remove_replica_tasks_ table_uuid []
    match whenPending (removes.lookup tablet_id).isSome lb
        (fun sg => env.state_RemoveReplica sg tablet_id (lookupD removes tablet_id "")) with
    | (.error e, lb1) => (.error e, lb1)
    | (.ok _, lb1) =>
      let stepdowns := lookupD lb1.state_.pending_stepdown_leader_tasks_ table_uuid []
      let from_ts := (lookupD lb1.state_.per_tablet_meta_ tablet_id default).leader_uuid
      match whenPending (stepdowns.lookup tablet_id).isSome lb1
          (fun sg => env.state_MoveLeader sg tablet_id from_ts
            (lookupD stepdowns tablet_id "")) with
      | (.error e, lb2) => (.error e, lb2)
      | (.ok _, lb2) =>
        let adds := lookupD lb2.state_.pending_add_replica_tasks_ table_uuid []
        match whenPending (adds.lookup tablet_id).isSome lb2
            (fun sg => env.state_AddReplica sg tablet_id (lookupD adds tablet_id "")) with
        | (.error e, lb3) => (.error e, lb3)
        | (.ok _, lb3) => applyPending env table_uuid rest lb3

/-- Function `ClusterLoadBalancer::AnalyzeTabletsUnlocked` (with `GetTabletsForTable`). -/
def AnalyzeTabletsUnlocked (env : Env) (cat : CatalogManager) (lb : ClusterLoadBalancer)
    (table_uuid : TableId) : StatusOr Unit × ClusterLoadBalancer :=
  match cat.table_ids_map_.lookup table_uuid with
  | none => (.error (STATUS .InvalidArgument
      "Invalid UUID '$0' - no entry found in catalog manager table map"), lb)
  | some table_info =>
    match analyzeRunning env cat table_info.tablets lb with
    | (.error e, lb1) => (.error e, lb1)
    | (.ok _, lb1) =>
      let st := env.state_AdjustLeaderBalanceThreshold lb1.state_
      let st := env.state_SortLoad (st, lb1.global_state_)
      let st := env.state_SortLeaderLoad (st, lb1.global_state_)
      let st :=
        if lb1.global_state_.drive_aware_ then
          env.state_SortTabletServerDriveLoad (st, lb1.global_state_)
        else st
      applyPending env table_uuid table_info.tablets { lb1 with state_ := st }

/-- One iteration of the second table loop of `RunLoadBalancerWithOptions`
(lines 381-402). -/
def analyzeStep (env : Env) (cat : CatalogManager) (s : CountState)
    (table : TableId × TableInfo) : CountState :=
  if SkipLoadBalancing table.2 then s
  else
    match s.lb.per_table_states_.lookup table.1 with
    | none => s
    | some st =>
      match AnalyzeTabletsUnlocked env cat { s.lb with state_ := st } table.1 with
      | (.error _, lb1) =>
        { s with
          lb := { lb1 with per_table_states_ := eraseKey lb1.per_table_states_ table.1 }
          master_errors := wrapInc 32 s.master_errors }
      | (.ok _, lb1) =>
        { s with lb := { lb1 with
            per_table_states_ := insertKey lb1.per_table_states_ table.1 lb1.state_ } }

/-- The state of the EXECUTE phase: the balancer, the three global budgets and
the `uint32_t` error counter. -/
structure ExecState where
  lb : ClusterLoadBalancer
  remaining_adds : Int
  remaining_removals : Int
  remaining_leader_moves : Int
  master_errors : Nat

/-- The loop "handle adding and moving replicas" (lines 437-452); `fuel` is the
value of `remaining_adds` on entry, which bounds the number of iterations. -/
def addReplicasLoop (env : Env) (cat : CatalogManager) : Nat → ExecState → ExecState
  | 0, s => s
  | fuel + 1, s =>
    if s.remaining_adds > 0 then
      if s.lb.state_.allow_only_leader_balancing_ then s
      else
        match HandleAddReplicas env cat s.lb with
        | (.error _, lb1) =>
          { s with lb := lb1, master_errors := wrapInc 32 s.master_errors }
        | (.ok none, lb1) => { s with lb := lb1 }
        | (.ok (some _), lb1) =>
          addReplicasLoop env cat fuel
            { s with lb := lb1, remaining_adds := s.remaining_adds - 1 }
    else s

/-- The loop "handle cleanup after over-replication" (lines 459-474). -/
def removeReplicasLoop (env : Env) (cat : CatalogManager) : Nat → ExecState → ExecState
  | 0, s => s
  | fuel + 1, s =>
    if s.remaining_removals > 0 then
      if s.lb.state_.allow_only_leader_balancing_ then s
      else
        match HandleRemoveReplicas env cat s.lb with
        | (.error _, lb1) =>
          { s with lb := lb1, master_errors := wrapInc 32 s.master_errors }
        | (.ok none, lb1) => { s with lb := lb1 }
        | (.ok (some _), lb1) =>
          removeReplicasLoop env cat fuel
            { s with lb := lb1, remaining_removals := s.remaining_removals - 1 }
    else s

/-- The state of the leader-move loop of one table: the EXECUTE state, the
per-table budget, and (for specification only) the results of the
`HandleLeaderMoves` calls made so far, oldest first. -/
structure LeaderLoopState where
  exec : ExecState
  table_remaining_leader_moves : Int
  calls : List Decision

/-- The loop "handle tablet servers with too many leaders" (lines 482-495). -/
def leaderMovesLoop (env : Env) (cat : CatalogManager) :
    Nat → LeaderLoopState → LeaderLoopState
  | 0, s => s
  | fuel + 1, s =>
    if s.exec.remaining_leader_moves > 0 ∧ s.table_remaining_leader_moves > 0 then
      match HandleLeaderMoves env cat s.exec.lb with
      | (.error e, lb1) =>
        { s with
          exec := { s.exec with lb := lb1, master_errors := wrapInc 32 s.exec.master_errors }
          calls := s.calls ++ [.error e] }
      | (.ok none, lb1) =>
        { s with exec := { s.exec with lb := lb1 }, calls := s.calls ++ [.ok none] }
      | (.ok (some m), lb1) =>
        leaderMovesLoop env cat fuel
          { exec := { s.exec with
              lb := lb1, remaining_leader_moves := s.exec.remaining_leader_moves - 1 }
            table_remaining_leader_moves := s.table_remaining_leader_moves - 1
            calls := s.calls ++ [.ok (some m)] }
    else s

/-- The number of pending step-down tasks of the table,
`state_->pending_stepdown_leader_tasks_[table.first].size()`. -/
def pendingStepdowns (st : PerTableLoadState) (table_id : TableId) : Int :=
  (lookupD st.pending_stepdown_leader_tasks_ table_id []).length

/-- Lines 476-495: the leader-move phase of one table. -/
def leaderMovesPhase (env : Env) (cat : CatalogManager) (table_id : TableId)
    (s : ExecState) : LeaderLoopState :=
  let table_remaining_leader_moves :=
    set_remaining (pendingStepdowns s.lb.state_ table_id)
      s.lb.state_.options_.kMaxConcurrentLeaderMovesPerTable
  leaderMovesLoop env cat s.remaining_leader_moves.toNat
    { exec := s, table_remaining_leader_moves := table_remaining_leader_moves, calls := [] }

/-- The number of `HandleLeaderMoves` calls of a trace that returned `true`. -/
def successfulCalls (calls : List Decision) : Nat :=
  calls.countP (fun d =>
    match d with
    | .ok (some _) => true
    | _ => false)

/-- The body of the third table loop of `RunLoadBalancerWithOptions` for a table
whose state `st` was found (lines 426-495). -/
def executeTable (env : Env) (cat : CatalogManager) (table_id : TableId)
    (st : PerTableLoadState) (s : ExecState) : ExecState :=
  let lb := { s.lb with state_ := st }
  let lb := { lb with state_ := env.state_SortLoad (lb.state_, lb.global_state_) }
  let s1 := addReplicasLoop env cat s.remaining_adds.toNat { s with lb := lb }
  let s2 :=
    if env.flags.TEST_load_balancer_handle_under_replicated_tablets_only then s1
    else
      let s2 := removeReplicasLoop env cat s1.remaining_removals.toNat s1
      (leaderMovesPhase env cat table_id s2).exec
  { s2 with lb := { s2.lb with
      per_table_states_ := insertKey s2.lb.per_table_states_ table_id s2.lb.state_ } }

/-- The third table loop of `RunLoadBalancerWithOptions` (lines 408-496). -/
def executeLoop (env : Env) (cat : CatalogManager) :
    List (TableId × TableInfo) → ExecState → ExecState
  | [], s => s
  | table :: rest, s =>
    if s.remaining_adds = 0 ∧ s.remaining_removals = 0 ∧ s.remaining_leader_moves = 0 then s
    else if SkipLoadBalancing table.2 then executeLoop env cat rest s
    else
      match s.lb.per_table_states_.lookup table.1 with
      | none => executeLoop env cat rest s
      | some st => executeLoop env cat rest (executeTable env cat table.1 st s)

/-- The first table loop of `RunLoadBalancerWithOptions`: pending-task counting. -/
def countPendingPhase (env : Env) (cat : CatalogManager) (options : Options)
    (lb : ClusterLoadBalancer) : CountState :=
  cat.table_ids_map_.foldl (countPendingStep env cat options)
    { lb := lb, totals := { pending_add_replica_tasks := 0, pending_remove_replica_tasks := 0,
                            pending_stepdown_leader_tasks := 0 },
      master_errors := 0 }

/-- The state in which the EXECUTE phase of a pass starts: after pending-task
counting, budget initialisation and analysis. -/
def executeEntry (env : Env) (cat : CatalogManager) (options : Options)
    (lb : ClusterLoadBalancer) : ExecState :=
  let counted := countPendingPhase env cat options lb
  let budgets := initialBudgets options counted.totals.pending_add_replica_tasks
    counted.totals.pending_remove_replica_tasks counted.totals.pending_stepdown_leader_tasks
  let analyzed := cat.table_ids_map_.foldl (analyzeStep env cat) counted
  { lb := analyzed.lb
    remaining_adds := budgets.remaining_adds
    remaining_removals := budgets.remaining_removals
    remaining_leader_moves := budgets.remaining_leader_moves
    master_errors := analyzed.master_errors }

/-- Function `ClusterLoadBalancer::RunLoadBalancerWithOptions`; `options = none` is the
null pointer. -/
def RunLoadBalancerWithOptions (env : Env) (cat : CatalogManager) (options : Option Options)
    (lb : ClusterLoadBalancer) : ClusterLoadBalancer :=
  let lb := ResetGlobalState env.flags cat.ts_descs lb
  if !IsLoadBalancerEnabled env.flags lb then lb
  else
    let options := options.getD env.default_options
    let done := executeLoop env cat cat.table_ids_map_ (executeEntry env cat options lb)
    RecordActivity env.counter_bits done.lb (cat.table_ids_map_.map (fun t => t.2.num_lb_tasks))
      done.master_errors

/-- The number of add-server commands among the commands sent. -/
def countAdds (sent : List Command) : Nat :=
  sent.countP (fun c =>
    match c with
    | .AddServer _ _ _ => true
    | _ => false)

/-- The number of pending add tasks counted at the start of a pass. -/
def pendingAdds (env : Env) (cat : CatalogManager) (options : Option Options)
    (lb : ClusterLoadBalancer) : Int :=
  (countPendingPhase env cat (options.getD env.default_options)
    (ResetGlobalState env.flags cat.ts_descs lb)).totals.pending_add_replica_tasks

/-- The tracker invariant: `num_idle_runs_` counts the idle entries of the
buffer, and the buffer holds at most `cbuf_capacity_` entries. -/
def TrackerInv (lb : ClusterLoadBalancer) : Prop :=
  lb.num_idle_runs_ = lb.cbuf_activities_.countP ActivityInfo.IsIdle ∧
  lb.cbuf_activities_.length ≤ lb.cbuf_capacity_

/-- The last `n` elements of a list. -/
def lastN {α : Type} (n : Nat) (l : List α) : List α :=
  l.drop (l.length - n)

/-- The per-table load variance `GetLoad(from_ts) - GetLoad(to_ts)` of a move,
in the state in which the decision is taken. -/
def loadVariance (env : Env) (lb : ClusterLoadBalancer) (m : Move) : Int :=
  env.GetLoad lb.state_ (m.from_ts.getD "") - env.GetLoad lb.state_ (m.to_ts.getD "")

/-- The effect of `GetLoadToMove` on `can_perform_global_operations_`: cleared
by a returned move whose per-table variance reaches the threshold, unchanged
otherwise. -/
def GateEffect (env : Env) (lb : ClusterLoadBalancer)
    (out : Decision × ClusterLoadBalancer) : Prop :=
  match out.1 with
  | .ok (some m) =>
    (lb.state_.options_.kMinLoadVarianceToBalance ≤ loadVariance env lb m →
        out.2.can_perform_global_operations_ = false ∧
          CanBalanceGlobalLoad env.flags out.2 = false) ∧
      (loadVariance env lb m < lb.state_.options_.kMinLoadVarianceToBalance →
        out.2.can_perform_global_operations_ = lb.can_perform_global_operations_)
  | _ => out.2.can_perform_global_operations_ = lb.can_perform_global_operations_

/-- The per-table leader-load variance `GetLeaderLoad(from_ts) -
GetLeaderLoad(to_ts)` of a leader move, in the state of the decision. -/
def leaderVariance (env : Env) (lb : ClusterLoadBalancer) (m : Move) : Int :=
  env.GetLeaderLoad lb.state_ (m.from_ts.getD "") -
    env.GetLeaderLoad lb.state_ (m.to_ts.getD "")

/-- A leader move that `GetLeaderToMove` does not mark as a global-balancing
move: the leader-load variance reaches the threshold, or the source node is
leader-blacklisted. -/
def nonGlobalLeaderMove (env : Env) (lb : ClusterLoadBalancer) (m : Move) : Prop :=
  lb.state_.options_.kMinLeaderLoadVarianceToBalance ≤ leaderVariance env lb m ∨
    m.from_ts.getD "" ∈ lb.state_.leader_blacklisted_servers_

instance (env : Env) (lb : ClusterLoadBalancer) (m : Move) :
    Decidable (nonGlobalLeaderMove env lb m) := by
  unfold nonGlobalLeaderMove
  exact inferInstance

/-- The effect of `GetLeaderToMove` on `can_perform_global_operations_`. -/
def LeaderGateEffect (env : Env) (lb : ClusterLoadBalancer)
    (out : Decision × ClusterLoadBalancer) : Prop :=
  match out.1 with
  | .ok (some m) =>
    (nonGlobalLeaderMove env lb m →
        out.2.can_perform_global_operations_ = false) ∧
      (¬ nonGlobalLeaderMove env lb m →
        out.2.can_perform_global_operations_ = lb.can_perform_global_operations_)
  | _ => out.2.can_perform_global_operations_ = lb.can_perform_global_operations_

/-- The result of the affinity-repair step of `HandleLeaderMoves`:
`HandleLeaderLoadIfNonAffinitized` when `use_preferred_zones_` is set, `false`
otherwise. -/
def affinityStep (env : Env) (lb : ClusterLoadBalancer) : Decision :=
  if lb.state_.use_preferred_zones_ then HandleLeaderLoadIfNonAffinitized env lb
  else .ok none

/-- The in-memory bookkeeping that follows a sent add command never fails:
`PerTableLoadState::AddReplica` and `PerTableLoadState::RemoveReplica` return
OK. -/
def BookkeepingOk (env : Env) : Prop :=
  (∀ sg t ts, (env.state_AddReplica sg t ts).1 = .ok ()) ∧
    (∀ sg t ts, (env.state_RemoveReplica sg t ts).1 = .ok ())

/-- The add-server commands sent by a step that calls `AddReplica` or
`MoveReplica`: one when it succeeds; none when it fails, unless the failure is
the one of the bookkeeping after the command was sent. -/
def SendEffect (env : Env) (lb : ClusterLoadBalancer)
    (out : StatusOr Unit × ClusterLoadBalancer) : Prop :=
  match out.1 with
  | .ok _ => countAdds out.2.sent_ = countAdds lb.sent_ + 1
  | .error _ =>
    countAdds out.2.sent_ = countAdds lb.sent_ ∨
      (¬ BookkeepingOk env ∧ countAdds out.2.sent_ = countAdds lb.sent_ + 1)

/-- The add-server commands sent by an add decision: one when it returns true,
none when it returns false, and none when it fails, unless the failure is the
one of the bookkeeping after the command was sent. -/
def AddEffect (env : Env) (lb : ClusterLoadBalancer)
    (out : Decision × ClusterLoadBalancer) : Prop :=
  match out.1 with
  | .ok (some _) => countAdds out.2.sent_ = countAdds lb.sent_ + 1
  | .ok none => countAdds out.2.sent_ = countAdds lb.sent_
  | .error _ =>
    countAdds out.2.sent_ = countAdds lb.sent_ ∨
      (¬ BookkeepingOk env ∧ countAdds out.2.sent_ = countAdds lb.sent_ + 1)

/-- The node passes the test of `HandleAddIfMissingPlacement` for the tablet:
`can_choose_ts` is true. -/
def Eligible (env : Env) (cat : CatalogManager) (st : PerTableLoadState)
    (tablet_id : TabletId) (ts_uuid : TabletServerId) : Prop :=
  canChooseTs env cat st tablet_id ts_uuid = .ok true

/-- The node does not pass the test of `HandleAddIfMissingPlacement` for the
tablet: `can_choose_ts` is false. -/
def Rejected (env : Env) (cat : CatalogManager) (st : PerTableLoadState)
    (tablet_id : TabletId) (ts_uuid : TabletServerId) : Prop :=
  canChooseTs env cat st tablet_id ts_uuid = .ok false

/-- The three budget checks at the head of `HandleAddReplicas` all pass. -/
def BudgetChecksPass (lb : ClusterLoadBalancer) : Prop :=
  ¬ (lb.state_.options_.kAllowLimitStartingTablets ∧
      lb.global_state_.total_starting_tablets_ ≥
        lb.state_.options_.kMaxTabletRemoteBootstraps) ∧
    ¬ (lb.state_.options_.kAllowLimitStartingTablets ∧
      lb.state_.total_starting_ ≥ lb.state_.options_.kMaxTabletRemoteBootstrapsPerTable) ∧
    ¬ (lb.state_.options_.kAllowLimitOverReplicatedTablets ∧
      get_total_over_replication lb ≥ lb.state_.options_.kMaxOverReplicatedTablets)

instance (lb : ClusterLoadBalancer) : Decidable (BudgetChecksPass lb) := by
  unfold BudgetChecksPass
  exact inferInstance

/-- The helper calls that `GetLoadToMove` makes for the pair (`high`, `low`) do
not fail: `GetTabletToMove` returns a value and, when it finds a tablet,
`MoveReplica` returns OK. -/
def loadHelpersSucceed (env : Env) (cat : CatalogManager) (lb : ClusterLoadBalancer)
    (high low : TabletServerId) : Bool :=
  match GetTabletToMove env cat lb high low with
  | .error _ => false
  | .ok none => true
  | .ok (some t) => (MoveReplica env cat lb t high low).1.isOk

/-- The result of a decision procedure is `false`, or `true` with a complete
(tablet, from, to) triple. -/
def IsMoveOrNone (d : Decision) : Prop :=
  d = .ok none ∨ ∃ t f g, d = .ok (some { tablet_id := t, from_ts := some f, to_ts := some g })

/-- The tablet a command is sent for. -/
def Command.tablet_id : Command → TabletId
  | .AddServer tablet _ _ => tablet
  | .RemoveServer tablet _ => tablet
  | .LeaderStepDown tablet _ _ _ => tablet

/-- The pending-task map of the same kind as the command: add-server,
remove-server or leader step-down. -/
def pendingTasksOfKind (st : PerTableLoadState) :
    Command → List (TableId × TabletToTabletServerMap)
  | .AddServer _ _ _ => st.pending_add_replica_tasks_
  | .RemoveServer _ _ => st.pending_remove_replica_tasks_
  | .LeaderStepDown _ _ _ _ => st.pending_stepdown_leader_tasks_

/-- The command is for a tablet of the catalog, and in the state `st` the
pending-task map of the command's kind has no entry for that tablet under the
id of its table. -/
def NoPendingOfKind (cat : CatalogManager) (st : PerTableLoadState) (c : Command) : Prop :=
  ∃ t, c.tablet_id = (GetTablet cat t).tablet_id ∧
    pendingCount (pendingTasksOfKind st c) (GetTablet cat t).table_id
      (GetTablet cat t).tablet_id = 0

/-- The two states hold the same three pending-task maps. -/
def SamePending (a b : PerTableLoadState) : Prop :=
  b.pending_add_replica_tasks_ = a.pending_add_replica_tasks_ ∧
  b.pending_remove_replica_tasks_ = a.pending_remove_replica_tasks_ ∧
  b.pending_stepdown_leader_tasks_ = a.pending_stepdown_leader_tasks_

/-- The helper methods of `PerTableLoadState` leave the three pending-task maps
as they are: in `cluster_balance.cc` the maps are written by
`CountPendingTasksUnlocked` only. -/
def PendingFrame (env : Env) : Prop :=
  (∀ sg t ts, SamePending sg.1 (env.state_AddReplica sg t ts).2.1) ∧
  (∀ sg t ts, SamePending sg.1 (env.state_RemoveReplica sg t ts).2.1) ∧
  (∀ sg t f g, SamePending sg.1 (env.state_MoveLeader sg t f g).2.1) ∧
  (∀ sg t ts, SamePending sg.1 (env.state_AddStartingTablet sg t ts).2.1) ∧
  (∀ sg t, SamePending sg.1 (env.state_UpdateTablet sg t).2.1) ∧
  (∀ sg d, SamePending sg.1 (env.state_UpdateTabletServer sg d).1) ∧
  (∀ st l, SamePending st (env.state_SetBlacklist st l)) ∧
  (∀ st l, SamePending st (env.state_SetLeaderBlacklist st l)) ∧
  (∀ st, SamePending st (env.state_AdjustLeaderBalanceThreshold st)) ∧
  (∀ sg, SamePending sg.1 (env.state_SortLoad sg)) ∧
  (∀ sg, SamePending sg.1 (env.state_SortLeaderLoad sg)) ∧
  (∀ sg, SamePending sg.1 (env.state_SortTabletServerDriveLoad sg))

/-- What a step of the EXECUTE phase may change between the balancer `a` and
the balancer `b`: `per_table_states_` is the same; and when the helpers leave
the pending-task maps alone, so does the step, and every command it sent had no
pending task of its kind recorded in `a`. -/
def RunStep (env : Env) (cat : CatalogManager) (a b : ClusterLoadBalancer) : Prop :=
  b.per_table_states_ = a.per_table_states_ ∧
  (PendingFrame env →
    SamePending a.state_ b.state_ ∧
      ∃ cs, b.sent_ = a.sent_ ++ cs ∧ ∀ c ∈ cs, NoPendingOfKind cat a.state_ c)

/-- The command that `SendReplicaChanges` sends when its duplicate check passes:
an add-server request for an add; otherwise a leader step-down request when the
node is the recorded leader of the tablet, and a remove-server request when it
is not. -/
def commandSent (lb : ClusterLoadBalancer) (tablet : TabletInfo) (ts_uuid : TabletServerId)
    (is_add : Bool) (should_remove_leader : Bool) (new_leader_ts_uuid : TabletServerId) :
    Command :=
  if is_add then Command.AddServer tablet.tablet_id ts_uuid (GetDefaultMemberType lb.state_)
  else if (lookupD lb.state_.per_tablet_meta_ tablet.tablet_id default).leader_uuid = ts_uuid
  then Command.LeaderStepDown tablet.tablet_id ts_uuid should_remove_leader new_leader_ts_uuid
  else Command.RemoveServer tablet.tablet_id ts_uuid

/-- The pending tasks of a table, as the catalog manager reports them, of the
same kind as the command. -/
def pendingOfTable (table : TableInfo) : Command → TabletToTabletServerMap
  | .AddServer _ _ _ => table.pending_add_server_tasks
  | .RemoveServer _ _ => table.pending_remove_server_tasks
  | .LeaderStepDown _ _ _ _ => table.pending_stepdown_leader_tasks

/-- The balancer on which the first table loop of `RunLoadBalancerWithOptions`
calls `CountPendingTasksUnlocked` for the table: after `ResetTableStatePtr`, the
assignment of `use_preferred_zones_` and `InitializeTSDescriptors`. -/
def countingInput (env : Env) (cat : CatalogManager) (options : Options)
    (lb : ClusterLoadBalancer) (table : TableId × TableInfo) : ClusterLoadBalancer :=
  let lb := ResetTableStatePtr env lb table.1 options
  let lb := { lb with state_ := { lb.state_ with
    use_preferred_zones_ := !table.2.is_transaction_status_table ||
      env.flags.transaction_tables_use_preferred_zones } }
  InitializeTSDescriptors env cat lb

/-- Pending-task counting fails for the table in the state `s` of the first
table loop: the table is not skipped, its placement is known, and
`CountPendingTasksUnlocked` returns an error. -/
def CountingFails (env : Env) (cat : CatalogManager) (options : Options) (s : CountState)
    (table : TableId × TableInfo) : Prop :=
  SkipLoadBalancing table.2 = false ∧
  table.2.needs_refresh_to_find_table_placement = false ∧
  ∃ e, (CountPendingTasksUnlocked env { table.2 with id := table.1 }
    (countingInput env cat options s.lb table) s.totals).1 = .error e

/-- Tablet analysis fails for the table in the state `s` of the second table
loop: the table is not skipped, its state exists, and `AnalyzeTabletsUnlocked`
returns an error. -/
def AnalysisFails (env : Env) (cat : CatalogManager) (s : CountState)
    (table : TableId × TableInfo) : Prop :=
  SkipLoadBalancing table.2 = false ∧
  ∃ st e, s.lb.per_table_states_.lookup table.1 = some st ∧
    (AnalyzeTabletsUnlocked env cat { s.lb with state_ := st } table.1).1 = .error e

/-- The `uint32_t` error counter went from `a` to `b` by at least `lo` and at
most `hi` increments. -/
def ErrorsAdded (lo hi a b : Nat) : Prop :=
  ∃ j, lo ≤ j ∧ j ≤ hi ∧ Nat.ModEq (2 ^ 32) b (a + j)

/-- The state in which the first table loop of `RunLoadBalancerWithOptions`
starts: no pending task counted, no error. -/
def countStart (lb : ClusterLoadBalancer) : CountState :=
  { lb := lb, totals := { pending_add_replica_tasks := 0, pending_remove_replica_tasks := 0,
                          pending_stepdown_leader_tasks := 0 },
    master_errors := 0 }

/-- Every stored per-table state holds, under the id of its table, the pending
tasks that the catalog manager reports for a table of that id. -/
def RecordedPending (cat : CatalogManager) (states : List (TableId × PerTableLoadState)) :
    Prop :=
  ∀ T st, states.lookup T = some st →
    ∃ info, (T, info) ∈ cat.table_ids_map_ ∧
      ∀ c, lookupD (pendingTasksOfKind st c) T [] = pendingOfTable info c

/-- What `GetLoadToMove` has checked for the pair (`from_ts`, `to_ts`) before it
searches a tablet: the per-table load variance reaches
`kMinLoadVarianceToBalance` (a per-table move), or the move is a global-balancing
one: `CanBalanceGlobalLoad()` holds, the per-table variance is positive and the
global variance reaches `kMinGlobalLoadVarianceToBalance`. -/
def LoadMoveJustified (env : Env) (lb : ClusterLoadBalancer) (from_ts to_ts : TabletServerId) :
    Prop :=
  lb.state_.options_.kMinLoadVarianceToBalance ≤
      env.GetLoad lb.state_ from_ts - env.GetLoad lb.state_ to_ts ∨
    (CanBalanceGlobalLoad env.flags lb = true ∧
      0 < env.GetLoad lb.state_ from_ts - env.GetLoad lb.state_ to_ts ∧
      lb.state_.options_.kMinGlobalLoadVarianceToBalance ≤
        env.GetGlobalLoad lb.global_state_ from_ts - env.GetGlobalLoad lb.global_state_ to_ts)

/-- The test of the first loop of `GetTabletToMove` on one tablet, when
`CanAddTabletToTabletServer` returns a value: the tablet is not over-replicated,
not disabled on the source node and can be added to `to_ts`. -/
def keptByFirstLoop (env : Env) (cat : CatalogManager) (st : PerTableLoadState)
    (from_ts_meta : CBTabletServerMetadata) (to_ts : TabletServerId) (tablet_id : TabletId) :
    Bool :=
  !decide (tablet_id ∈ st.tablets_over_replicated_) &&
    !decide (tablet_id ∈ from_ts_meta.disabled_by_ts_tablets) &&
    (match env.CanAddTabletToTabletServer st tablet_id to_ts
        (some (GetPlacementByTablet cat st tablet_id)) with
      | .ok can_add => can_add
      | .error _ => false)

/-- The placement filter of the second loop of `GetTabletToMove`: the policy of
the tablet has no placement blocks, or `from_ts` and `to_ts` resolve to valid
placement blocks with the same placement id. -/
def placementKept (env : Env) (cat : CatalogManager) (st : PerTableLoadState)
    (from_ts to_ts : TabletServerId) (tablet_id : TabletId) : Prop :=
  ¬ ((!(GetPlacementByTablet cat st tablet_id).placement_blocks.isEmpty &&
      !samePlacement env st from_ts to_ts (GetPlacementByTablet cat st tablet_id)) = true)

instance (env : Env) (cat : CatalogManager) (st : PerTableLoadState)
    (from_ts to_ts : TabletServerId) (tablet_id : TabletId) :
    Decidable (placementKept env cat st from_ts to_ts tablet_id) := by
  unfold placementKept
  exact inferInstance

/-- A tablet passes all filters of `GetTabletToMove` for the move from `from_ts`
to `to_ts`: it is not over-replicated, not disabled on `from_ts`, addable to
`to_ts`, and passes the placement filter. -/
def PassesMoveFilters (env : Env) (cat : CatalogManager) (lb : ClusterLoadBalancer)
    (from_ts to_ts : TabletServerId) (tablet_id : TabletId) : Prop :=
  tablet_id ∉ lb.state_.tablets_over_replicated_ ∧
  tablet_id ∉ (lookupD lb.state_.per_ts_meta_ from_ts default).disabled_by_ts_tablets ∧
  env.CanAddTabletToTabletServer lb.state_ tablet_id to_ts
    (some (GetPlacementByTablet cat lb.state_ tablet_id)) = .ok true ∧
  placementKept env cat lb.state_ from_ts to_ts tablet_id

/-- The tablet's recorded leader is `from_ts` (`moving_from_leader`). -/
def movingFromLeader (st : PerTableLoadState) (from_ts : TabletServerId)
    (tablet_id : TabletId) : Prop :=
  (lookupD st.per_tablet_meta_ tablet_id default).leader_uuid = from_ts

instance (st : PerTableLoadState) (from_ts : TabletServerId) (tablet_id : TabletId) :
    Decidable (movingFromLeader st from_ts tablet_id) := by
  unfold movingFromLeader
  exact inferInstance

/-- The set `intersection` of `GetLeaderToMove` for a pair of nodes: the leaders
of the high node that have a running peer on the low node, in the order of the
set. -/
def leaderCandidates (st : PerTableLoadState) (high_load_uuid low_load_uuid : TabletServerId) :
    List TabletId :=
  (lookupD st.per_ts_meta_ high_load_uuid default).leaders.filter
    (fun t => decide (t ∈ (lookupD st.per_ts_meta_ low_load_uuid default).running_tablets))

/-- The tablet has a recorded failed step-down to `to_ts` that is less than
`min_leader_stepdown_retry_interval_ms` old at the time `env.now` of the call. -/
def FailedRecently (env : Env) (st : PerTableLoadState) (tablet_id : TabletId)
    (to_ts : TabletServerId) : Prop :=
  ∃ tablet_meta time, st.per_tablet_meta_.lookup tablet_id = some tablet_meta ∧
    tablet_meta.leader_stepdown_failures.lookup to_ts = some time ∧
    env.now - time < env.flags.min_leader_stepdown_retry_interval_ms

/-- The environment at another time of the call and with another value of
`min_leader_stepdown_retry_interval_ms`. -/
def Env.atTime (env : Env) (now : MonoTime) (interval : Int) : Env :=
  { env with
    now := now
    flags := { env.flags with min_leader_stepdown_retry_interval_ms := interval } }

/-- The load comparator is a strict weak ordering, as `std::sort` requires:
it is asymmetric, and "not less than" is transitive. -/
def StrictWeakOrder (lt : TabletServerId → TabletServerId → Bool) : Prop :=
  (∀ a b, lt a b = true → lt b a = false) ∧
  (∀ a b c, lt a b = false → lt b c = false → lt a c = false)

/-- The vector `sorted_ts` of `HandleRemoveReplicas` before sorting: the nodes of
the tablet's `over_replicated_tablet_servers` on which the tablet is not
starting. -/
def removalCandidates (lb : ClusterLoadBalancer) (tablet_id : TabletId) :
    List TabletServerId :=
  (lookupD lb.state_.per_tablet_meta_ tablet_id default).over_replicated_tablet_servers.filter
    (fun ts_uuid =>
      !decide (tablet_id ∈ (lookupD lb.state_.per_ts_meta_ ts_uuid default).starting_tablets))

/-- The end of `HandleRemoveReplicas` once the loop has chosen a tablet and a
node: the out-parameters are set and `RemoveReplica` is called. -/
def removeChosen (env : Env) (cat : CatalogManager) (lb : ClusterLoadBalancer)
    (tablet_id : TabletId) (remove_candidate : TabletServerId) :
    Decision × ClusterLoadBalancer :=
  match RemoveReplica env cat lb tablet_id remove_candidate with
  | (.error e, lb2) => (.error e, lb2)
  | (.ok _, lb2) =>
    (.ok (some { tablet_id := tablet_id, from_ts := some remove_candidate, to_ts := none }),
      lb2)

/-- The helper methods of `PerTableLoadState` that `InitializeTSDescriptors`
calls leave `use_preferred_zones_` as it is: in `cluster_balance.cc` the member
is written at line 345 only. -/
def ZonesFrame (env : Env) : Prop :=
  (∀ st l, (env.state_SetBlacklist st l).use_preferred_zones_ = st.use_preferred_zones_) ∧
  (∀ st l,
    (env.state_SetLeaderBlacklist st l).use_preferred_zones_ = st.use_preferred_zones_) ∧
  (∀ sg d,
    (env.state_UpdateTabletServer sg d).1.use_preferred_zones_ = sg.1.use_preferred_zones_)

/-- What `HandleLeaderMoves` does with the decision of `GetLeaderToMove`: an
error or `false` is returned as it is, and a chosen move is passed to
`MoveLeader`. -/
def generalLeaderMove (env : Env) (cat : CatalogManager) (lb : ClusterLoadBalancer) :
    Decision × ClusterLoadBalancer :=
  match GetLeaderToMove env lb with
  | (.error e, lb1) => (.error e, lb1)
  | (.ok (some m), lb1) => moveLeaderOf env cat lb1 m
  | (.ok none, lb1) => (.ok none, lb1)

/-- The tablet id is a key of the tablet map, and the tablet stored under it has
this id and belongs to the table `T`: `GetTabletMap().at(t)` finds a tablet of
`T`. -/
def TabletOfTable (cat : CatalogManager) (T : TableId) (t : TabletId) : Prop :=
  ∃ tablet, cat.tablet_map_.lookup t = some tablet ∧ tablet.tablet_id = t ∧
    tablet.table = some T

/-- Every tablet that the table state names in a set from which the decision
procedures choose (`tablets_missing_replicas_`, `tablets_wrong_placement_`,
`tablets_over_replicated_`, and the running tablets, starting tablets, leaders
and per-drive tablets of its nodes) is a tablet of the table `T`. -/
def StateOfTable (cat : CatalogManager) (T : TableId) (st : PerTableLoadState) : Prop :=
  (∀ t ∈ st.tablets_missing_replicas_, TabletOfTable cat T t) ∧
  (∀ t ∈ st.tablets_wrong_placement_, TabletOfTable cat T t) ∧
  (∀ t ∈ st.tablets_over_replicated_, TabletOfTable cat T t) ∧
  (∀ ts, ∀ t ∈ (lookupD st.per_ts_meta_ ts default).running_tablets, TabletOfTable cat T t) ∧
  (∀ ts, ∀ t ∈ (lookupD st.per_ts_meta_ ts default).starting_tablets,
    TabletOfTable cat T t) ∧
  (∀ ts, ∀ t ∈ (lookupD st.per_ts_meta_ ts default).leaders, TabletOfTable cat T t) ∧
  (∀ ts path drive_tablets,
    (lookupD st.per_ts_meta_ ts default).path_to_tablets.lookup path = some drive_tablets →
    ∀ t ∈ drive_tablets, TabletOfTable cat T t)

/-- The helper methods of `PerTableLoadState` put no foreign tablet into a table
state: a fresh state names no tablet, the methods that take a tablet keep
`StateOfTable` when the tablet is one of the table, and the others keep it. (In
`cluster_balance.cc` a table state is built from the tablets of its table only:
the loops of `AnalyzeTabletsUnlocked` run over `GetTabletsForTable`.) -/
structure HelpersKeepTable (env : Env) (cat : CatalogManager) : Prop where
  fresh : ∀ T g, StateOfTable cat T (env.PerTableLoadState_new g)
  addReplica : ∀ T sg t ts, StateOfTable cat T sg.1 → TabletOfTable cat T t →
    StateOfTable cat T (env.state_AddReplica sg t ts).2.1
  removeReplica : ∀ T sg t ts, StateOfTable cat T sg.1 → TabletOfTable cat T t →
    StateOfTable cat T (env.state_RemoveReplica sg t ts).2.1
  moveLeader : ∀ T sg t f g, StateOfTable cat T sg.1 → TabletOfTable cat T t →
    StateOfTable cat T (env.state_MoveLeader sg t f g).2.1
  addStartingTablet : ∀ T sg t ts, StateOfTable cat T sg.1 → TabletOfTable cat T t →
    StateOfTable cat T (env.state_AddStartingTablet sg t ts).2.1
  updateTablet : ∀ T sg (tablet : TabletInfo), StateOfTable cat T sg.1 →
    TabletOfTable cat T tablet.tablet_id →
    StateOfTable cat T (env.state_UpdateTablet sg tablet).2.1
  updateTabletServer : ∀ T sg d, StateOfTable cat T sg.1 →
    StateOfTable cat T (env.state_UpdateTabletServer sg d).1
  setBlacklist : ∀ T st l, StateOfTable cat T st →
    StateOfTable cat T (env.state_SetBlacklist st l)
  setLeaderBlacklist : ∀ T st l, StateOfTable cat T st →
    StateOfTable cat T (env.state_SetLeaderBlacklist st l)
  adjustLeaderBalanceThreshold : ∀ T st, StateOfTable cat T st →
    StateOfTable cat T (env.state_AdjustLeaderBalanceThreshold st)
  sortLoad : ∀ T sg, StateOfTable cat T sg.1 → StateOfTable cat T (env.state_SortLoad sg)
  sortLeaderLoad : ∀ T sg, StateOfTable cat T sg.1 →
    StateOfTable cat T (env.state_SortLeaderLoad sg)
  sortTabletServerDriveLoad : ∀ T sg, StateOfTable cat T sg.1 →
    StateOfTable cat T (env.state_SortTabletServerDriveLoad sg)

/-- The table map and the tablet map of the catalog agree: no table id occurs
twice in the table map (it is a `std::map`), the tablets that a balanced table
lists (a table that `SkipLoadBalancing` does not skip) are tablets of that table
in the tablet map, and so are the tablets that the pending tasks of a table
name. -/
structure CatalogConsistent (cat : CatalogManager) : Prop where
  keys : (cat.table_ids_map_.map Prod.fst).Nodup
  tablets : ∀ table ∈ cat.table_ids_map_, SkipLoadBalancing table.2 = false →
    ∀ tablet ∈ table.2.tablets, TabletOfTable cat table.1 tablet.tablet_id
  pending_adds : ∀ table ∈ cat.table_ids_map_, ∀ e ∈ table.2.pending_add_server_tasks,
    TabletOfTable cat table.1 e.1
  pending_removes : ∀ table ∈ cat.table_ids_map_,
    ∀ e ∈ table.2.pending_remove_server_tasks, TabletOfTable cat table.1 e.1
  pending_stepdowns : ∀ table ∈ cat.table_ids_map_,
    ∀ e ∈ table.2.pending_stepdown_leader_tasks, TabletOfTable cat table.1 e.1

/-- The command is for a tablet of the table `T`, and in the table state `st`
the pending-task map of the command's kind has, under `T`, no entry for that
tablet. -/
def SentGuarded (cat : CatalogManager) (T : TableId) (st : PerTableLoadState)
    (c : Command) : Prop :=
  TabletOfTable cat T c.tablet_id ∧
    (lookupD (pendingTasksOfKind st c) T []).lookup c.tablet_id = none

/-- What a step of the EXECUTE phase of the table `T` does to a balancer whose
table state names tablets of `T` only: the state still names tablets of `T`
only, the pending-task maps are the same, and every command sent is for a tablet
of `T` that had no pending task of the command's kind in the state `a`. -/
def GuardedStep (cat : CatalogManager) (T : TableId) (a b : ClusterLoadBalancer) : Prop :=
  StateOfTable cat T a.state_ →
    StateOfTable cat T b.state_ ∧ SamePending a.state_ b.state_ ∧
      ∃ cs, b.sent_ = a.sent_ ++ cs ∧ ∀ c ∈ cs, SentGuarded cat T a.state_ c

/-- Every stored per-table state names tablets of its own table only. -/
def StoredOfTable (cat : CatalogManager) (states : List (TableId × PerTableLoadState)) :
    Prop :=
  ∀ T st, states.lookup T = some st → StateOfTable cat T st

/-- No table of the table map has a pending task of the command's kind for the
command's tablet, and the tablet belongs to a table of the table map. -/
def NoPendingInCatalog (cat : CatalogManager) (c : Command) : Prop :=
  (∃ T info, (T, info) ∈ cat.table_ids_map_ ∧ TabletOfTable cat T c.tablet_id) ∧
  ∀ table ∈ cat.table_ids_map_, (pendingOfTable table.2 c).lookup c.tablet_id = none

/-! ## Concrete inputs used by the witnesses -/

/-- The default flag values of `cluster_balance.cc`, with an idle-run threshold
of two. -/
def exFlags : Flags :=
  { enable_load_balancing := true
    transaction_tables_use_preferred_zones := false
    enable_global_load_balancing := true
    load_balancer_num_idle_runs := 2
    TEST_load_balancer_handle_under_replicated_tablets_only := false
    load_balancer_skip_leader_as_remove_victim := false
    load_balancer_count_move_as_add := true
    load_balancer_drive_aware := true
    min_leader_stepdown_retry_interval_ms := 20000 }

/-- Three runs: one with a task, then two idle ones. -/
def exRuns : List RunInput := [([1, 0], 0), ([0, 0], 0), ([], 0)]

/-- The number of over-replicated tablets summed over all per-table states of
the pass (the current table's state is one of them). -/
def clusterWideOverReplication (lb : ClusterLoadBalancer) : Int :=
  (lb.per_table_states_.map (fun e => (e.2.tablets_over_replicated_.length : Int))).sum

/-- Options with the default values of the budget flags. -/
def exOptions : Options :=
  { type := .LIVE
    placement_uuid := ""
    live_placement_uuid := ""
    kMinLoadVarianceToBalance := 2
    kMinGlobalLoadVarianceToBalance := 2
    kMinLeaderLoadVarianceToBalance := 2
    kMinGlobalLeaderLoadVarianceToBalance := 2
    kAllowLimitStartingTablets := true
    kMaxTabletRemoteBootstraps := 10
    kMaxTabletRemoteBootstrapsPerTable := 2
    kAllowLimitOverReplicatedTablets := true
    kMaxOverReplicatedTablets := 1
    kMaxConcurrentAdds := 1
    kMaxConcurrentRemovals := 1
    kMaxConcurrentLeaderMoves := 2
    kMaxConcurrentLeaderMovesPerTable := 1 }

/-- A simple environment: load is the number of hosted tablets, leader load the
number of leaders, every placement test succeeds, and the bookkeeping helpers
leave the state as it is. -/
def exEnv : Env :=
  { flags := exFlags
    counter_bits := 64
    now := 0
    default_options := exOptions
    PerTableLoadState_new := fun _ => default
    GetLoad := fun st ts =>
      ((lookupD st.per_ts_meta_ ts default).running_tablets.length : Int) +
        (lookupD st.per_ts_meta_ ts default).starting_tablets.length
    GetLeaderLoad := fun st ts => ((lookupD st.per_ts_meta_ ts default).leaders.length : Int)
    IsLeaderLoadBelowThreshold := fun _ _ => false
    GetGlobalLoad := fun _ _ => 0
    GetGlobalLeaderLoad := fun _ _ => 0
    CanAddTabletToTabletServer := fun _ _ _ _ => .ok true
    CanSelectWrongReplicaToMove := fun _ _ _ => .ok none
    CanAddTSToMissingPlacements := fun _ _ => true
    GetValidPlacement := fun _ _ _ => none
    generate_placement_id := fun ci => ci.placement_zone
    Comparator := fun _ _ a b => decide (a < b)
    state_AddReplica := fun sg _ _ => (.ok (), sg)
    state_RemoveReplica := fun sg _ _ => (.ok (), sg)
    state_MoveLeader := fun sg _ _ _ => (.ok (), sg)
    state_AddStartingTablet := fun sg _ _ => (.ok (), sg)
    state_UpdateTablet := fun sg _ => (.ok (), sg)
    state_UpdateTabletServer := fun sg _ => sg
    state_SetBlacklist := fun st _ => st
    state_SetLeaderBlacklist := fun st _ => st
    state_AdjustLeaderBalanceThreshold := fun st => st
    state_SortLoad := fun sg => sg.1
    state_SortLeaderLoad := fun sg => sg.1
    state_SortTabletServerDriveLoad := fun sg => sg.1 }

/-- An empty catalog. -/
def exCatEmpty : CatalogManager :=
  { table_ids_map_ := [], tablet_map_ := [], cluster_replication_info := default,
    server_blacklist := [], leader_blacklist := [], ts_descs := [] }

/-- The state of a table with the given id and over-replicated tablets, the
placement policy recorded for the table (an empty one, as `UpdateTabletInfo`
stores it for a cluster without placement blocks), and nothing else. -/
def exTableState (table_id : TableId) (over_replicated : List TabletId) :
    PerTableLoadState :=
  { (default : PerTableLoadState) with
    table_id_ := table_id, options_ := exOptions, tablets_over_replicated_ := over_replicated
    placement_by_table_ := [(table_id, default)] }

/-- A balancer in the EXECUTE phase with two tables: table "A" has one
over-replicated tablet, the current table "B" has none. -/
def exLbTwoTables : ClusterLoadBalancer :=
  { ClusterLoadBalancer.new exFlags with
    state_ := exTableState "B" []
    per_table_states_ := [("A", exTableState "A" ["t1"]), ("B", exTableState "B" [])] }

/-- A balancer whose current table has ten tablets being bootstrapped
cluster-wide. -/
def exLbBootstrapping : ClusterLoadBalancer :=
  { ClusterLoadBalancer.new exFlags with
    state_ := exTableState "A" []
    global_state_ := { ts_descs_ := [], total_starting_tablets_ := 10, drive_aware_ := true } }

/-- A balancer whose current table has one over-replicated tablet. -/
def exLbOverReplicated : ClusterLoadBalancer :=
  { ClusterLoadBalancer.new exFlags with state_ := exTableState "A" ["t1"] }

/-- A catalog with one table "A" holding the running tablets "t1" and "t2". -/
def exCatLeader : CatalogManager :=
  { exCatEmpty with
    table_ids_map_ := [("A", { (default : TableInfo) with id := "A" })]
    tablet_map_ :=
      [("t1", { tablet_id := "t1", table := some "A", is_running := true,
                voters_in_transition := 0 }),
       ("t2", { tablet_id := "t2", table := some "A", is_running := true,
                voters_in_transition := 0 })] }

/-- The per-table state of "A": node "ts1" leads "t1" and "t2", node "ts2" runs
both as a follower. With preferred zones in use, "ts2" is the only node of the
preferred zones and "ts1" the only node outside them. -/
def exLeaderState (use_preferred_zones : Bool) : PerTableLoadState :=
  { exTableState "A" [] with
    use_preferred_zones_ := use_preferred_zones
    per_ts_meta_ :=
      [("ts1", { (default : CBTabletServerMetadata) with
                  running_tablets := ["t1", "t2"], leaders := ["t1", "t2"] }),
       ("ts2", { (default : CBTabletServerMetadata) with running_tablets := ["t1", "t2"] })]
    per_tablet_meta_ :=
      [("t1", { (default : CBTabletMetadata) with leader_uuid := "ts1" }),
       ("t2", { (default : CBTabletMetadata) with leader_uuid := "ts1" })]
    sorted_load_ := ["ts1", "ts2"]
    sorted_leader_load_ := if use_preferred_zones then ["ts2"] else ["ts2", "ts1"]
    sorted_non_affinitized_leader_load_ := if use_preferred_zones then ["ts1"] else [] }

/-- A balancer about to move leaders of table "A", with preferred zones in use:
"ts1" is outside the preferred zones. -/
def exLbAffinity : ClusterLoadBalancer :=
  { ClusterLoadBalancer.new exFlags with state_ := exLeaderState true }

/-- The same balancer for a table that does not use preferred zones. -/
def exLbLeader : ClusterLoadBalancer :=
  { ClusterLoadBalancer.new exFlags with state_ := exLeaderState false }

/-- The EXECUTE state in which the leader-move phase of table "A" starts, with a
global budget of two leader moves. -/
def exExecLeader : ExecState :=
  { lb := exLbLeader, remaining_adds := 0, remaining_removals := 0,
    remaining_leader_moves := 2, master_errors := 0 }

/-- A catalog whose table "A" has two add-server tasks still pending. -/
def exCatPending : CatalogManager :=
  { exCatLeader with
    table_ids_map_ :=
      [("A", { (default : TableInfo) with
                id := "A"
                tablets :=
                  [{ tablet_id := "t1", table := some "A", is_running := true,
                     voters_in_transition := 0 },
                   { tablet_id := "t2", table := some "A", is_running := true,
                     voters_in_transition := 0 }]
                pending_add_server_tasks := [("t1", "ts9"), ("t2", "ts9")] })] }

/-- An environment in which every node registers in `sorted_load_` and every
running tablet is classified as missing a replica. -/
def exEnvUnder : Env :=
  { exEnv with
    state_UpdateTabletServer := fun sg d =>
      ({ sg.1 with
          sorted_load_ := sg.1.sorted_load_ ++ [d.permanent_uuid]
          per_ts_meta_ := sg.1.per_ts_meta_ ++
            [(d.permanent_uuid, { (default : CBTabletServerMetadata) with descriptor := d })] },
        sg.2)
    state_UpdateTablet := fun sg t =>
      (.ok (), ({ sg.1 with
          tablets_missing_replicas_ := sg.1.tablets_missing_replicas_ ++ [t.tablet_id] }, sg.2)) }

/-- A catalog with one node "ts1" and one table "A" with the running tablet
"t1", nothing pending. -/
def exCatUnder : CatalogManager :=
  { exCatLeader with
    table_ids_map_ :=
      [("A", { (default : TableInfo) with
                id := "A"
                tablets :=
                  [{ tablet_id := "t1", table := some "A", is_running := true,
                     voters_in_transition := 0 }] })]
    ts_descs := [{ permanent_uuid := "ts1", cloud_info := default,
                   has_tablet_delete_pending := false }] }

/-- A balancer about to balance the load of table "A": node "ts1" hosts "t1" and
"t2", node "ts3" hosts nothing; drive-aware selection is off. -/
def exLbLoad : ClusterLoadBalancer :=
  { ClusterLoadBalancer.new exFlags with
    state_ := { exLeaderState false with sorted_load_ := ["ts3", "ts1"] }
    global_state_ := { ts_descs_ := [], total_starting_tablets_ := 0, drive_aware_ := false } }

/-- An environment in which a tablet can be added to a node exactly when the
node does not already run it. -/
def exEnvHost : Env :=
  { exEnv with
    CanAddTabletToTabletServer := fun st t ts _ =>
      .ok (!decide (t ∈ (lookupD st.per_ts_meta_ ts default).running_tablets)) }

/-- A catalog with one table "A" holding the running tablets "t1", "t2", "t3". -/
def exCatThree : CatalogManager :=
  { exCatLeader with
    tablet_map_ := exCatLeader.tablet_map_ ++
      [("t3", { tablet_id := "t3", table := some "A", is_running := true,
                voters_in_transition := 0 })] }

/-- The per-table state of "A" with an under-replicated tablet and a skewed
load: node "ts1" hosts "t1" and "t2", node "ts2" hosts "t3", node "ts3" hosts
nothing, and "t3" misses a replica; `pending_adds` are the pending add tasks. -/
def exMissingState (pending_adds : TabletToTabletServerMap) : PerTableLoadState :=
  { exTableState "A" [] with
    per_ts_meta_ :=
      [("ts1", { (default : CBTabletServerMetadata) with running_tablets := ["t1", "t2"] }),
       ("ts2", { (default : CBTabletServerMetadata) with running_tablets := ["t3"] }),
       ("ts3", (default : CBTabletServerMetadata))]
    per_tablet_meta_ :=
      [("t1", { (default : CBTabletMetadata) with leader_uuid := "ts1" }),
       ("t2", { (default : CBTabletMetadata) with leader_uuid := "ts1" }),
       ("t3", { (default : CBTabletMetadata) with leader_uuid := "ts2" })]
    tablets_missing_replicas_ := ["t3"]
    sorted_load_ := ["ts3", "ts2", "ts1"]
    pending_add_replica_tasks_ := [("A", pending_adds)] }

/-- A balancer about to add replicas for table "A", nothing pending. -/
def exLbMissing : ClusterLoadBalancer :=
  { ClusterLoadBalancer.new exFlags with
    state_ := exMissingState []
    global_state_ := { ts_descs_ := [], total_starting_tablets_ := 0, drive_aware_ := false } }

/-- The same balancer when an add of "t3" is already pending. -/
def exLbMissingPending : ClusterLoadBalancer :=
  { exLbMissing with state_ := exMissingState [("t3", "ts9")] }

/-- A balancer whose under-replicated tablet "t3" already runs on the least
loaded node "ts2", so that the next node "ts3" is the first eligible one. -/
def exLbMissingSecond : ClusterLoadBalancer :=
  { exLbMissing with
    state_ := { exMissingState [] with sorted_load_ := ["ts2", "ts3", "ts1"] } }

/-- The environment `exEnv` with `load_balancer_skip_leader_as_remove_victim`
set. -/
def exEnvSkip : Env :=
  { exEnv with flags := { exFlags with load_balancer_skip_leader_as_remove_victim := true } }

/-- The catalog of table "A" with the given cluster-wide replication factor. -/
def exCatRf (num_replicas : Int) : CatalogManager :=
  { exCatLeader with
    cluster_replication_info :=
      { (default : ReplicationInfoPB) with
        live_replicas := { (default : PlacementInfoPB) with num_replicas := num_replicas } } }

/-- A balancer whose table "A" has the over-replicated tablets "t1" and "t2",
both led by "ts1": the only removal candidate of "t1" is its leader "ts1", the
only one of "t2" is the follower "ts2". -/
def exLbTwoOver : ClusterLoadBalancer :=
  { ClusterLoadBalancer.new exFlags with
    state_ :=
      { exTableState "A" ["t1", "t2"] with
        per_tablet_meta_ :=
          [("t1", { (default : CBTabletMetadata) with
                     leader_uuid := "ts1", over_replicated_tablet_servers := ["ts1"] }),
           ("t2", { (default : CBTabletMetadata) with
                     leader_uuid := "ts1", over_replicated_tablet_servers := ["ts2"] })] } }

/-- The balancer `exLbLeader` without load-balancer metadata for the tablets:
"ts1" still lists "t1" and "t2" among its leaders, but `per_tablet_meta_` has no
entry for them (the case in which `GetLeaderToMove` logs "Did not find load
balancer metadata for tablet"). -/
def exLbNoMeta : ClusterLoadBalancer :=
  { ClusterLoadBalancer.new exFlags with
    state_ := { exLeaderState false with per_tablet_meta_ := [] } }

/-- A table "A" whose tablespace placement cannot be read; its tablet "t1" is
running. -/
def exTableFailing : TableInfo :=
  { (default : TableInfo) with
    id := "A"
    tablets := [{ tablet_id := "t1", table := some "A", is_running := true,
                  voters_in_transition := 0 }]
    tablespace_replication_info := .error (STATUS .Other "tablespace placement") }

/-- A table "B" without tablets. -/
def exTableB : TableInfo :=
  { (default : TableInfo) with id := "B" }

/-- A catalog with the two tables "A" and "B": the analysis of the running
tablet "t1" of "A" fails. -/
def exCatFailing : CatalogManager :=
  { exCatEmpty with
    table_ids_map_ := [("A", exTableFailing), ("B", exTableB)]
    tablet_map_ :=
      [("t1", { tablet_id := "t1", table := some "A", is_running := true,
                voters_in_transition := 0 })] }

/-- The balancer `exLbLoad` with the leader of "t2" on "ts2": of the two tablets
that "ts1" hosts, only "t1" has its leader there. -/
def exLbPrefer : ClusterLoadBalancer :=
  { exLbLoad with
    state_ := { exLbLoad.state_ with
      per_tablet_meta_ :=
        [("t1", { (default : CBTabletMetadata) with leader_uuid := "ts1" }),
         ("t2", { (default : CBTabletMetadata) with leader_uuid := "ts2" })] } }

/-- The balancer `exLbLeader` in which a step-down of "t1" to "ts2" failed at
time 0. -/
def exLbFailed : ClusterLoadBalancer :=
  { exLbLeader with
    state_ := { exLbLeader.state_ with
      per_tablet_meta_ :=
        [("t1", { (default : CBTabletMetadata) with
                   leader_uuid := "ts1", leader_stepdown_failures := [("ts2", 0)] }),
         ("t2", { (default : CBTabletMetadata) with leader_uuid := "ts1" })] } }

/-- The environment `exEnv` one hour (in milliseconds) after time 0; the retry
interval is 20 seconds. -/
def exEnvLater : Env :=
  { exEnv with now := 3600000 }

/-- A balancer whose table "A" has the over-replicated tablets "t1" and "t2";
"t1" also has a wrong placement, with a replica on the blacklisted node "ts2"
and a replica on the wrongly placed node "ts3". -/
def exLbWrong : ClusterLoadBalancer :=
  { ClusterLoadBalancer.new exFlags with
    state_ :=
      { exTableState "A" ["t1", "t2"] with
        tablets_wrong_placement_ := ["t1"]
        per_tablet_meta_ :=
          [("t1", { (default : CBTabletMetadata) with
                     leader_uuid := "ts1"
                     over_replicated_tablet_servers := ["ts1", "ts2", "ts3"]
                     blacklisted_tablet_servers := ["ts2"]
                     wrong_placement_tablet_servers := ["ts3"] }),
           ("t2", { (default : CBTabletMetadata) with
                     leader_uuid := "ts1", over_replicated_tablet_servers := ["ts2"] })] } }

/-- The environment `exEnvSkip` with a comparator that orders the nodes by their
per-table load. -/
def exEnvByLoad : Env :=
  { exEnvSkip with
    Comparator := fun st _ a b => decide (exEnv.GetLoad st a < exEnv.GetLoad st b) }

/-- A balancer whose table "A" has the over-replicated tablet "t1" with replicas
to spare on "ts1" and "ts2"; its leader is on "ts2", which hosts two tablets and
so has the greater load of the two. -/
def exLbSecond : ClusterLoadBalancer :=
  { ClusterLoadBalancer.new exFlags with
    state_ :=
      { exTableState "A" ["t1"] with
        per_ts_meta_ :=
          [("ts1", { (default : CBTabletServerMetadata) with running_tablets := ["t1"] }),
           ("ts2", { (default : CBTabletServerMetadata) with
                      running_tablets := ["t1", "t2"] })]
        per_tablet_meta_ :=
          [("t1", { (default : CBTabletMetadata) with
                     leader_uuid := "ts2"
                     over_replicated_tablet_servers := ["ts1", "ts2"] })] } }

/-- A transaction-status table "A". -/
def exTableTxn : TableInfo :=
  { (default : TableInfo) with id := "A", is_transaction_status_table := true }

/-- The options `exOptions` with a budget of three concurrent adds. -/
def exOptionsThree : Options :=
  { exOptions with kMaxConcurrentAdds := 3 }

/-- A catalog with one node "ts1" and one table "A" with the running tablets
"t1" and "t2"; an add-server task for "t2" is pending. -/
def exCatGuard : CatalogManager :=
  { exCatLeader with
    table_ids_map_ :=
      [("A", { (default : TableInfo) with
                id := "A"
                tablets :=
                  [{ tablet_id := "t1", table := some "A", is_running := true,
                     voters_in_transition := 0 },
                   { tablet_id := "t2", table := some "A", is_running := true,
                     voters_in_transition := 0 }]
                pending_add_server_tasks := [("t2", "ts9")] })]
    ts_descs := [{ permanent_uuid := "ts1", cloud_info := default,
                   has_tablet_delete_pending := false }] }

/-! ## Theorems -/

/-! ### Activity tracker -/

theorem two_pow_31_le (bits : Nat) (hb : 32 ≤ bits) : 2 ^ 31 + 1 < 2 ^ bits := by
  have h : (2 : Nat) ^ 32 ≤ 2 ^ bits := Nat.pow_le_pow_right (by norm_num) hb
  have h2 : (2 : Nat) ^ 31 + 1 < 2 ^ 32 := by norm_num
  omega

theorem cbuf_push_back_eq_lastN (cap : Nat) (buf : List ActivityInfo) (x : ActivityInfo)
    (hcap : 1 ≤ cap) (hlen : buf.length ≤ cap) :
    cbuf_push_back cap buf x = lastN cap (buf ++ [x]) := by
  unfold cbuf_push_back cbuf_full lastN
  have hc : cap ≠ 0 := by omega
  simp only [hc, if_false, beq_iff_eq, List.length_append, List.length_singleton]
  split
  · rename_i hfull
    cases buf with
    | nil => simp at hfull; omega
    | cons a t =>
      simp only [List.length_cons] at hfull
      have : (a :: t).length + 1 - cap = 1 := by simp only [List.length_cons]; omega
      rw [this]
      simp
  · rename_i hnot
    have : buf.length + 1 - cap = 0 := by omega
    rw [this]
    simp

theorem wrapInc_eq (bits n : Nat) (h : n + 1 < 2 ^ bits) : wrapInc bits n = n + 1 :=
  Nat.mod_eq_of_lt h

theorem wrapDec_eq (bits n : Nat) (h1 : 1 ≤ n) (h2 : n < 2 ^ bits) :
    wrapDec bits n = n - 1 := by
  unfold wrapDec
  have e : n + 2 ^ bits - 1 = (n - 1) + 2 ^ bits := by omega
  rw [e, Nat.add_mod_right]
  exact Nat.mod_eq_of_lt (by omega)

theorem lastN_lastN_append {α : Type} (cap : Nat) (u v : List α) :
    lastN cap (lastN cap u ++ v) = lastN cap (u ++ v) := by
  unfold lastN
  by_cases h : u.length ≤ cap
  · have : u.length - cap = 0 := by omega
    simp [this]
  · have hd : (List.drop (u.length - cap) u).length = cap := by
      rw [List.length_drop]; omega
    rw [List.length_append, hd, List.length_append]
    have e1 : cap + v.length - cap = v.length := by omega
    have e2 : u.length + v.length - cap = (u.length - cap) + v.length := by omega
    have e3 : List.drop (u.length - cap) (u ++ v) = List.drop (u.length - cap) u ++ v :=
      List.drop_append_of_le_length (by omega)
    rw [e1, e2, ← List.drop_drop, e3]

theorem lastN_length_le {α : Type} (cap : Nat) (l : List α) : (lastN cap l).length ≤ cap := by
  unfold lastN
  rw [List.length_drop]; omega

theorem RecordActivity_capacity (bits : Nat) (lb : ClusterLoadBalancer) (t : List Nat)
    (e : Nat) : (RecordActivity bits lb t e).cbuf_capacity_ = lb.cbuf_capacity_ := rfl

theorem RecordActivity_buffer (bits : Nat) (lb : ClusterLoadBalancer) (t : List Nat)
    (e : Nat) : (RecordActivity bits lb t e).cbuf_activities_ =
      cbuf_push_back lb.cbuf_capacity_ lb.cbuf_activities_ (RunInput.activity (t, e)) := rfl

theorem RecordActivity_is_idle (bits : Nat) (lb : ClusterLoadBalancer) (t : List Nat)
    (e : Nat) : (RecordActivity bits lb t e).is_idle_ =
      ((RecordActivity bits lb t e).num_idle_runs_ ==
        (RecordActivity bits lb t e).cbuf_activities_.length) := rfl

theorem RecordActivity_num_idle (bits : Nat) (lb : ClusterLoadBalancer) (t : List Nat)
    (e : Nat) : (RecordActivity bits lb t e).num_idle_runs_ =
      (let n1 := if (RunInput.activity (t, e)).IsIdle then wrapInc bits lb.num_idle_runs_
          else lb.num_idle_runs_
       if cbuf_full lb.cbuf_capacity_ lb.cbuf_activities_ &&
          (match lb.cbuf_activities_.head? with
            | some f => f.IsIdle
            | none => false)
       then wrapDec bits n1 else n1) := rfl

theorem cbuf_push_back_count (cap : Nat) (buf : List ActivityInfo) (ai : ActivityInfo)
    (hcap : 1 ≤ cap) :
    (cbuf_push_back cap buf ai).countP ActivityInfo.IsIdle +
      (if (cbuf_full cap buf &&
          (match buf.head? with
            | some f => f.IsIdle
            | none => false)) = true then 1 else 0) =
      buf.countP ActivityInfo.IsIdle + (if ai.IsIdle = true then 1 else 0) := by
  have hc : cap ≠ 0 := by omega
  cases buf with
  | nil =>
    have hne : ¬ (0 = cap) := by omega
    simp [cbuf_push_back, cbuf_full, hc, hne, List.countP_cons]
  | cons a rest =>
    by_cases hfull : rest.length + 1 = cap
    · simp only [cbuf_push_back, cbuf_full, hc, if_false, List.length_cons, hfull, beq_self_eq_true,
        if_true, List.tail_cons, List.head?_cons, Bool.true_and, List.countP_append,
        List.countP_cons, List.countP_nil]
      omega
    · have hb : (rest.length + 1 == cap) = false := by simpa using hfull
      simp only [cbuf_push_back, cbuf_full, hc, if_false, List.length_cons, hb,
        List.head?_cons, Bool.false_and, Bool.false_eq_true, List.cons_append,
        List.countP_append, List.countP_cons, List.countP_nil]
      omega

theorem cbuf_full_front_count (cap : Nat) (buf : List ActivityInfo)
    (h : (cbuf_full cap buf &&
          (match buf.head? with
            | some f => f.IsIdle
            | none => false)) = true) :
    1 ≤ buf.countP ActivityInfo.IsIdle := by
  cases buf with
  | nil => simp at h
  | cons a rest =>
    simp only [List.head?_cons, Bool.and_eq_true] at h
    simp only [List.countP_cons, h.2, if_true]
    omega

theorem RecordActivity_inv (bits : Nat) (lb : ClusterLoadBalancer) (t : List Nat) (e : Nat)
    (hcap : 1 ≤ lb.cbuf_capacity_) (hbits : lb.cbuf_capacity_ + 1 < 2 ^ bits)
    (hinv : TrackerInv lb) : TrackerInv (RecordActivity bits lb t e) := by
  obtain ⟨hnum, hlen⟩ := hinv
  refine ⟨?_, ?_⟩
  · rw [RecordActivity_num_idle, RecordActivity_buffer, hnum]
    have hA := cbuf_push_back_count lb.cbuf_capacity_ lb.cbuf_activities_
      (RunInput.activity (t, e)) hcap
    have hB := cbuf_full_front_count lb.cbuf_capacity_ lb.cbuf_activities_
    have hC : lb.cbuf_activities_.countP ActivityInfo.IsIdle ≤ lb.cbuf_activities_.length :=
      List.countP_le_length _
    generalize RunInput.activity (t, e) = ai at hA ⊢
    generalize (cbuf_full lb.cbuf_capacity_ lb.cbuf_activities_ &&
          (match lb.cbuf_activities_.head? with
            | some f => f.IsIdle
            | none => false)) = ff at hA hB ⊢
    generalize lb.cbuf_activities_.countP ActivityInfo.IsIdle = cnt at hA hB hC ⊢
    cases hi : ai.IsIdle <;> cases hf : ff <;>
      simp only [hi, hf, if_true, if_false, Bool.false_eq_true] at hA hB ⊢
    · omega
    · have := hB trivial
      rw [wrapDec_eq _ _ (by omega) (by omega)]; omega
    · rw [wrapInc_eq _ _ (by omega)]; omega
    · have := hB trivial
      rw [wrapInc_eq _ _ (by omega), wrapDec_eq _ _ (by omega) (by omega)]; omega
  · rw [RecordActivity_buffer, cbuf_push_back_eq_lastN _ _ _ hcap hlen]
    exact lastN_length_le _ _

theorem recordAll_snoc (bits : Nat) (lb : ClusterLoadBalancer) (rs : List RunInput)
    (r : RunInput) :
    recordAll bits lb (rs ++ [r]) = RecordActivity bits (recordAll bits lb rs) r.1 r.2 := by
  simp [recordAll, List.foldl_append]

theorem recordAll_capacity (bits : Nat) (lb : ClusterLoadBalancer) (runs : List RunInput) :
    (recordAll bits lb runs).cbuf_capacity_ = lb.cbuf_capacity_ := by
  induction runs using List.reverseRecOn with
  | nil => rfl
  | append_singleton rs r ih => rw [recordAll_snoc, RecordActivity_capacity, ih]

theorem recordAll_enabled (bits : Nat) (lb : ClusterLoadBalancer) (runs : List RunInput) :
    (recordAll bits lb runs).is_enabled_ = lb.is_enabled_ := by
  induction runs using List.reverseRecOn with
  | nil => rfl
  | append_singleton rs r ih => rw [recordAll_snoc]; exact ih

theorem recordAll_inv (bits : Nat) (lb : ClusterLoadBalancer) (runs : List RunInput)
    (hcap : 1 ≤ lb.cbuf_capacity_) (hbits : lb.cbuf_capacity_ + 1 < 2 ^ bits)
    (hinv : TrackerInv lb) : TrackerInv (recordAll bits lb runs) := by
  induction runs using List.reverseRecOn with
  | nil => exact hinv
  | append_singleton rs r ih =>
    rw [recordAll_snoc]
    apply RecordActivity_inv
    · rw [recordAll_capacity]; exact hcap
    · rw [recordAll_capacity]; exact hbits
    · exact ih

theorem recordAll_buffer (bits : Nat) (lb : ClusterLoadBalancer) (runs : List RunInput)
    (hcap : 1 ≤ lb.cbuf_capacity_) (hlen : lb.cbuf_activities_.length ≤ lb.cbuf_capacity_) :
    (recordAll bits lb runs).cbuf_activities_ =
      lastN lb.cbuf_capacity_ (lb.cbuf_activities_ ++ runs.map RunInput.activity) := by
  induction runs using List.reverseRecOn with
  | nil =>
    show lb.cbuf_activities_ = _
    unfold lastN
    have : (lb.cbuf_activities_ ++ List.map RunInput.activity []).length - lb.cbuf_capacity_ = 0 := by
      simp only [List.map_nil, List.append_nil]; omega
    rw [this]; simp
  | append_singleton rs r ih =>
    rw [recordAll_snoc, RecordActivity_buffer, recordAll_capacity, ih,
      cbuf_push_back_eq_lastN _ _ _ hcap (lastN_length_le _ _), lastN_lastN_append]
    simp [List.map_append, List.append_assoc]

theorem recordAll_is_idle (bits : Nat) (lb : ClusterLoadBalancer) (runs : List RunInput)
    (hne : runs ≠ []) :
    (recordAll bits lb runs).is_idle_ =
      ((recordAll bits lb runs).num_idle_runs_ ==
        (recordAll bits lb runs).cbuf_activities_.length) := by
  rcases List.eq_nil_or_concat runs with h | ⟨rs, r, h⟩
  · exact absurd h hne
  · subst h
    rw [List.concat_eq_append, recordAll_snoc]
    exact RecordActivity_is_idle _ _ _ _

theorem is_idle_iff_all_idle (bits : Nat) (lb : ClusterLoadBalancer) (runs : List RunInput)
    (hne : runs ≠ []) (hcap : 1 ≤ lb.cbuf_capacity_) (hbits : lb.cbuf_capacity_ + 1 < 2 ^ bits)
    (hinv : TrackerInv lb) :
    (recordAll bits lb runs).is_idle_ = true ↔
      ∀ ai ∈ (recordAll bits lb runs).cbuf_activities_, ai.IsIdle = true := by
  rw [recordAll_is_idle _ _ _ hne, (recordAll_inv bits lb runs hcap hbits hinv).1]
  simp only [beq_iff_eq]
  exact List.countP_eq_length

theorem not_isIdle_iff (ai : ActivityInfo) :
    ¬ ai.IsIdle = true ↔ (ai.table_tasks ≠ 0 ∨ ai.master_errors ≠ 0) := by
  unfold ActivityInfo.IsIdle
  simp only [Bool.and_eq_true, beq_iff_eq]
  constructor
  · intro h
    by_cases h1 : ai.table_tasks = 0
    · right; intro h2; exact h ⟨h1, h2⟩
    · left; exact h1
  · rintro (h | h) ⟨h1, h2⟩
    · exact h h1
    · exact h h2

theorem reachable_inv (bits : Nat) (flags : Flags) (lb : ClusterLoadBalancer)
    (hreach : Reachable bits flags lb) (hcap : 1 ≤ lb.cbuf_capacity_)
    (hbits : lb.cbuf_capacity_ + 1 < 2 ^ bits) : TrackerInv lb := by
  induction hreach with
  | init => exact ⟨rfl, Nat.zero_le _⟩
  | record lb r _ ih =>
    rw [RecordActivity_capacity] at hcap hbits
    exact RecordActivity_inv bits lb r.1 r.2 hcap hbits (ih hcap hbits)
  | other lb lb2 _ h1 h2 h3 ih =>
    rw [h1] at hcap hbits
    have := ih hcap hbits
    unfold TrackerInv at this ⊢
    rw [h1, h2, h3]; exact this

/-- C1: after a non-empty sequence of `RecordActivity` calls on an empty buffer of
capacity `N >= 1` with `num_idle_runs_ = 0`, the buffer holds the last
`min(k, N)` recorded runs, and `IsIdle()` returns the IllegalState "recently
active" error exactly when the load balancer is enabled and some held
`ActivityInfo` has a non-zero task or error count; otherwise it returns OK. -/
theorem C1_IsIdle_iff_recent_activity (bits : Nat) (flags : Flags)
    (lb0 : ClusterLoadBalancer) (runs : List RunInput)
    (hbits : 32 ≤ bits) (hN1 : 1 ≤ lb0.cbuf_capacity_) (hN2 : lb0.cbuf_capacity_ < 2 ^ 31)
    (hempty : lb0.cbuf_activities_ = []) (hzero : lb0.num_idle_runs_ = 0)
    (hne : runs ≠ []) :
    (recordAll bits lb0 runs).cbuf_activities_ =
        (runs.map RunInput.activity).drop
          (runs.length - min runs.length lb0.cbuf_capacity_) ∧
      (IsIdle flags (recordAll bits lb0 runs) = .error recentlyActive ↔
        (IsLoadBalancerEnabled flags (recordAll bits lb0 runs) = true ∧
          ∃ ai ∈ (recordAll bits lb0 runs).cbuf_activities_,
            ai.table_tasks ≠ 0 ∨ ai.master_errors ≠ 0)) ∧
      (¬ (IsLoadBalancerEnabled flags (recordAll bits lb0 runs) = true ∧
          ∃ ai ∈ (recordAll bits lb0 runs).cbuf_activities_,
            ai.table_tasks ≠ 0 ∨ ai.master_errors ≠ 0) →
        IsIdle flags (recordAll bits lb0 runs) = .ok ()) := by
  have hb : lb0.cbuf_capacity_ + 1 < 2 ^ bits := by
    have := two_pow_31_le bits hbits
    omega
  have hinv : TrackerInv lb0 := by
    unfold TrackerInv
    rw [hempty, hzero]
    exact ⟨rfl, Nat.zero_le _⟩
  have hidle := is_idle_iff_all_idle bits lb0 runs hne hN1 hb hinv
  have hcond : (IsLoadBalancerEnabled flags (recordAll bits lb0 runs) = true ∧
          ∃ ai ∈ (recordAll bits lb0 runs).cbuf_activities_,
            ai.table_tasks ≠ 0 ∨ ai.master_errors ≠ 0) ↔
      (IsLoadBalancerEnabled flags (recordAll bits lb0 runs) &&
        !(recordAll bits lb0 runs).is_idle_) = true := by
    simp only [Bool.and_eq_true, Bool.not_eq_true', ← Bool.not_eq_true, hidle]
    simp only [not_forall, ← not_isIdle_iff, exists_prop]
  refine ⟨?_, ?_, ?_⟩
  · rw [recordAll_buffer bits lb0 runs hN1 (by rw [hempty]; exact Nat.zero_le _), hempty]
    unfold lastN
    simp only [List.nil_append, List.length_map]
    congr 1
    omega
  · rw [hcond]
    unfold IsIdle
    split <;> simp_all
  · rw [hcond]
    intro h
    unfold IsIdle
    rw [if_neg h]

/-- Witness for C1: two-slot buffer, three runs, the busy run has been evicted. -/
theorem C1_IsIdle_iff_recent_activity_witness :
    (32 ≤ 64 ∧ 1 ≤ (ClusterLoadBalancer.new exFlags).cbuf_capacity_ ∧
      (ClusterLoadBalancer.new exFlags).cbuf_capacity_ < 2 ^ 31 ∧
      (ClusterLoadBalancer.new exFlags).cbuf_activities_ = [] ∧
      (ClusterLoadBalancer.new exFlags).num_idle_runs_ = 0 ∧ exRuns ≠ []) ∧
    ((recordAll 64 (ClusterLoadBalancer.new exFlags) exRuns).cbuf_activities_ =
        (exRuns.map RunInput.activity).drop
          (exRuns.length - min exRuns.length (ClusterLoadBalancer.new exFlags).cbuf_capacity_) ∧
      (IsIdle exFlags (recordAll 64 (ClusterLoadBalancer.new exFlags) exRuns) =
          .error recentlyActive ↔
        (IsLoadBalancerEnabled exFlags (recordAll 64 (ClusterLoadBalancer.new exFlags) exRuns)
            = true ∧
          ∃ ai ∈ (recordAll 64 (ClusterLoadBalancer.new exFlags) exRuns).cbuf_activities_,
            ai.table_tasks ≠ 0 ∨ ai.master_errors ≠ 0)) ∧
      (¬ (IsLoadBalancerEnabled exFlags (recordAll 64 (ClusterLoadBalancer.new exFlags) exRuns)
            = true ∧
          ∃ ai ∈ (recordAll 64 (ClusterLoadBalancer.new exFlags) exRuns).cbuf_activities_,
            ai.table_tasks ≠ 0 ∨ ai.master_errors ≠ 0) →
        IsIdle exFlags (recordAll 64 (ClusterLoadBalancer.new exFlags) exRuns) = .ok ())) :=
  ⟨⟨by decide, by decide, by decide, rfl, rfl, by decide⟩,
   C1_IsIdle_iff_recent_activity 64 exFlags (ClusterLoadBalancer.new exFlags) exRuns
     (by decide) (by decide) (by decide) rfl rfl (by decide)⟩

/-- C2: from every reachable balancer state with buffer capacity `N >= 1`, after
`N` consecutive `RecordActivity` calls that each record zero table tasks and
zero master errors, `is_idle_` is true and `IsIdle()` returns OK, whatever the
earlier history was. -/
theorem C2_idle_after_N_idle_runs (bits : Nat) (flags flagsNow : Flags)
    (lb : ClusterLoadBalancer) (runs : List RunInput)
    (hreach : Reachable bits flags lb) (hbits : 32 ≤ bits)
    (hN1 : 1 ≤ lb.cbuf_capacity_) (hN2 : lb.cbuf_capacity_ < 2 ^ 31)
    (hlen : runs.length = lb.cbuf_capacity_)
    (hidle : ∀ r ∈ runs, (RunInput.activity r).table_tasks = 0 ∧ (RunInput.activity r).master_errors = 0) :
    (recordAll bits lb runs).is_idle_ = true ∧
      IsIdle flagsNow (recordAll bits lb runs) = .ok () := by
  have hb : lb.cbuf_capacity_ + 1 < 2 ^ bits := by
    have := two_pow_31_le bits hbits
    omega
  have hinv := reachable_inv bits flags lb hreach hN1 hb
  have hne : runs ≠ [] := by
    intro h
    rw [h] at hlen
    simp only [List.length_nil] at hlen
    omega
  have hbuf : (recordAll bits lb runs).cbuf_activities_ = runs.map RunInput.activity := by
    rw [recordAll_buffer bits lb runs hN1 hinv.2]
    unfold lastN
    have e : (lb.cbuf_activities_ ++ runs.map RunInput.activity).length - lb.cbuf_capacity_ =
        lb.cbuf_activities_.length := by
      simp only [List.length_append, List.length_map]; omega
    rw [e]
    simp
  have h1 : (recordAll bits lb runs).is_idle_ = true := by
    rw [is_idle_iff_all_idle bits lb runs hne hN1 hb hinv, hbuf]
    intro ai hai
    obtain ⟨r, hr, rfl⟩ := List.mem_map.1 hai
    have := hidle r hr
    unfold ActivityInfo.IsIdle
    simp [this.1, this.2]
  refine ⟨h1, ?_⟩
  unfold IsIdle
  simp [h1]

/-- Witness for C2: the state reached after one busy run, then two idle runs. -/
theorem C2_idle_after_N_idle_runs_witness :
    (Reachable 64 exFlags (RecordActivity 64 (ClusterLoadBalancer.new exFlags) [3] 1) ∧
      32 ≤ 64 ∧
      1 ≤ (RecordActivity 64 (ClusterLoadBalancer.new exFlags) [3] 1).cbuf_capacity_ ∧
      (RecordActivity 64 (ClusterLoadBalancer.new exFlags) [3] 1).cbuf_capacity_ < 2 ^ 31 ∧
      [(([0, 0], 0) : RunInput), ([], 0)].length =
        (RecordActivity 64 (ClusterLoadBalancer.new exFlags) [3] 1).cbuf_capacity_ ∧
      ∀ r ∈ [(([0, 0], 0) : RunInput), ([], 0)],
        (RunInput.activity r).table_tasks = 0 ∧ (RunInput.activity r).master_errors = 0) ∧
    ((recordAll 64 (RecordActivity 64 (ClusterLoadBalancer.new exFlags) [3] 1)
        [([0, 0], 0), ([], 0)]).is_idle_ = true ∧
      IsIdle exFlags (recordAll 64 (RecordActivity 64 (ClusterLoadBalancer.new exFlags) [3] 1)
        [([0, 0], 0), ([], 0)]) = .ok ()) :=
  ⟨⟨Reachable.record _ ([3], 1) Reachable.init, by decide, by decide, by decide, rfl,
      by decide⟩,
   C2_idle_after_N_idle_runs 64 exFlags exFlags
     (RecordActivity 64 (ClusterLoadBalancer.new exFlags) [3] 1) [([0, 0], 0), ([], 0)]
     (Reachable.record _ ([3], 1) Reachable.init) (by decide) (by decide) (by decide) rfl
     (by decide)⟩

/-- C3: `RecordActivity` sets `can_perform_global_operations_` to its previous
value OR the idleness of the run's `ActivityInfo` (true after an idle run, the
previous value after a run with a task or an error), and
`CanBalanceGlobalLoad()` equals the enable flag AND
`can_perform_global_operations_`. -/
theorem C3_global_gate_update (bits : Nat) (flags : Flags) (lb : ClusterLoadBalancer)
    (num_lb_tasks : List Nat) (master_errors : Nat) :
    (RecordActivity bits lb num_lb_tasks master_errors).can_perform_global_operations_ =
        (lb.can_perform_global_operations_ ||
          (RunInput.activity (num_lb_tasks, master_errors)).IsIdle) ∧
      (if (RunInput.activity (num_lb_tasks, master_errors)).IsIdle = true
        then (RecordActivity bits lb num_lb_tasks master_errors).can_perform_global_operations_
          = true
        else (RecordActivity bits lb num_lb_tasks master_errors).can_perform_global_operations_
          = lb.can_perform_global_operations_) ∧
      (if lb.can_perform_global_operations_ = false
        then ((RecordActivity bits lb num_lb_tasks master_errors).can_perform_global_operations_
          = true ↔ (RunInput.activity (num_lb_tasks, master_errors)).IsIdle = true)
        else True) ∧
      CanBalanceGlobalLoad flags lb =
        (flags.enable_global_load_balancing && lb.can_perform_global_operations_) := by
  have h : (RecordActivity bits lb num_lb_tasks master_errors).can_perform_global_operations_ =
      (lb.can_perform_global_operations_ ||
        (RunInput.activity (num_lb_tasks, master_errors)).IsIdle) := rfl
  refine ⟨h, ?_, ?_, rfl⟩
  · rw [h]
    cases (RunInput.activity (num_lb_tasks, master_errors)).IsIdle <;> simp
  · rw [h]
    cases lb.can_perform_global_operations_ <;> simp

/-- C6: for every pending count `p >= 0` and budget `r >= 0`, `set_remaining`
leaves `max(0, r - p)`: zero when pending work exceeds the budget, never
negative, never larger than `r`; and each of the three run budgets is the
configured maximum reduced this way by the pending total. -/
theorem C6_set_remaining (p r : Int) (options : Options) (pa pr ps : Int)
    (hp : 0 ≤ p) (hr : 0 ≤ r) :
    set_remaining p r = max 0 (r - p) ∧
      (if p > r then set_remaining p r = 0 else set_remaining p r = r - p) ∧
      0 ≤ set_remaining p r ∧ set_remaining p r ≤ r ∧
      initialBudgets options pa pr ps =
        { remaining_adds := max 0 (options.kMaxConcurrentAdds - pa)
          remaining_removals := max 0 (options.kMaxConcurrentRemovals - pr)
          remaining_leader_moves := max 0 (options.kMaxConcurrentLeaderMoves - ps) } := by
  have key : ∀ a b : Int, set_remaining a b = max 0 (b - a) := by
    intro a b
    unfold set_remaining
    split
    · rw [max_eq_left]; omega
    · rw [max_eq_right]; omega
  refine ⟨key p r, ?_, ?_, ?_, ?_⟩
  · unfold set_remaining
    split <;> simp_all
  · rw [key]; exact le_max_left _ _
  · rw [key]; exact max_le hr (by omega)
  · simp only [initialBudgets, key]

/-- Witness for C6: five pending tasks against a budget of three. -/
theorem C6_set_remaining_witness :
    ((0 : Int) ≤ 5 ∧ (0 : Int) ≤ 3) ∧
    (set_remaining 5 3 = max 0 (3 - 5) ∧
      (if (5 : Int) > 3 then set_remaining 5 3 = 0 else set_remaining 5 3 = 3 - 5) ∧
      0 ≤ set_remaining 5 3 ∧ set_remaining 5 3 ≤ 3 ∧
      initialBudgets default 1 2 3 =
        { remaining_adds := max 0 ((default : Options).kMaxConcurrentAdds - 1)
          remaining_removals := max 0 ((default : Options).kMaxConcurrentRemovals - 2)
          remaining_leader_moves := max 0 ((default : Options).kMaxConcurrentLeaderMoves - 3) }) :=
  ⟨⟨by decide, by decide⟩, C6_set_remaining 5 3 default 1 2 3 (by decide) (by decide)⟩

/-! ### Budget checks of `HandleAddReplicas` -/

/-- C9: with bootstrap limiting enabled, `HandleAddReplicas` returns a TryAgain
error and leaves the balancer (per-table state, global state, commands sent)
unchanged, whatever the search tiers would do, whenever the cluster-wide count
of starting tablets is at least `kMaxTabletRemoteBootstraps` or the table's
count is at least `kMaxTabletRemoteBootstrapsPerTable`. -/
theorem C9_bootstrap_limit_try_again (env : Env) (cat : CatalogManager)
    (lb : ClusterLoadBalancer)
    (hallow : lb.state_.options_.kAllowLimitStartingTablets = true)
    (hlimit : lb.global_state_.total_starting_tablets_ ≥
        lb.state_.options_.kMaxTabletRemoteBootstraps ∨
      lb.state_.total_starting_ ≥ lb.state_.options_.kMaxTabletRemoteBootstrapsPerTable) :
    ∃ msg, HandleAddReplicas env cat lb = (.error (tryAgain msg), lb) := by
  unfold HandleAddReplicas
  by_cases h1 : lb.global_state_.total_starting_tablets_ ≥
      lb.state_.options_.kMaxTabletRemoteBootstraps
  · rw [if_pos ⟨hallow, h1⟩]
    exact ⟨_, rfl⟩
  · have h2 : lb.state_.total_starting_ ≥
        lb.state_.options_.kMaxTabletRemoteBootstrapsPerTable := by
      rcases hlimit with h | h
      · exact absurd h h1
      · exact h
    rw [if_neg (fun h => h1 h.2), if_pos ⟨hallow, h2⟩]
    exact ⟨_, rfl⟩

/-- Witness for C9: ten tablets are being bootstrapped, the ceiling is ten. -/
theorem C9_bootstrap_limit_try_again_witness :
    (exLbBootstrapping.state_.options_.kAllowLimitStartingTablets = true ∧
      (exLbBootstrapping.global_state_.total_starting_tablets_ ≥
          exLbBootstrapping.state_.options_.kMaxTabletRemoteBootstraps ∨
        exLbBootstrapping.state_.total_starting_ ≥
          exLbBootstrapping.state_.options_.kMaxTabletRemoteBootstrapsPerTable)) ∧
    ∃ msg, HandleAddReplicas exEnv exCatEmpty exLbBootstrapping =
      (.error (tryAgain msg), exLbBootstrapping) :=
  ⟨⟨rfl, Or.inl (by decide)⟩,
   C9_bootstrap_limit_try_again exEnv exCatEmpty exLbBootstrapping rfl (Or.inl (by decide))⟩

/-- Counterexample to C10 as stated: one tablet is over-replicated cluster-wide
(in table "A"), the ceiling is one and the limit is enabled, yet
`HandleAddReplicas` for table "B" does not fail: it searches and returns false. -/
theorem C10_counterexample :
    exLbTwoTables.state_.options_.kAllowLimitOverReplicatedTablets = true ∧
      clusterWideOverReplication exLbTwoTables ≥
        exLbTwoTables.state_.options_.kMaxOverReplicatedTablets ∧
      HandleAddReplicas exEnv exCatEmpty exLbTwoTables = (.ok none, exLbTwoTables) := by
  refine ⟨rfl, by decide, ?_⟩
  rfl

/-- C10 (amended): with the over-replication limit enabled, `HandleAddReplicas`
returns a TryAgain error and leaves the balancer unchanged (no search, no
command) whenever the number of over-replicated tablets of the current table,
which is what `get_total_over_replication()` returns, is at least
`kMaxOverReplicatedTablets`. -/
theorem C10_over_replication_limit_try_again (env : Env) (cat : CatalogManager)
    (lb : ClusterLoadBalancer)
    (hallow : lb.state_.options_.kAllowLimitOverReplicatedTablets = true)
    (hlimit : (lb.state_.tablets_over_replicated_.length : Int) ≥
      lb.state_.options_.kMaxOverReplicatedTablets) :
    get_total_over_replication lb = lb.state_.tablets_over_replicated_.length ∧
      ∃ msg, HandleAddReplicas env cat lb = (.error (tryAgain msg), lb) := by
  refine ⟨rfl, ?_⟩
  unfold HandleAddReplicas
  split
  · exact ⟨_, rfl⟩
  · split
    · exact ⟨_, rfl⟩
    · rw [if_pos ⟨hallow, hlimit⟩]
      exact ⟨_, rfl⟩

/-- Witness for the amended C10: the current table has one over-replicated
tablet and the ceiling is one. -/
theorem C10_over_replication_limit_try_again_witness :
    (exLbOverReplicated.state_.options_.kAllowLimitOverReplicatedTablets = true ∧
      (exLbOverReplicated.state_.tablets_over_replicated_.length : Int) ≥
        exLbOverReplicated.state_.options_.kMaxOverReplicatedTablets) ∧
    (get_total_over_replication exLbOverReplicated =
        exLbOverReplicated.state_.tablets_over_replicated_.length ∧
      ∃ msg, HandleAddReplicas exEnv exCatEmpty exLbOverReplicated =
        (.error (tryAgain msg), exLbOverReplicated)) :=
  ⟨⟨rfl, by decide⟩,
   C10_over_replication_limit_try_again exEnv exCatEmpty exLbOverReplicated rfl (by decide)⟩

/-! ### The global-balancing gate in `GetLoadToMove` -/

theorem SendReplicaChanges_gate (lb : ClusterLoadBalancer) (tablet : TabletInfo)
    (ts : TabletServerId) (is_add srl : Bool) (nl : TabletServerId) :
    (SendReplicaChanges lb tablet ts is_add srl nl).2.can_perform_global_operations_ =
      lb.can_perform_global_operations_ := by
  unfold SendReplicaChanges
  split_ifs <;> rfl

theorem MoveReplica_gate (env : Env) (cat : CatalogManager) (lb : ClusterLoadBalancer)
    (t : TabletId) (f g : TabletServerId) :
    (MoveReplica env cat lb t f g).2.can_perform_global_operations_ =
      lb.can_perform_global_operations_ := by
  have h := SendReplicaChanges_gate lb (GetTablet cat t) g true true ""
  unfold MoveReplica
  rcases hs : SendReplicaChanges lb (GetTablet cat t) g true true "" with ⟨r, lb1⟩
  rw [hs] at h
  cases r with
  | error e => exact h
  | ok u =>
    simp only [applyState]
    rcases ha : (env.state_AddReplica (lb1.state_, lb1.global_state_) t g).1 with e | u
    · exact h
    · simp only
      split_ifs
      · exact h
      · exact h

theorem loadSearch_gate (env : Env) (cat : CatalogManager) (lb : ClusterLoadBalancer)
    (high low : TabletServerId) (g : Bool) (next : Option (Decision × ClusterLoadBalancer))
    (out : Decision × ClusterLoadBalancer)
    (hg1 : g = true → env.GetLoad lb.state_ high - env.GetLoad lb.state_ low <
      lb.state_.options_.kMinLoadVarianceToBalance)
    (hg2 : g = false → lb.state_.options_.kMinLoadVarianceToBalance ≤
      env.GetLoad lb.state_ high - env.GetLoad lb.state_ low)
    (hnext : next = some out → GateEffect env lb out)
    (hm : loadSearch env cat lb high low g next = some out) : GateEffect env lb out := by
  unfold loadSearch at hm
  split at hm
  · cases hm; rfl
  · rename_i t _
    have hmv := MoveReplica_gate env cat lb t high low
    split at hm
    · rename_i e lb1 heq
      cases hm
      rw [heq] at hmv
      exact hmv
    · rename_i u lb1 heq
      cases hm
      rw [heq] at hmv
      cases g with
      | false =>
        refine ⟨fun _ => ⟨rfl, ?_⟩, fun hlt => ?_⟩
        · simp [CanBalanceGlobalLoad]
        · have := hg2 rfl
          simp only [loadVariance, Option.getD_some] at hlt
          omega
      | true =>
        refine ⟨fun hle => ?_, fun _ => hmv⟩
        have := hg1 rfl
        simp only [loadVariance, Option.getD_some] at hle
        omega
  · exact hnext hm

theorem loadInnerLoop_gate (env : Env) (cat : CatalogManager) (lb : ClusterLoadBalancer)
    (last_pos left : Nat) (rights : List Nat) (out : Decision × ClusterLoadBalancer)
    (h : loadInnerLoop env cat lb last_pos left rights = some out) :
    GateEffect env lb out := by
  induction rights with
  | nil => simp [loadInnerLoop] at h
  | cons right rights ih =>
    unfold loadInnerLoop at h
    simp only at h
    split_ifs at h with hc h1 h2 h3
    · cases h; rfl
    · cases h; rfl
    · refine loadSearch_gate env cat lb _ _ true _ out (fun _ => ?_) (fun hf => by cases hf) ih h
      rcases hc with hc | hc
      · subst hc
        have := h2.1
        omega
      · exact hc
    · exact loadSearch_gate env cat lb _ _ false _ out (fun hf => by cases hf) (fun _ => by
        have := not_or.1 hc
        omega) ih h

theorem loadOuterLoop_gate (env : Env) (cat : CatalogManager) (lb : ClusterLoadBalancer)
    (last_pos : Nat) (lefts : List Nat) :
    GateEffect env lb (loadOuterLoop env cat lb last_pos lefts) := by
  induction lefts with
  | nil => rfl
  | cons left lefts ih =>
    unfold loadOuterLoop
    split
    · rename_i r hr
      exact loadInnerLoop_gate env cat lb last_pos left _ r hr
    · exact ih

/-- C4: when `GetLoadToMove` returns true for a move that is not a
global-balancing one (the per-table load variance of the chosen pair is at least
`kMinLoadVarianceToBalance`), `can_perform_global_operations_` is false
afterwards and `CanBalanceGlobalLoad()` returns false; when the returned move is
a global-balancing one (variance below the threshold), or when the call returns
false or an error, `can_perform_global_operations_` is unchanged. -/
theorem C4_GetLoadToMove_gate (env : Env) (cat : CatalogManager)
    (lb : ClusterLoadBalancer) :
    match (GetLoadToMove env cat lb).1 with
    | .ok (some m) =>
      (if lb.state_.options_.kMinLoadVarianceToBalance ≤ loadVariance env lb m
        then (GetLoadToMove env cat lb).2.can_perform_global_operations_ = false ∧
          CanBalanceGlobalLoad env.flags (GetLoadToMove env cat lb).2 = false
        else (GetLoadToMove env cat lb).2.can_perform_global_operations_ =
          lb.can_perform_global_operations_)
    | .ok none =>
      (GetLoadToMove env cat lb).2.can_perform_global_operations_ =
        lb.can_perform_global_operations_
    | .error _ =>
      (GetLoadToMove env cat lb).2.can_perform_global_operations_ =
        lb.can_perform_global_operations_ := by
  have key : GateEffect env lb (GetLoadToMove env cat lb) := by
    unfold GetLoadToMove
    split
    · rfl
    · exact loadOuterLoop_gate env cat lb _ _
  unfold GateEffect at key
  generalize GetLoadToMove env cat lb = out at key ⊢
  rcases out with ⟨r, lb1⟩
  cases r with
  | error e => exact key
  | ok o =>
    cases o with
    | none => exact key
    | some m =>
      simp only at key ⊢
      split_ifs with hv
      · exact key.1 hv
      · exact key.2 (by omega)

/-! ### The global-balancing gate in `HandleLeaderMoves` -/

theorem MoveLeader_gate (env : Env) (cat : CatalogManager) (lb : ClusterLoadBalancer)
    (t : TabletId) (f g : TabletServerId) :
    (MoveLeader env cat lb t f g).2.can_perform_global_operations_ =
      lb.can_perform_global_operations_ := by
  have h := SendReplicaChanges_gate lb (GetTablet cat t) f false false g
  unfold MoveLeader
  rcases hs : SendReplicaChanges lb (GetTablet cat t) f false false g with ⟨r, lb1⟩
  rw [hs] at h
  cases r with
  | error e => exact h
  | ok u => exact h

theorem moveLeaderOf_gate (env : Env) (cat : CatalogManager) (lb : ClusterLoadBalancer)
    (m : Move) :
    (moveLeaderOf env cat lb m).2.can_perform_global_operations_ =
      lb.can_perform_global_operations_ := by
  have h := MoveLeader_gate env cat lb m.tablet_id (m.from_ts.getD "") (m.to_ts.getD "")
  unfold moveLeaderOf
  split
  · rename_i e lb1 heq; rw [heq] at h; exact h
  · rename_i u lb1 heq; rw [heq] at h; exact h

theorem moveLeaderOf_result (env : Env) (cat : CatalogManager) (lb : ClusterLoadBalancer)
    (m m2 : Move) (h : (moveLeaderOf env cat lb m).1 = .ok (some m2)) : m2 = m := by
  unfold moveLeaderOf at h
  split at h
  · cases h
  · cases h; rfl

theorem leaderSearch_gate (env : Env) (lb : ClusterLoadBalancer)
    (high low : TabletServerId) (g : Bool) (next : Option (Decision × ClusterLoadBalancer))
    (out : Decision × ClusterLoadBalancer)
    (hg1 : g = true → env.GetLeaderLoad lb.state_ high - env.GetLeaderLoad lb.state_ low <
        lb.state_.options_.kMinLeaderLoadVarianceToBalance ∧
      ¬ high ∈ lb.state_.leader_blacklisted_servers_)
    (hg2 : g = false → lb.state_.options_.kMinLeaderLoadVarianceToBalance ≤
        env.GetLeaderLoad lb.state_ high - env.GetLeaderLoad lb.state_ low ∨
      high ∈ lb.state_.leader_blacklisted_servers_)
    (hnext : next = some out → LeaderGateEffect env lb out)
    (hm : leaderSearch lb high low g next = some out) : LeaderGateEffect env lb out := by
  unfold leaderSearch at hm
  simp only at hm
  split at hm
  · cases hm
    cases g with
    | false =>
      refine ⟨fun _ => rfl, fun hn => ?_⟩
      exact absurd (hg2 rfl) hn
    | true =>
      refine ⟨fun hn => ?_, fun _ => rfl⟩
      have h1 := hg1 rfl
      rcases hn with hn | hn
      · simp only [leaderVariance, Option.getD_some] at hn
        omega
      · exact absurd hn h1.2
  · exact hnext hm

theorem leaderInnerLoop_gate (env : Env) (lb : ClusterLoadBalancer)
    (last_pos left : Nat) (rights : List Nat) (out : Decision × ClusterLoadBalancer)
    (h : leaderInnerLoop env lb last_pos left rights = some out) :
    LeaderGateEffect env lb out := by
  induction rights with
  | nil => simp [leaderInnerLoop] at h
  | cons right rights ih =>
    unfold leaderInnerLoop at h
    simp only at h
    split_ifs at h with hc h1 h2 h3
    · cases h; rfl
    · cases h; rfl
    · refine leaderSearch_gate env lb _ _ true _ out (fun _ => ?_) (fun hf => by cases hf) ih h
      rcases hc with hc | hc
      · subst hc
        have := h2.1
        omega
      · exact ⟨hc.1, by simpa using hc.2⟩
    · refine leaderSearch_gate env lb _ _ false _ out (fun hf => by cases hf) (fun _ => ?_) ih h
      have hn := not_or.1 hc
      by_cases hb : lb.state_.sorted_leader_load_.getD right "" ∈
          lb.state_.leader_blacklisted_servers_
      · exact Or.inr hb
      · left
        have h4 := hn.2
        simp only [not_and, decide_eq_false_iff_not] at h4
        have h5 : ¬ (env.GetLeaderLoad lb.state_ (lb.state_.sorted_leader_load_.getD right "") -
            env.GetLeaderLoad lb.state_ (lb.state_.sorted_leader_load_.getD left "") <
            lb.state_.options_.kMinLeaderLoadVarianceToBalance) := fun hlt => h4 hlt hb
        omega

theorem leaderOuterLoop_gate (env : Env) (lb : ClusterLoadBalancer)
    (last_pos : Nat) (lefts : List Nat) :
    LeaderGateEffect env lb (leaderOuterLoop env lb last_pos lefts) := by
  induction lefts with
  | nil => rfl
  | cons left lefts ih =>
    unfold leaderOuterLoop
    simp only
    split_ifs
    · rfl
    · split
      · rename_i r hr
        exact leaderInnerLoop_gate env lb last_pos left _ r hr
      · exact ih

theorem GetLeaderToMove_gate (env : Env) (lb : ClusterLoadBalancer) :
    LeaderGateEffect env lb (GetLeaderToMove env lb) := by
  unfold GetLeaderToMove
  split_ifs
  · rfl
  · rfl
  · exact leaderOuterLoop_gate env lb _ _

/-- Counterexample to C5 as stated: with preferred zones in use, the
affinity-repair search of `HandleLeaderMoves` moves the leader of "t1" from
"ts1" to "ts2" (leader-load variance 2, the threshold; a step-down command is
sent), and `can_perform_global_operations_` is still true afterwards, so
`CanBalanceGlobalLoad()` returns true. -/
theorem C5_counterexample :
    HandleLeaderLoadIfNonAffinitized exEnv exLbAffinity =
        .ok (some { tablet_id := "t1", from_ts := some "ts1", to_ts := some "ts2" }) ∧
      (HandleLeaderMoves exEnv exCatLeader exLbAffinity).1 =
        .ok (some { tablet_id := "t1", from_ts := some "ts1", to_ts := some "ts2" }) ∧
      (HandleLeaderMoves exEnv exCatLeader exLbAffinity).2.sent_ =
        [Command.LeaderStepDown "t1" "ts1" false "ts2"] ∧
      exLbAffinity.state_.options_.kMinLeaderLoadVarianceToBalance ≤
        leaderVariance exEnv exLbAffinity
          { tablet_id := "t1", from_ts := some "ts1", to_ts := some "ts2" } ∧
      (HandleLeaderMoves exEnv exCatLeader exLbAffinity).2.can_perform_global_operations_
        = true ∧
      CanBalanceGlobalLoad exFlags (HandleLeaderMoves exEnv exCatLeader exLbAffinity).2
        = true := by
  refine ⟨by rfl, by rfl, by rfl, by decide, by rfl, by rfl⟩

/-- C5 (amended): a leader move chosen by the affinity-repair search leaves
`can_perform_global_operations_` unchanged; when that search finds nothing and
`HandleLeaderMoves` executes a move chosen by `GetLeaderToMove` that is not a
global-balancing move, `can_perform_global_operations_` is false afterwards and
`CanBalanceGlobalLoad()` returns false. -/
theorem C5_leader_move_gate (env : Env) (cat : CatalogManager) (lb : ClusterLoadBalancer) :
    match affinityStep env lb with
    | .ok (some _) =>
      (HandleLeaderMoves env cat lb).2.can_perform_global_operations_ =
        lb.can_perform_global_operations_
    | .ok none =>
      (match (HandleLeaderMoves env cat lb).1 with
        | .ok (some m) =>
          if nonGlobalLeaderMove env lb m then
            (HandleLeaderMoves env cat lb).2.can_perform_global_operations_ = false ∧
              CanBalanceGlobalLoad env.flags (HandleLeaderMoves env cat lb).2 = false
          else True
        | _ => True)
    | .error _ => True := by
  have hdef : HandleLeaderMoves env cat lb =
      (match affinityStep env lb with
        | .error e => (.error e, lb)
        | .ok (some m) => moveLeaderOf env cat lb m
        | .ok none =>
          match GetLeaderToMove env lb with
          | (.error e, lb1) => (.error e, lb1)
          | (.ok (some m), lb1) => moveLeaderOf env cat lb1 m
          | (.ok none, lb1) => (.ok none, lb1)) := rfl
  rw [hdef]
  rcases haff : affinityStep env lb with e | o
  · trivial
  · cases o with
    | some m => exact moveLeaderOf_gate env cat lb m
    | none =>
      simp only
      have hg := GetLeaderToMove_gate env lb
      rcases hget : GetLeaderToMove env lb with ⟨r, lb1⟩
      rw [hget] at hg
      cases r with
      | error e => trivial
      | ok o2 =>
        cases o2 with
        | none => trivial
        | some m =>
          simp only
          unfold LeaderGateEffect at hg
          simp only at hg
          have hgate := moveLeaderOf_gate env cat lb1 m
          rcases hres : moveLeaderOf env cat lb1 m with ⟨r2, lb2⟩
          rw [hres] at hgate
          cases r2 with
          | error e => trivial
          | ok o3 =>
            cases o3 with
            | none => trivial
            | some m2 =>
              have hm2 : m2 = m := moveLeaderOf_result env cat lb1 m m2 (by rw [hres])
              subst hm2
              simp only
              split_ifs with hn
              · have h1 := hg.1 hn
                simp only at hgate
                refine ⟨by rw [hgate]; exact h1, ?_⟩
                simp [CanBalanceGlobalLoad, hgate, h1]

/-- Witness for the amended C5: without preferred zones, `GetLeaderToMove` moves
the leader of "t1" from "ts1" to "ts2" (variance 2, not a global-balancing move)
and the gate is closed. -/
theorem C5_leader_move_gate_witness :
    (HandleLeaderMoves exEnv exCatLeader exLbLeader).1 =
        .ok (some { tablet_id := "t1", from_ts := some "ts1", to_ts := some "ts2" }) ∧
      exLbLeader.can_perform_global_operations_ = true ∧
      (HandleLeaderMoves exEnv exCatLeader exLbLeader).2.can_perform_global_operations_
        = false ∧
      CanBalanceGlobalLoad exEnv.flags (HandleLeaderMoves exEnv exCatLeader exLbLeader).2
        = false := by
  have h := C5_leader_move_gate exEnv exCatLeader exLbLeader
  have ha : affinityStep exEnv exLbLeader = .ok none := by rfl
  have hr : (HandleLeaderMoves exEnv exCatLeader exLbLeader).1 =
      .ok (some { tablet_id := "t1", from_ts := some "ts1", to_ts := some "ts2" }) := by rfl
  rw [ha] at h
  simp only [hr] at h
  have hn : nonGlobalLeaderMove exEnv exLbLeader
      { tablet_id := "t1", from_ts := some "ts1", to_ts := some "ts2" } := by decide
  rw [if_pos hn] at h
  exact ⟨hr, rfl, h.1, h.2⟩

/-! ### Leader-move budget of a table -/

theorem successfulCalls_snoc (calls : List Decision) (d : Decision) :
    successfulCalls (calls ++ [d]) = successfulCalls calls +
      (match d with
        | .ok (some _) => 1
        | _ => 0) := by
  unfold successfulCalls
  rw [List.countP_append]
  congr 1
  rcases d with e | o
  · simp [List.countP_cons]
  · cases o <;> simp [List.countP_cons]

theorem leaderMovesLoop_spec (env : Env) (cat : CatalogManager) (fuel : Nat) :
    ∀ s : LeaderLoopState, 0 ≤ s.exec.remaining_leader_moves →
      0 ≤ s.table_remaining_leader_moves →
      ∃ k : Nat,
        successfulCalls (leaderMovesLoop env cat fuel s).calls = successfulCalls s.calls + k ∧
        (leaderMovesLoop env cat fuel s).exec.remaining_leader_moves =
          s.exec.remaining_leader_moves - k ∧
        (leaderMovesLoop env cat fuel s).table_remaining_leader_moves =
          s.table_remaining_leader_moves - k ∧
        0 ≤ (leaderMovesLoop env cat fuel s).exec.remaining_leader_moves ∧
        0 ≤ (leaderMovesLoop env cat fuel s).table_remaining_leader_moves := by
  induction fuel with
  | zero =>
    intro s hR hT
    exact ⟨0, by simp [leaderMovesLoop], by simp [leaderMovesLoop], by simp [leaderMovesLoop],
      hR, hT⟩
  | succ fuel ih =>
    intro s hR hT
    unfold leaderMovesLoop
    split_ifs with hc
    · split
      · refine ⟨0, ?_, by simp, by simp, hR, hT⟩
        simp only [successfulCalls_snoc, Nat.add_zero]
      · refine ⟨0, ?_, by simp, by simp, hR, hT⟩
        simp only [successfulCalls_snoc, Nat.add_zero]
      · rename_i m lb1 _
        obtain ⟨k, h1, h2, h3, h4, h5⟩ := ih
          { exec := { s.exec with
              lb := lb1, remaining_leader_moves := s.exec.remaining_leader_moves - 1 }
            table_remaining_leader_moves := s.table_remaining_leader_moves - 1
            calls := s.calls ++ [.ok (some m)] }
          (by simp only; omega) (by simp only; omega)
        refine ⟨k + 1, ?_, ?_, ?_, h4, h5⟩
        · rw [h1, successfulCalls_snoc]; simp only; omega
        · rw [h2]; simp only; push_cast; omega
        · rw [h3]; simp only; push_cast; omega
    · exact ⟨0, by simp, by simp, by simp, hR, hT⟩

theorem set_remaining_eq_max (a b : Int) : set_remaining a b = max 0 (b - a) := by
  unfold set_remaining
  split
  · rw [max_eq_left]; omega
  · rw [max_eq_right]; omega

/-- C8: for a table processed in the EXECUTE phase, with `R >= 0` the global
`remaining_leader_moves` on entry and `S` the table's pending step-down tasks,
the number of `HandleLeaderMoves` calls that return true is at most
`min(R, max(0, kMaxConcurrentLeaderMovesPerTable - S))`; the global
`remaining_leader_moves` decreases by exactly that number and stays
non-negative. -/
theorem C8_leader_moves_per_table_bound (env : Env) (cat : CatalogManager)
    (table_id : TableId) (s : ExecState) (hR : 0 ≤ s.remaining_leader_moves) :
    (successfulCalls (leaderMovesPhase env cat table_id s).calls : Int) ≤
        min s.remaining_leader_moves
          (max 0 (s.lb.state_.options_.kMaxConcurrentLeaderMovesPerTable -
            pendingStepdowns s.lb.state_ table_id)) ∧
      (leaderMovesPhase env cat table_id s).exec.remaining_leader_moves =
        s.remaining_leader_moves - successfulCalls (leaderMovesPhase env cat table_id s).calls ∧
      0 ≤ (leaderMovesPhase env cat table_id s).exec.remaining_leader_moves := by
  unfold leaderMovesPhase
  simp only
  rw [set_remaining_eq_max]
  obtain ⟨k, h1, h2, h3, h4, h5⟩ := leaderMovesLoop_spec env cat s.remaining_leader_moves.toNat
    { exec := s
      table_remaining_leader_moves :=
        max 0 (s.lb.state_.options_.kMaxConcurrentLeaderMovesPerTable -
          pendingStepdowns s.lb.state_ table_id)
      calls := [] } hR (le_max_left _ _)
  simp only at h1 h2 h3 h4 h5
  have h0 : successfulCalls ([] : List Decision) = 0 := rfl
  rw [h0, Nat.zero_add] at h1
  rw [h1]
  refine ⟨le_min (by omega) (by omega), h2, h4⟩

/-- Witness for C8: a global budget of two, a per-table budget of one, and a
table with two movable leaders: exactly one move is made. -/
theorem C8_leader_moves_per_table_bound_witness :
    (0 : Int) ≤ exExecLeader.remaining_leader_moves ∧
    successfulCalls (leaderMovesPhase exEnv exCatLeader "A" exExecLeader).calls = 1 ∧
    ((successfulCalls (leaderMovesPhase exEnv exCatLeader "A" exExecLeader).calls : Int) ≤
        min exExecLeader.remaining_leader_moves
          (max 0 (exExecLeader.lb.state_.options_.kMaxConcurrentLeaderMovesPerTable -
            pendingStepdowns exExecLeader.lb.state_ "A")) ∧
      (leaderMovesPhase exEnv exCatLeader "A" exExecLeader).exec.remaining_leader_moves =
        exExecLeader.remaining_leader_moves -
          successfulCalls (leaderMovesPhase exEnv exCatLeader "A" exExecLeader).calls ∧
      0 ≤ (leaderMovesPhase exEnv exCatLeader "A" exExecLeader).exec.remaining_leader_moves) :=
  ⟨by decide, by rfl,
   C8_leader_moves_per_table_bound exEnv exCatLeader "A" exExecLeader (by decide)⟩

/-! ### Add-server commands and the add budget -/

theorem countAdds_snoc (l : List Command) (c : Command) :
    countAdds (l ++ [c]) = countAdds l +
      (match c with
        | .AddServer _ _ _ => 1
        | _ => 0) := by
  unfold countAdds
  rw [List.countP_append]
  congr 1
  cases c <;> simp [List.countP_cons]

theorem SendReplicaChanges_add (lb : ClusterLoadBalancer) (tablet : TabletInfo)
    (ts : TabletServerId) (srl : Bool) (nl : TabletServerId) :
    match SendReplicaChanges lb tablet ts true srl nl with
    | (.error _, lb1) => lb1 = lb
    | (.ok _, lb1) => countAdds lb1.sent_ = countAdds lb.sent_ + 1 ∧
        lb1.state_ = lb.state_ ∧ lb1.global_state_ = lb.global_state_ := by
  unfold SendReplicaChanges
  simp only [if_true]
  split_ifs
  · rfl
  · exact ⟨by simp only [countAdds_snoc], rfl, rfl⟩

theorem SendReplicaChanges_nonadd (lb : ClusterLoadBalancer) (tablet : TabletInfo)
    (ts : TabletServerId) (srl : Bool) (nl : TabletServerId) :
    countAdds (SendReplicaChanges lb tablet ts false srl nl).2.sent_ = countAdds lb.sent_ := by
  unfold SendReplicaChanges
  simp only [Bool.false_eq_true, if_false]
  split_ifs <;> simp only [countAdds_snoc, Nat.add_zero]

theorem oracle_error_not_ok (env : Env) (r : StatusOr Unit) (e : Status)
    (hr : r = .error e) (hok : BookkeepingOk env → r = .ok ()) : ¬ BookkeepingOk env := by
  intro hb
  rw [hok hb] at hr
  cases hr

theorem AddReplica_effect (env : Env) (cat : CatalogManager) (lb : ClusterLoadBalancer)
    (t : TabletId) (ts : TabletServerId) : SendEffect env lb (AddReplica env cat lb t ts) := by
  have hs := SendReplicaChanges_add lb (GetTablet cat t) ts true ""
  unfold AddReplica
  rcases hsend : SendReplicaChanges lb (GetTablet cat t) ts true true "" with ⟨r, lb1⟩
  rw [hsend] at hs
  cases r with
  | error e =>
    simp only at hs
    subst hs
    exact Or.inl rfl
  | ok u =>
    simp only at hs ⊢
    unfold SendEffect applyState
    simp only
    rcases ho : (env.state_AddReplica (lb1.state_, lb1.global_state_) t ts).1 with e | u
    · exact Or.inr ⟨oracle_error_not_ok env _ e ho (fun hb => hb.1 _ _ _), hs.1⟩
    · exact hs.1

theorem MoveReplica_effect (env : Env) (cat : CatalogManager) (lb : ClusterLoadBalancer)
    (t : TabletId) (f g : TabletServerId) :
    SendEffect env lb (MoveReplica env cat lb t f g) := by
  have hs := SendReplicaChanges_add lb (GetTablet cat t) g true ""
  unfold MoveReplica
  rcases hsend : SendReplicaChanges lb (GetTablet cat t) g true true "" with ⟨r, lb1⟩
  rw [hsend] at hs
  cases r with
  | error e =>
    simp only at hs
    subst hs
    exact Or.inl rfl
  | ok u =>
    simp only at hs ⊢
    unfold applyState
    try simp only
    rcases ho : (env.state_AddReplica (lb1.state_, lb1.global_state_) t g).1 with e | u
    · exact Or.inr ⟨oracle_error_not_ok env _ e ho (fun hb => hb.1 _ _ _), hs.1⟩
    · try simp only
      split_ifs
      · exact hs.1
      · unfold SendEffect
        try simp only
        split
        · exact hs.1
        · rename_i e he
          exact Or.inr ⟨oracle_error_not_ok env _ e he (fun hb => hb.2 _ _ _), hs.1⟩

theorem HandleAddIfMissingPlacement_effect (env : Env) (cat : CatalogManager)
    (lb : ClusterLoadBalancer) :
    AddEffect env lb (HandleAddIfMissingPlacement env cat lb) := by
  unfold HandleAddIfMissingPlacement
  split
  · exact Or.inl rfl
  · rfl
  · rename_i t ts _
    have h := AddReplica_effect env cat lb t ts
    unfold SendEffect at h
    split
    · rename_i e lb1 heq
      rw [heq] at h
      exact h
    · rename_i u lb1 heq
      rw [heq] at h
      exact h

theorem HandleAddIfWrongPlacement_effect (env : Env) (cat : CatalogManager)
    (lb : ClusterLoadBalancer) :
    AddEffect env lb (HandleAddIfWrongPlacement env cat lb) := by
  unfold HandleAddIfWrongPlacement
  split
  · exact Or.inl rfl
  · rfl
  · rename_i t f g _
    have h := MoveReplica_effect env cat lb t f g
    unfold SendEffect at h
    split
    · rename_i e lb1 heq
      rw [heq] at h
      exact h
    · rename_i u lb1 heq
      rw [heq] at h
      exact h

theorem loadSearch_effect (env : Env) (cat : CatalogManager) (lb : ClusterLoadBalancer)
    (high low : TabletServerId) (g : Bool) (next : Option (Decision × ClusterLoadBalancer))
    (out : Decision × ClusterLoadBalancer)
    (hnext : next = some out → AddEffect env lb out)
    (hm : loadSearch env cat lb high low g next = some out) : AddEffect env lb out := by
  unfold loadSearch at hm
  split at hm
  · cases hm; exact Or.inl rfl
  · rename_i t _
    have h := MoveReplica_effect env cat lb t high low
    unfold SendEffect at h
    split at hm
    · rename_i e lb1 heq
      cases hm
      rw [heq] at h
      exact h
    · rename_i u lb1 heq
      cases hm
      rw [heq] at h
      cases g <;> exact h
  · exact hnext hm

theorem loadInnerLoop_effect (env : Env) (cat : CatalogManager) (lb : ClusterLoadBalancer)
    (last_pos left : Nat) (rights : List Nat) (out : Decision × ClusterLoadBalancer)
    (h : loadInnerLoop env cat lb last_pos left rights = some out) :
    AddEffect env lb out := by
  induction rights with
  | nil => simp [loadInnerLoop] at h
  | cons right rights ih =>
    unfold loadInnerLoop at h
    simp only at h
    split_ifs at h
    · cases h; rfl
    · cases h; rfl
    · exact loadSearch_effect env cat lb _ _ true _ out ih h
    · exact loadSearch_effect env cat lb _ _ false _ out ih h

theorem loadOuterLoop_effect (env : Env) (cat : CatalogManager) (lb : ClusterLoadBalancer)
    (last_pos : Nat) (lefts : List Nat) :
    AddEffect env lb (loadOuterLoop env cat lb last_pos lefts) := by
  induction lefts with
  | nil => exact Or.inl rfl
  | cons left lefts ih =>
    unfold loadOuterLoop
    split
    · rename_i r hr
      exact loadInnerLoop_effect env cat lb last_pos left _ r hr
    · exact ih

theorem GetLoadToMove_effect (env : Env) (cat : CatalogManager) (lb : ClusterLoadBalancer) :
    AddEffect env lb (GetLoadToMove env cat lb) := by
  unfold GetLoadToMove
  split
  · rfl
  · exact loadOuterLoop_effect env cat lb _ _

theorem AddEffect_of_same (env : Env) (lb lb1 : ClusterLoadBalancer)
    (out : Decision × ClusterLoadBalancer) (hsame : countAdds lb1.sent_ = countAdds lb.sent_)
    (h : AddEffect env lb1 out) : AddEffect env lb out := by
  unfold AddEffect at h ⊢
  rw [hsame] at h
  exact h

theorem HandleAddReplicas_effect (env : Env) (cat : CatalogManager)
    (lb : ClusterLoadBalancer) : AddEffect env lb (HandleAddReplicas env cat lb) := by
  unfold HandleAddReplicas
  split_ifs
  · exact Or.inl rfl
  · exact Or.inl rfl
  · exact Or.inl rfl
  · have h1 := HandleAddIfMissingPlacement_effect env cat lb
    split
    · rename_i e lb1 heq; rw [heq] at h1; exact h1
    · rename_i m lb1 heq; rw [heq] at h1; exact h1
    · rename_i lb1 heq
      rw [heq] at h1
      have h2 := AddEffect_of_same env lb lb1 _ h1 (HandleAddIfWrongPlacement_effect env cat lb1)
      split
      · rename_i e lb2 heq2; rw [heq2] at h2; exact h2
      · rename_i m lb2 heq2; rw [heq2] at h2; exact h2
      · rename_i lb2 heq2
        rw [heq2] at h2
        exact AddEffect_of_same env lb lb2 _ h2 (GetLoadToMove_effect env cat lb2)

theorem RemoveReplica_adds (env : Env) (cat : CatalogManager) (lb : ClusterLoadBalancer)
    (t : TabletId) (ts : TabletServerId) :
    countAdds (RemoveReplica env cat lb t ts).2.sent_ = countAdds lb.sent_ := by
  have h := SendReplicaChanges_nonadd lb (GetTablet cat t) ts true ""
  unfold RemoveReplica
  rcases hs : SendReplicaChanges lb (GetTablet cat t) ts false true "" with ⟨r, lb1⟩
  rw [hs] at h
  cases r <;> exact h

theorem MoveLeader_adds (env : Env) (cat : CatalogManager) (lb : ClusterLoadBalancer)
    (t : TabletId) (f g : TabletServerId) :
    countAdds (MoveLeader env cat lb t f g).2.sent_ = countAdds lb.sent_ := by
  have h := SendReplicaChanges_nonadd lb (GetTablet cat t) f false g
  unfold MoveLeader
  rcases hs : SendReplicaChanges lb (GetTablet cat t) f false false g with ⟨r, lb1⟩
  rw [hs] at h
  cases r <;> exact h

theorem HandleRemoveIfWrongPlacement_adds (env : Env) (cat : CatalogManager)
    (lb : ClusterLoadBalancer) :
    countAdds (HandleRemoveIfWrongPlacement env cat lb).2.sent_ = countAdds lb.sent_ := by
  unfold HandleRemoveIfWrongPlacement
  split
  · rfl
  · rename_i t ts _
    have h := RemoveReplica_adds env cat lb t ts
    split
    · rename_i e lb1 heq; rw [heq] at h; exact h
    · rename_i u lb1 heq; rw [heq] at h; exact h

theorem HandleRemoveReplicas_adds (env : Env) (cat : CatalogManager)
    (lb : ClusterLoadBalancer) :
    countAdds (HandleRemoveReplicas env cat lb).2.sent_ = countAdds lb.sent_ := by
  have h1 := HandleRemoveIfWrongPlacement_adds env cat lb
  unfold HandleRemoveReplicas
  split
  · rename_i e lb1 heq; rw [heq] at h1; exact h1
  · rename_i m lb1 heq; rw [heq] at h1; exact h1
  · rename_i lb1 heq
    rw [heq] at h1
    simp only at h1
    split
    · exact h1
    · exact h1
    · rename_i t ts _
      have h := RemoveReplica_adds env cat lb1 t ts
      split
      · rename_i e lb2 heq2; rw [heq2] at h; simp only at h ⊢; omega
      · rename_i u lb2 heq2; rw [heq2] at h; simp only at h ⊢; omega

theorem moveLeaderOf_adds (env : Env) (cat : CatalogManager) (lb : ClusterLoadBalancer)
    (m : Move) : countAdds (moveLeaderOf env cat lb m).2.sent_ = countAdds lb.sent_ := by
  have h := MoveLeader_adds env cat lb m.tablet_id (m.from_ts.getD "") (m.to_ts.getD "")
  unfold moveLeaderOf
  split
  · rename_i e lb1 heq; rw [heq] at h; exact h
  · rename_i u lb1 heq; rw [heq] at h; exact h

theorem leaderInnerLoop_sent (env : Env) (lb : ClusterLoadBalancer)
    (last_pos left : Nat) (rights : List Nat) (out : Decision × ClusterLoadBalancer)
    (h : leaderInnerLoop env lb last_pos left rights = some out) :
    out.2.sent_ = lb.sent_ := by
  induction rights with
  | nil => simp [leaderInnerLoop] at h
  | cons right rights ih =>
    have hsearch : ∀ high low g,
        leaderSearch lb high low g (leaderInnerLoop env lb last_pos left rights) = some out →
        out.2.sent_ = lb.sent_ := by
      intro high low g hm
      unfold leaderSearch at hm
      simp only at hm
      split at hm
      · cases hm
        cases g <;> rfl
      · exact ih hm
    unfold leaderInnerLoop at h
    simp only at h
    split_ifs at h
    · cases h; rfl
    · cases h; rfl
    · exact hsearch _ _ _ h
    · exact hsearch _ _ _ h

theorem GetLeaderToMove_sent (env : Env) (lb : ClusterLoadBalancer) :
    (GetLeaderToMove env lb).2.sent_ = lb.sent_ := by
  have houter : ∀ last_pos lefts, (leaderOuterLoop env lb last_pos lefts).2.sent_ = lb.sent_ := by
    intro last_pos lefts
    induction lefts with
    | nil => rfl
    | cons left lefts ih =>
      unfold leaderOuterLoop
      simp only
      split_ifs
      · rfl
      · split
        · rename_i r hr
          exact leaderInnerLoop_sent env lb last_pos left _ r hr
        · exact ih
  unfold GetLeaderToMove
  split_ifs
  · rfl
  · rfl
  · exact houter _ _

theorem HandleLeaderMoves_adds (env : Env) (cat : CatalogManager)
    (lb : ClusterLoadBalancer) :
    countAdds (HandleLeaderMoves env cat lb).2.sent_ = countAdds lb.sent_ := by
  unfold HandleLeaderMoves
  simp only
  split
  · rfl
  · exact moveLeaderOf_adds env cat lb _
  · have h := GetLeaderToMove_sent env lb
    split
    · rename_i e lb1 heq; rw [heq] at h; simp only at h ⊢; rw [h]
    · rename_i m lb1 heq
      rw [heq] at h
      simp only at h
      rw [moveLeaderOf_adds, h]
    · rename_i lb1 heq; rw [heq] at h; simp only at h ⊢; rw [h]

theorem addReplicasLoop_spec (env : Env) (cat : CatalogManager) (fuel : Nat) :
    ∀ s : ExecState,
      countAdds s.lb.sent_ ≤ countAdds (addReplicasLoop env cat fuel s).lb.sent_ ∧
      countAdds (addReplicasLoop env cat fuel s).lb.sent_ ≤ countAdds s.lb.sent_ + fuel ∧
      (0 ≤ s.remaining_adds → 0 ≤ (addReplicasLoop env cat fuel s).remaining_adds) ∧
      (addReplicasLoop env cat fuel s).remaining_removals = s.remaining_removals ∧
      (addReplicasLoop env cat fuel s).remaining_leader_moves = s.remaining_leader_moves ∧
      (BookkeepingOk env →
        (countAdds (addReplicasLoop env cat fuel s).lb.sent_ : Int) +
            (addReplicasLoop env cat fuel s).remaining_adds =
          countAdds s.lb.sent_ + s.remaining_adds) := by
  induction fuel with
  | zero =>
    intro s
    simp [addReplicasLoop]
  | succ fuel ih =>
    intro s
    unfold addReplicasLoop
    split_ifs with hpos honly
    · simp
    · have he := HandleAddReplicas_effect env cat s.lb
      unfold AddEffect at he
      split
      · rename_i e lb1 heq
        rw [heq] at he
        simp only at he ⊢
        refine ⟨by omega, by omega, fun h => h, trivial, trivial, fun hb => ?_⟩
        rcases he with he | he
        · rw [he]
        · exact absurd hb he.1
      · rename_i lb1 heq
        rw [heq] at he
        simp only at he ⊢
        exact ⟨by omega, by omega, fun h => h, trivial, trivial, fun _ => by rw [he]⟩
      · rename_i m lb1 heq
        rw [heq] at he
        simp only at he
        obtain ⟨h1, h2, h3, h4, h5, h6⟩ :=
          ih { s with lb := lb1, remaining_adds := s.remaining_adds - 1 }
        simp only at h1 h2 h3 h4 h5 h6
        refine ⟨by omega, by omega, fun _ => h3 (by omega), h4, h5, fun hb => ?_⟩
        rw [h6 hb, he]
        push_cast
        omega
    · simp

theorem removeReplicasLoop_spec (env : Env) (cat : CatalogManager) (fuel : Nat) :
    ∀ s : ExecState,
      countAdds (removeReplicasLoop env cat fuel s).lb.sent_ = countAdds s.lb.sent_ ∧
      (removeReplicasLoop env cat fuel s).remaining_adds = s.remaining_adds ∧
      (0 ≤ s.remaining_removals → 0 ≤ (removeReplicasLoop env cat fuel s).remaining_removals) ∧
      (removeReplicasLoop env cat fuel s).remaining_leader_moves = s.remaining_leader_moves := by
  induction fuel with
  | zero =>
    intro s
    simp [removeReplicasLoop]
  | succ fuel ih =>
    intro s
    unfold removeReplicasLoop
    split_ifs with hpos honly
    · simp
    · have he := HandleRemoveReplicas_adds env cat s.lb
      split
      · rename_i e lb1 heq
        rw [heq] at he
        exact ⟨he, rfl, fun h => h, rfl⟩
      · rename_i lb1 heq
        rw [heq] at he
        exact ⟨he, rfl, fun h => h, rfl⟩
      · rename_i m lb1 heq
        rw [heq] at he
        simp only at he
        obtain ⟨h1, h2, h3, h4⟩ :=
          ih { s with lb := lb1, remaining_removals := s.remaining_removals - 1 }
        simp only at h1 h2 h3 h4
        exact ⟨by rw [h1, he], h2, fun _ => h3 (by omega), h4⟩
    · simp

theorem leaderMovesLoop_adds (env : Env) (cat : CatalogManager) (fuel : Nat) :
    ∀ s : LeaderLoopState,
      countAdds (leaderMovesLoop env cat fuel s).exec.lb.sent_ = countAdds s.exec.lb.sent_ ∧
      (leaderMovesLoop env cat fuel s).exec.remaining_adds = s.exec.remaining_adds ∧
      (leaderMovesLoop env cat fuel s).exec.remaining_removals = s.exec.remaining_removals := by
  induction fuel with
  | zero =>
    intro s
    simp [leaderMovesLoop]
  | succ fuel ih =>
    intro s
    unfold leaderMovesLoop
    split_ifs with hc
    · have he := HandleLeaderMoves_adds env cat s.exec.lb
      split
      · rename_i e lb1 heq
        rw [heq] at he
        exact ⟨he, rfl, rfl⟩
      · rename_i lb1 heq
        rw [heq] at he
        exact ⟨he, rfl, rfl⟩
      · rename_i m lb1 heq
        rw [heq] at he
        simp only at he
        obtain ⟨h1, h2, h3⟩ := ih
          { exec := { s.exec with
              lb := lb1, remaining_leader_moves := s.exec.remaining_leader_moves - 1 }
            table_remaining_leader_moves := s.table_remaining_leader_moves - 1
            calls := s.calls ++ [.ok (some m)] }
        simp only at h1 h2 h3
        exact ⟨by rw [h1, he], h2, h3⟩
    · simp

theorem leaderMovesPhase_adds (env : Env) (cat : CatalogManager) (table_id : TableId)
    (s : ExecState) :
    countAdds (leaderMovesPhase env cat table_id s).exec.lb.sent_ = countAdds s.lb.sent_ ∧
      (leaderMovesPhase env cat table_id s).exec.remaining_adds = s.remaining_adds := by
  unfold leaderMovesPhase
  obtain ⟨h1, h2, _⟩ := leaderMovesLoop_adds env cat s.remaining_leader_moves.toNat
    { exec := s
      table_remaining_leader_moves :=
        set_remaining (pendingStepdowns s.lb.state_ table_id)
          s.lb.state_.options_.kMaxConcurrentLeaderMovesPerTable
      calls := [] }
  exact ⟨h1, h2⟩

theorem executeTable_spec (env : Env) (cat : CatalogManager) (table_id : TableId)
    (st : PerTableLoadState) (s : ExecState) :
    countAdds s.lb.sent_ ≤ countAdds (executeTable env cat table_id st s).lb.sent_ ∧
      countAdds (executeTable env cat table_id st s).lb.sent_ ≤
        countAdds s.lb.sent_ + s.remaining_adds.toNat ∧
      (0 ≤ s.remaining_adds → 0 ≤ (executeTable env cat table_id st s).remaining_adds) ∧
      (BookkeepingOk env →
        (countAdds (executeTable env cat table_id st s).lb.sent_ : Int) +
            (executeTable env cat table_id st s).remaining_adds =
          countAdds s.lb.sent_ + s.remaining_adds) := by
  obtain ⟨a1, a2, a3, _, _, a6⟩ := addReplicasLoop_spec env cat s.remaining_adds.toNat
    { s with lb := { s.lb with
        state_ := env.state_SortLoad (st, s.lb.global_state_) } }
  simp only at a1 a2 a3 a6
  unfold executeTable
  simp only
  split_ifs
  · exact ⟨a1, a2, a3, a6⟩
  · generalize addReplicasLoop env cat s.remaining_adds.toNat
      { s with lb := { s.lb with
          state_ := env.state_SortLoad (st, s.lb.global_state_) } } = s1 at a1 a2 a3 a6 ⊢
    obtain ⟨r1, r2, _, _⟩ := removeReplicasLoop_spec env cat s1.remaining_removals.toNat s1
    obtain ⟨l1, l2⟩ := leaderMovesPhase_adds env cat table_id
      (removeReplicasLoop env cat s1.remaining_removals.toNat s1)
    rw [l1, l2, r1, r2]
    exact ⟨a1, a2, a3, a6⟩

theorem executeLoop_spec (env : Env) (cat : CatalogManager)
    (tables : List (TableId × TableInfo)) :
    ∀ s : ExecState, 0 ≤ s.remaining_adds →
      countAdds s.lb.sent_ ≤ countAdds (executeLoop env cat tables s).lb.sent_ ∧
      0 ≤ (executeLoop env cat tables s).remaining_adds ∧
      (BookkeepingOk env →
        (countAdds (executeLoop env cat tables s).lb.sent_ : Int) +
            (executeLoop env cat tables s).remaining_adds =
          countAdds s.lb.sent_ + s.remaining_adds) := by
  induction tables with
  | nil =>
    intro s h0
    exact ⟨le_refl _, h0, fun _ => rfl⟩
  | cons table rest ih =>
    intro s h0
    unfold executeLoop
    split_ifs
    · exact ⟨le_refl _, h0, fun _ => rfl⟩
    · exact ih s h0
    · split
      · exact ih s h0
      · rename_i st _
        obtain ⟨e1, _, e3, e4⟩ := executeTable_spec env cat table.1 st s
        obtain ⟨i1, i2, i3⟩ := ih (executeTable env cat table.1 st s) (e3 h0)
        refine ⟨le_trans e1 i1, i2, fun hb => ?_⟩
        rw [i3 hb, e4 hb]

theorem applyState_sent (lb : ClusterLoadBalancer)
    (r : StatusOr Unit × (PerTableLoadState × GlobalLoadState)) :
    (applyState lb r).2.sent_ = lb.sent_ := rfl

theorem UpdateTabletInfo_sent (env : Env) (cat : CatalogManager) (lb : ClusterLoadBalancer)
    (tablet : TabletInfo) : (UpdateTabletInfo env cat lb tablet).2.sent_ = lb.sent_ := by
  unfold UpdateTabletInfo
  simp only
  split_ifs
  · rfl
  · rcases hp : PopulatePlacementInfo cat lb.state_
        (lookupD cat.table_ids_map_ tablet.table_id default) with e | pb
    · rfl
    · rfl

theorem analyzeRunning_sent (env : Env) (cat : CatalogManager) (tablets : List TabletInfo) :
    ∀ lb : ClusterLoadBalancer, (analyzeRunning env cat tablets lb).2.sent_ = lb.sent_ := by
  induction tablets with
  | nil => intro lb; rfl
  | cons tablet rest ih =>
    intro lb
    unfold analyzeRunning
    split_ifs
    · exact ih lb
    · have h := UpdateTabletInfo_sent env cat lb tablet
      split
      · rename_i e lb1 heq; rw [heq] at h; exact h
      · rename_i u lb1 heq; rw [heq] at h; rw [ih lb1]; exact h
    · exact ih lb

theorem whenPending_sent (cond : Bool) (lb : ClusterLoadBalancer)
    (f : PerTableLoadState × GlobalLoadState →
      StatusOr Unit × (PerTableLoadState × GlobalLoadState)) :
    (whenPending cond lb f).2.sent_ = lb.sent_ := by
  unfold whenPending
  split_ifs <;> rfl

theorem whenPending_eq_sent (cond : Bool) (lb lb1 : ClusterLoadBalancer)
    (f : PerTableLoadState × GlobalLoadState →
      StatusOr Unit × (PerTableLoadState × GlobalLoadState))
    (r : StatusOr Unit) (h : whenPending cond lb f = (r, lb1)) : lb1.sent_ = lb.sent_ := by
  have h2 := whenPending_sent cond lb f
  rw [h] at h2
  exact h2

theorem applyPending_sent (env : Env) (table_uuid : TableId) (tablets : List TabletInfo) :
    ∀ lb : ClusterLoadBalancer, (applyPending env table_uuid tablets lb).2.sent_ = lb.sent_ := by
  induction tablets with
  | nil => intro lb; rfl
  | cons tablet rest ih =>
    intro lb
    unfold applyPending
    simp only
    split
    · rename_i e lb1 heq
      exact whenPending_eq_sent _ _ _ _ _ heq
    · rename_i u lb1 heq
      have h1 := whenPending_eq_sent _ _ _ _ _ heq
      split
      · rename_i e lb2 heq2
        have h2 := whenPending_eq_sent _ _ _ _ _ heq2
        simp only
        rw [h2, h1]
      · rename_i u2 lb2 heq2
        have h2 := whenPending_eq_sent _ _ _ _ _ heq2
        split
        · rename_i e lb3 heq3
          have h3 := whenPending_eq_sent _ _ _ _ _ heq3
          simp only
          rw [h3, h2, h1]
        · rename_i u3 lb3 heq3
          have h3 := whenPending_eq_sent _ _ _ _ _ heq3
          rw [ih lb3, h3, h2, h1]

theorem AnalyzeTabletsUnlocked_sent (env : Env) (cat : CatalogManager)
    (lb : ClusterLoadBalancer) (table_uuid : TableId) :
    (AnalyzeTabletsUnlocked env cat lb table_uuid).2.sent_ = lb.sent_ := by
  unfold AnalyzeTabletsUnlocked
  split
  · rfl
  · rename_i table_info _
    have h := analyzeRunning_sent env cat table_info.tablets lb
    split
    · rename_i e lb1 heq; rw [heq] at h; exact h
    · rename_i u lb1 heq
      rw [heq] at h
      simp only at h ⊢
      rw [applyPending_sent]
      exact h

theorem analyzeStep_sent (env : Env) (cat : CatalogManager) (s : CountState)
    (table : TableId × TableInfo) : (analyzeStep env cat s table).lb.sent_ = s.lb.sent_ := by
  unfold analyzeStep
  split_ifs
  · rfl
  · split
    · rfl
    · rename_i st _
      have h := AnalyzeTabletsUnlocked_sent env cat { s.lb with state_ := st } table.1
      split
      · rename_i e lb1 heq; rw [heq] at h; exact h
      · rename_i u lb1 heq; rw [heq] at h; exact h

theorem countPendingStep_sent (env : Env) (cat : CatalogManager) (options : Options)
    (s : CountState) (table : TableId × TableInfo) :
    (countPendingStep env cat options s table).lb.sent_ = s.lb.sent_ := by
  unfold countPendingStep
  split_ifs
  · rfl
  · rfl
  · simp only
    split
    · rename_i e lb1 totals1 heq
      have := congrArg (fun r => r.2.1.sent_) heq
      simp only [CountPendingTasksUnlocked] at this
      exact this.symm
    · rename_i u lb1 totals1 heq
      have := congrArg (fun r => r.2.1.sent_) heq
      simp only [CountPendingTasksUnlocked] at this
      exact this.symm

theorem foldl_sent (f : CountState → TableId × TableInfo → CountState)
    (hf : ∀ s t, (f s t).lb.sent_ = s.lb.sent_) (tables : List (TableId × TableInfo)) :
    ∀ s : CountState, (tables.foldl f s).lb.sent_ = s.lb.sent_ := by
  induction tables with
  | nil => intro s; rfl
  | cons t rest ih =>
    intro s
    rw [List.foldl_cons, ih, hf]

theorem executeEntry_sent (env : Env) (cat : CatalogManager) (options : Options)
    (lb : ClusterLoadBalancer) : (executeEntry env cat options lb).lb.sent_ = lb.sent_ := by
  unfold executeEntry countPendingPhase
  simp only
  rw [foldl_sent _ (analyzeStep_sent env cat), foldl_sent _ (countPendingStep_sent env cat options)]

theorem executeEntry_remaining_adds (env : Env) (cat : CatalogManager) (options : Options)
    (lb : ClusterLoadBalancer) :
    (executeEntry env cat options lb).remaining_adds =
      max 0 (options.kMaxConcurrentAdds -
        (countPendingPhase env cat options lb).totals.pending_add_replica_tasks) := by
  unfold executeEntry initialBudgets
  simp only
  exact set_remaining_eq_max _ _

theorem RunLoadBalancerWithOptions_sent (env : Env) (cat : CatalogManager)
    (options : Option Options) (lb : ClusterLoadBalancer) :
    (RunLoadBalancerWithOptions env cat options lb).sent_ = lb.sent_ ∨
      (RunLoadBalancerWithOptions env cat options lb).sent_ =
        (executeLoop env cat cat.table_ids_map_
          (executeEntry env cat (options.getD env.default_options)
            (ResetGlobalState env.flags cat.ts_descs lb))).lb.sent_ := by
  unfold RunLoadBalancerWithOptions
  simp only
  split_ifs
  · exact Or.inl rfl
  · exact Or.inr rfl

/-- Counterexample to C7 as stated: table "A" already has two pending add tasks
and the ceiling `kMaxConcurrentAdds` is one; the pass issues no add, yet pending
plus newly issued adds (2 + 0) exceed the ceiling. -/
theorem C7_counterexample :
    pendingAdds exEnv exCatPending (some exOptions) (ClusterLoadBalancer.new exFlags) = 2 ∧
      exOptions.kMaxConcurrentAdds = 1 ∧
      countAdds (RunLoadBalancerWithOptions exEnv exCatPending (some exOptions)
        (ClusterLoadBalancer.new exFlags)).sent_ = 0 ∧
      ¬ (pendingAdds exEnv exCatPending (some exOptions) (ClusterLoadBalancer.new exFlags) +
          ((countAdds (RunLoadBalancerWithOptions exEnv exCatPending (some exOptions)
              (ClusterLoadBalancer.new exFlags)).sent_ : Int) -
            countAdds (ClusterLoadBalancer.new exFlags).sent_) ≤
        exOptions.kMaxConcurrentAdds) := by
  have h1 : pendingAdds exEnv exCatPending (some exOptions)
      (ClusterLoadBalancer.new exFlags) = 2 := by rfl
  have h2 : countAdds (RunLoadBalancerWithOptions exEnv exCatPending (some exOptions)
      (ClusterLoadBalancer.new exFlags)).sent_ = 0 := by rfl
  refine ⟨h1, rfl, h2, ?_⟩
  rw [h1, h2]
  decide

/-- C7 (amended): provided the bookkeeping after each sent add succeeds, the
add-server commands issued in one pass of `RunLoadBalancerWithOptions`, summed
over all tables, number at most `max(0, kMaxConcurrentAdds - P)`, `P` being the
pending add tasks counted at the start of the pass; hence, when `P` does not
already exceed the ceiling, pending plus newly issued adds stay within
`kMaxConcurrentAdds` (and when it does, no add is issued); and no table is
issued more adds than the value of `remaining_adds` on entry to it. -/
theorem C7_adds_within_budget (env : Env) (cat : CatalogManager)
    (options : Option Options) (lb : ClusterLoadBalancer) (hbk : BookkeepingOk env) :
    countAdds lb.sent_ ≤ countAdds (RunLoadBalancerWithOptions env cat options lb).sent_ ∧
      (countAdds (RunLoadBalancerWithOptions env cat options lb).sent_ : Int) -
          countAdds lb.sent_ ≤
        max 0 ((options.getD env.default_options).kMaxConcurrentAdds -
          pendingAdds env cat options lb) ∧
      (if pendingAdds env cat options lb ≤ (options.getD env.default_options).kMaxConcurrentAdds
        then pendingAdds env cat options lb +
            ((countAdds (RunLoadBalancerWithOptions env cat options lb).sent_ : Int) -
              countAdds lb.sent_) ≤
          (options.getD env.default_options).kMaxConcurrentAdds
        else countAdds (RunLoadBalancerWithOptions env cat options lb).sent_ =
          countAdds lb.sent_) ∧
      (∀ (table_id : TableId) (st : PerTableLoadState) (s : ExecState),
        countAdds (executeTable env cat table_id st s).lb.sent_ ≤
          countAdds s.lb.sent_ + s.remaining_adds.toNat) := by
  have hentry_sent := executeEntry_sent env cat (options.getD env.default_options)
    (ResetGlobalState env.flags cat.ts_descs lb)
  have hentry_rem := executeEntry_remaining_adds env cat (options.getD env.default_options)
    (ResetGlobalState env.flags cat.ts_descs lb)
  have hnonneg : 0 ≤ (executeEntry env cat (options.getD env.default_options)
      (ResetGlobalState env.flags cat.ts_descs lb)).remaining_adds := by
    rw [hentry_rem]; exact le_max_left _ _
  obtain ⟨l1, l2, l3⟩ := executeLoop_spec env cat cat.table_ids_map_ _ hnonneg
  have l3 := l3 hbk
  rw [hentry_sent] at l1 l3
  rw [hentry_rem] at l3
  have hreset : (ResetGlobalState env.flags cat.ts_descs lb).sent_ = lb.sent_ := rfl
  rw [hreset] at l1 l3
  have hP : pendingAdds env cat options lb =
      (countPendingPhase env cat (options.getD env.default_options)
        (ResetGlobalState env.flags cat.ts_descs lb)).totals.pending_add_replica_tasks := rfl
  rw [← hP] at l3
  have hper : ∀ (table_id : TableId) (st : PerTableLoadState) (s : ExecState),
      countAdds (executeTable env cat table_id st s).lb.sent_ ≤
        countAdds s.lb.sent_ + s.remaining_adds.toNat :=
    fun table_id st s => (executeTable_spec env cat table_id st s).2.1
  rcases RunLoadBalancerWithOptions_sent env cat options lb with h | h
  · rw [h]
    refine ⟨le_refl _, ?_, ?_, hper⟩
    · have := le_max_left (0 : Int) ((options.getD env.default_options).kMaxConcurrentAdds -
        pendingAdds env cat options lb)
      omega
    · split_ifs <;> omega
  · rw [h]
    refine ⟨l1, ?_, ?_, hper⟩
    · omega
    · split_ifs with hle
      · rw [max_eq_right (by omega)] at l3
        omega
      · rw [max_eq_left (by omega)] at l3
        omega

/-- Witness for the amended C7: one under-replicated tablet, a budget of one
add and nothing pending: the pass issues exactly one add. -/
theorem C7_adds_within_budget_witness :
    BookkeepingOk exEnvUnder ∧
    countAdds (RunLoadBalancerWithOptions exEnvUnder exCatUnder (some exOptions)
      (ClusterLoadBalancer.new exFlags)).sent_ = 1 ∧
    countAdds (ClusterLoadBalancer.new exFlags).sent_ ≤
      countAdds (RunLoadBalancerWithOptions exEnvUnder exCatUnder (some exOptions)
        (ClusterLoadBalancer.new exFlags)).sent_ ∧
    (countAdds (RunLoadBalancerWithOptions exEnvUnder exCatUnder (some exOptions)
        (ClusterLoadBalancer.new exFlags)).sent_ : Int) -
        countAdds (ClusterLoadBalancer.new exFlags).sent_ ≤
      max 0 (((some exOptions).getD exEnvUnder.default_options).kMaxConcurrentAdds -
        pendingAdds exEnvUnder exCatUnder (some exOptions) (ClusterLoadBalancer.new exFlags)) :=
  ⟨⟨fun _ _ _ => rfl, fun _ _ _ => rfl⟩, by rfl,
   (C7_adds_within_budget exEnvUnder exCatUnder (some exOptions)
      (ClusterLoadBalancer.new exFlags) ⟨fun _ _ _ => rfl, fun _ _ _ => rfl⟩).1,
   (C7_adds_within_budget exEnvUnder exCatUnder (some exOptions)
      (ClusterLoadBalancer.new exFlags) ⟨fun _ _ _ => rfl, fun _ _ _ => rfl⟩).2.1⟩

/-- Witness for C4: the load variance between "ts1" and "ts3" is 2, the
threshold; `GetLoadToMove` moves "t1" and closes the gate. -/
theorem C4_GetLoadToMove_gate_witness :
    (GetLoadToMove exEnv exCatLeader exLbLoad).1 =
        .ok (some { tablet_id := "t1", from_ts := some "ts1", to_ts := some "ts3" }) ∧
      (GetLoadToMove exEnv exCatLeader exLbLoad).2.sent_ =
        [Command.AddServer "t1" "ts3" .PRE_VOTER] ∧
      exLbLoad.can_perform_global_operations_ = true ∧
      (GetLoadToMove exEnv exCatLeader exLbLoad).2.can_perform_global_operations_ = false ∧
      CanBalanceGlobalLoad exEnv.flags (GetLoadToMove exEnv exCatLeader exLbLoad).2 = false := by
  have h := C4_GetLoadToMove_gate exEnv exCatLeader exLbLoad
  have hr : (GetLoadToMove exEnv exCatLeader exLbLoad).1 =
      .ok (some { tablet_id := "t1", from_ts := some "ts1", to_ts := some "ts3" }) := by rfl
  simp only [hr] at h
  have hv : exLbLoad.state_.options_.kMinLoadVarianceToBalance ≤
      loadVariance exEnv exLbLoad
        { tablet_id := "t1", from_ts := some "ts1", to_ts := some "ts3" } := by decide
  rw [if_pos hv] at h
  exact ⟨hr, by rfl, rfl, h.1, h.2⟩

theorem executeTable_leader_moves_nonneg (env : Env) (cat : CatalogManager)
    (table_id : TableId) (st : PerTableLoadState) (s : ExecState)
    (h0 : 0 ≤ s.remaining_leader_moves) :
    0 ≤ (executeTable env cat table_id st s).remaining_leader_moves := by
  obtain ⟨_, _, _, _, a5, _⟩ := addReplicasLoop_spec env cat s.remaining_adds.toNat
    { s with lb := { s.lb with
        state_ := env.state_SortLoad (st, s.lb.global_state_) } }
  simp only at a5
  unfold executeTable
  simp only
  split_ifs
  · rw [a5]; exact h0
  · generalize addReplicasLoop env cat s.remaining_adds.toNat
      { s with lb := { s.lb with
          state_ := env.state_SortLoad (st, s.lb.global_state_) } } = s1 at a5 ⊢
    obtain ⟨_, _, _, r4⟩ := removeReplicasLoop_spec env cat s1.remaining_removals.toNat s1
    unfold leaderMovesPhase
    obtain ⟨k, _, _, _, h4, _⟩ := leaderMovesLoop_spec env cat
      (removeReplicasLoop env cat s1.remaining_removals.toNat s1).remaining_leader_moves.toNat
      { exec := removeReplicasLoop env cat s1.remaining_removals.toNat s1
        table_remaining_leader_moves :=
          set_remaining
            (pendingStepdowns
              (removeReplicasLoop env cat s1.remaining_removals.toNat s1).lb.state_ table_id)
            (removeReplicasLoop env cat s1.remaining_removals.toNat
              s1).lb.state_.options_.kMaxConcurrentLeaderMovesPerTable
        calls := [] }
      (by simp only; rw [r4, a5]; exact h0)
      (by simp only; rw [set_remaining_eq_max]; exact le_max_left _ _)
    exact h4

theorem executeLoop_leader_moves_nonneg (env : Env) (cat : CatalogManager)
    (tables : List (TableId × TableInfo)) :
    ∀ s : ExecState, 0 ≤ s.remaining_leader_moves →
      0 ≤ (executeLoop env cat tables s).remaining_leader_moves := by
  induction tables with
  | nil => intro s h0; exact h0
  | cons table rest ih =>
    intro s h0
    unfold executeLoop
    split_ifs
    · exact h0
    · exact ih s h0
    · split
      · exact ih s h0
      · rename_i st _
        exact ih _ (executeTable_leader_moves_nonneg env cat table.1 st s h0)

theorem executeEntry_leader_moves_nonneg (env : Env) (cat : CatalogManager)
    (options : Options) (lb : ClusterLoadBalancer) :
    0 ≤ (executeEntry env cat options lb).remaining_leader_moves := by
  unfold executeEntry initialBudgets
  simp only
  rw [set_remaining_eq_max]
  exact le_max_left _ _

/-! ### The loops run to completion

The three budgeted loops recurse on a counter that starts at the budget; any
larger counter gives the same result, so no iteration of the C++ loop is cut
off. -/

theorem addReplicasLoop_fuel (env : Env) (cat : CatalogManager) (fuel1 : Nat) :
    ∀ (fuel2 : Nat) (s : ExecState), s.remaining_adds.toNat ≤ fuel1 →
      s.remaining_adds.toNat ≤ fuel2 →
      addReplicasLoop env cat fuel1 s = addReplicasLoop env cat fuel2 s := by
  induction fuel1 with
  | zero =>
    intro fuel2 s h1 _
    cases fuel2 with
    | zero => rfl
    | succ f2 =>
      have : ¬ s.remaining_adds > 0 := by omega
      simp [addReplicasLoop, this]
  | succ f1 ih =>
    intro fuel2 s h1 h2
    cases fuel2 with
    | zero =>
      have : ¬ s.remaining_adds > 0 := by omega
      simp [addReplicasLoop, this]
    | succ f2 =>
      unfold addReplicasLoop
      split_ifs with hpos
      · rfl
      · split
        · rfl
        · rfl
        · exact ih f2 _ (by simp only; omega) (by simp only; omega)
      · rfl

theorem removeReplicasLoop_fuel (env : Env) (cat : CatalogManager) (fuel1 : Nat) :
    ∀ (fuel2 : Nat) (s : ExecState), s.remaining_removals.toNat ≤ fuel1 →
      s.remaining_removals.toNat ≤ fuel2 →
      removeReplicasLoop env cat fuel1 s = removeReplicasLoop env cat fuel2 s := by
  induction fuel1 with
  | zero =>
    intro fuel2 s h1 _
    cases fuel2 with
    | zero => rfl
    | succ f2 =>
      have : ¬ s.remaining_removals > 0 := by omega
      simp [removeReplicasLoop, this]
  | succ f1 ih =>
    intro fuel2 s h1 h2
    cases fuel2 with
    | zero =>
      have : ¬ s.remaining_removals > 0 := by omega
      simp [removeReplicasLoop, this]
    | succ f2 =>
      unfold removeReplicasLoop
      split_ifs with hpos
      · rfl
      · split
        · rfl
        · rfl
        · exact ih f2 _ (by simp only; omega) (by simp only; omega)
      · rfl

theorem leaderMovesLoop_fuel (env : Env) (cat : CatalogManager) (fuel1 : Nat) :
    ∀ (fuel2 : Nat) (s : LeaderLoopState), s.exec.remaining_leader_moves.toNat ≤ fuel1 →
      s.exec.remaining_leader_moves.toNat ≤ fuel2 →
      leaderMovesLoop env cat fuel1 s = leaderMovesLoop env cat fuel2 s := by
  induction fuel1 with
  | zero =>
    intro fuel2 s h1 _
    cases fuel2 with
    | zero => rfl
    | succ f2 =>
      have : ¬ (s.exec.remaining_leader_moves > 0 ∧ s.table_remaining_leader_moves > 0) := by
        omega
      simp [leaderMovesLoop, this]
  | succ f1 ih =>
    intro fuel2 s h1 h2
    cases fuel2 with
    | zero =>
      have : ¬ (s.exec.remaining_leader_moves > 0 ∧ s.table_remaining_leader_moves > 0) := by
        omega
      simp [leaderMovesLoop, this]
    | succ f2 =>
      unfold leaderMovesLoop
      split_ifs with hpos
      · split
        · rfl
        · rfl
        · exact ih f2 _ (by simp only; omega) (by simp only; omega)
      · rfl

/-! ### The missing-placement search -/

theorem findTsForTablet_some (env : Env) (cat : CatalogManager) (st : PerTableLoadState)
    (t : TabletId) (l : List TabletServerId) (ts : TabletServerId)
    (h : findTsForTablet env cat st t l = .ok (some ts)) :
    ∃ pre post, l = pre ++ ts :: post ∧ Eligible env cat st t ts ∧
      ∀ x ∈ pre, Rejected env cat st t x := by
  induction l with
  | nil => simp [findTsForTablet] at h
  | cons a rest ih =>
    unfold findTsForTablet at h
    split at h
    · cases h
    · rename_i hc
      cases h
      exact ⟨[], rest, rfl, hc, by simp⟩
    · rename_i hc
      obtain ⟨pre, post, h1, h2, h3⟩ := ih h
      refine ⟨a :: pre, post, by rw [h1]; rfl, h2, ?_⟩
      intro x hx
      rcases List.mem_cons.1 hx with hx | hx
      · subst hx; exact hc
      · exact h3 x hx

theorem findTsForTablet_none (env : Env) (cat : CatalogManager) (st : PerTableLoadState)
    (t : TabletId) (l : List TabletServerId) :
    findTsForTablet env cat st t l = .ok none ↔ ∀ x ∈ l, Rejected env cat st t x := by
  induction l with
  | nil => simp [findTsForTablet]
  | cons a rest ih =>
    unfold findTsForTablet
    constructor
    · intro h
      split at h
      · cases h
      · cases h
      · rename_i hc
        intro x hx
        rcases List.mem_cons.1 hx with hx | hx
        · subst hx; exact hc
        · exact ih.1 h x hx
    · intro h
      have ha : canChooseTs env cat st t a = .ok false := h a (List.mem_cons_self _ _)
      rw [ha]
      exact ih.2 (fun x hx => h x (List.mem_cons_of_mem _ hx))

theorem findMissingPlacement_some (env : Env) (cat : CatalogManager)
    (st : PerTableLoadState) (l : List TabletId) (t : TabletId) (ts : TabletServerId)
    (h : findMissingPlacement env cat st l = .ok (some (t, ts))) :
    ∃ pre post, l = pre ++ t :: post ∧
      findTsForTablet env cat st t st.sorted_load_ = .ok (some ts) ∧
      ∀ x ∈ pre, findTsForTablet env cat st x st.sorted_load_ = .ok none := by
  induction l with
  | nil => simp [findMissingPlacement] at h
  | cons a rest ih =>
    unfold findMissingPlacement at h
    split at h
    · cases h
    · rename_i ts2 hc
      cases h
      exact ⟨[], rest, rfl, hc, by simp⟩
    · rename_i hc
      obtain ⟨pre, post, h1, h2, h3⟩ := ih h
      refine ⟨a :: pre, post, by rw [h1]; rfl, h2, ?_⟩
      intro x hx
      rcases List.mem_cons.1 hx with hx | hx
      · subst hx; exact hc
      · exact h3 x hx

theorem findMissingPlacement_none (env : Env) (cat : CatalogManager)
    (st : PerTableLoadState) (l : List TabletId) :
    findMissingPlacement env cat st l = .ok none ↔
      ∀ x ∈ l, findTsForTablet env cat st x st.sorted_load_ = .ok none := by
  induction l with
  | nil => simp [findMissingPlacement]
  | cons a rest ih =>
    unfold findMissingPlacement
    constructor
    · intro h
      split at h
      · cases h
      · cases h
      · rename_i hc
        intro x hx
        rcases List.mem_cons.1 hx with hx | hx
        · subst hx; exact hc
        · exact ih.1 h x hx
    · intro h
      rw [h a (List.mem_cons_self _ _)]
      exact ih.2 (fun x hx => h x (List.mem_cons_of_mem _ hx))

theorem HandleAddIfMissingPlacement_true (env : Env) (cat : CatalogManager)
    (lb : ClusterLoadBalancer) (m : Move)
    (h : (HandleAddIfMissingPlacement env cat lb).1 = .ok (some m)) :
    ∃ t ts, m = { tablet_id := t, from_ts := none, to_ts := some ts } ∧
      findMissingPlacement env cat lb.state_ lb.state_.tablets_missing_replicas_ =
        .ok (some (t, ts)) ∧
      (AddReplica env cat lb t ts).1 = .ok () := by
  unfold HandleAddIfMissingPlacement at h
  split at h
  · cases h
  · cases h
  · rename_i t ts hf
    split at h
    · cases h
    · rename_i u lb1 ha
      cases h
      exact ⟨t, ts, rfl, hf, by rw [ha]⟩

theorem HandleAddIfMissingPlacement_false (env : Env) (cat : CatalogManager)
    (lb : ClusterLoadBalancer) :
    (HandleAddIfMissingPlacement env cat lb).1 = .ok none ↔
      findMissingPlacement env cat lb.state_ lb.state_.tablets_missing_replicas_ =
        .ok none := by
  unfold HandleAddIfMissingPlacement
  constructor
  · intro h
    split at h
    · cases h
    · rename_i hf; exact hf
    · split at h
      · cases h
      · cases h
  · intro h
    rw [h]

theorem not_rejected_of_eligible (env : Env) (cat : CatalogManager) (st : PerTableLoadState)
    (t : TabletId) (ts : TabletServerId) (h : Eligible env cat st t ts) :
    ¬ Rejected env cat st t ts := by
  unfold Eligible at h
  unfold Rejected
  rw [h]
  intro hh
  cases hh

theorem all_rejected_iff (env : Env) (cat : CatalogManager) (lb : ClusterLoadBalancer) :
    (HandleAddIfMissingPlacement env cat lb).1 = .ok none ↔
      ∀ x ∈ lb.state_.tablets_missing_replicas_, ∀ y ∈ lb.state_.sorted_load_,
        Rejected env cat lb.state_ x y := by
  rw [HandleAddIfMissingPlacement_false, findMissingPlacement_none]
  constructor
  · intro h x hx
    exact (findTsForTablet_none env cat lb.state_ x _).1 (h x hx)
  · intro h x hx
    exact (findTsForTablet_none env cat lb.state_ x _).2 (h x hx)

/-- C12: when `HandleAddIfMissingPlacement` returns true, the chosen (tablet,
node) pair is the first pair, tablets in the order of
`tablets_missing_replicas_` and nodes in the order of `sorted_load_`, that
passes the test: `CanAddTabletToTabletServer` without a policy when the policy
has no placement blocks, and otherwise `CanAddTabletToTabletServer` against the
policy together with `CanAddTSToMissingPlacements` when the tablet has specific
under-replicated blocks. It returns false exactly when every pair is rejected by
the test, which, when no test fails, is when no pair passes it. -/
theorem C12_missing_placement_first_pair (env : Env) (cat : CatalogManager)
    (lb : ClusterLoadBalancer) :
    (∀ m, (HandleAddIfMissingPlacement env cat lb).1 = .ok (some m) →
      ∃ t ts pre post pre2 post2,
        m = { tablet_id := t, from_ts := none, to_ts := some ts } ∧
        lb.state_.tablets_missing_replicas_ = pre ++ t :: post ∧
        lb.state_.sorted_load_ = pre2 ++ ts :: post2 ∧
        Eligible env cat lb.state_ t ts ∧
        (∀ x ∈ pre, ∀ y ∈ lb.state_.sorted_load_, Rejected env cat lb.state_ x y) ∧
        (∀ y ∈ pre2, Rejected env cat lb.state_ t y)) ∧
    ((HandleAddIfMissingPlacement env cat lb).1 = .ok none ↔
      ∀ x ∈ lb.state_.tablets_missing_replicas_, ∀ y ∈ lb.state_.sorted_load_,
        Rejected env cat lb.state_ x y) ∧
    ((∀ x ∈ lb.state_.tablets_missing_replicas_, ∀ y ∈ lb.state_.sorted_load_,
        ∀ e, canChooseTs env cat lb.state_ x y ≠ .error e) →
      ((HandleAddIfMissingPlacement env cat lb).1 = .ok none ↔
        ¬ ∃ x ∈ lb.state_.tablets_missing_replicas_, ∃ y ∈ lb.state_.sorted_load_,
          Eligible env cat lb.state_ x y)) ∧
    (∀ t ts, Eligible env cat lb.state_ t ts ↔
      if (GetPlacementByTablet cat lb.state_ t).placement_blocks.isEmpty = true then
        env.CanAddTabletToTabletServer lb.state_ t ts none = .ok true
      else
        ((lookupD lb.state_.per_tablet_meta_ t default).under_replicated_placements.isEmpty
              = true ∨
            env.CanAddTSToMissingPlacements (lookupD lb.state_.per_tablet_meta_ t default)
              (lookupD lb.state_.per_ts_meta_ ts default).descriptor = true) ∧
          env.CanAddTabletToTabletServer lb.state_ t ts
            (some (GetPlacementByTablet cat lb.state_ t)) = .ok true) := by
  refine ⟨?_, all_rejected_iff env cat lb, ?_, ?_⟩
  · intro m hm
    obtain ⟨t, ts, h1, h2, _⟩ := HandleAddIfMissingPlacement_true env cat lb m hm
    obtain ⟨pre, post, h3, h4, h5⟩ := findMissingPlacement_some env cat lb.state_ _ t ts h2
    obtain ⟨pre2, post2, h6, h7, h8⟩ := findTsForTablet_some env cat lb.state_ t _ ts h4
    refine ⟨t, ts, pre, post, pre2, post2, h1, h3, h6, h7, ?_, h8⟩
    intro x hx
    exact (findTsForTablet_none env cat lb.state_ x _).1 (h5 x hx)
  · intro hnofail
    rw [all_rejected_iff]
    constructor
    · rintro h ⟨x, hx, y, hy, he⟩
      exact not_rejected_of_eligible env cat lb.state_ x y he (h x hx y hy)
    · intro h x hx y hy
      unfold Rejected
      rcases hc : canChooseTs env cat lb.state_ x y with e | b
      · exact absurd hc (hnofail x hx y hy e)
      · cases b
        · rfl
        · exact absurd ⟨x, hx, y, hy, hc⟩ h
  · intro t ts
    unfold Eligible canChooseTs
    simp only
    split_ifs with h1 h2
    · exact Iff.rfl
    · constructor
      · intro h
        exact ⟨by simpa using h2, h⟩
      · intro h
        exact h.2
    · constructor
      · intro h
        cases h
      · intro h
        exact absurd (by simpa using h.1) h2

/-- Witness for C12: "t3" misses a replica; the least loaded node "ts2" already
runs it and is rejected, the next node "ts3" is chosen. -/
theorem C12_missing_placement_first_pair_witness :
    (HandleAddIfMissingPlacement exEnvHost exCatThree exLbMissingSecond).1 =
        .ok (some { tablet_id := "t3", from_ts := none, to_ts := some "ts3" }) ∧
      ∃ t ts pre post pre2 post2,
        ({ tablet_id := "t3", from_ts := none, to_ts := some "ts3" } : Move) =
          { tablet_id := t, from_ts := none, to_ts := some ts } ∧
        exLbMissingSecond.state_.tablets_missing_replicas_ = pre ++ t :: post ∧
        exLbMissingSecond.state_.sorted_load_ = pre2 ++ ts :: post2 ∧
        Eligible exEnvHost exCatThree exLbMissingSecond.state_ t ts ∧
        (∀ x ∈ pre, ∀ y ∈ exLbMissingSecond.state_.sorted_load_,
          Rejected exEnvHost exCatThree exLbMissingSecond.state_ x y) ∧
        (∀ y ∈ pre2, Rejected exEnvHost exCatThree exLbMissingSecond.state_ t y) :=
  ⟨by rfl,
   (C12_missing_placement_first_pair exEnvHost exCatThree exLbMissingSecond).1 _ (by rfl)⟩

/-! ### Priority of the missing-placement tier -/

theorem AddReplica_ok_sent (env : Env) (cat : CatalogManager) (lb : ClusterLoadBalancer)
    (t : TabletId) (ts : TabletServerId) (h : (AddReplica env cat lb t ts).1 = .ok ()) :
    (AddReplica env cat lb t ts).2.sent_ = lb.sent_ ++
      [Command.AddServer (GetTablet cat t).tablet_id ts (GetDefaultMemberType lb.state_)] := by
  unfold AddReplica SendReplicaChanges at h ⊢
  simp only [if_true] at h ⊢
  split_ifs at h ⊢
  rfl

theorem HandleAddReplicas_tiers (env : Env) (cat : CatalogManager)
    (lb : ClusterLoadBalancer) (hbudget : BudgetChecksPass lb) :
    HandleAddReplicas env cat lb =
      (match HandleAddIfMissingPlacement env cat lb with
        | (.ok none, lb1) =>
          (match HandleAddIfWrongPlacement env cat lb1 with
            | (.ok none, lb2) => GetLoadToMove env cat lb2
            | r => r)
        | r => r) := by
  obtain ⟨h1, h2, h3⟩ := hbudget
  unfold HandleAddReplicas
  rw [if_neg h1, if_neg h2, if_neg h3]
  rcases HandleAddIfMissingPlacement env cat lb with ⟨r, lb1⟩
  rcases r with e | o
  · rfl
  · cases o with
    | some m => rfl
    | none =>
      simp only
      rcases HandleAddIfWrongPlacement env cat lb1 with ⟨r2, lb2⟩
      rcases r2 with e | o2
      · rfl
      · cases o2 <;> rfl

theorem range_succ_reverse (n : Nat) :
    (List.range (n + 1)).reverse = n :: (List.range n).reverse := by
  rw [List.range_succ, List.reverse_append]
  rfl

theorem getD_mem_of_lt (l : List TabletServerId) (i : Nat) (h : i < l.length) :
    l.getD i "" ∈ l := by
  rw [List.getD_eq_getElem l "" h]
  exact List.getElem_mem h

theorem loadInnerLoop_last (env : Env) (cat : CatalogManager) (lb : ClusterLoadBalancer)
    (last_pos : Nat) (rest : List Nat) :
    loadInnerLoop env cat lb last_pos last_pos (last_pos :: rest) = some (.ok none, lb) := by
  unfold loadInnerLoop
  simp

theorem loadOuterLoop_returns (env : Env) (cat : CatalogManager) (lb : ClusterLoadBalancer)
    (last_pos : Nat) (lefts : List Nat) (hmem : last_pos ∈ lefts) :
    ∃ left ∈ lefts,
      loadInnerLoop env cat lb last_pos left (List.range (last_pos + 1)).reverse =
        some (loadOuterLoop env cat lb last_pos lefts) := by
  induction lefts with
  | nil => cases hmem
  | cons left rest ih =>
    unfold loadOuterLoop
    split
    · rename_i r hr
      exact ⟨left, List.mem_cons_self _ _, hr⟩
    · rename_i hnone
      have hne : last_pos ≠ left := by
        intro h
        subst h
        rw [range_succ_reverse, loadInnerLoop_last] at hnone
        cases hnone
      rcases List.mem_cons.1 hmem with h | h
      · exact absurd h hne
      · obtain ⟨l2, hl2, hin⟩ := ih h
        exact ⟨l2, List.mem_cons_of_mem _ hl2, hin⟩

theorem loadSearch_ok (env : Env) (cat : CatalogManager) (lb : ClusterLoadBalancer)
    (high low : TabletServerId) (g : Bool) (next : Option (Decision × ClusterLoadBalancer))
    (out : Decision × ClusterLoadBalancer)
    (hhelp : loadHelpersSucceed env cat lb high low = true)
    (hnext : next = some out → IsMoveOrNone out.1)
    (hm : loadSearch env cat lb high low g next = some out) : IsMoveOrNone out.1 := by
  unfold loadHelpersSucceed at hhelp
  unfold loadSearch at hm
  split at hm
  · rename_i e he
    rw [he] at hhelp
    cases hhelp
  · rename_i t ht
    rw [ht] at hhelp
    simp only at hhelp
    split at hm
    · rename_i e lb1 heq
      rw [heq] at hhelp
      cases hhelp
    · cases hm
      exact Or.inr ⟨_, _, _, rfl⟩
  · exact hnext hm

theorem loadInnerLoop_ok (env : Env) (cat : CatalogManager) (lb : ClusterLoadBalancer)
    (last_pos left : Nat) (rights : List Nat) (out : Decision × ClusterLoadBalancer)
    (hleft : left < lb.state_.sorted_load_.length)
    (hrights : ∀ r ∈ rights, r < lb.state_.sorted_load_.length)
    (hhelp : ∀ f ∈ lb.state_.sorted_load_, ∀ g ∈ lb.state_.sorted_load_,
      loadHelpersSucceed env cat lb f g = true)
    (h : loadInnerLoop env cat lb last_pos left rights = some out) :
    IsMoveOrNone out.1 := by
  induction rights with
  | nil => simp [loadInnerLoop] at h
  | cons right rights ih =>
    have hr : right < lb.state_.sorted_load_.length := hrights right (List.mem_cons_self _ _)
    have ih2 := ih (fun r hr2 => hrights r (List.mem_cons_of_mem _ hr2))
    have hs := hhelp _ (getD_mem_of_lt _ right hr) _ (getD_mem_of_lt _ left hleft)
    unfold loadInnerLoop at h
    simp only at h
    split_ifs at h
    · cases h; exact Or.inl rfl
    · cases h; exact Or.inl rfl
    · exact loadSearch_ok env cat lb _ _ true _ out hs ih2 h
    · exact loadSearch_ok env cat lb _ _ false _ out hs ih2 h

/-- C14: for a non-empty `sorted_load_`, `GetLoadToMove` returns from inside its
loops: the iteration with `left = right = last_pos` returns false, so the final
"reached illegal state" statement is never executed; and when the helper calls
`GetTabletToMove` and `MoveReplica` do not fail, the result is false or true
with a (tablet, from, to) triple. The loops run over finitely many index pairs,
so the function is total. -/
theorem C14_GetLoadToMove_terminates (env : Env) (cat : CatalogManager)
    (lb : ClusterLoadBalancer) (hne : lb.state_.sorted_load_ ≠ [])
    (hhelp : ∀ f ∈ lb.state_.sorted_load_, ∀ g ∈ lb.state_.sorted_load_,
      loadHelpersSucceed env cat lb f g = true) :
    (∃ left, left ≤ lb.state_.sorted_load_.length - 1 ∧
      loadInnerLoop env cat lb (lb.state_.sorted_load_.length - 1) left
          (List.range (lb.state_.sorted_load_.length - 1 + 1)).reverse =
        some (GetLoadToMove env cat lb)) ∧
    loadInnerLoop env cat lb (lb.state_.sorted_load_.length - 1)
        (lb.state_.sorted_load_.length - 1)
        (List.range (lb.state_.sorted_load_.length - 1 + 1)).reverse =
      some (.ok none, lb) ∧
    IsMoveOrNone (GetLoadToMove env cat lb).1 := by
  have hlen : 0 < lb.state_.sorted_load_.length := List.length_pos.2 hne
  have hget : GetLoadToMove env cat lb =
      loadOuterLoop env cat lb (lb.state_.sorted_load_.length - 1)
        (List.range (lb.state_.sorted_load_.length - 1 + 1)) := by
    unfold GetLoadToMove
    have : lb.state_.sorted_load_.isEmpty = false := by
      cases hl : lb.state_.sorted_load_ with
      | nil => exact absurd hl hne
      | cons a l => rfl
    simp [this]
  obtain ⟨left, hmem, hin⟩ := loadOuterLoop_returns env cat lb
    (lb.state_.sorted_load_.length - 1)
    (List.range (lb.state_.sorted_load_.length - 1 + 1))
    (List.mem_range.2 (by omega))
  rw [← hget] at hin
  have hleft := List.mem_range.1 hmem
  refine ⟨⟨left, by omega, hin⟩, ?_, ?_⟩
  · rw [range_succ_reverse]
    exact loadInnerLoop_last env cat lb _ _
  · refine loadInnerLoop_ok env cat lb _ left _ _ (by omega) ?_ hhelp hin
    intro r hr
    have := List.mem_range.1 (List.mem_reverse.1 hr)
    omega

/-- Witness for C14: two nodes with a load variance of two; the search returns
the move of "t1" from "ts1" to "ts3". -/
theorem C14_GetLoadToMove_terminates_witness :
    (exLbLoad.state_.sorted_load_ ≠ [] ∧
      ∀ f ∈ exLbLoad.state_.sorted_load_, ∀ g ∈ exLbLoad.state_.sorted_load_,
        loadHelpersSucceed exEnv exCatLeader exLbLoad f g = true) ∧
    IsMoveOrNone (GetLoadToMove exEnv exCatLeader exLbLoad).1 :=
  ⟨⟨by decide, by decide⟩,
   (C14_GetLoadToMove_terminates exEnv exCatLeader exLbLoad (by decide) (by decide)).2.2⟩

/-! ### The leader search -/

theorem leaderSearch_result (lb : ClusterLoadBalancer) (high low : TabletServerId) (g : Bool)
    (next : Option (Decision × ClusterLoadBalancer)) (out : Decision × ClusterLoadBalancer)
    (h : leaderSearch lb high low g next = some out) :
    (∃ t, out.1 = .ok (some { tablet_id := t, from_ts := some high, to_ts := some low })) ∨
      next = some out := by
  unfold leaderSearch at h
  simp only at h
  split at h
  · cases h
    exact Or.inl ⟨_, rfl⟩
  · exact Or.inr h

theorem leaderInnerLoop_result (env : Env) (lb : ClusterLoadBalancer) (last_pos left : Nat)
    (rights : List Nat) (out : Decision × ClusterLoadBalancer)
    (h : leaderInnerLoop env lb last_pos left rights = some out) :
    out.1 = .ok none ∨
      ∃ right ∈ rights, right ≠ left ∧ ∃ t,
        out.1 = .ok (some { tablet_id := t,
                            from_ts := some (lb.state_.sorted_leader_load_.getD right ""),
                            to_ts := some (lb.state_.sorted_leader_load_.getD left "") }) := by
  induction rights with
  | nil => simp [leaderInnerLoop] at h
  | cons right rights ih =>
    have lift : leaderInnerLoop env lb last_pos left rights = some out →
        out.1 = .ok none ∨
          ∃ r ∈ right :: rights, r ≠ left ∧ ∃ t,
            out.1 = .ok (some { tablet_id := t,
                                from_ts := some (lb.state_.sorted_leader_load_.getD r ""),
                                to_ts := some (lb.state_.sorted_leader_load_.getD left "") }) := by
      intro h2
      rcases ih h2 with h3 | ⟨r, hr, hne, ht⟩
      · exact Or.inl h3
      · exact Or.inr ⟨r, List.mem_cons_of_mem _ hr, hne, ht⟩
    unfold leaderInnerLoop at h
    simp only at h
    split_ifs at h with h1 h2 h3 h4
    · cases h; exact Or.inl rfl
    · cases h; exact Or.inl rfl
    · have hne : right ≠ left := by
        intro heq
        subst heq
        have := h3.1
        simp at this
      rcases leaderSearch_result lb _ _ true _ out h with ⟨t, ht⟩ | hn
      · exact Or.inr ⟨right, List.mem_cons_self _ _, hne, t, ht⟩
      · exact lift hn
    · have hne : right ≠ left := fun heq => h1 (Or.inl heq.symm)
      rcases leaderSearch_result lb _ _ false _ out h with ⟨t, ht⟩ | hn
      · exact Or.inr ⟨right, List.mem_cons_self _ _, hne, t, ht⟩
      · exact lift hn

theorem leaderInnerLoop_last (env : Env) (lb : ClusterLoadBalancer) (last_pos : Nat)
    (rest : List Nat) :
    leaderInnerLoop env lb last_pos last_pos (last_pos :: rest) = some (.ok none, lb) := by
  unfold leaderInnerLoop
  simp

theorem leaderOuterLoop_returns (env : Env) (lb : ClusterLoadBalancer)
    (last_pos : Nat) (lefts : List Nat) (hmem : last_pos ∈ lefts) :
    ∃ left ∈ lefts,
      (lb.state_.sorted_leader_load_.getD left "" ∈ lb.state_.leader_blacklisted_servers_ ∧
        leaderOuterLoop env lb last_pos lefts = (.ok none, lb)) ∨
      (lb.state_.sorted_leader_load_.getD left "" ∉ lb.state_.leader_blacklisted_servers_ ∧
        leaderInnerLoop env lb last_pos left (List.range (last_pos + 1)).reverse =
          some (leaderOuterLoop env lb last_pos lefts)) := by
  induction lefts with
  | nil => cases hmem
  | cons left rest ih =>
    unfold leaderOuterLoop
    simp only
    split_ifs with hbl
    · exact ⟨left, List.mem_cons_self _ _, Or.inl ⟨hbl, rfl⟩⟩
    · split
      · rename_i r hr
        exact ⟨left, List.mem_cons_self _ _, Or.inr ⟨hbl, hr⟩⟩
      · rename_i hnone
        have hne : last_pos ≠ left := by
          intro h
          subst h
          rw [range_succ_reverse, leaderInnerLoop_last] at hnone
          cases hnone
        rcases List.mem_cons.1 hmem with h | h
        · exact absurd h hne
        · obtain ⟨l2, hl2, hin⟩ := ih h
          exact ⟨l2, List.mem_cons_of_mem _ hl2, hin⟩

theorem GetLeaderToMove_cases (env : Env) (lb : ClusterLoadBalancer) :
    GetLeaderToMove env lb = (.ok none, lb) ∨
      (lb.state_.sorted_leader_load_ ≠ [] ∧
        GetLeaderToMove env lb =
          leaderOuterLoop env lb (lb.state_.sorted_leader_load_.length - 1)
            (List.range (lb.state_.sorted_leader_load_.length - 1 + 1))) := by
  unfold GetLeaderToMove
  split_ifs with h1 h2
  · exact Or.inl rfl
  · exact Or.inl rfl
  · refine Or.inr ⟨?_, rfl⟩
    intro h
    rw [h] at h1
    exact h1 rfl

/-- C15: for a non-empty `sorted_leader_load_` and any leader blacklist,
`GetLeaderToMove` returns false or true with a (tablet, from, to) triple. It
returns from the pre-check, from the blacklist test of the outer loop or from
inside the inner loop: the iteration `left = right = last_pos` returns false, so
the trailing `FATAL_ERROR` is never executed. The loops run over finitely many
index pairs, so the function is total. -/
theorem C15_GetLeaderToMove_terminates (env : Env) (lb : ClusterLoadBalancer)
    (hne : lb.state_.sorted_leader_load_ ≠ []) :
    IsMoveOrNone (GetLeaderToMove env lb).1 ∧
    (GetLeaderToMove env lb).1 ≠ .error invalidState ∧
    leaderInnerLoop env lb (lb.state_.sorted_leader_load_.length - 1)
        (lb.state_.sorted_leader_load_.length - 1)
        (List.range (lb.state_.sorted_leader_load_.length - 1 + 1)).reverse =
      some (.ok none, lb) ∧
    (GetLeaderToMove env lb = (.ok none, lb) ∨
      ∃ left, left ≤ lb.state_.sorted_leader_load_.length - 1 ∧
        leaderInnerLoop env lb (lb.state_.sorted_leader_load_.length - 1) left
            (List.range (lb.state_.sorted_leader_load_.length - 1 + 1)).reverse =
          some (GetLeaderToMove env lb)) := by
  have hlen : 0 < lb.state_.sorted_leader_load_.length := List.length_pos.2 hne
  have hlast : leaderInnerLoop env lb (lb.state_.sorted_leader_load_.length - 1)
      (lb.state_.sorted_leader_load_.length - 1)
      (List.range (lb.state_.sorted_leader_load_.length - 1 + 1)).reverse =
      some (.ok none, lb) := by
    rw [range_succ_reverse]
    exact leaderInnerLoop_last env lb _ _
  have hcases : GetLeaderToMove env lb = (.ok none, lb) ∨
      ∃ left, left ≤ lb.state_.sorted_leader_load_.length - 1 ∧
        leaderInnerLoop env lb (lb.state_.sorted_leader_load_.length - 1) left
            (List.range (lb.state_.sorted_leader_load_.length - 1 + 1)).reverse =
          some (GetLeaderToMove env lb) := by
    rcases GetLeaderToMove_cases env lb with h | ⟨_, h⟩
    · exact Or.inl h
    · obtain ⟨left, hmem, hl⟩ := leaderOuterLoop_returns env lb
        (lb.state_.sorted_leader_load_.length - 1)
        (List.range (lb.state_.sorted_leader_load_.length - 1 + 1))
        (List.mem_range.2 (by omega))
      rw [← h] at hl
      have hleft := List.mem_range.1 hmem
      rcases hl with ⟨_, hl⟩ | ⟨_, hl⟩
      · exact Or.inl hl
      · exact Or.inr ⟨left, by omega, hl⟩
  have hform : IsMoveOrNone (GetLeaderToMove env lb).1 := by
    rcases hcases with h | ⟨left, _, h⟩
    · rw [h]; exact Or.inl rfl
    · rcases leaderInnerLoop_result env lb _ left _ _ h with h2 | ⟨r, _, _, t, ht⟩
      · exact Or.inl h2
      · exact Or.inr ⟨_, _, _, ht⟩
  refine ⟨hform, ?_, hlast, hcases⟩
  intro herr
  rcases hform with h | ⟨t, f, g, h⟩
  · rw [h] at herr; cases herr
  · rw [h] at herr; cases herr

/-- Witness for C15: two nodes, "ts1" leading both tablets; the search returns
the move of the leader of "t1" from "ts1" to "ts2". -/
theorem C15_GetLeaderToMove_terminates_witness :
    exLbLeader.state_.sorted_leader_load_ ≠ [] ∧
    IsMoveOrNone (GetLeaderToMove exEnv exLbLeader).1 ∧
    (GetLeaderToMove exEnv exLbLeader).1 =
      .ok (some { tablet_id := "t1", from_ts := some "ts1", to_ts := some "ts2" }) :=
  ⟨by decide, (C15_GetLeaderToMove_terminates exEnv exLbLeader (by decide)).1, by rfl⟩

/-- C16: when `GetLeaderToMove` returns true, `to_ts` is the node at the low
position `left` and `from_ts` the node at a different position `right` of
`sorted_leader_load_`; `to_ts` is not in `leader_blacklisted_servers_`, and it
differs from `from_ts` (the node ids of `sorted_leader_load_` being distinct).
The outer loop returns false as soon as the node at its low position is
leader-blacklisted. -/
theorem C16_leader_destination_not_blacklisted (env : Env) (lb : ClusterLoadBalancer)
    (m : Move) (h : (GetLeaderToMove env lb).1 = .ok (some m)) :
    (∃ left right, left < lb.state_.sorted_leader_load_.length ∧
      right < lb.state_.sorted_leader_load_.length ∧ left ≠ right ∧
      m.to_ts = some (lb.state_.sorted_leader_load_.getD left "") ∧
      m.from_ts = some (lb.state_.sorted_leader_load_.getD right "") ∧
      lb.state_.sorted_leader_load_.getD left "" ∉ lb.state_.leader_blacklisted_servers_ ∧
      (lb.state_.sorted_leader_load_.Nodup → m.to_ts ≠ m.from_ts)) ∧
    (∀ last_pos left rest,
      lb.state_.sorted_leader_load_.getD left "" ∈ lb.state_.leader_blacklisted_servers_ →
      leaderOuterLoop env lb last_pos (left :: rest) = (.ok none, lb)) := by
  constructor
  · rcases GetLeaderToMove_cases env lb with h0 | ⟨hne, h0⟩
    · rw [h0] at h; cases h
    · have hlen : 0 < lb.state_.sorted_leader_load_.length := List.length_pos.2 hne
      obtain ⟨left, hmem, hl⟩ := leaderOuterLoop_returns env lb
        (lb.state_.sorted_leader_load_.length - 1)
        (List.range (lb.state_.sorted_leader_load_.length - 1 + 1))
        (List.mem_range.2 (by omega))
      rw [← h0] at hl
      have hleft := List.mem_range.1 hmem
      rcases hl with ⟨_, hl⟩ | ⟨hnbl, hl⟩
      · rw [hl] at h; cases h
      · rcases leaderInnerLoop_result env lb _ left _ _ hl with h2 | ⟨r, hr, hne2, t, ht⟩
        · rw [h2] at h; cases h
        · have hright := List.mem_range.1 (List.mem_reverse.1 hr)
          rw [ht] at h
          cases h
          refine ⟨left, r, by omega, by omega, fun e => hne2 e.symm, rfl, rfl, hnbl, ?_⟩
          intro hnd heq
          simp only [Option.some.injEq] at heq
          rw [List.getD_eq_getElem _ "" (by omega : left < _),
            List.getD_eq_getElem _ "" (by omega : r < _)] at heq
          exact hne2 ((hnd.getElem_inj_iff).1 heq).symm
  · intro last_pos left rest hbl
    unfold leaderOuterLoop
    simp only [hbl, if_true]

/-- Witness for C16: the leader of "t1" moves from "ts1" to "ts2"; no node is
leader-blacklisted. -/
theorem C16_leader_destination_not_blacklisted_witness :
    (GetLeaderToMove exEnv exLbLeader).1 =
      .ok (some { tablet_id := "t1", from_ts := some "ts1", to_ts := some "ts2" }) ∧
    (exLbLeader.state_.sorted_leader_load_.Nodup →
      (some "ts2" : Option TabletServerId) ≠ some "ts1") :=
  ⟨by rfl,
   fun hnd => by
    obtain ⟨_, _, _, _, _, _, _, _, hd⟩ :=
      (C16_leader_destination_not_blacklisted exEnv exLbLeader
        { tablet_id := "t1", from_ts := some "ts1", to_ts := some "ts2" } (by rfl)).1
    exact hd hnd⟩

/-! ### The removal victim -/

theorem HandleRemoveReplicas_over (env : Env) (cat : CatalogManager)
    (lb lb1 : ClusterLoadBalancer)
    (hwp : HandleRemoveIfWrongPlacement env cat lb = (.ok none, lb1)) :
    HandleRemoveReplicas env cat lb =
      match findRemoveOverReplicated env cat lb1 lb1.state_.tablets_over_replicated_ with
      | .error e => (.error e, lb1)
      | .ok none => (.ok none, lb1)
      | .ok (some (tablet_id, remove_candidate)) =>
        match RemoveReplica env cat lb1 tablet_id remove_candidate with
        | (.error e, lb2) => (.error e, lb2)
        | (.ok _, lb2) =>
          (.ok (some { tablet_id := tablet_id, from_ts := some remove_candidate,
                       to_ts := none }), lb2) := by
  unfold HandleRemoveReplicas
  rw [hwp]

/-- C18: `ShouldSkipLeaderAsVictim` returns the value of
`load_balancer_skip_leader_as_remove_victim` when the replication factor
(`live_replicas.num_replicas`) of the tablet's table is greater than 1 and false
when it is at most 1, whatever the flag. With a replication factor of at most 1,
the loop of `HandleRemoveReplicas` picks the highest-loaded candidate of the
first eligible over-replicated tablet also when that candidate is the leader,
and `HandleRemoveReplicas` removes that replica. -/
theorem C18_skip_leader_only_above_rf_one (env : Env) (cat : CatalogManager)
    (tablet_id : TabletId) (pb : ReplicationInfoPB)
    (hpb : GetTableReplicationInfo cat (GetTableOfTablet cat tablet_id) = .ok pb) :
    (pb.live_replicas.num_replicas > 1 →
      ShouldSkipLeaderAsVictim env cat tablet_id =
        .ok env.flags.load_balancer_skip_leader_as_remove_victim) ∧
    (pb.live_replicas.num_replicas ≤ 1 →
      ShouldSkipLeaderAsVictim env cat tablet_id = .ok false) ∧
    (pb.live_replicas.num_replicas ≤ 1 →
      ∀ (lb lb1 : ClusterLoadBalancer) (rest : List TabletId)
        (remove_candidate : TabletServerId) (others : List TabletServerId),
      ¬ (IsConfigMemberInTransitionMode cat tablet_id ∨
          (lookupD lb1.state_.per_tablet_meta_ tablet_id default).starting > 0) →
      sortDesc (env.Comparator lb1.state_ lb1.global_state_)
          ((lookupD lb1.state_.per_tablet_meta_ tablet_id
              default).over_replicated_tablet_servers.filter (fun ts_uuid =>
            !decide (tablet_id ∈
              (lookupD lb1.state_.per_ts_meta_ ts_uuid default).starting_tablets))) =
        remove_candidate :: others →
      findRemoveOverReplicated env cat lb1 (tablet_id :: rest) =
          .ok (some (tablet_id, remove_candidate)) ∧
      (HandleRemoveIfWrongPlacement env cat lb = (.ok none, lb1) →
        lb1.state_.tablets_over_replicated_ = tablet_id :: rest →
        HandleRemoveReplicas env cat lb =
          match RemoveReplica env cat lb1 tablet_id remove_candidate with
          | (.error e, lb2) => (.error e, lb2)
          | (.ok _, lb2) =>
            (.ok (some { tablet_id := tablet_id, from_ts := some remove_candidate,
                         to_ts := none }), lb2))) := by
  have hgt : pb.live_replicas.num_replicas > 1 →
      ShouldSkipLeaderAsVictim env cat tablet_id =
        .ok env.flags.load_balancer_skip_leader_as_remove_victim := by
    intro h
    unfold ShouldSkipLeaderAsVictim
    rw [hpb]
    simp only [h, if_true]
  have hle : pb.live_replicas.num_replicas ≤ 1 →
      ShouldSkipLeaderAsVictim env cat tablet_id = .ok false := by
    intro h
    unfold ShouldSkipLeaderAsVictim
    rw [hpb]
    have : ¬ pb.live_replicas.num_replicas > 1 := by omega
    simp only [this, if_false]
  refine ⟨hgt, hle, ?_⟩
  intro h lb lb1 rest remove_candidate others hnt hsort
  have hfind : findRemoveOverReplicated env cat lb1 (tablet_id :: rest) =
      .ok (some (tablet_id, remove_candidate)) := by
    unfold findRemoveOverReplicated
    simp only [hnt, if_false, hsort, hle h]
    split_ifs <;> rfl
  refine ⟨hfind, ?_⟩
  intro hwp hover
  rw [HandleRemoveReplicas_over env cat lb lb1 hwp, hover, hfind]

/-- Witness for C18: with a replication factor of 1 and the skip-leader flag
set, the leader "ts1" of the over-replicated tablet "t1" is the removal victim:
it is asked to step down and be removed. -/
theorem C18_skip_leader_only_above_rf_one_witness :
    GetTableReplicationInfo (exCatRf 1) (GetTableOfTablet (exCatRf 1) "t1") =
      .ok (exCatRf 1).cluster_replication_info ∧
    exEnvSkip.flags.load_balancer_skip_leader_as_remove_victim = true ∧
    ShouldSkipLeaderAsVictim exEnvSkip (exCatRf 1) "t1" = .ok false ∧
    (HandleRemoveReplicas exEnvSkip (exCatRf 1) exLbTwoOver).1 =
      .ok (some { tablet_id := "t1", from_ts := some "ts1", to_ts := none }) ∧
    (HandleRemoveReplicas exEnvSkip (exCatRf 1) exLbTwoOver).2.sent_ =
      [Command.LeaderStepDown "t1" "ts1" true ""] :=
  ⟨by rfl, by rfl,
   (C18_skip_leader_only_above_rf_one exEnvSkip (exCatRf 1) "t1"
      (exCatRf 1).cluster_replication_info (by rfl)).2.1 (by decide),
   by rfl, by rfl⟩

/-- C19, counterexample: table "A" has a replication factor of 3 and the
skip-leader flag is set; no tablet has a wrong placement. The only removal
candidate of the over-replicated tablet "t1" is its leader "ts1", which must be
skipped. The same call of `HandleRemoveReplicas` goes on to the next
over-replicated tablet "t2" and removes its replica on "ts2". -/
theorem C19_counterexample :
    HandleRemoveIfWrongPlacement exEnvSkip (exCatRf 3) exLbTwoOver = (.ok none, exLbTwoOver) ∧
    exLbTwoOver.state_.tablets_over_replicated_ = ["t1", "t2"] ∧
    sortDesc (exEnvSkip.Comparator exLbTwoOver.state_ exLbTwoOver.global_state_)
        ((lookupD exLbTwoOver.state_.per_tablet_meta_ "t1"
            default).over_replicated_tablet_servers.filter (fun ts_uuid =>
          !decide ("t1" ∈
            (lookupD exLbTwoOver.state_.per_ts_meta_ ts_uuid default).starting_tablets))) =
      [(lookupD exLbTwoOver.state_.per_tablet_meta_ "t1" default).leader_uuid] ∧
    ShouldSkipLeaderAsVictim exEnvSkip (exCatRf 3) "t1" = .ok true ∧
    (HandleRemoveReplicas exEnvSkip (exCatRf 3) exLbTwoOver).1 =
      .ok (some { tablet_id := "t2", from_ts := some "ts2", to_ts := none }) ∧
    (HandleRemoveReplicas exEnvSkip (exCatRf 3) exLbTwoOver).2.sent_ =
      [Command.RemoveServer "t2" "ts2"] :=
  ⟨by rfl, by rfl, by rfl, by rfl, by rfl, by rfl⟩

/-- C19, amended: when, in a call of `HandleRemoveReplicas` that found no
wrong-placement removal, the only removal candidate of the first over-replicated
tablet is its leader and the leader must be skipped, that tablet is skipped
without error and the loop continues with the remaining over-replicated tablets
of the same call: the call does what the loop decides for them, and it removes
nothing when the skipped tablet is the only over-replicated one. -/
theorem C19_skipped_leader_continues (env : Env) (cat : CatalogManager)
    (lb lb1 : ClusterLoadBalancer) (tablet_id : TabletId) (rest : List TabletId)
    (hwp : HandleRemoveIfWrongPlacement env cat lb = (.ok none, lb1))
    (hover : lb1.state_.tablets_over_replicated_ = tablet_id :: rest)
    (hnt : ¬ (IsConfigMemberInTransitionMode cat tablet_id ∨
      (lookupD lb1.state_.per_tablet_meta_ tablet_id default).starting > 0))
    (hcand : sortDesc (env.Comparator lb1.state_ lb1.global_state_)
        ((lookupD lb1.state_.per_tablet_meta_ tablet_id
            default).over_replicated_tablet_servers.filter (fun ts_uuid =>
          !decide (tablet_id ∈
            (lookupD lb1.state_.per_ts_meta_ ts_uuid default).starting_tablets))) =
      [(lookupD lb1.state_.per_tablet_meta_ tablet_id default).leader_uuid])
    (hskip : ShouldSkipLeaderAsVictim env cat tablet_id = .ok true) :
    findRemoveOverReplicated env cat lb1 (tablet_id :: rest) =
      findRemoveOverReplicated env cat lb1 rest ∧
    (HandleRemoveReplicas env cat lb =
      match findRemoveOverReplicated env cat lb1 rest with
      | .error e => (.error e, lb1)
      | .ok none => (.ok none, lb1)
      | .ok (some (next_tablet, remove_candidate)) =>
        match RemoveReplica env cat lb1 next_tablet remove_candidate with
        | (.error e, lb2) => (.error e, lb2)
        | (.ok _, lb2) =>
          (.ok (some { tablet_id := next_tablet, from_ts := some remove_candidate,
                       to_ts := none }), lb2)) ∧
    (rest = [] → HandleRemoveReplicas env cat lb = (.ok none, lb1)) := by
  have hfind : findRemoveOverReplicated env cat lb1 (tablet_id :: rest) =
      findRemoveOverReplicated env cat lb1 rest := by
    conv_lhs => unfold findRemoveOverReplicated
    simp only [hnt, if_false, hcand, hskip, if_true]
  have hcall := HandleRemoveReplicas_over env cat lb lb1 hwp
  rw [hover, hfind] at hcall
  refine ⟨hfind, hcall, ?_⟩
  intro hrest
  rw [hcall, hrest]
  rfl

/-- Witness for C19 (amended): the skipped tablet "t1" is followed by "t2",
whose replica on "ts2" the same call removes. -/
theorem C19_skipped_leader_continues_witness :
    findRemoveOverReplicated exEnvSkip (exCatRf 3) exLbTwoOver ["t1", "t2"] =
      findRemoveOverReplicated exEnvSkip (exCatRf 3) exLbTwoOver ["t2"] ∧
    findRemoveOverReplicated exEnvSkip (exCatRf 3) exLbTwoOver ["t2"] =
      .ok (some ("t2", "ts2")) :=
  ⟨(C19_skipped_leader_continues exEnvSkip (exCatRf 3) exLbTwoOver exLbTwoOver "t1" ["t2"]
      (by rfl) (by rfl) (by decide) (by rfl) (by rfl)).1,
   by rfl⟩

/-! ### Leader moves -/

theorem SamePending_refl (a : PerTableLoadState) : SamePending a a := ⟨rfl, rfl, rfl⟩

theorem SamePending_trans (a b c : PerTableLoadState) (h1 : SamePending a b)
    (h2 : SamePending b c) : SamePending a c :=
  ⟨h2.1.trans h1.1, h2.2.1.trans h1.2.1, h2.2.2.trans h1.2.2⟩

theorem NoPendingOfKind_congr (cat : CatalogManager) (a b : PerTableLoadState) (c : Command)
    (h : SamePending a b) (hb : NoPendingOfKind cat b c) : NoPendingOfKind cat a c := by
  obtain ⟨t, ht, hp⟩ := hb
  refine ⟨t, ht, ?_⟩
  cases c <;> simp only [pendingTasksOfKind] at hp ⊢
  · rw [← h.1]; exact hp
  · rw [← h.2.1]; exact hp
  · rw [← h.2.2]; exact hp

theorem RunStep_refl (env : Env) (cat : CatalogManager) (a : ClusterLoadBalancer) :
    RunStep env cat a a :=
  ⟨rfl, fun _ => ⟨SamePending_refl _, [], by simp, by simp⟩⟩

theorem RunStep_trans (env : Env) (cat : CatalogManager) (a b c : ClusterLoadBalancer)
    (h1 : RunStep env cat a b) (h2 : RunStep env cat b c) : RunStep env cat a c := by
  refine ⟨h2.1.trans h1.1, fun hf => ?_⟩
  obtain ⟨hp1, cs1, hs1, hg1⟩ := h1.2 hf
  obtain ⟨hp2, cs2, hs2, hg2⟩ := h2.2 hf
  refine ⟨SamePending_trans _ _ _ hp1 hp2, cs1 ++ cs2, ?_, ?_⟩
  · rw [hs2, hs1, List.append_assoc]
  · intro x hx
    rcases List.mem_append.1 hx with hx | hx
    · exact hg1 x hx
    · exact NoPendingOfKind_congr cat _ _ x hp1 (hg2 x hx)

/-- A change of fields other than `per_table_states_`, `sent_` and the pending
maps of `state_` is a step. -/
theorem RunStep_of_eq (env : Env) (cat : CatalogManager) (a b : ClusterLoadBalancer)
    (h1 : b.per_table_states_ = a.per_table_states_) (h2 : b.sent_ = a.sent_)
    (h3 : PendingFrame env → SamePending a.state_ b.state_) : RunStep env cat a b :=
  ⟨h1, fun hf => ⟨h3 hf, [], by simp [h2], by simp⟩⟩

theorem SendReplicaChanges_step (env : Env) (cat : CatalogManager) (lb : ClusterLoadBalancer)
    (t : TabletId) (ts : TabletServerId) (is_add srl : Bool) (nl : TabletServerId) :
    RunStep env cat lb (SendReplicaChanges lb (GetTablet cat t) ts is_add srl nl).2 := by
  unfold SendReplicaChanges
  split_ifs with h1 h2 h3 h4 h5
  · exact RunStep_refl env cat lb
  · refine ⟨rfl, fun _ => ⟨SamePending_refl _, [_], rfl, ?_⟩⟩
    intro c hc
    rw [List.mem_singleton] at hc
    subst hc
    exact ⟨t, rfl, not_not.1 h2⟩
  · exact RunStep_refl env cat lb
  · refine ⟨rfl, fun _ => ⟨SamePending_refl _, [_], rfl, ?_⟩⟩
    intro c hc
    rw [List.mem_singleton] at hc
    subst hc
    exact ⟨t, rfl, not_not.1 h4⟩
  · exact RunStep_refl env cat lb
  · refine ⟨rfl, fun _ => ⟨SamePending_refl _, [_], rfl, ?_⟩⟩
    intro c hc
    rw [List.mem_singleton] at hc
    subst hc
    exact ⟨t, rfl, not_not.1 h5⟩

theorem applyState_step (env : Env) (cat : CatalogManager) (lb : ClusterLoadBalancer)
    (r : StatusOr Unit × (PerTableLoadState × GlobalLoadState))
    (h : PendingFrame env → SamePending lb.state_ r.2.1) :
    RunStep env cat lb (applyState lb r).2 :=
  RunStep_of_eq env cat _ _ rfl rfl h

theorem AddReplica_step (env : Env) (cat : CatalogManager) (lb : ClusterLoadBalancer)
    (t : TabletId) (ts : TabletServerId) :
    RunStep env cat lb (AddReplica env cat lb t ts).2 := by
  have h := SendReplicaChanges_step env cat lb t ts true true ""
  unfold AddReplica
  rcases hs : SendReplicaChanges lb (GetTablet cat t) ts true true "" with ⟨r, lb1⟩
  rw [hs] at h
  cases r
  · exact h
  · exact RunStep_trans env cat _ _ _ h
      (applyState_step env cat lb1 _ (fun hf => hf.1 _ _ _))

theorem RemoveReplica_step (env : Env) (cat : CatalogManager) (lb : ClusterLoadBalancer)
    (t : TabletId) (ts : TabletServerId) :
    RunStep env cat lb (RemoveReplica env cat lb t ts).2 := by
  have h := SendReplicaChanges_step env cat lb t ts false true ""
  unfold RemoveReplica
  rcases hs : SendReplicaChanges lb (GetTablet cat t) ts false true "" with ⟨r, lb1⟩
  rw [hs] at h
  cases r
  · exact h
  · exact RunStep_trans env cat _ _ _ h
      (applyState_step env cat lb1 _ (fun hf => hf.2.1 _ _ _))

theorem MoveLeader_step (env : Env) (cat : CatalogManager) (lb : ClusterLoadBalancer)
    (t : TabletId) (f g : TabletServerId) :
    RunStep env cat lb (MoveLeader env cat lb t f g).2 := by
  have h := SendReplicaChanges_step env cat lb t f false false g
  unfold MoveLeader
  rcases hs : SendReplicaChanges lb (GetTablet cat t) f false false g with ⟨r, lb1⟩
  rw [hs] at h
  cases r
  · exact h
  · exact RunStep_trans env cat _ _ _ h
      (applyState_step env cat lb1 _ (fun hf => hf.2.2.1 _ _ _ _))

theorem MoveReplica_step (env : Env) (cat : CatalogManager) (lb : ClusterLoadBalancer)
    (t : TabletId) (f g : TabletServerId) :
    RunStep env cat lb (MoveReplica env cat lb t f g).2 := by
  have h := SendReplicaChanges_step env cat lb t g true true ""
  unfold MoveReplica
  rcases hs : SendReplicaChanges lb (GetTablet cat t) g true true "" with ⟨r, lb1⟩
  rw [hs] at h
  cases r
  · exact h
  · simp only
    have h2 : RunStep env cat lb1
        (applyState lb1 (env.state_AddReplica (lb1.state_, lb1.global_state_) t g)).2 :=
      applyState_step env cat lb1 _ (fun hf => hf.1 _ _ _)
    rcases ha : applyState lb1 (env.state_AddReplica (lb1.state_, lb1.global_state_) t g)
      with ⟨r2, lb2⟩
    rw [ha] at h2
    have h12 := RunStep_trans env cat _ _ _ h h2
    cases r2
    · exact h12
    · simp only
      split_ifs
      · exact h12
      · exact RunStep_trans env cat _ _ _ h12
          (applyState_step env cat lb2 _ (fun hf => hf.2.1 _ _ _))

theorem HandleAddIfMissingPlacement_step (env : Env) (cat : CatalogManager)
    (lb : ClusterLoadBalancer) :
    RunStep env cat lb (HandleAddIfMissingPlacement env cat lb).2 := by
  unfold HandleAddIfMissingPlacement
  split
  · exact RunStep_refl env cat lb
  · exact RunStep_refl env cat lb
  · rename_i t ts _
    have h := AddReplica_step env cat lb t ts
    split
    · rename_i e lb1 heq; rw [heq] at h; exact h
    · rename_i u lb1 heq
      rw [heq] at h
      exact RunStep_trans env cat _ _ _ h
        (RunStep_of_eq env cat _ _ rfl rfl (fun _ => ⟨rfl, rfl, rfl⟩))

theorem HandleAddIfWrongPlacement_step (env : Env) (cat : CatalogManager)
    (lb : ClusterLoadBalancer) :
    RunStep env cat lb (HandleAddIfWrongPlacement env cat lb).2 := by
  unfold HandleAddIfWrongPlacement
  split
  · exact RunStep_refl env cat lb
  · exact RunStep_refl env cat lb
  · rename_i t f g _
    have h := MoveReplica_step env cat lb t f g
    split
    · rename_i e lb1 heq; rw [heq] at h; exact h
    · rename_i u lb1 heq; rw [heq] at h; exact h

theorem loadSearch_step (env : Env) (cat : CatalogManager) (lb : ClusterLoadBalancer)
    (high low : TabletServerId) (g : Bool) (next : Option (Decision × ClusterLoadBalancer))
    (out : Decision × ClusterLoadBalancer)
    (hnext : next = some out → RunStep env cat lb out.2)
    (hm : loadSearch env cat lb high low g next = some out) : RunStep env cat lb out.2 := by
  unfold loadSearch at hm
  split at hm
  · cases hm; exact RunStep_refl env cat lb
  · rename_i t _
    have h := MoveReplica_step env cat lb t high low
    split at hm
    · rename_i e lb1 heq; rw [heq] at h; cases hm; exact h
    · rename_i u lb1 heq
      rw [heq] at h
      cases hm
      cases g
      · exact RunStep_trans env cat _ _ _ h
          (RunStep_of_eq env cat _ _ rfl rfl (fun _ => ⟨rfl, rfl, rfl⟩))
      · exact h
  · exact hnext hm

theorem loadInnerLoop_step (env : Env) (cat : CatalogManager) (lb : ClusterLoadBalancer)
    (last_pos left : Nat) (rights : List Nat) (out : Decision × ClusterLoadBalancer)
    (h : loadInnerLoop env cat lb last_pos left rights = some out) :
    RunStep env cat lb out.2 := by
  induction rights with
  | nil => simp [loadInnerLoop] at h
  | cons right rights ih =>
    unfold loadInnerLoop at h
    simp only at h
    split_ifs at h
    · cases h; exact RunStep_refl env cat lb
    · cases h; exact RunStep_refl env cat lb
    · exact loadSearch_step env cat lb _ _ true _ out ih h
    · exact loadSearch_step env cat lb _ _ false _ out ih h

theorem GetLoadToMove_step (env : Env) (cat : CatalogManager) (lb : ClusterLoadBalancer) :
    RunStep env cat lb (GetLoadToMove env cat lb).2 := by
  have houter : ∀ last_pos lefts,
      RunStep env cat lb (loadOuterLoop env cat lb last_pos lefts).2 := by
    intro last_pos lefts
    induction lefts with
    | nil => exact RunStep_refl env cat lb
    | cons left lefts ih =>
      unfold loadOuterLoop
      split
      · rename_i r hr
        exact loadInnerLoop_step env cat lb last_pos left _ r hr
      · exact ih
  unfold GetLoadToMove
  split_ifs
  · exact RunStep_refl env cat lb
  · exact houter _ _

theorem HandleAddReplicas_step (env : Env) (cat : CatalogManager)
    (lb : ClusterLoadBalancer) : RunStep env cat lb (HandleAddReplicas env cat lb).2 := by
  unfold HandleAddReplicas
  split_ifs
  · exact RunStep_refl env cat lb
  · exact RunStep_refl env cat lb
  · exact RunStep_refl env cat lb
  · have h1 := HandleAddIfMissingPlacement_step env cat lb
    split
    · rename_i e lb1 heq; rw [heq] at h1; exact h1
    · rename_i m lb1 heq; rw [heq] at h1; exact h1
    · rename_i lb1 heq
      rw [heq] at h1
      have h2 := HandleAddIfWrongPlacement_step env cat lb1
      split
      · rename_i e lb2 heq2; rw [heq2] at h2; exact RunStep_trans env cat _ _ _ h1 h2
      · rename_i m lb2 heq2; rw [heq2] at h2; exact RunStep_trans env cat _ _ _ h1 h2
      · rename_i lb2 heq2
        rw [heq2] at h2
        exact RunStep_trans env cat _ _ _ (RunStep_trans env cat _ _ _ h1 h2)
          (GetLoadToMove_step env cat lb2)

theorem leaderInnerLoop_step (env : Env) (cat : CatalogManager) (lb : ClusterLoadBalancer)
    (last_pos left : Nat) (rights : List Nat) (out : Decision × ClusterLoadBalancer)
    (h : leaderInnerLoop env lb last_pos left rights = some out) :
    RunStep env cat lb out.2 := by
  induction rights with
  | nil => simp [leaderInnerLoop] at h
  | cons right rights ih =>
    have hsearch : ∀ high low g,
        leaderSearch lb high low g (leaderInnerLoop env lb last_pos left rights) = some out →
        RunStep env cat lb out.2 := by
      intro high low g hm
      unfold leaderSearch at hm
      simp only at hm
      split at hm
      · cases hm
        cases g
        · exact RunStep_of_eq env cat _ _ rfl rfl (fun _ => ⟨rfl, rfl, rfl⟩)
        · exact RunStep_refl env cat lb
      · exact ih hm
    unfold leaderInnerLoop at h
    simp only at h
    split_ifs at h
    · cases h; exact RunStep_refl env cat lb
    · cases h; exact RunStep_refl env cat lb
    · exact hsearch _ _ _ h
    · exact hsearch _ _ _ h

theorem GetLeaderToMove_step (env : Env) (cat : CatalogManager) (lb : ClusterLoadBalancer) :
    RunStep env cat lb (GetLeaderToMove env lb).2 := by
  have houter : ∀ last_pos lefts,
      RunStep env cat lb (leaderOuterLoop env lb last_pos lefts).2 := by
    intro last_pos lefts
    induction lefts with
    | nil => exact RunStep_refl env cat lb
    | cons left lefts ih =>
      unfold leaderOuterLoop
      simp only
      split_ifs
      · exact RunStep_refl env cat lb
      · split
        · rename_i r hr
          exact leaderInnerLoop_step env cat lb last_pos left _ r hr
        · exact ih
  unfold GetLeaderToMove
  split_ifs
  · exact RunStep_refl env cat lb
  · exact RunStep_refl env cat lb
  · exact houter _ _

theorem moveLeaderOf_step (env : Env) (cat : CatalogManager) (lb : ClusterLoadBalancer)
    (m : Move) : RunStep env cat lb (moveLeaderOf env cat lb m).2 := by
  have h := MoveLeader_step env cat lb m.tablet_id (m.from_ts.getD "") (m.to_ts.getD "")
  unfold moveLeaderOf
  split
  · rename_i e lb1 heq; rw [heq] at h; exact h
  · rename_i u lb1 heq; rw [heq] at h; exact h

theorem HandleLeaderMoves_step (env : Env) (cat : CatalogManager)
    (lb : ClusterLoadBalancer) : RunStep env cat lb (HandleLeaderMoves env cat lb).2 := by
  unfold HandleLeaderMoves
  simp only
  split
  · exact RunStep_refl env cat lb
  · exact moveLeaderOf_step env cat lb _
  · have h := GetLeaderToMove_step env cat lb
    split
    · rename_i e lb1 heq; rw [heq] at h; exact h
    · rename_i m lb1 heq
      rw [heq] at h
      exact RunStep_trans env cat _ _ _ h (moveLeaderOf_step env cat lb1 m)
    · rename_i lb1 heq; rw [heq] at h; exact h

theorem HandleRemoveIfWrongPlacement_step (env : Env) (cat : CatalogManager)
    (lb : ClusterLoadBalancer) :
    RunStep env cat lb (HandleRemoveIfWrongPlacement env cat lb).2 := by
  unfold HandleRemoveIfWrongPlacement
  split
  · exact RunStep_refl env cat lb
  · rename_i t ts _
    have h := RemoveReplica_step env cat lb t ts
    split
    · rename_i e lb1 heq; rw [heq] at h; exact h
    · rename_i u lb1 heq; rw [heq] at h; exact h

theorem HandleRemoveReplicas_step (env : Env) (cat : CatalogManager)
    (lb : ClusterLoadBalancer) : RunStep env cat lb (HandleRemoveReplicas env cat lb).2 := by
  have h1 := HandleRemoveIfWrongPlacement_step env cat lb
  unfold HandleRemoveReplicas
  split
  · rename_i e lb1 heq; rw [heq] at h1; exact h1
  · rename_i m lb1 heq; rw [heq] at h1; exact h1
  · rename_i lb1 heq
    rw [heq] at h1
    split
    · exact h1
    · exact h1
    · rename_i t ts _
      have h := RemoveReplica_step env cat lb1 t ts
      split
      · rename_i e lb2 heq2; rw [heq2] at h; exact RunStep_trans env cat _ _ _ h1 h
      · rename_i u lb2 heq2; rw [heq2] at h; exact RunStep_trans env cat _ _ _ h1 h

theorem addReplicasLoop_step (env : Env) (cat : CatalogManager) (fuel : Nat) :
    ∀ s : ExecState, RunStep env cat s.lb (addReplicasLoop env cat fuel s).lb := by
  induction fuel with
  | zero => intro s; exact RunStep_refl env cat _
  | succ n ih =>
    intro s
    unfold addReplicasLoop
    split_ifs
    · exact RunStep_refl env cat _
    · have h := HandleAddReplicas_step env cat s.lb
      split
      · rename_i e lb1 heq; rw [heq] at h; exact h
      · rename_i lb1 heq; rw [heq] at h; exact h
      · rename_i m lb1 heq
        rw [heq] at h
        exact RunStep_trans env cat _ _ _ h (ih _)
    · exact RunStep_refl env cat _

theorem removeReplicasLoop_step (env : Env) (cat : CatalogManager) (fuel : Nat) :
    ∀ s : ExecState, RunStep env cat s.lb (removeReplicasLoop env cat fuel s).lb := by
  induction fuel with
  | zero => intro s; exact RunStep_refl env cat _
  | succ n ih =>
    intro s
    unfold removeReplicasLoop
    split_ifs
    · exact RunStep_refl env cat _
    · have h := HandleRemoveReplicas_step env cat s.lb
      split
      · rename_i e lb1 heq; rw [heq] at h; exact h
      · rename_i lb1 heq; rw [heq] at h; exact h
      · rename_i m lb1 heq
        rw [heq] at h
        exact RunStep_trans env cat _ _ _ h (ih _)
    · exact RunStep_refl env cat _

theorem leaderMovesLoop_step (env : Env) (cat : CatalogManager) (fuel : Nat) :
    ∀ s : LeaderLoopState,
      RunStep env cat s.exec.lb (leaderMovesLoop env cat fuel s).exec.lb := by
  induction fuel with
  | zero => intro s; exact RunStep_refl env cat _
  | succ n ih =>
    intro s
    unfold leaderMovesLoop
    split_ifs
    · have h := HandleLeaderMoves_step env cat s.exec.lb
      split
      · rename_i e lb1 heq; rw [heq] at h; exact h
      · rename_i lb1 heq; rw [heq] at h; exact h
      · rename_i m lb1 heq
        rw [heq] at h
        exact RunStep_trans env cat _ _ _ h (ih _)
    · exact RunStep_refl env cat _

theorem leaderMovesPhase_step (env : Env) (cat : CatalogManager) (table_id : TableId)
    (s : ExecState) :
    RunStep env cat s.lb (leaderMovesPhase env cat table_id s).exec.lb := by
  unfold leaderMovesPhase
  exact leaderMovesLoop_step env cat _ _

/-- The body of the EXECUTE loop for one table is a step from the balancer whose
`state_` is the table state, followed by the write-back of the table state. -/
theorem executeTable_mid (env : Env) (cat : CatalogManager) (table_id : TableId)
    (st : PerTableLoadState) (s : ExecState) :
    ∃ mid : ClusterLoadBalancer, RunStep env cat { s.lb with state_ := st } mid ∧
      (executeTable env cat table_id st s).lb =
        { mid with per_table_states_ := insertKey mid.per_table_states_ table_id mid.state_ } := by
  have h0 : RunStep env cat { s.lb with state_ := st }
      { s.lb with state_ := env.state_SortLoad (st, s.lb.global_state_) } :=
    RunStep_of_eq env cat _ _ rfl rfl (fun hf => hf.2.2.2.2.2.2.2.2.2.1 (st, s.lb.global_state_))
  have h1 := addReplicasLoop_step env cat s.remaining_adds.toNat
    { s with lb := { s.lb with state_ := env.state_SortLoad (st, s.lb.global_state_) } }
  have h01 := RunStep_trans env cat _ _ _ h0 h1
  unfold executeTable
  simp only
  split_ifs
  · exact ⟨_, h01, rfl⟩
  · refine ⟨_, ?_, rfl⟩
    exact RunStep_trans env cat _ _ _
      (RunStep_trans env cat _ _ _ h01 (removeReplicasLoop_step env cat _ _))
      (leaderMovesPhase_step env cat table_id _)

theorem executeTable_step (env : Env) (cat : CatalogManager) (table_id : TableId)
    (st : PerTableLoadState) (s : ExecState) :
    (executeTable env cat table_id st s).lb.per_table_states_ =
      insertKey s.lb.per_table_states_ table_id
        (executeTable env cat table_id st s).lb.state_ ∧
    (PendingFrame env →
      SamePending st (executeTable env cat table_id st s).lb.state_ ∧
      ∃ cs, (executeTable env cat table_id st s).lb.sent_ = s.lb.sent_ ++ cs ∧
        ∀ c ∈ cs, NoPendingOfKind cat st c) := by
  obtain ⟨mid, hstep, heq⟩ := executeTable_mid env cat table_id st s
  rw [heq]
  refine ⟨?_, fun hf => hstep.2 hf⟩
  show insertKey mid.per_table_states_ table_id mid.state_ =
    insertKey s.lb.per_table_states_ table_id mid.state_
  rw [hstep.1]

/-! ### Lookups in a `std::map` -/

theorem lookup_cons_if {ν : Type} (a : String) (b : ν) (m : List (String × ν)) (k2 : String) :
    List.lookup k2 ((a, b) :: m) = if k2 = a then some b else List.lookup k2 m := by
  rw [List.lookup_cons]
  by_cases h : k2 = a
  · subst h
    simp
  · have hb : (k2 == a) = false := by simpa using h
    rw [hb]
    simp [h]

theorem lookup_map_replace {ν : Type} (m : List (String × ν)) (k k2 : String) (v : ν) :
    (m.map (fun e => if e.1 == k then (k, v) else e)).lookup k2 =
      if k2 = k then (m.lookup k).map (fun _ => v) else m.lookup k2 := by
  induction m with
  | nil => simp
  | cons e m ih =>
    obtain ⟨a, b⟩ := e
    simp only [List.map_cons, lookup_cons_if, beq_iff_eq] at ih ⊢
    by_cases hak : a = k <;> by_cases hk2 : k2 = k <;> by_cases hk3 : k2 = a <;>
      simp_all [lookup_cons_if]

theorem lookup_append_single {ν : Type} (m : List (String × ν)) (k k2 : String) (v : ν) :
    (m ++ [(k, v)]).lookup k2 =
      match m.lookup k2 with
      | some x => some x
      | none => if k2 = k then some v else none := by
  induction m with
  | nil => by_cases h : k2 = k <;> simp [lookup_cons_if, h]
  | cons e m ih =>
    obtain ⟨a, b⟩ := e
    simp only [List.cons_append, lookup_cons_if]
    by_cases h : k2 = a
    · simp [h]
    · simp [h, ih]

theorem lookup_insertKey_self {ν : Type} (m : List (String × ν)) (k : String) (v : ν) :
    (insertKey m k v).lookup k = some v := by
  unfold insertKey
  split_ifs with h
  · rw [lookup_map_replace]
    simp only [if_true]
    cases hl : m.lookup k with
    | none => rw [hl] at h; cases h
    | some x => rfl
  · rw [lookup_append_single]
    cases hl : m.lookup k with
    | none => simp
    | some x => rw [hl] at h; exact absurd rfl h

theorem lookup_insertKey_ne {ν : Type} (m : List (String × ν)) (k k2 : String) (v : ν)
    (hne : k2 ≠ k) : (insertKey m k v).lookup k2 = m.lookup k2 := by
  unfold insertKey
  split_ifs with h
  · rw [lookup_map_replace]
    simp only [hne, if_false]
  · rw [lookup_append_single]
    cases hl : m.lookup k2 with
    | none => simp [hne]
    | some x => rfl

theorem lookup_eraseKey {ν : Type} (m : List (String × ν)) (k k2 : String) :
    (eraseKey m k).lookup k2 = if k2 = k then none else m.lookup k2 := by
  unfold eraseKey
  induction m with
  | nil => simp
  | cons e m ih =>
    obtain ⟨a, b⟩ := e
    simp only [List.filter_cons]
    by_cases hak : a = k
    · subst hak
      simp only [beq_self_eq_true, Bool.not_true, Bool.false_eq_true, if_false]
      rw [ih, lookup_cons_if]
      by_cases hk2 : k2 = a <;> simp [hk2]
    · have hb : (a == k) = false := by simpa using hak
      simp only [hb, Bool.not_false, if_true]
      rw [lookup_cons_if, lookup_cons_if, ih]
      by_cases hk2 : k2 = k
      · have hk3 : ¬ k2 = a := fun h => hak (h ▸ hk2)
        simp [hk2, hk3]
        intro h
        exact absurd h.symm hak
      · simp [hk2]

theorem lookupD_insertKey_self {ν : Type} (m : List (String × ν)) (k : String) (v d : ν) :
    lookupD (insertKey m k v) k d = v := by
  unfold lookupD
  rw [lookup_insertKey_self]
  rfl

/-! ### The pending-task maps between counting and execution -/

theorem addStartingTablets_pending (env : Env) (hf : PendingFrame env)
    (l : List (TabletId × TabletServerId)) :
    ∀ sg, SamePending sg.1 (addStartingTablets env l sg).2.1 := by
  induction l with
  | nil => intro sg; exact SamePending_refl _
  | cons e rest ih =>
    intro sg
    have h := hf.2.2.2.1 sg e.1 e.2
    unfold addStartingTablets
    split
    · rename_i err sg1 heq; rw [heq] at h; exact h
    · rename_i u sg1 heq
      rw [heq] at h
      exact SamePending_trans _ _ _ h (ih sg1)

theorem UpdateTabletInfo_pending (env : Env) (cat : CatalogManager) (hf : PendingFrame env)
    (lb : ClusterLoadBalancer) (tablet : TabletInfo) :
    SamePending lb.state_ (UpdateTabletInfo env cat lb tablet).2.state_ := by
  unfold UpdateTabletInfo
  simp only
  split
  · exact SamePending_refl _
  · rename_i lb1 heq
    have h1 : SamePending lb.state_ lb1.state_ := by
      split_ifs at heq
      · cases heq; exact SamePending_refl _
      · split at heq
        · cases heq
        · cases heq; exact ⟨rfl, rfl, rfl⟩
    exact SamePending_trans _ _ _ h1 (hf.2.2.2.2.1 (lb1.state_, lb1.global_state_) tablet)

theorem analyzeRunning_pending (env : Env) (cat : CatalogManager) (hf : PendingFrame env)
    (tablets : List TabletInfo) :
    ∀ lb, SamePending lb.state_ (analyzeRunning env cat tablets lb).2.state_ := by
  induction tablets with
  | nil => intro lb; exact SamePending_refl _
  | cons tablet rest ih =>
    intro lb
    unfold analyzeRunning
    split_ifs
    · exact ih lb
    · have h := UpdateTabletInfo_pending env cat hf lb tablet
      split
      · rename_i e lb1 heq; rw [heq] at h; exact h
      · rename_i u lb1 heq
        rw [heq] at h
        exact SamePending_trans _ _ _ h (ih lb1)
    · exact ih lb

theorem whenPending_pending (cond : Bool) (lb : ClusterLoadBalancer)
    (f : PerTableLoadState × GlobalLoadState →
      StatusOr Unit × (PerTableLoadState × GlobalLoadState))
    (h : ∀ sg, SamePending sg.1 (f sg).2.1) :
    SamePending lb.state_ (whenPending cond lb f).2.state_ := by
  unfold whenPending
  split_ifs
  · exact h (lb.state_, lb.global_state_)
  · exact SamePending_refl _

theorem applyPending_pending (env : Env) (hf : PendingFrame env) (table_uuid : TableId)
    (tablets : List TabletInfo) :
    ∀ lb, SamePending lb.state_ (applyPending env table_uuid tablets lb).2.state_ := by
  induction tablets with
  | nil => intro lb; exact SamePending_refl _
  | cons tablet rest ih =>
    intro lb
    unfold applyPending
    simp only
    have h1 := whenPending_pending
      (((lookupD lb.state_.pending_remove_replica_tasks_ table_uuid []).lookup
        tablet.tablet_id).isSome) lb
      (fun sg => env.state_RemoveReplica sg tablet.tablet_id
        (lookupD (lookupD lb.state_.pending_remove_replica_tasks_ table_uuid [])
          tablet.tablet_id ""))
      (fun sg => hf.2.1 sg _ _)
    split
    · rename_i e lb1 heq; rw [heq] at h1; exact h1
    · rename_i u lb1 heq
      rw [heq] at h1
      have h2 := whenPending_pending
        (((lookupD lb1.state_.pending_stepdown_leader_tasks_ table_uuid []).lookup
          tablet.tablet_id).isSome) lb1
        (fun sg => env.state_MoveLeader sg tablet.tablet_id
          (lookupD lb1.state_.per_tablet_meta_ tablet.tablet_id default).leader_uuid
          (lookupD (lookupD lb1.state_.pending_stepdown_leader_tasks_ table_uuid [])
            tablet.tablet_id ""))
        (fun sg => hf.2.2.1 sg _ _ _)
      split
      · rename_i e lb2 heq2; rw [heq2] at h2; exact SamePending_trans _ _ _ h1 h2
      · rename_i u2 lb2 heq2
        rw [heq2] at h2
        have h3 := whenPending_pending
          (((lookupD lb2.state_.pending_add_replica_tasks_ table_uuid []).lookup
            tablet.tablet_id).isSome) lb2
          (fun sg => env.state_AddReplica sg tablet.tablet_id
            (lookupD (lookupD lb2.state_.pending_add_replica_tasks_ table_uuid [])
              tablet.tablet_id ""))
          (fun sg => hf.1 sg _ _)
        have h12 := SamePending_trans _ _ _ h1 h2
        split
        · rename_i e lb3 heq3; rw [heq3] at h3; exact SamePending_trans _ _ _ h12 h3
        · rename_i u3 lb3 heq3
          rw [heq3] at h3
          exact SamePending_trans _ _ _ (SamePending_trans _ _ _ h12 h3) (ih lb3)

theorem AnalyzeTabletsUnlocked_pending (env : Env) (cat : CatalogManager)
    (hf : PendingFrame env) (lb : ClusterLoadBalancer) (table_uuid : TableId) :
    SamePending lb.state_ (AnalyzeTabletsUnlocked env cat lb table_uuid).2.state_ := by
  unfold AnalyzeTabletsUnlocked
  split
  · exact SamePending_refl _
  · rename_i table_info _
    have h1 := analyzeRunning_pending env cat hf table_info.tablets lb
    split
    · rename_i e lb1 heq; rw [heq] at h1; exact h1
    · rename_i u lb1 heq
      rw [heq] at h1
      simp only
      refine SamePending_trans _ _ _ h1 (SamePending_trans _ _ _ ?_
        (applyPending_pending env hf table_uuid table_info.tablets _))
      have ha := hf.2.2.2.2.2.2.2.2.1 lb1.state_
      have hb := hf.2.2.2.2.2.2.2.2.2.1
        (env.state_AdjustLeaderBalanceThreshold lb1.state_, lb1.global_state_)
      have hc := hf.2.2.2.2.2.2.2.2.2.2.1
        (env.state_SortLoad
          (env.state_AdjustLeaderBalanceThreshold lb1.state_, lb1.global_state_),
          lb1.global_state_)
      have habc := SamePending_trans _ _ _ (SamePending_trans _ _ _ ha hb) hc
      show SamePending lb1.state_ (if lb1.global_state_.drive_aware_ = true then _ else _)
      split_ifs
      · exact SamePending_trans _ _ _ habc (hf.2.2.2.2.2.2.2.2.2.2.2 _)
      · exact habc

theorem pendingCount_eq_zero (m : List (TableId × TabletToTabletServerMap)) (a : TableId)
    (t : TabletId) (h : pendingCount m a t = 0) : (lookupD m a []).lookup t = none := by
  unfold pendingCount at h
  split_ifs at h with h1
  cases hl : (lookupD m a []).lookup t with
  | none => rfl
  | some x => rw [hl] at h1; exact absurd rfl h1

theorem CountPendingTasksUnlocked_records (env : Env) (hf : PendingFrame env)
    (table : TableInfo) (lb : ClusterLoadBalancer) (totals : PendingTotals) (c : Command) :
    lookupD (pendingTasksOfKind (CountPendingTasksUnlocked env table lb totals).2.1.state_ c)
      table.id [] = pendingOfTable table c := by
  unfold CountPendingTasksUnlocked
  simp only
  have h := addStartingTablets_pending env hf table.pending_add_server_tasks
    ({ lb.state_ with
        pending_add_replica_tasks_ :=
          insertKey lb.state_.pending_add_replica_tasks_ table.id table.pending_add_server_tasks
        pending_remove_replica_tasks_ :=
          insertKey lb.state_.pending_remove_replica_tasks_ table.id
            table.pending_remove_server_tasks
        pending_stepdown_leader_tasks_ :=
          insertKey lb.state_.pending_stepdown_leader_tasks_ table.id
            table.pending_stepdown_leader_tasks }, lb.global_state_)
  cases c <;> simp only [pendingTasksOfKind, pendingOfTable]
  · rw [h.1]; exact lookupD_insertKey_self _ _ _ _
  · rw [h.2.1]; exact lookupD_insertKey_self _ _ _ _
  · rw [h.2.2]; exact lookupD_insertKey_self _ _ _ _

theorem pendingTasksOfKind_congr (a b : PerTableLoadState) (c : Command)
    (h : SamePending a b) : pendingTasksOfKind b c = pendingTasksOfKind a c := by
  cases c <;> simp only [pendingTasksOfKind]
  · exact h.1
  · exact h.2.1
  · exact h.2.2

/-! ### The per-table states across the phases of a pass -/

theorem applyState_tables (lb : ClusterLoadBalancer)
    (r : StatusOr Unit × (PerTableLoadState × GlobalLoadState)) :
    (applyState lb r).2.per_table_states_ = lb.per_table_states_ := rfl

theorem UpdateTabletInfo_tables (env : Env) (cat : CatalogManager) (lb : ClusterLoadBalancer)
    (tablet : TabletInfo) :
    (UpdateTabletInfo env cat lb tablet).2.per_table_states_ = lb.per_table_states_ := by
  unfold UpdateTabletInfo
  simp only
  split_ifs
  · rfl
  · rcases hp : PopulatePlacementInfo cat lb.state_
        (lookupD cat.table_ids_map_ tablet.table_id default) with e | pb
    · rfl
    · rfl

theorem analyzeRunning_tables (env : Env) (cat : CatalogManager) (tablets : List TabletInfo) :
    ∀ lb : ClusterLoadBalancer,
      (analyzeRunning env cat tablets lb).2.per_table_states_ = lb.per_table_states_ := by
  induction tablets with
  | nil => intro lb; rfl
  | cons tablet rest ih =>
    intro lb
    unfold analyzeRunning
    split_ifs
    · exact ih lb
    · have h := UpdateTabletInfo_tables env cat lb tablet
      split
      · rename_i e lb1 heq; rw [heq] at h; exact h
      · rename_i u lb1 heq; rw [heq] at h; rw [ih lb1]; exact h
    · exact ih lb

theorem whenPending_tables (cond : Bool) (lb : ClusterLoadBalancer)
    (f : PerTableLoadState × GlobalLoadState →
      StatusOr Unit × (PerTableLoadState × GlobalLoadState)) :
    (whenPending cond lb f).2.per_table_states_ = lb.per_table_states_ := by
  unfold whenPending
  split_ifs <;> rfl

theorem whenPending_eq_tables (cond : Bool) (lb lb1 : ClusterLoadBalancer)
    (f : PerTableLoadState × GlobalLoadState →
      StatusOr Unit × (PerTableLoadState × GlobalLoadState))
    (r : StatusOr Unit) (h : whenPending cond lb f = (r, lb1)) :
    lb1.per_table_states_ = lb.per_table_states_ := by
  have h2 := whenPending_tables cond lb f
  rw [h] at h2
  exact h2

theorem applyPending_tables (env : Env) (table_uuid : TableId) (tablets : List TabletInfo) :
    ∀ lb : ClusterLoadBalancer,
      (applyPending env table_uuid tablets lb).2.per_table_states_ = lb.per_table_states_ := by
  induction tablets with
  | nil => intro lb; rfl
  | cons tablet rest ih =>
    intro lb
    unfold applyPending
    simp only
    split
    · rename_i e lb1 heq
      exact whenPending_eq_tables _ _ _ _ _ heq
    · rename_i u lb1 heq
      have h1 := whenPending_eq_tables _ _ _ _ _ heq
      split
      · rename_i e lb2 heq2
        have h2 := whenPending_eq_tables _ _ _ _ _ heq2
        simp only
        rw [h2, h1]
      · rename_i u2 lb2 heq2
        have h2 := whenPending_eq_tables _ _ _ _ _ heq2
        split
        · rename_i e lb3 heq3
          have h3 := whenPending_eq_tables _ _ _ _ _ heq3
          simp only
          rw [h3, h2, h1]
        · rename_i u3 lb3 heq3
          have h3 := whenPending_eq_tables _ _ _ _ _ heq3
          rw [ih lb3, h3, h2, h1]

theorem AnalyzeTabletsUnlocked_tables (env : Env) (cat : CatalogManager)
    (lb : ClusterLoadBalancer) (table_uuid : TableId) :
    (AnalyzeTabletsUnlocked env cat lb table_uuid).2.per_table_states_ = lb.per_table_states_ := by
  unfold AnalyzeTabletsUnlocked
  split
  · rfl
  · rename_i table_info _
    have h := analyzeRunning_tables env cat table_info.tablets lb
    split
    · rename_i e lb1 heq; rw [heq] at h; exact h
    · rename_i u lb1 heq
      rw [heq] at h
      simp only at h ⊢
      rw [applyPending_tables]
      exact h

/-! ### The error counter of a pass -/

theorem ErrorsAdded_refl (hi a : Nat) : ErrorsAdded 0 hi a a :=
  ⟨0, le_refl 0, Nat.zero_le hi, Nat.ModEq.refl a⟩

theorem ErrorsAdded_inc (a : Nat) : ErrorsAdded 1 1 a (wrapInc 32 a) :=
  ⟨1, le_refl 1, le_refl 1, Nat.mod_mod _ _⟩

theorem ErrorsAdded_mono (lo hi lo2 hi2 a b : Nat) (h : ErrorsAdded lo hi a b)
    (hlo : lo2 ≤ lo) (hhi : hi ≤ hi2) : ErrorsAdded lo2 hi2 a b := by
  obtain ⟨j, h1, h2, h3⟩ := h
  exact ⟨j, le_trans hlo h1, le_trans h2 hhi, h3⟩

theorem ErrorsAdded_trans (lo1 hi1 lo2 hi2 a b c : Nat) (h1 : ErrorsAdded lo1 hi1 a b)
    (h2 : ErrorsAdded lo2 hi2 b c) : ErrorsAdded (lo1 + lo2) (hi1 + hi2) a c := by
  obtain ⟨j1, ha, hb, hc⟩ := h1
  obtain ⟨j2, hd, he, hf⟩ := h2
  refine ⟨j1 + j2, by omega, by omega, ?_⟩
  have := Nat.ModEq.add_right j2 hc
  rw [← Nat.add_assoc]
  exact hf.trans this

theorem ErrorsAdded_ne_zero (lo hi b : Nat) (h : ErrorsAdded lo hi 0 b) (hlo : 1 ≤ lo)
    (hhi : hi < 2 ^ 32) : b ≠ 0 := by
  obtain ⟨j, h1, h2, h3⟩ := h
  intro hb
  subst hb
  rw [Nat.zero_add] at h3
  have h4 : 0 % 2 ^ 32 = j % 2 ^ 32 := h3
  rw [Nat.zero_mod, Nat.mod_eq_of_lt (by omega)] at h4
  omega

theorem countPendingStep_errors (env : Env) (cat : CatalogManager) (options : Options)
    (s : CountState) (table : TableId × TableInfo) :
    ErrorsAdded 0 1 s.master_errors (countPendingStep env cat options s table).master_errors := by
  unfold countPendingStep
  split_ifs
  · exact ErrorsAdded_refl _ _
  · exact ErrorsAdded_mono _ _ _ _ _ _ (ErrorsAdded_inc _) (by omega) (by omega)
  · simp only
    split
    · exact ErrorsAdded_mono _ _ _ _ _ _ (ErrorsAdded_inc _) (by omega) (by omega)
    · exact ErrorsAdded_refl _ _

theorem analyzeStep_errors (env : Env) (cat : CatalogManager) (s : CountState)
    (table : TableId × TableInfo) :
    ErrorsAdded 0 1 s.master_errors (analyzeStep env cat s table).master_errors := by
  unfold analyzeStep
  split_ifs
  · exact ErrorsAdded_refl _ _
  · split
    · exact ErrorsAdded_refl _ _
    · split
      · exact ErrorsAdded_mono _ _ _ _ _ _ (ErrorsAdded_inc _) (by omega) (by omega)
      · exact ErrorsAdded_refl _ _

theorem foldl_errors (f : CountState → TableId × TableInfo → CountState)
    (hf : ∀ s t, ErrorsAdded 0 1 s.master_errors (f s t).master_errors)
    (tables : List (TableId × TableInfo)) :
    ∀ s : CountState,
      ErrorsAdded 0 tables.length s.master_errors (tables.foldl f s).master_errors := by
  induction tables with
  | nil => intro s; exact ErrorsAdded_refl _ _
  | cons t rest ih =>
    intro s
    rw [List.foldl_cons]
    have h := ErrorsAdded_trans _ _ _ _ _ _ _ (hf s t) (ih (f s t))
    exact ErrorsAdded_mono _ _ _ _ _ _ h (by omega) (by simp; omega)

theorem addReplicasLoop_errors (env : Env) (cat : CatalogManager) (fuel : Nat) :
    ∀ s : ExecState,
      ErrorsAdded 0 1 s.master_errors (addReplicasLoop env cat fuel s).master_errors := by
  induction fuel with
  | zero => intro s; exact ErrorsAdded_refl _ _
  | succ n ih =>
    intro s
    unfold addReplicasLoop
    split_ifs
    · exact ErrorsAdded_refl _ _
    · split
      · exact ErrorsAdded_mono _ _ _ _ _ _ (ErrorsAdded_inc _) (by omega) (by omega)
      · exact ErrorsAdded_refl _ _
      · exact ih _
    · exact ErrorsAdded_refl _ _

theorem removeReplicasLoop_errors (env : Env) (cat : CatalogManager) (fuel : Nat) :
    ∀ s : ExecState,
      ErrorsAdded 0 1 s.master_errors (removeReplicasLoop env cat fuel s).master_errors := by
  induction fuel with
  | zero => intro s; exact ErrorsAdded_refl _ _
  | succ n ih =>
    intro s
    unfold removeReplicasLoop
    split_ifs
    · exact ErrorsAdded_refl _ _
    · split
      · exact ErrorsAdded_mono _ _ _ _ _ _ (ErrorsAdded_inc _) (by omega) (by omega)
      · exact ErrorsAdded_refl _ _
      · exact ih _
    · exact ErrorsAdded_refl _ _

theorem leaderMovesLoop_errors (env : Env) (cat : CatalogManager) (fuel : Nat) :
    ∀ s : LeaderLoopState,
      ErrorsAdded 0 1 s.exec.master_errors
        (leaderMovesLoop env cat fuel s).exec.master_errors := by
  induction fuel with
  | zero => intro s; exact ErrorsAdded_refl _ _
  | succ n ih =>
    intro s
    unfold leaderMovesLoop
    split_ifs
    · split
      · exact ErrorsAdded_mono _ _ _ _ _ _ (ErrorsAdded_inc _) (by omega) (by omega)
      · exact ErrorsAdded_refl _ _
      · exact ih _
    · exact ErrorsAdded_refl _ _

theorem executeTable_errors (env : Env) (cat : CatalogManager) (table_id : TableId)
    (st : PerTableLoadState) (s : ExecState) :
    ErrorsAdded 0 3 s.master_errors (executeTable env cat table_id st s).master_errors := by
  have h1 := addReplicasLoop_errors env cat s.remaining_adds.toNat
    { s with lb := { s.lb with state_ := env.state_SortLoad (st, s.lb.global_state_) } }
  unfold executeTable
  simp only
  split_ifs
  · exact ErrorsAdded_mono _ _ _ _ _ _ h1 (by omega) (by omega)
  · unfold leaderMovesPhase
    refine ErrorsAdded_mono (0 + 0 + 0) (1 + 1 + 1) 0 3 _ _ ?_ (by omega) (by omega)
    refine ErrorsAdded_trans (0 + 0) (1 + 1) 0 1 _ _ _ ?_ (leaderMovesLoop_errors env cat _ _)
    refine ErrorsAdded_trans 0 1 0 1 _ _ _ ?_ (removeReplicasLoop_errors env cat _ _)
    exact h1

theorem executeLoop_errors (env : Env) (cat : CatalogManager)
    (tables : List (TableId × TableInfo)) :
    ∀ s : ExecState,
      ErrorsAdded 0 (3 * tables.length) s.master_errors
        (executeLoop env cat tables s).master_errors := by
  induction tables with
  | nil => intro s; exact ErrorsAdded_refl _ _
  | cons t rest ih =>
    intro s
    have hrest : ∀ s2 : ExecState, s2.master_errors = s.master_errors →
        ErrorsAdded 0 (3 * (t :: rest).length) s.master_errors
          (executeLoop env cat rest s2).master_errors := by
      intro s2 h2
      rw [← h2]
      exact ErrorsAdded_mono _ _ _ _ _ _ (ih s2) (by omega) (by simp only [List.length_cons]; omega)
    unfold executeLoop
    split_ifs
    · exact ErrorsAdded_refl _ _
    · exact hrest s rfl
    · split
      · exact hrest s rfl
      · rename_i st _
        have h := ErrorsAdded_trans _ _ _ _ _ _ _ (executeTable_errors env cat t.1 st s)
          (ih (executeTable env cat t.1 st s))
        exact ErrorsAdded_mono _ _ _ _ _ _ h (by omega) (by simp only [List.length_cons]; omega)

theorem countPendingStep_fail (env : Env) (cat : CatalogManager) (options : Options)
    (s : CountState) (table : TableId × TableInfo)
    (h : CountingFails env cat options s table) :
    (countPendingStep env cat options s table).lb.per_table_states_.lookup table.1 = none ∧
    (countPendingStep env cat options s table).master_errors = wrapInc 32 s.master_errors := by
  obtain ⟨hs, hr, e, he⟩ := h
  unfold countPendingStep
  rw [if_neg (by simp [hs]), if_neg (by simp [hr])]
  simp only
  split
  · rename_i e1 lb1 totals1 heq
    refine ⟨?_, rfl⟩
    simp only
    rw [lookup_eraseKey]
    simp
  · rename_i u lb1 totals1 heq
    have h3 : (Except.error e : StatusOr Unit) = Except.ok u :=
      he.symm.trans (congrArg Prod.fst heq)
    cases h3

theorem countPendingStep_keep (env : Env) (cat : CatalogManager) (options : Options)
    (s : CountState) (table : TableId × TableInfo) (T : TableId) (hne : table.1 ≠ T) :
    (countPendingStep env cat options s table).lb.per_table_states_.lookup T =
      s.lb.per_table_states_.lookup T := by
  have hne2 : T ≠ table.1 := fun h => hne h.symm
  unfold countPendingStep
  split_ifs
  · rfl
  · rfl
  · simp only
    split
    · rename_i e lb1 totals1 heq
      have := congrArg (fun r => r.2.1.per_table_states_) heq
      simp only [CountPendingTasksUnlocked] at this
      simp only
      rw [lookup_eraseKey, if_neg hne2, ← this]
      exact lookup_insertKey_ne _ _ _ _ hne2
    · rename_i u lb1 totals1 heq
      have := congrArg (fun r => r.2.1.per_table_states_) heq
      simp only [CountPendingTasksUnlocked] at this
      simp only
      rw [lookup_insertKey_ne _ _ _ _ hne2, ← this]
      exact lookup_insertKey_ne _ _ _ _ hne2

theorem analyzeStep_fail (env : Env) (cat : CatalogManager) (s : CountState)
    (table : TableId × TableInfo) (h : AnalysisFails env cat s table) :
    (analyzeStep env cat s table).lb.per_table_states_.lookup table.1 = none ∧
    (analyzeStep env cat s table).master_errors = wrapInc 32 s.master_errors := by
  obtain ⟨hs, st, e, hst, he⟩ := h
  unfold analyzeStep
  rw [if_neg (by simp [hs])]
  simp only [hst]
  split
  · rename_i e1 lb1 heq
    refine ⟨?_, rfl⟩
    simp only
    rw [lookup_eraseKey]
    simp
  · rename_i u lb1 heq
    have h3 : (Except.error e : StatusOr Unit) = Except.ok u :=
      he.symm.trans (congrArg Prod.fst heq)
    cases h3

theorem analyzeStep_keep_none (env : Env) (cat : CatalogManager) (s : CountState)
    (table : TableId × TableInfo) (T : TableId)
    (h : s.lb.per_table_states_.lookup T = none) :
    (analyzeStep env cat s table).lb.per_table_states_.lookup T = none := by
  unfold analyzeStep
  split_ifs
  · exact h
  · split
    · exact h
    · rename_i st hst
      have hne2 : T ≠ table.1 := by
        intro heq
        rw [heq, hst] at h
        cases h
      have ht := AnalyzeTabletsUnlocked_tables env cat { s.lb with state_ := st } table.1
      split
      · rename_i e lb1 heq
        rw [heq] at ht
        simp only at ht ⊢
        rw [lookup_eraseKey, if_neg hne2, ht]
        exact h
      · rename_i u lb1 heq
        rw [heq] at ht
        simp only at ht ⊢
        rw [lookup_insertKey_ne _ _ _ _ hne2, ht]
        exact h

theorem foldl_analyze_keep_none (env : Env) (cat : CatalogManager) (T : TableId)
    (tables : List (TableId × TableInfo)) :
    ∀ s : CountState, s.lb.per_table_states_.lookup T = none →
      (tables.foldl (analyzeStep env cat) s).lb.per_table_states_.lookup T = none := by
  induction tables with
  | nil => intro s h; exact h
  | cons t rest ih =>
    intro s h
    rw [List.foldl_cons]
    exact ih _ (analyzeStep_keep_none env cat s t T h)

theorem foldl_count_keep (env : Env) (cat : CatalogManager) (options : Options) (T : TableId)
    (tables : List (TableId × TableInfo)) (hT : T ∉ tables.map Prod.fst) :
    ∀ s : CountState,
      (tables.foldl (countPendingStep env cat options) s).lb.per_table_states_.lookup T =
        s.lb.per_table_states_.lookup T := by
  induction tables with
  | nil => intro s; rfl
  | cons t rest ih =>
    intro s
    rw [List.foldl_cons]
    have h1 : t.1 ≠ T := by
      intro h
      apply hT
      rw [← h]
      exact List.mem_map_of_mem Prod.fst (List.mem_cons_self _ _)
    have h2 : T ∉ rest.map Prod.fst := by
      intro h
      apply hT
      rw [List.map_cons]
      exact List.mem_cons_of_mem _ h
    rw [ih h2, countPendingStep_keep env cat options s t T h1]

theorem executeTable_keep (env : Env) (cat : CatalogManager) (table_id : TableId)
    (st : PerTableLoadState) (s : ExecState) (T : TableId) (hne : T ≠ table_id) :
    (executeTable env cat table_id st s).lb.per_table_states_.lookup T =
      s.lb.per_table_states_.lookup T := by
  rw [(executeTable_step env cat table_id st s).1]
  exact lookup_insertKey_ne _ _ _ _ hne

theorem executeLoop_budget_zero (env : Env) (cat : CatalogManager)
    (tables : List (TableId × TableInfo)) (s : ExecState)
    (h : s.remaining_adds = 0 ∧ s.remaining_removals = 0 ∧ s.remaining_leader_moves = 0) :
    executeLoop env cat tables s = s := by
  cases tables with
  | nil => rfl
  | cons t rest =>
    unfold executeLoop
    rw [if_pos h]

theorem executeLoop_keep_none (env : Env) (cat : CatalogManager) (T : TableId)
    (tables : List (TableId × TableInfo)) :
    ∀ s : ExecState, s.lb.per_table_states_.lookup T = none →
      (executeLoop env cat tables s).lb.per_table_states_.lookup T = none := by
  induction tables with
  | nil => intro s h; exact h
  | cons t rest ih =>
    intro s h
    unfold executeLoop
    split_ifs
    · exact h
    · exact ih s h
    · split
      · exact ih s h
      · rename_i st hst
        have hne : T ≠ t.1 := by
          intro heq
          rw [heq, hst] at h
          cases h
        exact ih _ (by rw [executeTable_keep env cat t.1 st s T hne]; exact h)

theorem executeLoop_skip (env : Env) (cat : CatalogManager) (T : TableId) (info : TableInfo)
    (pre post : List (TableId × TableInfo)) :
    ∀ s : ExecState, s.lb.per_table_states_.lookup T = none →
      executeLoop env cat (pre ++ (T, info) :: post) s = executeLoop env cat (pre ++ post) s := by
  induction pre with
  | nil =>
    intro s h
    simp only [List.nil_append]
    conv_lhs => unfold executeLoop
    split_ifs with hz
    · exact (executeLoop_budget_zero env cat post s hz).symm
    · rfl
    · simp only [h]
  | cons t rest ih =>
    intro s h
    simp only [List.cons_append]
    conv_lhs => unfold executeLoop
    conv_rhs => unfold executeLoop
    split_ifs
    · rfl
    · exact ih s h
    · split
      · exact ih s h
      · rename_i st hst
        have hne : T ≠ t.1 := by
          intro heq
          rw [heq, hst] at h
          cases h
        exact ih _ (by rw [executeTable_keep env cat t.1 st s T hne]; exact h)

theorem foldl_errors_fail (f : CountState → TableId × TableInfo → CountState)
    (hf : ∀ s t, ErrorsAdded 0 1 s.master_errors (f s t).master_errors)
    (pre post : List (TableId × TableInfo)) (x : TableId × TableInfo) (s : CountState)
    (hx : (f (pre.foldl f s) x).master_errors = wrapInc 32 (pre.foldl f s).master_errors) :
    ErrorsAdded 1 (pre ++ x :: post).length s.master_errors
      ((pre ++ x :: post).foldl f s).master_errors := by
  rw [List.foldl_append, List.foldl_cons]
  have h1 := foldl_errors f hf pre s
  have h2 : ErrorsAdded 1 1 (pre.foldl f s).master_errors (f (pre.foldl f s) x).master_errors := by
    rw [hx]
    exact ErrorsAdded_inc _
  have h3 := foldl_errors f hf post (f (pre.foldl f s) x)
  have h := ErrorsAdded_trans _ _ _ _ _ _ _ (ErrorsAdded_trans _ _ _ _ _ _ _ h1 h2) h3
  refine ErrorsAdded_mono _ _ _ _ _ _ h (by omega) ?_
  simp only [List.length_append, List.length_cons]
  omega

theorem not_mem_post_of_nodup (pre post : List (TableId × TableInfo)) (T : TableId)
    (info : TableInfo) (h : ((pre ++ (T, info) :: post).map Prod.fst).Nodup) :
    T ∉ post.map Prod.fst := by
  rw [List.map_append, List.map_cons] at h
  have h2 := (List.nodup_append.1 h).2.1
  exact (List.nodup_cons.1 h2).1

theorem executeEntry_eq (env : Env) (cat : CatalogManager) (options : Options)
    (lb : ClusterLoadBalancer) :
    (executeEntry env cat options lb).lb =
      (cat.table_ids_map_.foldl (analyzeStep env cat)
        (cat.table_ids_map_.foldl (countPendingStep env cat options) (countStart lb))).lb ∧
    (executeEntry env cat options lb).master_errors =
      (cat.table_ids_map_.foldl (analyzeStep env cat)
        (cat.table_ids_map_.foldl (countPendingStep env cat options)
          (countStart lb))).master_errors :=
  ⟨rfl, rfl⟩

/-- C20: if pending-task counting or tablet analysis fails for the table `T` of
the table map during a pass, the failing iteration erases the per-table state of
`T` and increments the error counter by one; both table loops go on with the
later tables; no state of `T` exists when the EXECUTE phase starts, so the
EXECUTE loop does for the whole table map what it does for the map without `T`
(no add, remove or leader-move decision is attempted for `T`); and the error
count handed to `RecordActivity` is not zero, so the recorded `ActivityInfo` is
not idle. The table ids of the map are distinct, and the map is small enough
for the `uint32_t` error counter not to wrap around. -/
theorem C20_failed_table_skipped (env : Env) (cat : CatalogManager) (options : Options)
    (lb : ClusterLoadBalancer) (T : TableId) (info : TableInfo)
    (pre post : List (TableId × TableInfo))
    (htables : cat.table_ids_map_ = pre ++ (T, info) :: post)
    (hkeys : (cat.table_ids_map_.map Prod.fst).Nodup)
    (hsize : 5 * cat.table_ids_map_.length < 2 ^ 32)
    (hfail :
      CountingFails env cat options
          (pre.foldl (countPendingStep env cat options) (countStart lb)) (T, info) ∨
        AnalysisFails env cat
          (pre.foldl (analyzeStep env cat)
            (cat.table_ids_map_.foldl (countPendingStep env cat options) (countStart lb)))
          (T, info)) :
    (CountingFails env cat options
        (pre.foldl (countPendingStep env cat options) (countStart lb)) (T, info) →
      (countPendingStep env cat options
          (pre.foldl (countPendingStep env cat options) (countStart lb))
          (T, info)).lb.per_table_states_.lookup T = none ∧
        (countPendingStep env cat options
          (pre.foldl (countPendingStep env cat options) (countStart lb))
          (T, info)).master_errors =
          wrapInc 32
            (pre.foldl (countPendingStep env cat options) (countStart lb)).master_errors) ∧
    (AnalysisFails env cat
        (pre.foldl (analyzeStep env cat)
          (cat.table_ids_map_.foldl (countPendingStep env cat options) (countStart lb)))
        (T, info) →
      (analyzeStep env cat
          (pre.foldl (analyzeStep env cat)
            (cat.table_ids_map_.foldl (countPendingStep env cat options) (countStart lb)))
          (T, info)).lb.per_table_states_.lookup T = none ∧
        (analyzeStep env cat
          (pre.foldl (analyzeStep env cat)
            (cat.table_ids_map_.foldl (countPendingStep env cat options) (countStart lb)))
          (T, info)).master_errors =
          wrapInc 32
            (pre.foldl (analyzeStep env cat)
              (cat.table_ids_map_.foldl (countPendingStep env cat options)
                (countStart lb))).master_errors) ∧
    countPendingPhase env cat options lb =
      post.foldl (countPendingStep env cat options)
        (countPendingStep env cat options
          (pre.foldl (countPendingStep env cat options) (countStart lb)) (T, info)) ∧
    cat.table_ids_map_.foldl (analyzeStep env cat) (countPendingPhase env cat options lb) =
      post.foldl (analyzeStep env cat)
        (analyzeStep env cat
          (pre.foldl (analyzeStep env cat) (countPendingPhase env cat options lb)) (T, info)) ∧
    (executeEntry env cat options lb).lb.per_table_states_.lookup T = none ∧
    executeLoop env cat cat.table_ids_map_ (executeEntry env cat options lb) =
      executeLoop env cat (pre ++ post) (executeEntry env cat options lb) ∧
    (executeLoop env cat cat.table_ids_map_
      (executeEntry env cat options lb)).master_errors ≠ 0 ∧
    (∀ table_tasks,
      ActivityInfo.IsIdle
        { table_tasks := table_tasks
          master_errors := (executeLoop env cat cat.table_ids_map_
            (executeEntry env cat options lb)).master_errors } = false) ∧
    (∀ (lb0 : ClusterLoadBalancer) (opts : Option Options),
      ResetGlobalState env.flags cat.ts_descs lb0 = lb →
      IsLoadBalancerEnabled env.flags lb = true →
      opts.getD env.default_options = options →
      RunLoadBalancerWithOptions env cat opts lb0 =
        RecordActivity env.counter_bits
          (executeLoop env cat cat.table_ids_map_ (executeEntry env cat options lb)).lb
          (cat.table_ids_map_.map (fun t => t.2.num_lb_tasks))
          (executeLoop env cat cat.table_ids_map_
            (executeEntry env cat options lb)).master_errors) := by
  have hpost : T ∉ post.map Prod.fst := by
    rw [htables] at hkeys
    exact not_mem_post_of_nodup pre post T info hkeys
  have hphase : countPendingPhase env cat options lb =
      cat.table_ids_map_.foldl (countPendingStep env cat options) (countStart lb) := rfl
  have hcount : countPendingPhase env cat options lb =
      post.foldl (countPendingStep env cat options)
        (countPendingStep env cat options
          (pre.foldl (countPendingStep env cat options) (countStart lb)) (T, info)) := by
    rw [hphase, htables, List.foldl_append, List.foldl_cons]
  have hanalyze : cat.table_ids_map_.foldl (analyzeStep env cat)
        (countPendingPhase env cat options lb) =
      post.foldl (analyzeStep env cat)
        (analyzeStep env cat
          (pre.foldl (analyzeStep env cat) (countPendingPhase env cat options lb))
          (T, info)) := by
    rw [htables, List.foldl_append, List.foldl_cons]
  have hentry := executeEntry_eq env cat options lb
  have hnone : (executeEntry env cat options lb).lb.per_table_states_.lookup T = none := by
    rw [hentry.1]
    rcases hfail with hf | hf
    · apply foldl_analyze_keep_none
      rw [← hphase, hcount, foldl_count_keep env cat options T post hpost]
      exact (countPendingStep_fail env cat options _ (T, info) hf).1
    · rw [← hphase, hanalyze]
      apply foldl_analyze_keep_none
      rw [hphase]
      exact (analyzeStep_fail env cat _ (T, info) hf).1
  have herrs : ErrorsAdded 1 (2 * cat.table_ids_map_.length) 0
      (executeEntry env cat options lb).master_errors := by
    rw [hentry.2]
    rcases hfail with hf | hf
    · have h1 := foldl_errors_fail (countPendingStep env cat options)
        (countPendingStep_errors env cat options) pre post (T, info) (countStart lb)
        (countPendingStep_fail env cat options _ (T, info) hf).2
      rw [← htables] at h1
      have h2 := foldl_errors (analyzeStep env cat) (analyzeStep_errors env cat)
        cat.table_ids_map_
        (cat.table_ids_map_.foldl (countPendingStep env cat options) (countStart lb))
      exact ErrorsAdded_mono _ _ _ _ _ _ (ErrorsAdded_trans _ _ _ _ _ _ _ h1 h2)
        (by omega) (by omega)
    · have h1 := foldl_errors (countPendingStep env cat options)
        (countPendingStep_errors env cat options) cat.table_ids_map_ (countStart lb)
      have h2 := foldl_errors_fail (analyzeStep env cat) (analyzeStep_errors env cat) pre post
        (T, info)
        (cat.table_ids_map_.foldl (countPendingStep env cat options) (countStart lb))
        (analyzeStep_fail env cat _ (T, info) hf).2
      rw [← htables] at h2
      exact ErrorsAdded_mono _ _ _ _ _ _ (ErrorsAdded_trans _ _ _ _ _ _ _ h1 h2)
        (by omega) (by omega)
  have hdone : (executeLoop env cat cat.table_ids_map_
      (executeEntry env cat options lb)).master_errors ≠ 0 := by
    have h3 := executeLoop_errors env cat cat.table_ids_map_ (executeEntry env cat options lb)
    have h := ErrorsAdded_trans _ _ _ _ _ _ _ herrs h3
    exact ErrorsAdded_ne_zero _ _ _ h (by omega) (by omega)
  refine ⟨fun hf => countPendingStep_fail env cat options _ (T, info) hf,
    fun hf => analyzeStep_fail env cat _ (T, info) hf, hcount, hanalyze, hnone, ?_, hdone,
    ?_, ?_⟩
  · rw [htables]
    exact executeLoop_skip env cat T info pre post _ hnone
  · intro table_tasks
    unfold ActivityInfo.IsIdle
    simp [hdone]
  · intro lb0 opts hreset henabled hopts
    unfold RunLoadBalancerWithOptions
    simp only [hreset, henabled, hopts, Bool.not_true, Bool.false_eq_true, if_false]

/-- Witness for C20: the analysis of table "A" fails; "A" has no state when the
EXECUTE phase starts, and the pass ends with one error. -/
theorem C20_failed_table_skipped_witness :
    (executeEntry exEnv exCatFailing exOptions
      (ClusterLoadBalancer.new exFlags)).lb.per_table_states_.lookup "A" = none ∧
    (executeLoop exEnv exCatFailing exCatFailing.table_ids_map_
      (executeEntry exEnv exCatFailing exOptions
        (ClusterLoadBalancer.new exFlags))).master_errors ≠ 0 ∧
    (executeLoop exEnv exCatFailing exCatFailing.table_ids_map_
      (executeEntry exEnv exCatFailing exOptions
        (ClusterLoadBalancer.new exFlags))).master_errors = 1 :=
  ⟨(C20_failed_table_skipped exEnv exCatFailing exOptions (ClusterLoadBalancer.new exFlags)
      "A" exTableFailing [] [("B", exTableB)] rfl (by decide) (by decide)
      (Or.inr ⟨rfl, _, _, rfl, rfl⟩)).2.2.2.2.1,
   (C20_failed_table_skipped exEnv exCatFailing exOptions (ClusterLoadBalancer.new exFlags)
      "A" exTableFailing [] [("B", exTableB)] rfl (by decide) (by decide)
      (Or.inr ⟨rfl, _, _, rfl, rfl⟩)).2.2.2.2.2.2.1,
   by rfl⟩

/-! ### The recorded pending tasks across a pass -/

theorem pendingOfTable_id (info : TableInfo) (T : TableId) (c : Command) :
    pendingOfTable { info with id := T } c = pendingOfTable info c := by
  cases c <;> rfl

theorem countPendingStep_recorded (env : Env) (cat : CatalogManager) (options : Options)
    (hf : PendingFrame env) (s : CountState) (table : TableId × TableInfo)
    (hmem : table ∈ cat.table_ids_map_) (h : RecordedPending cat s.lb.per_table_states_) :
    RecordedPending cat (countPendingStep env cat options s table).lb.per_table_states_ := by
  intro T st hlook
  by_cases hT : table.1 = T
  · subst hT
    unfold countPendingStep at hlook
    split_ifs at hlook
    · exact h _ st hlook
    · exact h _ st hlook
    · simp only at hlook
      split at hlook
      · simp only at hlook
        rw [lookup_eraseKey, if_pos rfl] at hlook
        cases hlook
      · rename_i u lb1 totals1 heq
        simp only at hlook
        rw [lookup_insertKey_self] at hlook
        cases hlook
        refine ⟨table.2, hmem, fun c => ?_⟩
        have hst := congrArg (fun r => r.2.1.state_) heq
        simp only at hst
        rw [← hst, ← pendingOfTable_id table.2 table.1 c]
        exact CountPendingTasksUnlocked_records env hf _ _ _ c
  · rw [countPendingStep_keep env cat options s table T hT] at hlook
    exact h T st hlook

theorem analyzeStep_recorded (env : Env) (cat : CatalogManager) (hf : PendingFrame env)
    (s : CountState) (table : TableId × TableInfo)
    (h : RecordedPending cat s.lb.per_table_states_) :
    RecordedPending cat (analyzeStep env cat s table).lb.per_table_states_ := by
  intro T st2 hlook
  unfold analyzeStep at hlook
  split_ifs at hlook
  · exact h T st2 hlook
  · split at hlook
    · exact h T st2 hlook
    · rename_i st hst
      have ht := AnalyzeTabletsUnlocked_tables env cat { s.lb with state_ := st } table.1
      have hp := AnalyzeTabletsUnlocked_pending env cat hf { s.lb with state_ := st } table.1
      split at hlook
      · rename_i e lb1 heq
        rw [heq] at ht
        simp only at ht hlook
        rw [lookup_eraseKey, ht] at hlook
        split_ifs at hlook
        exact h T st2 hlook
      · rename_i u lb1 heq
        rw [heq] at ht hp
        simp only at ht hp hlook
        by_cases hT : T = table.1
        · subst hT
          rw [lookup_insertKey_self] at hlook
          cases hlook
          obtain ⟨info, hmem, hrec⟩ := h _ st hst
          refine ⟨info, hmem, fun c => ?_⟩
          rw [pendingTasksOfKind_congr _ _ c hp]
          exact hrec c
        · rw [lookup_insertKey_ne _ _ _ _ hT, ht] at hlook
          exact h T st2 hlook

theorem executeTable_recorded (env : Env) (cat : CatalogManager) (hf : PendingFrame env)
    (table_id : TableId) (st : PerTableLoadState) (s : ExecState)
    (hst : s.lb.per_table_states_.lookup table_id = some st)
    (h : RecordedPending cat s.lb.per_table_states_) :
    RecordedPending cat (executeTable env cat table_id st s).lb.per_table_states_ := by
  intro T st2 hlook
  obtain ⟨hpts, hrest⟩ := executeTable_step env cat table_id st s
  obtain ⟨hp, _⟩ := hrest hf
  rw [hpts] at hlook
  by_cases hT : T = table_id
  · subst hT
    rw [lookup_insertKey_self] at hlook
    cases hlook
    obtain ⟨info, hmem, hrec⟩ := h _ st hst
    refine ⟨info, hmem, fun c => ?_⟩
    rw [pendingTasksOfKind_congr _ _ c hp]
    exact hrec c
  · rw [lookup_insertKey_ne _ _ _ _ hT] at hlook
    exact h T st2 hlook

theorem executeEntry_recorded (env : Env) (cat : CatalogManager) (options : Options)
    (hf : PendingFrame env) (lb : ClusterLoadBalancer) (hempty : lb.per_table_states_ = []) :
    RecordedPending cat (executeEntry env cat options lb).lb.per_table_states_ := by
  have hcount : ∀ (l : List (TableId × TableInfo)) (s : CountState),
      (∀ x ∈ l, x ∈ cat.table_ids_map_) → RecordedPending cat s.lb.per_table_states_ →
      RecordedPending cat (l.foldl (countPendingStep env cat options) s).lb.per_table_states_ := by
    intro l
    induction l with
    | nil => intro s _ h; exact h
    | cons t rest ih =>
      intro s hl h
      rw [List.foldl_cons]
      exact ih _ (fun x hx => hl x (List.mem_cons_of_mem _ hx))
        (countPendingStep_recorded env cat options hf s t (hl t (List.mem_cons_self _ _)) h)
  have hanalyze : ∀ (l : List (TableId × TableInfo)) (s : CountState),
      RecordedPending cat s.lb.per_table_states_ →
      RecordedPending cat (l.foldl (analyzeStep env cat) s).lb.per_table_states_ := by
    intro l
    induction l with
    | nil => intro s h; exact h
    | cons t rest ih =>
      intro s h
      rw [List.foldl_cons]
      exact ih _ (analyzeStep_recorded env cat hf s t h)
  rw [(executeEntry_eq env cat options lb).1]
  apply hanalyze
  apply hcount _ _ (fun x hx => hx)
  intro T st hlook
  simp only [countStart, hempty, List.lookup_nil] at hlook
  cases hlook

theorem MoveLeader_sent_cases (env : Env) (cat : CatalogManager) (lb : ClusterLoadBalancer)
    (t : TabletId) (f g : TabletServerId) :
    (MoveLeader env cat lb t f g).2.sent_ = lb.sent_ ∨
      (MoveLeader env cat lb t f g).2.sent_ =
        lb.sent_ ++ [commandSent lb (GetTablet cat t) f false false g] := by
  unfold MoveLeader SendReplicaChanges commandSent
  simp only [Bool.false_eq_true, if_false]
  split_ifs
  · exact Or.inl rfl
  · exact Or.inr rfl
  · exact Or.inl rfl
  · exact Or.inr rfl

theorem leaderInnerLoop_state (env : Env) (lb : ClusterLoadBalancer)
    (last_pos left : Nat) (rights : List Nat) (out : Decision × ClusterLoadBalancer)
    (h : leaderInnerLoop env lb last_pos left rights = some out) :
    out.2.state_ = lb.state_ := by
  induction rights with
  | nil => simp [leaderInnerLoop] at h
  | cons right rights ih =>
    have hsearch : ∀ high low g,
        leaderSearch lb high low g (leaderInnerLoop env lb last_pos left rights) = some out →
        out.2.state_ = lb.state_ := by
      intro high low g hm
      unfold leaderSearch at hm
      simp only at hm
      split at hm
      · cases hm
        cases g <;> rfl
      · exact ih hm
    unfold leaderInnerLoop at h
    simp only at h
    split_ifs at h
    · cases h; rfl
    · cases h; rfl
    · exact hsearch _ _ _ h
    · exact hsearch _ _ _ h

theorem GetLeaderToMove_state (env : Env) (lb : ClusterLoadBalancer) :
    (GetLeaderToMove env lb).2.state_ = lb.state_ := by
  have houter : ∀ last_pos lefts,
      (leaderOuterLoop env lb last_pos lefts).2.state_ = lb.state_ := by
    intro last_pos lefts
    induction lefts with
    | nil => rfl
    | cons left lefts ih =>
      unfold leaderOuterLoop
      simp only
      split_ifs
      · rfl
      · split
        · rename_i r hr
          exact leaderInnerLoop_state env lb last_pos left _ r hr
        · exact ih
  unfold GetLeaderToMove
  split_ifs
  · rfl
  · rfl
  · exact houter _ _

/-- What `HandleLeaderMoves` sends: nothing, or one command for the tablet of
the move and its source node `from_ts`, which is a leader step-down with
`should_remove_leader = false` naming `to_ts` when `from_ts` is the recorded
leader of the tablet, and a remove-server request when it is not. -/
theorem HandleLeaderMoves_sent_cases (env : Env) (cat : CatalogManager)
    (lb : ClusterLoadBalancer) :
    (HandleLeaderMoves env cat lb).2.sent_ = lb.sent_ ∨
      ∃ t f g, (HandleLeaderMoves env cat lb).2.sent_ =
        lb.sent_ ++
          [if (lookupD lb.state_.per_tablet_meta_ (GetTablet cat t).tablet_id
                default).leader_uuid = f
           then Command.LeaderStepDown (GetTablet cat t).tablet_id f false g
           else Command.RemoveServer (GetTablet cat t).tablet_id f] := by
  have hmove : ∀ (lb1 : ClusterLoadBalancer) (m : Move), lb1.sent_ = lb.sent_ →
      lb1.state_ = lb.state_ →
      (moveLeaderOf env cat lb1 m).2.sent_ = lb.sent_ ∨
        ∃ t f g, (moveLeaderOf env cat lb1 m).2.sent_ =
          lb.sent_ ++
            [if (lookupD lb.state_.per_tablet_meta_ (GetTablet cat t).tablet_id
                  default).leader_uuid = f
             then Command.LeaderStepDown (GetTablet cat t).tablet_id f false g
             else Command.RemoveServer (GetTablet cat t).tablet_id f] := by
    intro lb1 m hs hst
    have h := MoveLeader_sent_cases env cat lb1 m.tablet_id (m.from_ts.getD "")
      (m.to_ts.getD "")
    have hres : (moveLeaderOf env cat lb1 m).2.sent_ =
        (MoveLeader env cat lb1 m.tablet_id (m.from_ts.getD "") (m.to_ts.getD "")).2.sent_ := by
      unfold moveLeaderOf
      split
      · rename_i e lb2 heq; rw [heq]
      · rename_i u lb2 heq; rw [heq]
    rw [hres]
    rcases h with h | h
    · exact Or.inl (h.trans hs)
    · refine Or.inr ⟨m.tablet_id, m.from_ts.getD "", m.to_ts.getD "", ?_⟩
      rw [h, hs]
      unfold commandSent
      simp only [Bool.false_eq_true, if_false, hst]
  unfold HandleLeaderMoves
  simp only
  split
  · exact Or.inl rfl
  · exact hmove lb _ rfl rfl
  · have h1 := GetLeaderToMove_sent env lb
    have h2 := GetLeaderToMove_state env lb
    split
    · rename_i e lb1 heq; rw [heq] at h1; exact Or.inl h1
    · rename_i m lb1 heq
      rw [heq] at h1 h2
      exact hmove lb1 m h1 h2
    · rename_i lb1 heq; rw [heq] at h1; exact Or.inl h1

/-! ### The pair chosen by the load search -/

theorem loadSearch_result (env : Env) (cat : CatalogManager) (lb : ClusterLoadBalancer)
    (high low : TabletServerId) (g : Bool) (next : Option (Decision × ClusterLoadBalancer))
    (out : Decision × ClusterLoadBalancer) (m : Move)
    (hm : loadSearch env cat lb high low g next = some out) (hout : out.1 = .ok (some m)) :
    (m.from_ts = some high ∧ m.to_ts = some low ∧
        GetTabletToMove env cat lb high low = .ok (some m.tablet_id)) ∨
      next = some out := by
  unfold loadSearch at hm
  split at hm
  · cases hm
    cases hout
  · rename_i t ht
    split at hm
    · cases hm
      cases hout
    · cases hm
      simp only [Except.ok.injEq, Option.some.injEq] at hout
      subst hout
      exact Or.inl ⟨rfl, rfl, ht⟩
  · exact Or.inr hm

theorem loadInnerLoop_result (env : Env) (cat : CatalogManager) (lb : ClusterLoadBalancer)
    (last_pos left : Nat) (rights : List Nat) (out : Decision × ClusterLoadBalancer) (m : Move)
    (h : loadInnerLoop env cat lb last_pos left rights = some out)
    (hout : out.1 = .ok (some m)) :
    ∃ right ∈ rights, right ≠ left ∧
      m.from_ts = some (lb.state_.sorted_load_.getD right "") ∧
      m.to_ts = some (lb.state_.sorted_load_.getD left "") ∧
      GetTabletToMove env cat lb (lb.state_.sorted_load_.getD right "")
        (lb.state_.sorted_load_.getD left "") = .ok (some m.tablet_id) ∧
      LoadMoveJustified env lb (lb.state_.sorted_load_.getD right "")
        (lb.state_.sorted_load_.getD left "") := by
  induction rights with
  | nil => simp [loadInnerLoop] at h
  | cons right rights ih =>
    have lift : loadInnerLoop env cat lb last_pos left rights = some out →
        ∃ r ∈ right :: rights, r ≠ left ∧
          m.from_ts = some (lb.state_.sorted_load_.getD r "") ∧
          m.to_ts = some (lb.state_.sorted_load_.getD left "") ∧
          GetTabletToMove env cat lb (lb.state_.sorted_load_.getD r "")
            (lb.state_.sorted_load_.getD left "") = .ok (some m.tablet_id) ∧
          LoadMoveJustified env lb (lb.state_.sorted_load_.getD r "")
            (lb.state_.sorted_load_.getD left "") := by
      intro h2
      obtain ⟨r, hr, rest⟩ := ih h2
      exact ⟨r, List.mem_cons_of_mem _ hr, rest⟩
    unfold loadInnerLoop at h
    simp only at h
    split_ifs at h with h1 h2 h3 h4
    · cases h; cases hout
    · cases h; cases hout
    · have hne : right ≠ left := by
        intro heq
        subst heq
        have := h3.1
        simp at this
      rcases loadSearch_result env cat lb _ _ true _ out m h hout with ⟨hf, ht, hg⟩ | hn
      · exact ⟨right, List.mem_cons_self _ _, hne, hf, ht, hg,
          Or.inr ⟨h3.2, h3.1, not_lt.1 h4⟩⟩
      · exact lift hn
    · have hne : right ≠ left := fun heq => h1 (Or.inl heq.symm)
      rcases loadSearch_result env cat lb _ _ false _ out m h hout with ⟨hf, ht, hg⟩ | hn
      · exact ⟨right, List.mem_cons_self _ _, hne, hf, ht, hg,
          Or.inl (not_lt.1 (fun hlt => h1 (Or.inr hlt)))⟩
      · exact lift hn

/-- C21: when `GetLoadToMove` returns true with (tablet, `from_ts`, `to_ts`),
`to_ts` is the node at a position `left` and `from_ts` the node at a different
position `right` of `sorted_load_`, the tablet is the one `GetTabletToMove`
chose for the pair, and either the per-table load variance reaches
`kMinLoadVarianceToBalance`, or the move is a global-balancing one:
`CanBalanceGlobalLoad()` held, the per-table variance is positive and the
global variance reaches `kMinGlobalLoadVarianceToBalance`. -/
theorem C21_load_move_pair (env : Env) (cat : CatalogManager) (lb : ClusterLoadBalancer)
    (m : Move) (h : (GetLoadToMove env cat lb).1 = .ok (some m)) :
    ∃ left right, left < lb.state_.sorted_load_.length ∧
      right < lb.state_.sorted_load_.length ∧ left ≠ right ∧
      m.from_ts = some (lb.state_.sorted_load_.getD right "") ∧
      m.to_ts = some (lb.state_.sorted_load_.getD left "") ∧
      GetTabletToMove env cat lb (lb.state_.sorted_load_.getD right "")
        (lb.state_.sorted_load_.getD left "") = .ok (some m.tablet_id) ∧
      LoadMoveJustified env lb (lb.state_.sorted_load_.getD right "")
        (lb.state_.sorted_load_.getD left "") := by
  unfold GetLoadToMove at h
  split_ifs at h with hemp
  · cases h
  · have hne : lb.state_.sorted_load_ ≠ [] := by
      intro h0
      rw [h0] at hemp
      exact hemp rfl
    have hlen : 0 < lb.state_.sorted_load_.length := List.length_pos.2 hne
    obtain ⟨left, hmem, hin⟩ := loadOuterLoop_returns env cat lb
      (lb.state_.sorted_load_.length - 1)
      (List.range (lb.state_.sorted_load_.length - 1 + 1))
      (List.mem_range.2 (by omega))
    have hleft := List.mem_range.1 hmem
    obtain ⟨right, hr, hne2, hf, ht, hg, hj⟩ :=
      loadInnerLoop_result env cat lb _ left _ _ m hin h
    have hright := List.mem_range.1 (List.mem_reverse.1 hr)
    exact ⟨left, right, by omega, by omega, fun e => hne2 e.symm, hf, ht, hg, hj⟩

/-- Witness for C21: "ts1" hosts two tablets and "ts3" none; the variance 2
reaches the threshold and "t1" moves from position 1 to position 0. -/
theorem C21_load_move_pair_witness :
    (GetLoadToMove exEnv exCatLeader exLbLoad).1 =
      .ok (some { tablet_id := "t1", from_ts := some "ts1", to_ts := some "ts3" }) ∧
    ∃ left right, left < exLbLoad.state_.sorted_load_.length ∧
      right < exLbLoad.state_.sorted_load_.length ∧ left ≠ right ∧
      (some "ts1" : Option TabletServerId) =
        some (exLbLoad.state_.sorted_load_.getD right "") ∧
      (some "ts3" : Option TabletServerId) =
        some (exLbLoad.state_.sorted_load_.getD left "") ∧
      GetTabletToMove exEnv exCatLeader exLbLoad (exLbLoad.state_.sorted_load_.getD right "")
        (exLbLoad.state_.sorted_load_.getD left "") = .ok (some "t1") ∧
      LoadMoveJustified exEnv exLbLoad (exLbLoad.state_.sorted_load_.getD right "")
        (exLbLoad.state_.sorted_load_.getD left "") :=
  ⟨by rfl,
   C21_load_move_pair exEnv exCatLeader exLbLoad
     { tablet_id := "t1", from_ts := some "ts1", to_ts := some "ts3" } (by rfl)⟩

/-! ### The tablet chosen by `GetTabletToMove` -/

theorem nonOverReplicatedTablets_eq_filter (env : Env) (cat : CatalogManager)
    (st : PerTableLoadState) (from_ts_meta : CBTabletServerMetadata) (to_ts : TabletServerId)
    (all : List TabletId) :
    ∀ l, nonOverReplicatedTablets env cat st from_ts_meta to_ts all = .ok l →
      l = all.filter (keptByFirstLoop env cat st from_ts_meta to_ts) := by
  induction all with
  | nil =>
    intro l h
    simp only [nonOverReplicatedTablets, Except.ok.injEq] at h
    rw [← h]
    rfl
  | cons t rest ih =>
    intro l h
    unfold nonOverReplicatedTablets at h
    rw [List.filter_cons]
    split_ifs at h with h1 h2
    · have hk : keptByFirstLoop env cat st from_ts_meta to_ts t = false := by
        simp [keptByFirstLoop, h1]
      rw [hk]
      exact ih l h
    · have hk : keptByFirstLoop env cat st from_ts_meta to_ts t = false := by
        simp [keptByFirstLoop, h2]
      rw [hk]
      exact ih l h
    · split at h
      · cases h
      · rename_i can_add hcan
        split at h
        · cases h
        · rename_i l2 hl2
          have hk : keptByFirstLoop env cat st from_ts_meta to_ts t = can_add := by
            simp [keptByFirstLoop, h1, h2, hcan]
          rw [hk, ← ih l2 hl2]
          simp only [Except.ok.injEq] at h
          rw [← h]

theorem keptByFirstLoop_iff (env : Env) (cat : CatalogManager) (st : PerTableLoadState)
    (from_ts_meta : CBTabletServerMetadata) (to_ts : TabletServerId) (t : TabletId) :
    keptByFirstLoop env cat st from_ts_meta to_ts t = true ↔
      (t ∉ st.tablets_over_replicated_ ∧ t ∉ from_ts_meta.disabled_by_ts_tablets ∧
        env.CanAddTabletToTabletServer st t to_ts (some (GetPlacementByTablet cat st t)) =
          .ok true) := by
  unfold keptByFirstLoop
  rcases hc : env.CanAddTabletToTabletServer st t to_ts
      (some (GetPlacementByTablet cat st t)) with e | b
  · simp
  · cases b <;> simp

theorem pickTabletToMove_cons (env : Env) (cat : CatalogManager) (st : PerTableLoadState)
    (from_ts to_ts : TabletServerId) (tablet_id : TabletId) (rest : List TabletId)
    (found : Option TabletId) :
    pickTabletToMove env cat st from_ts to_ts (tablet_id :: rest) found =
      if (!(GetPlacementByTablet cat st tablet_id).placement_blocks.isEmpty &&
          !samePlacement env st from_ts to_ts (GetPlacementByTablet cat st tablet_id)) = true
      then pickTabletToMove env cat st from_ts to_ts rest found
      else
        match ShouldSkipLeaderAsVictim env cat tablet_id with
        | .error e => .error e
        | .ok skip_leader =>
          if (!decide ((lookupD st.per_tablet_meta_ tablet_id default).leader_uuid =
              from_ts)) = true
          then .ok (some tablet_id)
          else if skip_leader = true then pickTabletToMove env cat st from_ts to_ts rest found
          else
            match found with
            | none => pickTabletToMove env cat st from_ts to_ts rest (some tablet_id)
            | some f => pickTabletToMove env cat st from_ts to_ts rest (some f) := by
  rfl

theorem movingFromLeader_of_not (st : PerTableLoadState) (from_ts : TabletServerId)
    (x : TabletId)
    (hm : ¬ (!decide ((lookupD st.per_tablet_meta_ x default).leader_uuid = from_ts)) = true) :
    movingFromLeader st from_ts x := by
  unfold movingFromLeader
  by_contra hne
  exact hm (by simp [hne])

theorem not_movingFromLeader_of (st : PerTableLoadState) (from_ts : TabletServerId)
    (x : TabletId)
    (hm : (!decide ((lookupD st.per_tablet_meta_ x default).leader_uuid = from_ts)) = true) :
    ¬ movingFromLeader st from_ts x := by
  unfold movingFromLeader
  intro h
  simp [h] at hm

theorem pickTabletToMove_result (env : Env) (cat : CatalogManager) (st : PerTableLoadState)
    (from_ts to_ts : TabletServerId) (t : TabletId) (l : List TabletId) :
    ∀ found, pickTabletToMove env cat st from_ts to_ts l found = .ok (some t) →
      found = some t ∨
        (t ∈ l ∧ placementKept env cat st from_ts to_ts t ∧
          ∃ skip_leader, ShouldSkipLeaderAsVictim env cat t = .ok skip_leader ∧
            (movingFromLeader st from_ts t → skip_leader = false)) := by
  induction l with
  | nil =>
    intro found h
    simp only [pickTabletToMove, Except.ok.injEq] at h
    exact Or.inl h
  | cons x rest ih =>
    intro found h
    have lift : ∀ f, pickTabletToMove env cat st from_ts to_ts rest f = .ok (some t) →
        f = some t ∨
          (t ∈ x :: rest ∧ placementKept env cat st from_ts to_ts t ∧
            ∃ skip_leader, ShouldSkipLeaderAsVictim env cat t = .ok skip_leader ∧
              (movingFromLeader st from_ts t → skip_leader = false)) := by
      intro f hf
      rcases ih f hf with h1 | ⟨h1, h2⟩
      · exact Or.inl h1
      · exact Or.inr ⟨List.mem_cons_of_mem _ h1, h2⟩
    rw [pickTabletToMove_cons] at h
    by_cases hp : (!(GetPlacementByTablet cat st x).placement_blocks.isEmpty &&
        !samePlacement env st from_ts to_ts (GetPlacementByTablet cat st x)) = true
    · rw [if_pos hp] at h
      exact lift found h
    · rw [if_neg hp] at h
      rcases hskip : ShouldSkipLeaderAsVictim env cat x with e | skip_leader
      · rw [hskip] at h
        cases h
      · rw [hskip] at h
        simp only at h
        by_cases hm : (!decide ((lookupD st.per_tablet_meta_ x default).leader_uuid =
            from_ts)) = true
        · rw [if_pos hm] at h
          simp only [Except.ok.injEq, Option.some.injEq] at h
          subst h
          exact Or.inr ⟨List.mem_cons_self _ _, hp, skip_leader, hskip,
            fun hml => absurd hml (not_movingFromLeader_of st from_ts _ hm)⟩
        · rw [if_neg hm] at h
          by_cases hs : skip_leader = true
          · rw [if_pos hs] at h
            exact lift found h
          · rw [if_neg hs] at h
            cases found with
            | none =>
              rcases lift _ h with h1 | h1
              · simp only [Option.some.injEq] at h1
                subst h1
                refine Or.inr ⟨List.mem_cons_self _ _, hp, skip_leader, hskip, fun _ => ?_⟩
                simpa using hs
              · exact Or.inr h1
            | some f => exact lift (some f) h

theorem pickTabletToMove_leader (env : Env) (cat : CatalogManager) (st : PerTableLoadState)
    (from_ts to_ts : TabletServerId) (t : TabletId) (hml : movingFromLeader st from_ts t)
    (l : List TabletId) :
    ∀ found, pickTabletToMove env cat st from_ts to_ts l found = .ok (some t) →
      ∀ c ∈ l, placementKept env cat st from_ts to_ts c → movingFromLeader st from_ts c := by
  induction l with
  | nil =>
    intro found _ c hc
    cases hc
  | cons x rest ih =>
    intro found h c hc hpc
    rw [pickTabletToMove_cons] at h
    by_cases hp : (!(GetPlacementByTablet cat st x).placement_blocks.isEmpty &&
        !samePlacement env st from_ts to_ts (GetPlacementByTablet cat st x)) = true
    · rw [if_pos hp] at h
      rcases List.mem_cons.1 hc with hcx | hcr
      · subst hcx
        exact absurd hp hpc
      · exact ih found h c hcr hpc
    · rw [if_neg hp] at h
      rcases hskip : ShouldSkipLeaderAsVictim env cat x with e | skip_leader
      · rw [hskip] at h
        cases h
      · rw [hskip] at h
        simp only at h
        by_cases hm : (!decide ((lookupD st.per_tablet_meta_ x default).leader_uuid =
            from_ts)) = true
        · rw [if_pos hm] at h
          simp only [Except.ok.injEq, Option.some.injEq] at h
          subst h
          exact absurd hml (not_movingFromLeader_of st from_ts _ hm)
        · rw [if_neg hm] at h
          have hrest : ∃ f, pickTabletToMove env cat st from_ts to_ts rest f =
              .ok (some t) := by
            by_cases hs : skip_leader = true
            · rw [if_pos hs] at h
              exact ⟨_, h⟩
            · rw [if_neg hs] at h
              cases found with
              | none => exact ⟨_, h⟩
              | some f => exact ⟨_, h⟩
          obtain ⟨f, hf⟩ := hrest
          rcases List.mem_cons.1 hc with hcx | hcr
          · subst hcx
            exact movingFromLeader_of_not st from_ts _ hm
          · exact ih f hf c hcr hpc

theorem pickTabletToMove_first (env : Env) (cat : CatalogManager) (st : PerTableLoadState)
    (from_ts to_ts : TabletServerId) (c : TabletId) (post : List TabletId)
    (r : Option TabletId) (hpc : placementKept env cat st from_ts to_ts c)
    (hlc : ¬ movingFromLeader st from_ts c) (pre : List TabletId) :
    ∀ found,
      (∀ x ∈ pre, placementKept env cat st from_ts to_ts x → movingFromLeader st from_ts x) →
      pickTabletToMove env cat st from_ts to_ts (pre ++ c :: post) found = .ok r →
      r = some c := by
  induction pre with
  | nil =>
    intro found _ h
    rw [List.nil_append, pickTabletToMove_cons, if_neg hpc] at h
    rcases hskip : ShouldSkipLeaderAsVictim env cat c with e | skip_leader
    · rw [hskip] at h
      cases h
    · rw [hskip] at h
      simp only at h
      have hm : (!decide ((lookupD st.per_tablet_meta_ c default).leader_uuid =
          from_ts)) = true := by
        by_contra hm
        exact hlc (movingFromLeader_of_not st from_ts c hm)
      rw [if_pos hm] at h
      simp only [Except.ok.injEq] at h
      exact h.symm
  | cons x rest ih =>
    intro found hpre h
    have hrestpre : ∀ y ∈ rest, placementKept env cat st from_ts to_ts y →
        movingFromLeader st from_ts y :=
      fun y hy => hpre y (List.mem_cons_of_mem _ hy)
    rw [List.cons_append, pickTabletToMove_cons] at h
    by_cases hp : (!(GetPlacementByTablet cat st x).placement_blocks.isEmpty &&
        !samePlacement env st from_ts to_ts (GetPlacementByTablet cat st x)) = true
    · rw [if_pos hp] at h
      exact ih found hrestpre h
    · rw [if_neg hp] at h
      rcases hskip : ShouldSkipLeaderAsVictim env cat x with e | skip_leader
      · rw [hskip] at h
        cases h
      · rw [hskip] at h
        simp only at h
        have hm : ¬ (!decide ((lookupD st.per_tablet_meta_ x default).leader_uuid =
            from_ts)) = true := by
          intro hm
          exact not_movingFromLeader_of st from_ts x hm (hpre x (List.mem_cons_self _ _) hp)
        rw [if_neg hm] at h
        by_cases hs : skip_leader = true
        · rw [if_pos hs] at h
          exact ih found hrestpre h
        · rw [if_neg hs] at h
          cases found with
          | none => exact ih _ hrestpre h
          | some f => exact ih _ hrestpre h

theorem stdMerge_mem (t : TabletId) (fuel : Nat) :
    ∀ xs ys : List TabletId, t ∈ stdMerge fuel xs ys → t ∈ xs ∨ t ∈ ys := by
  induction fuel with
  | zero =>
    intro xs ys h
    simp [stdMerge] at h
  | succ n ih =>
    intro xs ys h
    cases xs with
    | nil =>
      simp only [stdMerge] at h
      exact Or.inr h
    | cons x xs =>
      cases ys with
      | nil =>
        simp only [stdMerge] at h
        exact Or.inl h
      | cons y ys =>
        simp only [stdMerge] at h
        split_ifs at h
        · rcases List.mem_cons.1 h with h1 | h1
          · exact Or.inr (h1 ▸ List.mem_cons_self _ _)
          · rcases ih _ _ h1 with h2 | h2
            · exact Or.inl h2
            · exact Or.inr (List.mem_cons_of_mem _ h2)
        · rcases List.mem_cons.1 h with h1 | h1
          · exact Or.inl (h1 ▸ List.mem_cons_self _ _)
          · rcases ih _ _ h1 with h2 | h2
            · exact Or.inl (List.mem_cons_of_mem _ h2)
            · exact Or.inr h2

theorem GetTabletsOnTSToMove_mem (drive_aware : Bool) (m : CBTabletServerMetadata)
    (t : TabletId) (h : t ∈ GetTabletsOnTSToMove drive_aware m) :
    (drive_aware = false ∧ t ∈ m.running_tablets) ∨
      (drive_aware = true ∧ ∃ path ∈ m.sorted_path_load, ∃ drive_tablets,
        m.path_to_tablets.lookup path = some drive_tablets ∧ t ∈ drive_tablets) ∨
      t ∈ m.starting_tablets := by
  have hfold : ∀ (paths : List String) (acc : List TabletId),
      t ∈ paths.foldl (fun all_tablets path =>
        match m.path_to_tablets.lookup path with
        | none => all_tablets
        | some drive_tablets =>
          all_tablets ++ stdMerge (drive_tablets.length + m.starting_tablets.length)
            drive_tablets m.starting_tablets) acc →
      t ∈ acc ∨ (∃ path ∈ paths, ∃ drive_tablets,
        m.path_to_tablets.lookup path = some drive_tablets ∧ t ∈ drive_tablets) ∨
        t ∈ m.starting_tablets := by
    intro paths
    induction paths with
    | nil =>
      intro acc h
      exact Or.inl h
    | cons p rest ih =>
      intro acc h
      rw [List.foldl_cons] at h
      rcases ih _ h with h1 | ⟨path, hp, dt, hl, ht⟩ | h1
      · rcases hl : m.path_to_tablets.lookup p with _ | dt
        · rw [hl] at h1
          exact Or.inl h1
        · rw [hl] at h1
          simp only at h1
          rcases List.mem_append.1 h1 with h2 | h2
          · exact Or.inl h2
          · rcases stdMerge_mem t _ _ _ h2 with h3 | h3
            · exact Or.inr (Or.inl ⟨p, List.mem_cons_self _ _, dt, hl, h3⟩)
            · exact Or.inr (Or.inr h3)
      · exact Or.inr (Or.inl ⟨path, List.mem_cons_of_mem _ hp, dt, hl, ht⟩)
      · exact Or.inr (Or.inr h1)
  unfold GetTabletsOnTSToMove at h
  split_ifs at h with hd
  · rcases hfold _ _ h with h1 | h1 | h1
    · cases h1
    · exact Or.inr (Or.inl ⟨hd, h1⟩)
    · exact Or.inr (Or.inr h1)
  · rcases stdMerge_mem t _ _ _ h with h1 | h1
    · exact Or.inl ⟨by simpa using hd, h1⟩
    · exact Or.inr (Or.inr h1)

theorem samePlacement_true (env : Env) (st : PerTableLoadState) (from_ts to_ts : TabletServerId)
    (pi : PlacementInfoPB) (h : samePlacement env st from_ts to_ts pi = true) :
    ∃ from_ts_ci to_ts_ci, env.GetValidPlacement st from_ts pi = some from_ts_ci ∧
      env.GetValidPlacement st to_ts pi = some to_ts_ci ∧
      env.generate_placement_id from_ts_ci = env.generate_placement_id to_ts_ci := by
  unfold samePlacement at h
  split at h
  · rename_i a b ha hb
    exact ⟨a, b, ha, hb, by simpa using h⟩
  · cases h

theorem GetTabletToMove_candidates (env : Env) (cat : CatalogManager)
    (lb : ClusterLoadBalancer) (from_ts to_ts : TabletServerId) (r : Option TabletId)
    (h : GetTabletToMove env cat lb from_ts to_ts = .ok r) :
    pickTabletToMove env cat lb.state_ from_ts to_ts
      ((GetTabletsOnTSToMove lb.global_state_.drive_aware_
        (lookupD lb.state_.per_ts_meta_ from_ts default)).filter
        (keptByFirstLoop env cat lb.state_ (lookupD lb.state_.per_ts_meta_ from_ts default)
          to_ts)) none = .ok r := by
  unfold GetTabletToMove at h
  simp only at h
  split at h
  · cases h
  · rename_i l hl
    rw [← nonOverReplicatedTablets_eq_filter env cat lb.state_ _ to_ts _ l hl]
    exact h

/-- C22: when `GetTabletToMove(from_ts, to_ts)` returns a value (no check
failed): if it returns a tablet whose leader is on `from_ts`, then every
candidate that passes all filters has its leader on `from_ts` and
`ShouldSkipLeaderAsVictim` is false for the returned tablet; and if a candidate
that passes all filters has its leader on another node, the first such
candidate in candidate order is returned. -/
theorem C22_prefer_non_leader (env : Env) (cat : CatalogManager) (lb : ClusterLoadBalancer)
    (from_ts to_ts : TabletServerId) (r : Option TabletId)
    (h : GetTabletToMove env cat lb from_ts to_ts = .ok r) :
    (∀ t, r = some t → movingFromLeader lb.state_ from_ts t →
      (∀ c ∈ GetTabletsOnTSToMove lb.global_state_.drive_aware_
            (lookupD lb.state_.per_ts_meta_ from_ts default),
          PassesMoveFilters env cat lb from_ts to_ts c →
          movingFromLeader lb.state_ from_ts c) ∧
        ShouldSkipLeaderAsVictim env cat t = .ok false) ∧
    (∀ pre c post,
      GetTabletsOnTSToMove lb.global_state_.drive_aware_
          (lookupD lb.state_.per_ts_meta_ from_ts default) = pre ++ c :: post →
      PassesMoveFilters env cat lb from_ts to_ts c →
      ¬ movingFromLeader lb.state_ from_ts c →
      (∀ x ∈ pre, PassesMoveFilters env cat lb from_ts to_ts x →
        movingFromLeader lb.state_ from_ts x) →
      r = some c) := by
  have hpick := GetTabletToMove_candidates env cat lb from_ts to_ts r h
  constructor
  · intro t hr hml
    subst hr
    constructor
    · intro c hc hpass
      apply pickTabletToMove_leader env cat lb.state_ from_ts to_ts t hml _ none hpick c _
        hpass.2.2.2
      rw [List.mem_filter]
      exact ⟨hc, (keptByFirstLoop_iff env cat lb.state_ _ to_ts c).2
        ⟨hpass.1, hpass.2.1, hpass.2.2.1⟩⟩
    · rcases pickTabletToMove_result env cat lb.state_ from_ts to_ts t _ none hpick with
        h1 | ⟨_, _, skip_leader, hskip, hs⟩
      · cases h1
      · rw [hskip, hs hml]
  · intro pre c post hall hpass hlc hpre
    rw [hall, List.filter_append, List.filter_cons,
      (keptByFirstLoop_iff env cat lb.state_ _ to_ts c).2
        ⟨hpass.1, hpass.2.1, hpass.2.2.1⟩, if_pos rfl] at hpick
    refine pickTabletToMove_first env cat lb.state_ from_ts to_ts c _ r hpass.2.2.2 hlc _ none
      ?_ hpick
    intro x hx hpx
    rw [List.mem_filter] at hx
    have hk := (keptByFirstLoop_iff env cat lb.state_ _ to_ts x).1 hx.2
    exact hpre x hx.1 ⟨hk.1, hk.2.1, hk.2.2, hpx⟩

/-- Witness for C22: "ts1" hosts "t1", whose leader it is, and "t2", whose leader
is on "ts2"; both pass the filters for the move to "ts3", and "t2" is returned. -/
theorem C22_prefer_non_leader_witness :
    GetTabletToMove exEnv exCatLeader exLbPrefer "ts1" "ts3" = .ok (some "t2") ∧
    GetTabletsOnTSToMove exLbPrefer.global_state_.drive_aware_
      (lookupD exLbPrefer.state_.per_ts_meta_ "ts1" default) = ["t1"] ++ "t2" :: [] ∧
    movingFromLeader exLbPrefer.state_ "ts1" "t1" ∧
    ¬ movingFromLeader exLbPrefer.state_ "ts1" "t2" ∧
    (some "t2" : Option TabletId) = some "t2" :=
  ⟨by rfl, by rfl, by decide, by decide,
   (C22_prefer_non_leader exEnv exCatLeader exLbPrefer "ts1" "ts3" (some "t2") (by rfl)).2
     ["t1"] "t2" [] (by rfl)
     ⟨by decide, by decide, by rfl, by decide⟩ (by decide)
     (fun x hx _ => by
       rw [List.mem_singleton] at hx
       subst hx
       decide)⟩

/-- C23: when `GetTabletToMove(from_ts, to_ts)` returns true, the chosen tablet
is one of the tablets of `from_ts` that `GetTabletsOnTSToMove` lists (a running
tablet, or in drive-aware mode a tablet of one of the node's drives, or a
starting tablet); it is not over-replicated, not disabled on `from_ts`,
`CanAddTabletToTabletServer` holds for it on `to_ts` under the placement policy
of its table, and when that policy has placement blocks, `from_ts` and `to_ts`
resolve to valid placement blocks with the same placement id. -/
theorem C23_moved_tablet_filters (env : Env) (cat : CatalogManager)
    (lb : ClusterLoadBalancer) (from_ts to_ts : TabletServerId) (t : TabletId)
    (h : GetTabletToMove env cat lb from_ts to_ts = .ok (some t)) :
    ((lb.global_state_.drive_aware_ = false ∧
        t ∈ (lookupD lb.state_.per_ts_meta_ from_ts default).running_tablets) ∨
      (lb.global_state_.drive_aware_ = true ∧
        ∃ path ∈ (lookupD lb.state_.per_ts_meta_ from_ts default).sorted_path_load,
          ∃ drive_tablets,
            (lookupD lb.state_.per_ts_meta_ from_ts default).path_to_tablets.lookup path =
              some drive_tablets ∧ t ∈ drive_tablets) ∨
      t ∈ (lookupD lb.state_.per_ts_meta_ from_ts default).starting_tablets) ∧
    t ∉ lb.state_.tablets_over_replicated_ ∧
    t ∉ (lookupD lb.state_.per_ts_meta_ from_ts default).disabled_by_ts_tablets ∧
    env.CanAddTabletToTabletServer lb.state_ t to_ts
      (some (GetPlacementByTablet cat lb.state_ t)) = .ok true ∧
    ((GetPlacementByTablet cat lb.state_ t).placement_blocks ≠ [] →
      ∃ from_ts_ci to_ts_ci,
        env.GetValidPlacement lb.state_ from_ts (GetPlacementByTablet cat lb.state_ t) =
          some from_ts_ci ∧
        env.GetValidPlacement lb.state_ to_ts (GetPlacementByTablet cat lb.state_ t) =
          some to_ts_ci ∧
        env.generate_placement_id from_ts_ci = env.generate_placement_id to_ts_ci) := by
  have hpick := GetTabletToMove_candidates env cat lb from_ts to_ts (some t) h
  rcases pickTabletToMove_result env cat lb.state_ from_ts to_ts t _ none hpick with
    h1 | ⟨hmem, hplace, _⟩
  · cases h1
  · rw [List.mem_filter] at hmem
    have hk := (keptByFirstLoop_iff env cat lb.state_ _ to_ts t).1 hmem.2
    refine ⟨GetTabletsOnTSToMove_mem _ _ t hmem.1, hk.1, hk.2.1, hk.2.2, ?_⟩
    intro hblocks
    apply samePlacement_true
    unfold placementKept at hplace
    have hne : (GetPlacementByTablet cat lb.state_ t).placement_blocks.isEmpty = false := by
      cases hb : (GetPlacementByTablet cat lb.state_ t).placement_blocks with
      | nil => exact absurd hb hblocks
      | cons a l => rfl
    rw [hne] at hplace
    simpa using hplace

/-- Witness for C23: "t1", a running tablet of "ts1", is chosen for the move to
"ts3". -/
theorem C23_moved_tablet_filters_witness :
    GetTabletToMove exEnv exCatLeader exLbLoad "ts1" "ts3" = .ok (some "t1") ∧
    "t1" ∈ (lookupD exLbLoad.state_.per_ts_meta_ "ts1" default).running_tablets ∧
    "t1" ∉ exLbLoad.state_.tablets_over_replicated_ :=
  ⟨by rfl, by decide,
   (C23_moved_tablet_filters exEnv exCatLeader exLbLoad "ts1" "ts3" "t1" (by rfl)).2.1⟩

/-! ### The tablet chosen by the leader search -/

theorem pickLeaderTablet_some (st : PerTableLoadState) (low : TabletServerId) (t : TabletId)
    (l : List TabletId) (h : pickLeaderTablet st low l = some t) :
    t ∈ l ∧ ∀ tablet_meta, st.per_tablet_meta_.lookup t = some tablet_meta →
      tablet_meta.leader_stepdown_failures.lookup low = none := by
  induction l with
  | nil => simp [pickLeaderTablet] at h
  | cons x rest ih =>
    unfold pickLeaderTablet at h
    split at h
    · rename_i tablet_meta hmeta
      split at h
      · obtain ⟨h1, h2⟩ := ih h
        exact ⟨List.mem_cons_of_mem _ h1, h2⟩
      · rename_i hnone
        simp only [Option.some.injEq] at h
        subst h
        refine ⟨List.mem_cons_self _ _, fun tm htm => ?_⟩
        rw [hmeta] at htm
        cases htm
        exact hnone
    · rename_i hmeta
      simp only [Option.some.injEq] at h
      subst h
      refine ⟨List.mem_cons_self _ _, fun tm htm => ?_⟩
      rw [hmeta] at htm
      cases htm

theorem pickLeaderTablet_skip (st : PerTableLoadState) (low : TabletServerId) (t : TabletId)
    (rest : List TabletId) (tablet_meta : CBTabletMetadata) (time : MonoTime)
    (hmeta : st.per_tablet_meta_.lookup t = some tablet_meta)
    (hfail : tablet_meta.leader_stepdown_failures.lookup low = some time) :
    pickLeaderTablet st low (t :: rest) = pickLeaderTablet st low rest := by
  conv_lhs => unfold pickLeaderTablet
  simp only [hmeta, hfail]

theorem leaderSearch_tablet (lb : ClusterLoadBalancer) (high low : TabletServerId) (g : Bool)
    (next : Option (Decision × ClusterLoadBalancer)) (out : Decision × ClusterLoadBalancer)
    (m : Move) (h : leaderSearch lb high low g next = some out)
    (hout : out.1 = .ok (some m)) :
    (m.from_ts = some high ∧ m.to_ts = some low ∧
        pickLeaderTablet lb.state_ low (leaderCandidates lb.state_ high low) =
          some m.tablet_id) ∨
      next = some out := by
  unfold leaderSearch at h
  simp only at h
  split at h
  · rename_i t ht
    cases h
    simp only [Except.ok.injEq, Option.some.injEq] at hout
    subst hout
    exact Or.inl ⟨rfl, rfl, ht⟩
  · exact Or.inr h

theorem leaderInnerLoop_tablet (env : Env) (lb : ClusterLoadBalancer) (last_pos left : Nat)
    (rights : List Nat) (out : Decision × ClusterLoadBalancer) (m : Move)
    (h : leaderInnerLoop env lb last_pos left rights = some out)
    (hout : out.1 = .ok (some m)) :
    ∃ high low, m.from_ts = some high ∧ m.to_ts = some low ∧
      pickLeaderTablet lb.state_ low (leaderCandidates lb.state_ high low) =
        some m.tablet_id := by
  induction rights with
  | nil => simp [leaderInnerLoop] at h
  | cons right rights ih =>
    unfold leaderInnerLoop at h
    simp only at h
    split_ifs at h
    · cases h; cases hout
    · cases h; cases hout
    · rcases leaderSearch_tablet lb _ _ true _ out m h hout with h1 | hn
      · exact ⟨_, _, h1⟩
      · exact ih hn
    · rcases leaderSearch_tablet lb _ _ false _ out m h hout with h1 | hn
      · exact ⟨_, _, h1⟩
      · exact ih hn

theorem GetLeaderToMove_tablet (env : Env) (lb : ClusterLoadBalancer) (m : Move)
    (h : (GetLeaderToMove env lb).1 = .ok (some m)) :
    ∃ high low, m.from_ts = some high ∧ m.to_ts = some low ∧
      pickLeaderTablet lb.state_ low (leaderCandidates lb.state_ high low) =
        some m.tablet_id := by
  rcases GetLeaderToMove_cases env lb with h0 | ⟨hne, h0⟩
  · rw [h0] at h; cases h
  · have hlen : 0 < lb.state_.sorted_leader_load_.length := List.length_pos.2 hne
    obtain ⟨left, _, hl⟩ := leaderOuterLoop_returns env lb
      (lb.state_.sorted_leader_load_.length - 1)
      (List.range (lb.state_.sorted_leader_load_.length - 1 + 1))
      (List.mem_range.2 (by omega))
    rw [← h0] at hl
    rcases hl with ⟨_, hl⟩ | ⟨_, hl⟩
    · rw [hl] at h; cases h
    · exact leaderInnerLoop_tablet env lb _ left _ _ m hl h

/-- C24: when `GetLeaderToMove` returns true with (tablet, `to_ts`), the
`leader_stepdown_failures` of the tablet have no entry for `to_ts` that is less
than `min_leader_stepdown_retry_interval_ms` old at the time of the call; a
candidate with such an entry is skipped and the search over the candidates of
the pair continues with the next one. -/
theorem C24_recent_stepdown_failure_skipped (env : Env) (lb : ClusterLoadBalancer) (m : Move)
    (h : (GetLeaderToMove env lb).1 = .ok (some m)) :
    (∃ from_ts to_ts, m.from_ts = some from_ts ∧ m.to_ts = some to_ts ∧
      m.tablet_id ∈ leaderCandidates lb.state_ from_ts to_ts ∧
      ¬ FailedRecently env lb.state_ m.tablet_id to_ts) ∧
    (∀ (low : TabletServerId) (t : TabletId) (rest : List TabletId),
      FailedRecently env lb.state_ t low →
      pickLeaderTablet lb.state_ low (t :: rest) = pickLeaderTablet lb.state_ low rest) := by
  constructor
  · obtain ⟨high, low, hf, ht, hp⟩ := GetLeaderToMove_tablet env lb m h
    obtain ⟨hmem, hnone⟩ := pickLeaderTablet_some _ _ _ _ hp
    refine ⟨high, low, hf, ht, hmem, ?_⟩
    rintro ⟨tm, time, hmeta, hfail, _⟩
    rw [hnone tm hmeta] at hfail
    cases hfail
  · rintro low t rest ⟨tm, time, hmeta, hfail, _⟩
    exact pickLeaderTablet_skip _ _ _ _ tm time hmeta hfail

/-- Witness for C24: the step-down of "t1" to "ts2" failed at the time of the
call, so the leader of "t2" is moved instead. -/
theorem C24_recent_stepdown_failure_skipped_witness :
    FailedRecently exEnv exLbFailed.state_ "t1" "ts2" ∧
    (GetLeaderToMove exEnv exLbFailed).1 =
      .ok (some { tablet_id := "t2", from_ts := some "ts1", to_ts := some "ts2" }) ∧
    ∃ from_ts to_ts, (some "ts1" : Option TabletServerId) = some from_ts ∧
      (some "ts2" : Option TabletServerId) = some to_ts ∧
      "t2" ∈ leaderCandidates exLbFailed.state_ from_ts to_ts ∧
      ¬ FailedRecently exEnv exLbFailed.state_ "t2" to_ts :=
  ⟨⟨_, 0, rfl, rfl, by decide⟩, by rfl,
   (C24_recent_stepdown_failure_skipped exEnv exLbFailed
      { tablet_id := "t2", from_ts := some "ts1", to_ts := some "ts2" } (by rfl)).1⟩

theorem leaderPrecheck_atTime (env : Env) (now : MonoTime) (interval : Int)
    (st : PerTableLoadState) (l : List Nat) :
    leaderPrecheck (env.atTime now interval) st l = leaderPrecheck env st l := by
  induction l with
  | nil => rfl
  | cons right rights ih =>
    unfold leaderPrecheck
    simp only [ih]
    rfl

theorem leaderInnerLoop_atTime (env : Env) (now : MonoTime) (interval : Int)
    (lb : ClusterLoadBalancer) (last_pos left : Nat) (l : List Nat) :
    leaderInnerLoop (env.atTime now interval) lb last_pos left l =
      leaderInnerLoop env lb last_pos left l := by
  induction l with
  | nil => rfl
  | cons right rights ih =>
    unfold leaderInnerLoop
    simp only [ih]
    rfl

theorem GetLeaderToMove_atTime (env : Env) (now : MonoTime) (interval : Int)
    (lb : ClusterLoadBalancer) :
    GetLeaderToMove (env.atTime now interval) lb = GetLeaderToMove env lb := by
  have houter : ∀ last_pos lefts,
      leaderOuterLoop (env.atTime now interval) lb last_pos lefts =
        leaderOuterLoop env lb last_pos lefts := by
    intro last_pos lefts
    induction lefts with
    | nil => rfl
    | cons left lefts ih =>
      unfold leaderOuterLoop
      simp only [ih, leaderInnerLoop_atTime]
  unfold GetLeaderToMove
  simp only [houter, leaderPrecheck_atTime]

/-- C29: a candidate tablet of `GetLeaderToMove` whose `leader_stepdown_failures`
hold an entry for the target node is skipped, whatever the time of that entry:
the search goes on with the next candidate, the result of `GetLeaderToMove` does
not depend on the time of the call or on
`min_leader_stepdown_retry_interval_ms` (they only decide whether a log line is
written), and `GetLeaderToMove` never returns the move of that tablet's leader
to that target. -/
theorem C29_any_recorded_failure_blocks (env : Env) (lb : ClusterLoadBalancer)
    (low : TabletServerId) (t : TabletId) (rest : List TabletId)
    (tablet_meta : CBTabletMetadata) (time : MonoTime)
    (hmeta : lb.state_.per_tablet_meta_.lookup t = some tablet_meta)
    (hfail : tablet_meta.leader_stepdown_failures.lookup low = some time) :
    pickLeaderTablet lb.state_ low (t :: rest) = pickLeaderTablet lb.state_ low rest ∧
    (∀ now interval, GetLeaderToMove (env.atTime now interval) lb = GetLeaderToMove env lb) ∧
    (∀ now interval m, (GetLeaderToMove (env.atTime now interval) lb).1 = .ok (some m) →
      m.to_ts = some low → m.tablet_id ≠ t) := by
  refine ⟨pickLeaderTablet_skip _ _ _ _ tablet_meta time hmeta hfail,
    fun now interval => GetLeaderToMove_atTime env now interval lb, ?_⟩
  intro now interval m hm hto heq
  obtain ⟨high, low2, _, ht, hp⟩ := GetLeaderToMove_tablet _ lb m hm
  rw [hto] at ht
  cases ht
  obtain ⟨_, hnone⟩ := pickLeaderTablet_some _ _ _ _ hp
  rw [heq] at hnone
  rw [hnone tablet_meta hmeta] at hfail
  cases hfail

/-- Witness for C29: the step-down of "t1" to "ts2" failed an hour before the
call, far more than the retry interval of 20 seconds; "t1" is skipped all the
same and the leader of "t2" is moved. -/
theorem C29_any_recorded_failure_blocks_witness :
    ¬ FailedRecently exEnvLater exLbFailed.state_ "t1" "ts2" ∧
    (GetLeaderToMove exEnvLater exLbFailed).1 =
      .ok (some { tablet_id := "t2", from_ts := some "ts1", to_ts := some "ts2" }) ∧
    pickLeaderTablet exLbFailed.state_ "ts2" ("t1" :: ["t2"]) =
      pickLeaderTablet exLbFailed.state_ "ts2" ["t2"] :=
  ⟨by
    rintro ⟨tm, time, hmeta, hfail, hlt⟩
    have h1 : tm = { (default : CBTabletMetadata) with
        leader_uuid := "ts1", leader_stepdown_failures := [("ts2", 0)] } := by
      have : exLbFailed.state_.per_tablet_meta_.lookup "t1" = some
          { (default : CBTabletMetadata) with
            leader_uuid := "ts1", leader_stepdown_failures := [("ts2", 0)] } := by rfl
      rw [this] at hmeta
      exact (Option.some.inj hmeta).symm
    subst h1
    have h2 : time = 0 := by
      have : ({ (default : CBTabletMetadata) with
          leader_uuid := "ts1",
          leader_stepdown_failures := [("ts2", 0)] }).leader_stepdown_failures.lookup
            "ts2" = some (0 : MonoTime) := by rfl
      rw [this] at hfail
      exact (Option.some.inj hfail).symm
    subst h2
    revert hlt
    decide,
   by rfl,
   (C29_any_recorded_failure_blocks exEnvLater exLbFailed "ts2" "t1" ["t2"]
      { (default : CBTabletMetadata) with
        leader_uuid := "ts1", leader_stepdown_failures := [("ts2", 0)] } 0
      (by rfl) (by rfl)).1⟩

/-! ### The wrong-placement removal -/

theorem headD_mem_of_ne_nil (l : List TabletServerId) (h : l ≠ []) : l.headD "" ∈ l := by
  cases l with
  | nil => exact absurd rfl h
  | cons a l => exact List.mem_cons_self _ _

theorem headD_ne_empty (l : List TabletServerId) (h : l ≠ []) (hne : "" ∉ l) :
    (l.headD "").isEmpty = false := by
  have hmem := headD_mem_of_ne_nil l h
  cases hi : (l.headD "").isEmpty with
  | false => rfl
  | true =>
    rw [String.isEmpty_iff] at hi
    rw [hi] at hmem
    exact absurd hmem hne

theorem findRemoveWrongPlacement_some (cat : CatalogManager) (st : PerTableLoadState)
    (t : TabletId) (ts : TabletServerId) (l : List TabletId)
    (h : findRemoveWrongPlacement cat st l = some (t, ts)) :
    t ∈ l ∧ t ∈ st.tablets_over_replicated_ ∧
    IsConfigMemberInTransitionMode cat t = false ∧
    ts.isEmpty = false ∧
    ts = (if ((lookupD st.per_tablet_meta_ t default).blacklisted_tablet_servers.headD
          "").isEmpty
        then (lookupD st.per_tablet_meta_ t default).wrong_placement_tablet_servers.headD ""
        else (lookupD st.per_tablet_meta_ t default).blacklisted_tablet_servers.headD "") := by
  induction l with
  | nil => simp [findRemoveWrongPlacement] at h
  | cons x rest ih =>
    have lift : findRemoveWrongPlacement cat st rest = some (t, ts) →
        t ∈ x :: rest ∧ t ∈ st.tablets_over_replicated_ ∧
        IsConfigMemberInTransitionMode cat t = false ∧
        ts.isEmpty = false ∧
        ts = (if ((lookupD st.per_tablet_meta_ t default).blacklisted_tablet_servers.headD
              "").isEmpty
            then (lookupD st.per_tablet_meta_ t default).wrong_placement_tablet_servers.headD ""
            else (lookupD st.per_tablet_meta_ t default).blacklisted_tablet_servers.headD
              "") := by
      intro h2
      obtain ⟨i1, i2⟩ := ih h2
      exact ⟨List.mem_cons_of_mem _ i1, i2⟩
    unfold findRemoveWrongPlacement at h
    by_cases h1 : ¬ x ∈ st.tablets_over_replicated_
    · rw [if_pos h1] at h
      exact lift h
    · rw [if_neg h1] at h
      by_cases h2 : IsConfigMemberInTransitionMode cat x = true
      · rw [if_pos h2] at h
        exact lift h
      · rw [if_neg h2] at h
        simp only at h
        by_cases h3 : (!(if ((lookupD st.per_tablet_meta_ x
              default).blacklisted_tablet_servers.headD "").isEmpty = true
            then (lookupD st.per_tablet_meta_ x default).wrong_placement_tablet_servers.headD ""
            else (lookupD st.per_tablet_meta_ x default).blacklisted_tablet_servers.headD
              "").isEmpty) = true
        · rw [if_pos h3] at h
          simp only [Option.some.injEq, Prod.mk.injEq] at h
          obtain ⟨hx, hts⟩ := h
          subst hx
          refine ⟨List.mem_cons_self _ _, not_not.1 h1, by simpa using h2, ?_, hts.symm⟩
          rw [← hts]
          simpa using h3
        · rw [if_neg h3] at h
          exact lift h

theorem HandleRemoveIfWrongPlacement_some (env : Env) (cat : CatalogManager)
    (lb : ClusterLoadBalancer) (m : Move)
    (h : (HandleRemoveIfWrongPlacement env cat lb).1 = .ok (some m)) :
    ∃ ts, m.from_ts = some ts ∧ m.to_ts = none ∧
      findRemoveWrongPlacement cat lb.state_ lb.state_.tablets_wrong_placement_ =
        some (m.tablet_id, ts) ∧
      (RemoveReplica env cat lb m.tablet_id ts).1 = .ok () ∧
      (HandleRemoveIfWrongPlacement env cat lb).2 =
        (RemoveReplica env cat lb m.tablet_id ts).2 := by
  unfold HandleRemoveIfWrongPlacement at h ⊢
  split at h
  · cases h
  · rename_i t ts hfind
    rw [hfind]
    rcases hr : RemoveReplica env cat lb t ts with ⟨r, lb1⟩
    rw [hr] at h
    cases r with
    | error e => cases h
    | ok u =>
      simp only [Except.ok.injEq, Option.some.injEq] at h
      subst h
      refine ⟨ts, rfl, rfl, rfl, ?_, ?_⟩
      · show (RemoveReplica env cat lb t ts).1 = .ok ()
        rw [hr]
      · show _ = (RemoveReplica env cat lb t ts).2
        rw [hr]

theorem HandleRemoveReplicas_wrong_first (env : Env) (cat : CatalogManager)
    (lb : ClusterLoadBalancer) (h : (HandleRemoveIfWrongPlacement env cat lb).1 ≠ .ok none) :
    HandleRemoveReplicas env cat lb = HandleRemoveIfWrongPlacement env cat lb := by
  unfold HandleRemoveReplicas
  split
  · rename_i e lb1 heq; rw [heq]
  · rename_i m lb1 heq; rw [heq]
  · rename_i lb1 heq
    rw [heq] at h
    exact absurd rfl h

/-- C25: when `HandleRemoveIfWrongPlacement` returns true, the chosen tablet is
in `tablets_wrong_placement_` and in `tablets_over_replicated_` and has no
config member in transition; the node it removes is the first of the tablet's
`blacklisted_tablet_servers` when that set is non-empty (node ids being
non-empty strings), and otherwise the first of its
`wrong_placement_tablet_servers`; `RemoveReplica` was called for that tablet and
node. `HandleRemoveReplicas` runs this search first: whenever it returns true or
fails, that is the result of `HandleRemoveReplicas`, and the loop over the
over-replicated tablets is not run. -/
theorem C25_wrong_placement_removal (env : Env) (cat : CatalogManager)
    (lb : ClusterLoadBalancer) (m : Move)
    (h : (HandleRemoveIfWrongPlacement env cat lb).1 = .ok (some m)) :
    m.tablet_id ∈ lb.state_.tablets_wrong_placement_ ∧
    m.tablet_id ∈ lb.state_.tablets_over_replicated_ ∧
    IsConfigMemberInTransitionMode cat m.tablet_id = false ∧
    (∃ ts, m.from_ts = some ts ∧ ts ≠ "" ∧
      ((lookupD lb.state_.per_tablet_meta_ m.tablet_id default).blacklisted_tablet_servers ≠
          [] →
        "" ∉ (lookupD lb.state_.per_tablet_meta_ m.tablet_id
          default).blacklisted_tablet_servers →
        ts = (lookupD lb.state_.per_tablet_meta_ m.tablet_id
          default).blacklisted_tablet_servers.headD "" ∧
        ts ∈ (lookupD lb.state_.per_tablet_meta_ m.tablet_id
          default).blacklisted_tablet_servers) ∧
      ((lookupD lb.state_.per_tablet_meta_ m.tablet_id default).blacklisted_tablet_servers =
          [] →
        ts = (lookupD lb.state_.per_tablet_meta_ m.tablet_id
          default).wrong_placement_tablet_servers.headD "" ∧
        ts ∈ (lookupD lb.state_.per_tablet_meta_ m.tablet_id
          default).wrong_placement_tablet_servers) ∧
      (HandleRemoveIfWrongPlacement env cat lb).2 =
        (RemoveReplica env cat lb m.tablet_id ts).2) ∧
    HandleRemoveReplicas env cat lb = HandleRemoveIfWrongPlacement env cat lb ∧
    (∀ lb2 : ClusterLoadBalancer, (HandleRemoveIfWrongPlacement env cat lb2).1 ≠ .ok none →
      HandleRemoveReplicas env cat lb2 = HandleRemoveIfWrongPlacement env cat lb2) := by
  obtain ⟨ts, hfrom, _, hfind, _, hlb⟩ := HandleRemoveIfWrongPlacement_some env cat lb m h
  obtain ⟨hmem, hover, htrans, hne, hts⟩ :=
    findRemoveWrongPlacement_some cat lb.state_ m.tablet_id ts _ hfind
  have hnonempty : ts ≠ "" := by
    intro h0
    rw [h0] at hne
    cases hne
  refine ⟨hmem, hover, htrans, ⟨ts, hfrom, hnonempty, ?_, ?_, hlb⟩, ?_,
    fun lb2 h2 => HandleRemoveReplicas_wrong_first env cat lb2 h2⟩
  · intro hbl hnoempty
    rw [headD_ne_empty _ hbl hnoempty] at hts
    simp only [Bool.false_eq_true, if_false] at hts
    exact ⟨hts, hts ▸ headD_mem_of_ne_nil _ hbl⟩
  · intro hbl
    rw [hbl] at hts
    simp only [List.headD_nil] at hts
    have h2 : ("" : String).isEmpty = true := by rfl
    rw [h2] at hts
    simp only [if_true] at hts
    refine ⟨hts, ?_⟩
    have hwp : (lookupD lb.state_.per_tablet_meta_ m.tablet_id
        default).wrong_placement_tablet_servers ≠ [] := by
      intro h3
      rw [h3] at hts
      exact hnonempty hts
    exact hts ▸ headD_mem_of_ne_nil _ hwp
  · apply HandleRemoveReplicas_wrong_first
    rw [h]
    intro h3
    cases h3

/-- Witness for C25: the wrongly placed, over-replicated tablet "t1" loses its
replica on the blacklisted node "ts2". -/
theorem C25_wrong_placement_removal_witness :
    (HandleRemoveReplicas exEnv exCatLeader exLbWrong).1 =
      .ok (some { tablet_id := "t1", from_ts := some "ts2", to_ts := none }) ∧
    (HandleRemoveReplicas exEnv exCatLeader exLbWrong).2.sent_ =
      [Command.RemoveServer "t1" "ts2"] ∧
    "t1" ∈ exLbWrong.state_.tablets_wrong_placement_ ∧
    "t1" ∈ exLbWrong.state_.tablets_over_replicated_ :=
  ⟨by rfl, by rfl,
   (C25_wrong_placement_removal exEnv exCatLeader exLbWrong
      { tablet_id := "t1", from_ts := some "ts2", to_ts := none } (by rfl)).1,
   (C25_wrong_placement_removal exEnv exCatLeader exLbWrong
      { tablet_id := "t1", from_ts := some "ts2", to_ts := none } (by rfl)).2.1⟩

/-! ### The removal candidate of an over-replicated tablet -/

theorem insertDesc_perm (lt : TabletServerId → TabletServerId → Bool) (x : TabletServerId)
    (l : List TabletServerId) : List.Perm (insertDesc lt x l) (x :: l) := by
  induction l with
  | nil => exact List.Perm.refl _
  | cons y ys ih =>
    unfold insertDesc
    split_ifs
    · exact (List.Perm.cons y ih).trans (List.Perm.swap x y ys)
    · exact List.Perm.refl _

theorem sortDesc_perm (lt : TabletServerId → TabletServerId → Bool)
    (l : List TabletServerId) : List.Perm (sortDesc lt l) l := by
  induction l with
  | nil => exact List.Perm.refl _
  | cons x xs ih =>
    unfold sortDesc at ih ⊢
    rw [List.foldr_cons]
    exact (insertDesc_perm lt x _).trans (List.Perm.cons x ih)

theorem insertDesc_sorted (lt : TabletServerId → TabletServerId → Bool)
    (hsw : StrictWeakOrder lt) (x : TabletServerId) (l : List TabletServerId)
    (h : l.Pairwise (fun a b => lt a b = false)) :
    (insertDesc lt x l).Pairwise (fun a b => lt a b = false) := by
  induction l with
  | nil => exact List.pairwise_singleton _ _
  | cons y ys ih =>
    obtain ⟨hy, hys⟩ := List.pairwise_cons.1 h
    unfold insertDesc
    split_ifs with hlt
    · refine List.pairwise_cons.2 ⟨?_, ih hys⟩
      intro z hz
      rcases List.mem_cons.1 ((insertDesc_perm lt x ys).subset hz) with hzx | hzy
      · rw [hzx]
        exact hsw.1 x y hlt
      · exact hy z hzy
    · have hxy : lt x y = false := by simpa using hlt
      refine List.pairwise_cons.2 ⟨?_, h⟩
      intro z hz
      rcases List.mem_cons.1 hz with hzy | hzy
      · rw [hzy]
        exact hxy
      · exact hsw.2 x y z hxy (hy z hzy)

theorem sortDesc_sorted (lt : TabletServerId → TabletServerId → Bool)
    (hsw : StrictWeakOrder lt) (l : List TabletServerId) :
    (sortDesc lt l).Pairwise (fun a b => lt a b = false) := by
  induction l with
  | nil => exact List.Pairwise.nil
  | cons x xs ih =>
    unfold sortDesc at ih ⊢
    rw [List.foldr_cons]
    exact insertDesc_sorted lt hsw x _ ih

theorem strictWeak_irrefl (lt : TabletServerId → TabletServerId → Bool)
    (hsw : StrictWeakOrder lt) (a : TabletServerId) : lt a a = false := by
  cases h : lt a a with
  | false => rfl
  | true =>
    have := hsw.1 a a h
    rw [h] at this
    cases this

/-- The head of the sorted candidates is a greatest candidate, and the second
element a greatest one among the others. -/
theorem sortDesc_head (lt : TabletServerId → TabletServerId → Bool)
    (hsw : StrictWeakOrder lt) (l : List TabletServerId) (c : TabletServerId)
    (others : List TabletServerId) (h : sortDesc lt l = c :: others) :
    c ∈ l ∧ (∀ x ∈ l, lt c x = false) ∧
    (∀ n others2, others = n :: others2 →
      n ∈ l ∧ (∀ x ∈ others, lt n x = false) ∧
        (l.Nodup → n ≠ c ∧ ∀ x ∈ l, x ≠ c → x ∈ others)) := by
  have hperm := sortDesc_perm lt l
  have hsorted := sortDesc_sorted lt hsw l
  rw [h] at hperm hsorted
  obtain ⟨hc, hrest⟩ := List.pairwise_cons.1 hsorted
  refine ⟨hperm.subset (List.mem_cons_self _ _), ?_, ?_⟩
  · intro x hx
    rcases List.mem_cons.1 (hperm.symm.subset hx) with hxc | hxo
    · rw [hxc]
      exact strictWeak_irrefl lt hsw c
    · exact hc x hxo
  · intro n others2 ho
    subst ho
    obtain ⟨hn, _⟩ := List.pairwise_cons.1 hrest
    refine ⟨hperm.subset (List.mem_cons_of_mem _ (List.mem_cons_self _ _)), ?_, ?_⟩
    · intro x hx
      rcases List.mem_cons.1 hx with hxn | hxo
      · rw [hxn]
        exact strictWeak_irrefl lt hsw n
      · exact hn x hxo
    · intro hnd
      have hnd2 : (c :: n :: others2).Nodup := (List.Perm.nodup_iff hperm).2 hnd
      obtain ⟨hcn, _⟩ := List.nodup_cons.1 hnd2
      refine ⟨fun heq => hcn (heq ▸ List.mem_cons_self _ _), ?_⟩
      intro x hx hxc
      rcases List.mem_cons.1 (hperm.symm.subset hx) with h1 | h1
      · exact absurd h1 hxc
      · exact h1

theorem HandleRemoveReplicas_chosen (env : Env) (cat : CatalogManager)
    (lb lb1 : ClusterLoadBalancer) (t : TabletId) (c : TabletServerId)
    (hwp : HandleRemoveIfWrongPlacement env cat lb = (.ok none, lb1))
    (hfind : findRemoveOverReplicated env cat lb1 lb1.state_.tablets_over_replicated_ =
      .ok (some (t, c))) :
    HandleRemoveReplicas env cat lb = removeChosen env cat lb1 t c := by
  rw [HandleRemoveReplicas_over env cat lb lb1 hwp, hfind]
  rfl

theorem exEnvByLoad_comparator_order (st : PerTableLoadState) (g : GlobalLoadState) :
    StrictWeakOrder (exEnvByLoad.Comparator st g) := by
  constructor
  · intro a b h
    have h1 : exEnv.GetLoad st a < exEnv.GetLoad st b := by simpa [exEnvByLoad] using h
    have h2 : ¬ exEnv.GetLoad st b < exEnv.GetLoad st a := by omega
    simpa [exEnvByLoad] using h2
  · intro a b c h1 h2
    have h3 : ¬ exEnv.GetLoad st a < exEnv.GetLoad st b := by simpa [exEnvByLoad] using h1
    have h4 : ¬ exEnv.GetLoad st b < exEnv.GetLoad st c := by simpa [exEnvByLoad] using h2
    have h5 : ¬ exEnv.GetLoad st a < exEnv.GetLoad st c := by omega
    simpa [exEnvByLoad] using h5

/-- C26: for the first over-replicated tablet of the loop, with no config member
in transition and no starting replica, let the candidates be the nodes of its
`over_replicated_tablet_servers` on which it is not starting. The first node of
the sorted candidates is a greatest one under the load comparator (a strict weak
ordering), and the loop chooses it unless it is the tablet's leader and
`ShouldSkipLeaderAsVictim` holds; in that case the loop chooses the second node
of the sorted candidates, a greatest one among the others, which is not the
leader (the candidates being distinct). `HandleRemoveReplicas`, when the
wrong-placement search found nothing, calls `RemoveReplica` for the chosen
node. -/
theorem C26_greatest_candidate_removed (env : Env) (cat : CatalogManager)
    (lb : ClusterLoadBalancer) (tablet_id : TabletId) (rest : List TabletId)
    (c : TabletServerId) (others : List TabletServerId)
    (hsw : StrictWeakOrder (env.Comparator lb.state_ lb.global_state_))
    (hnt : ¬ (IsConfigMemberInTransitionMode cat tablet_id ∨
      (lookupD lb.state_.per_tablet_meta_ tablet_id default).starting > 0))
    (hsort : sortDesc (env.Comparator lb.state_ lb.global_state_)
      (removalCandidates lb tablet_id) = c :: others) :
    c ∈ removalCandidates lb tablet_id ∧
    (∀ x ∈ removalCandidates lb tablet_id,
      env.Comparator lb.state_ lb.global_state_ c x = false) ∧
    ((c ≠ (lookupD lb.state_.per_tablet_meta_ tablet_id default).leader_uuid ∨
        ShouldSkipLeaderAsVictim env cat tablet_id = .ok false) →
      findRemoveOverReplicated env cat lb (tablet_id :: rest) = .ok (some (tablet_id, c))) ∧
    (c = (lookupD lb.state_.per_tablet_meta_ tablet_id default).leader_uuid →
      ShouldSkipLeaderAsVictim env cat tablet_id = .ok true →
      ∀ n others2, others = n :: others2 →
        findRemoveOverReplicated env cat lb (tablet_id :: rest) = .ok (some (tablet_id, n)) ∧
        n ∈ removalCandidates lb tablet_id ∧
        (∀ x ∈ others, env.Comparator lb.state_ lb.global_state_ n x = false) ∧
        ((lookupD lb.state_.per_tablet_meta_ tablet_id
            default).over_replicated_tablet_servers.Nodup →
          n ≠ (lookupD lb.state_.per_tablet_meta_ tablet_id default).leader_uuid ∧
          ∀ x ∈ removalCandidates lb tablet_id, x ≠ c → x ∈ others)) ∧
    (∀ (lb0 : ClusterLoadBalancer) (node : TabletServerId),
      HandleRemoveIfWrongPlacement env cat lb0 = (.ok none, lb) →
      lb.state_.tablets_over_replicated_ = tablet_id :: rest →
      findRemoveOverReplicated env cat lb (tablet_id :: rest) = .ok (some (tablet_id, node)) →
      HandleRemoveReplicas env cat lb0 = removeChosen env cat lb tablet_id node) := by
  obtain ⟨hmem, hmax, hsecond⟩ := sortDesc_head _ hsw _ c others hsort
  have hsort2 := hsort
  unfold removalCandidates at hsort2
  refine ⟨hmem, hmax, ?_, ?_, ?_⟩
  · intro hcase
    unfold findRemoveOverReplicated
    simp only [hnt, if_false, hsort2]
    rcases hcase with hne | hskip
    · rw [if_neg hne]
    · rw [hskip]
      split_ifs <;> rfl
  · intro hc hskip n others2 ho
    obtain ⟨hn, hnmax, hnd⟩ := hsecond n others2 ho
    refine ⟨?_, hn, hnmax, ?_⟩
    · unfold findRemoveOverReplicated
      simp only [hnt, if_false, hsort2, hc, if_true, hskip, ho]
    · intro hnodup
      obtain ⟨h1, h2⟩ := hnd (List.Nodup.filter _ hnodup)
      exact ⟨hc ▸ h1, h2⟩
  · intro lb0 node hwp hover hfind
    apply HandleRemoveReplicas_chosen env cat lb0 lb tablet_id node hwp
    rw [hover]
    exact hfind

/-- Witness for C26: replication factor 3 and the skip-leader flag set; the
greatest candidate "ts2" of "t1" is its leader, so the replica on the second
candidate "ts1" is removed. -/
theorem C26_greatest_candidate_removed_witness :
    sortDesc (exEnvByLoad.Comparator exLbSecond.state_ exLbSecond.global_state_)
      (removalCandidates exLbSecond "t1") = "ts2" :: ["ts1"] ∧
    findRemoveOverReplicated exEnvByLoad (exCatRf 3) exLbSecond ("t1" :: []) =
      .ok (some ("t1", "ts1")) ∧
    (HandleRemoveReplicas exEnvByLoad (exCatRf 3) exLbSecond).2.sent_ =
      [Command.RemoveServer "t1" "ts1"] :=
  ⟨by rfl,
   ((C26_greatest_candidate_removed exEnvByLoad (exCatRf 3) exLbSecond "t1" [] "ts2" ["ts1"]
      (exEnvByLoad_comparator_order _ _) (by decide) (by rfl)).2.2.2.1 (by rfl) (by rfl)
      "ts1" [] rfl).1,
   by rfl⟩

/-! ### Leader affinity -/

theorem InitializeTSDescriptors_zones (env : Env) (cat : CatalogManager)
    (hframe : ZonesFrame env) (lb : ClusterLoadBalancer) :
    (InitializeTSDescriptors env cat lb).state_.use_preferred_zones_ =
      lb.state_.use_preferred_zones_ := by
  have hfold : ∀ (l : List TSDescriptor) (sg : PerTableLoadState × GlobalLoadState),
      (l.foldl (fun sg ts_desc => env.state_UpdateTabletServer sg ts_desc)
        sg).1.use_preferred_zones_ = sg.1.use_preferred_zones_ := by
    intro l
    induction l with
    | nil => intro sg; rfl
    | cons d rest ih =>
      intro sg
      rw [List.foldl_cons, ih, hframe.2.2]
  unfold InitializeTSDescriptors
  simp only
  rw [hfold, hframe.2.1, hframe.1]
  split_ifs <;> rfl

theorem moveLeaderOf_decision (env : Env) (cat : CatalogManager) (lb : ClusterLoadBalancer)
    (m m2 : Move) (h : (moveLeaderOf env cat lb m).1 = .ok (some m2)) : m2 = m := by
  unfold moveLeaderOf at h
  split at h
  · cases h
  · simp only [Except.ok.injEq, Option.some.injEq] at h
    exact h.symm

/-- C27: the state that `RunLoadBalancerWithOptions` prepares for a table has
`use_preferred_zones_` false exactly when the table is the transaction-status
table and `transaction_tables_use_preferred_zones` is off.
`HandleLeaderMoves` runs the affinity-repair search only when
`use_preferred_zones_` is true (a move it finds is then passed to `MoveLeader`);
when `use_preferred_zones_` is false, `HandleLeaderMoves` does what
`GetLeaderToMove` decides: it returns the same error or false, and passes a
chosen move to `MoveLeader`, so every move it returns is the one
`GetLeaderToMove` chose. -/
theorem C27_affinity_only_with_preferred_zones (env : Env) (hframe : ZonesFrame env) :
    (∀ cat options lb (table : TableId × TableInfo),
      (countingInput env cat options lb table).state_.use_preferred_zones_ =
        (!table.2.is_transaction_status_table ||
          env.flags.transaction_tables_use_preferred_zones) ∧
      ((countingInput env cat options lb table).state_.use_preferred_zones_ = false ↔
        (table.2.is_transaction_status_table = true ∧
          env.flags.transaction_tables_use_preferred_zones = false))) ∧
    (∀ cat lb, lb.state_.use_preferred_zones_ = false →
      HandleLeaderMoves env cat lb = generalLeaderMove env cat lb ∧
      (∀ m, (HandleLeaderMoves env cat lb).1 = .ok (some m) →
        (GetLeaderToMove env lb).1 = .ok (some m)) ∧
      ((GetLeaderToMove env lb).1 = .ok none → (HandleLeaderMoves env cat lb).1 = .ok none) ∧
      (∀ e, (GetLeaderToMove env lb).1 = .error e →
        (HandleLeaderMoves env cat lb).1 = .error e)) ∧
    (∀ cat lb, lb.state_.use_preferred_zones_ = true →
      (∀ m, HandleLeaderLoadIfNonAffinitized env lb = .ok (some m) →
        HandleLeaderMoves env cat lb = moveLeaderOf env cat lb m) ∧
      (HandleLeaderLoadIfNonAffinitized env lb = .ok none →
        HandleLeaderMoves env cat lb = generalLeaderMove env cat lb)) := by
  refine ⟨?_, ?_, ?_⟩
  · intro cat options lb table
    have hval : (countingInput env cat options lb table).state_.use_preferred_zones_ =
        (!table.2.is_transaction_status_table ||
          env.flags.transaction_tables_use_preferred_zones) := by
      unfold countingInput
      simp only
      rw [InitializeTSDescriptors_zones env cat hframe]
    refine ⟨hval, ?_⟩
    rw [hval]
    cases table.2.is_transaction_status_table <;>
      cases env.flags.transaction_tables_use_preferred_zones <;> simp
  · intro cat lb hz
    have heq : HandleLeaderMoves env cat lb = generalLeaderMove env cat lb := by
      unfold HandleLeaderMoves generalLeaderMove
      simp only [hz, Bool.false_eq_true, if_false]
    refine ⟨heq, ?_, ?_, ?_⟩
    · intro m hm
      rw [heq] at hm
      unfold generalLeaderMove at hm
      split at hm
      · cases hm
      · rename_i m2 lb1 hg
        rw [hg]
        rw [moveLeaderOf_decision env cat lb1 m2 m hm]
      · cases hm
    · intro hg
      rw [heq]
      unfold generalLeaderMove
      split
      · rename_i e lb1 h2; rw [h2] at hg; cases hg
      · rename_i m2 lb1 h2; rw [h2] at hg; cases hg
      · rfl
    · intro e hg
      rw [heq]
      unfold generalLeaderMove
      split
      · rename_i e2 lb1 h2
        rw [h2] at hg
        exact hg
      · rename_i m2 lb1 h2; rw [h2] at hg; cases hg
      · rename_i lb1 h2; rw [h2] at hg; cases hg
  · intro cat lb hz
    constructor
    · intro m hm
      unfold HandleLeaderMoves
      simp only [hz, if_true, hm]
    · intro hn
      unfold HandleLeaderMoves generalLeaderMove
      simp only [hz, if_true, hn]

/-- Witness for C27: for the transaction-status table "A", with
`transaction_tables_use_preferred_zones` off, `use_preferred_zones_` is false. -/
theorem C27_affinity_only_with_preferred_zones_witness :
    ZonesFrame exEnv ∧
    exEnv.flags.transaction_tables_use_preferred_zones = false ∧
    (countingInput exEnv exCatEmpty exOptions (ClusterLoadBalancer.new exFlags)
      ("A", exTableTxn)).state_.use_preferred_zones_ = false :=
  ⟨⟨fun _ _ => rfl, fun _ _ => rfl, fun _ _ => rfl⟩, rfl,
   ((C27_affinity_only_with_preferred_zones exEnv
      ⟨fun _ _ => rfl, fun _ _ => rfl, fun _ _ => rfl⟩).1 exCatEmpty exOptions
      (ClusterLoadBalancer.new exFlags) ("A", exTableTxn)).2.2 ⟨rfl, rfl⟩⟩

theorem nonAffinitizedInner_some (env : Env) (st : PerTableLoadState) (u : TabletServerId)
    (m : Move) (l : List TabletServerId)
    (h : nonAffinitizedInner env st u l = some (some m)) :
    env.GetLeaderLoad st u ≠ 0 ∧ m.from_ts = some u ∧
      ∃ a ∈ l, m.to_ts = some a ∧
        m.tablet_id ∈ (lookupD st.per_ts_meta_ u default).leaders ∧
        m.tablet_id ∈ (lookupD st.per_ts_meta_ a default).running_tablets := by
  induction l with
  | nil => simp [nonAffinitizedInner] at h
  | cons a rest ih =>
    unfold nonAffinitizedInner at h
    split_ifs at h with hz
    · cases h
    · simp only at h
      split at h
      · rename_i t ts hfilter
        simp only [Option.some.injEq] at h
        subst h
        have hmem : t ∈ (lookupD st.per_ts_meta_ u default).leaders.filter
            (fun t => decide (t ∈ (lookupD st.per_ts_meta_ a default).running_tablets)) := by
          rw [hfilter]
          exact List.mem_cons_self _ _
        rw [List.mem_filter] at hmem
        exact ⟨hz, rfl, a, List.mem_cons_self _ _, rfl, hmem.1, by simpa using hmem.2⟩
      · obtain ⟨h1, h2, a2, ha2, h3⟩ := ih h
        exact ⟨h1, h2, a2, List.mem_cons_of_mem _ ha2, h3⟩

theorem nonAffinitizedInner_zero (env : Env) (st : PerTableLoadState) (u : TabletServerId)
    (l : List TabletServerId) (hz : env.GetLeaderLoad st u = 0) :
    nonAffinitizedInner env st u l = none ∨ nonAffinitizedInner env st u l = some none := by
  cases l with
  | nil => exact Or.inl rfl
  | cons a rest =>
    right
    unfold nonAffinitizedInner
    rw [if_pos hz]

theorem nonAffinitizedOuter_some (env : Env) (st : PerTableLoadState) (m : Move)
    (idxs : List Nat) (h : nonAffinitizedOuter env st idxs = some m) :
    ∃ idx ∈ idxs, nonAffinitizedInner env st
      (st.sorted_non_affinitized_leader_load_.getD idx "") st.sorted_leader_load_ =
        some (some m) := by
  induction idxs with
  | nil => simp [nonAffinitizedOuter] at h
  | cons i rest ih =>
    unfold nonAffinitizedOuter at h
    split at h
    · rename_i r hr
      subst h
      exact ⟨i, List.mem_cons_self _ _, hr⟩
    · obtain ⟨idx, hidx, hin⟩ := ih h
      exact ⟨idx, List.mem_cons_of_mem _ hidx, hin⟩

theorem nonAffinitizedOuter_zero (env : Env) (st : PerTableLoadState) (idxs : List Nat)
    (hz : ∀ idx ∈ idxs,
      env.GetLeaderLoad st (st.sorted_non_affinitized_leader_load_.getD idx "") = 0) :
    nonAffinitizedOuter env st idxs = none := by
  induction idxs with
  | nil => rfl
  | cons i rest ih =>
    unfold nonAffinitizedOuter
    rcases nonAffinitizedInner_zero env st _ st.sorted_leader_load_
      (hz i (List.mem_cons_self _ _)) with h | h
    · rw [h]
      exact ih (fun idx hidx => hz idx (List.mem_cons_of_mem _ hidx))
    · rw [h]

/-- C28: `HandleLeaderLoadIfNonAffinitized` returns false when the leader load of
every node of `sorted_non_affinitized_leader_load_` is zero (in particular when
that list is empty). When it returns true, `from_ts` is a node of
`sorted_non_affinitized_leader_load_` with a non-zero leader load, `to_ts` is a
node of `sorted_leader_load_`, and the chosen tablet is in the `leaders` of
`from_ts` and in the `running_tablets` of `to_ts`. -/
theorem C28_affinity_repair_choice (env : Env) (lb : ClusterLoadBalancer) :
    ((∀ u ∈ lb.state_.sorted_non_affinitized_leader_load_,
        env.GetLeaderLoad lb.state_ u = 0) →
      HandleLeaderLoadIfNonAffinitized env lb = .ok none) ∧
    (∀ m, HandleLeaderLoadIfNonAffinitized env lb = .ok (some m) →
      ∃ from_ts to_ts, m.from_ts = some from_ts ∧ m.to_ts = some to_ts ∧
        from_ts ∈ lb.state_.sorted_non_affinitized_leader_load_ ∧
        env.GetLeaderLoad lb.state_ from_ts ≠ 0 ∧
        to_ts ∈ lb.state_.sorted_leader_load_ ∧
        m.tablet_id ∈ (lookupD lb.state_.per_ts_meta_ from_ts default).leaders ∧
        m.tablet_id ∈ (lookupD lb.state_.per_ts_meta_ to_ts default).running_tablets) := by
  constructor
  · intro hz
    unfold HandleLeaderLoadIfNonAffinitized
    rw [nonAffinitizedOuter_zero]
    intro idx hidx
    have hlt := List.mem_range.1 (List.mem_reverse.1 hidx)
    exact hz _ (getD_mem_of_lt _ idx hlt)
  · intro m hm
    unfold HandleLeaderLoadIfNonAffinitized at hm
    simp only [Except.ok.injEq] at hm
    obtain ⟨idx, hidx, hin⟩ := nonAffinitizedOuter_some env lb.state_ m _ hm
    have hlt := List.mem_range.1 (List.mem_reverse.1 hidx)
    obtain ⟨hload, hfrom, a, ha, hto, hl, hr⟩ := nonAffinitizedInner_some env lb.state_ _ m _ hin
    exact ⟨_, a, hfrom, hto, getD_mem_of_lt _ idx hlt, hload, ha, hl, hr⟩

/-- Witness for C28: "ts1", outside the preferred zones, leads "t1" and "t2";
"ts2" runs both; the leader of "t1" is moved from "ts1" to "ts2". -/
theorem C28_affinity_repair_choice_witness :
    HandleLeaderLoadIfNonAffinitized exEnv exLbAffinity =
      .ok (some { tablet_id := "t1", from_ts := some "ts1", to_ts := some "ts2" }) ∧
    ∃ from_ts to_ts, (some "ts1" : Option TabletServerId) = some from_ts ∧
      (some "ts2" : Option TabletServerId) = some to_ts ∧
      from_ts ∈ exLbAffinity.state_.sorted_non_affinitized_leader_load_ ∧
      exEnv.GetLeaderLoad exLbAffinity.state_ from_ts ≠ 0 ∧
      to_ts ∈ exLbAffinity.state_.sorted_leader_load_ ∧
      "t1" ∈ (lookupD exLbAffinity.state_.per_ts_meta_ from_ts default).leaders ∧
      "t1" ∈ (lookupD exLbAffinity.state_.per_ts_meta_ to_ts default).running_tablets :=
  ⟨by rfl,
   (C28_affinity_repair_choice exEnv exLbAffinity).2
     { tablet_id := "t1", from_ts := some "ts1", to_ts := some "ts2" } (by rfl)⟩

/-! ### The idle-run counter -/

theorem RecordActivity_exact (bits : Nat) (lb : ClusterLoadBalancer) (t : List Nat) (e : Nat)
    (hbits : lb.cbuf_capacity_ + 1 < 2 ^ bits) (hinv : TrackerInv lb) :
    ((RecordActivity bits lb t e).num_idle_runs_ : Int) =
      (lb.num_idle_runs_ : Int) + (if (RunInput.activity (t, e)).IsIdle then 1 else 0) -
        (if (cbuf_full lb.cbuf_capacity_ lb.cbuf_activities_ &&
            (match lb.cbuf_activities_.head? with
              | some f => f.IsIdle
              | none => false)) = true then 1 else 0) := by
  obtain ⟨hnum, hlen⟩ := hinv
  rw [RecordActivity_num_idle]
  have hB := cbuf_full_front_count lb.cbuf_capacity_ lb.cbuf_activities_
  have hC : lb.cbuf_activities_.countP ActivityInfo.IsIdle ≤ lb.cbuf_activities_.length :=
    List.countP_le_length _
  rw [← hnum] at hB hC
  generalize RunInput.activity (t, e) = ai
  generalize (cbuf_full lb.cbuf_capacity_ lb.cbuf_activities_ &&
        (match lb.cbuf_activities_.head? with
          | some f => f.IsIdle
          | none => false)) = ff at hB ⊢
  cases hi : ai.IsIdle <;> cases hf : ff <;>
    simp only [hi, hf, if_true, if_false, Bool.false_eq_true] at hB ⊢
  · omega
  · have := hB trivial
    rw [wrapDec_eq _ _ (by omega) (by omega)]
    omega
  · rw [wrapInc_eq _ _ (by omega)]
    omega
  · have := hB trivial
    rw [wrapInc_eq _ _ (by omega), wrapDec_eq _ _ (by omega) (by omega)]
    omega

/-- C30: after any sequence of `RecordActivity` calls on an empty buffer of
capacity `N >= 1` with `num_idle_runs_ = 0`, `num_idle_runs_` is the number of
idle entries held in the buffer, so `num_idle_runs_ <= buffer size <= N`; and
in the next call the unsigned counter neither overflows nor underflows: its new
value is the old one, plus one for an idle run, minus one when an idle entry is
evicted, as integers. -/
theorem C30_idle_counter_invariant (bits : Nat) (lb0 : ClusterLoadBalancer)
    (runs : List RunInput) (hbits : 32 ≤ bits) (hN1 : 1 ≤ lb0.cbuf_capacity_)
    (hN2 : lb0.cbuf_capacity_ < 2 ^ 31) (hempty : lb0.cbuf_activities_ = [])
    (hzero : lb0.num_idle_runs_ = 0) :
    (recordAll bits lb0 runs).num_idle_runs_ =
      (recordAll bits lb0 runs).cbuf_activities_.countP ActivityInfo.IsIdle ∧
    (recordAll bits lb0 runs).num_idle_runs_ ≤
      (recordAll bits lb0 runs).cbuf_activities_.length ∧
    (recordAll bits lb0 runs).cbuf_activities_.length ≤ lb0.cbuf_capacity_ ∧
    (∀ r : RunInput,
      ((RecordActivity bits (recordAll bits lb0 runs) r.1 r.2).num_idle_runs_ : Int) =
        ((recordAll bits lb0 runs).num_idle_runs_ : Int) +
          (if (RunInput.activity r).IsIdle then 1 else 0) -
          (if (cbuf_full (recordAll bits lb0 runs).cbuf_capacity_
                (recordAll bits lb0 runs).cbuf_activities_ &&
              (match (recordAll bits lb0 runs).cbuf_activities_.head? with
                | some f => f.IsIdle
                | none => false)) = true then 1 else 0)) := by
  have hb : lb0.cbuf_capacity_ + 1 < 2 ^ bits := by
    have := two_pow_31_le bits hbits
    omega
  have hinv0 : TrackerInv lb0 := by
    unfold TrackerInv
    rw [hempty, hzero]
    exact ⟨rfl, Nat.zero_le _⟩
  have hinv := recordAll_inv bits lb0 runs hN1 hb hinv0
  have hcap := recordAll_capacity bits lb0 runs
  obtain ⟨h1, h2⟩ := hinv
  refine ⟨h1, ?_, ?_, ?_⟩
  · rw [h1]
    exact List.countP_le_length _
  · rw [← hcap]
    exact h2
  · intro r
    exact RecordActivity_exact bits _ r.1 r.2 (by rw [hcap]; exact hb) ⟨h1, h2⟩

/-- Witness for C30: a two-slot buffer after an active run and two idle runs
holds two idle entries and the counter is two. -/
theorem C30_idle_counter_invariant_witness :
    (recordAll 64 (ClusterLoadBalancer.new exFlags) exRuns).num_idle_runs_ = 2 ∧
    (recordAll 64 (ClusterLoadBalancer.new exFlags) exRuns).num_idle_runs_ =
      (recordAll 64 (ClusterLoadBalancer.new exFlags)
        exRuns).cbuf_activities_.countP ActivityInfo.IsIdle :=
  ⟨by rfl,
   (C30_idle_counter_invariant 64 (ClusterLoadBalancer.new exFlags) exRuns (by decide)
      (by decide) (by decide) rfl rfl).1⟩

/-! ### The tablets of the table being executed -/

theorem TabletOfTable_get (cat : CatalogManager) (T : TableId) (t : TabletId)
    (h : TabletOfTable cat T t) :
    (GetTablet cat t).tablet_id = t ∧ (GetTablet cat t).table_id = T := by
  obtain ⟨tablet, hl, hid, htab⟩ := h
  unfold GetTablet lookupD TabletInfo.table_id
  rw [hl]
  simp [hid, htab]

theorem TabletOfTable_unique (cat : CatalogManager) (T T2 : TableId) (t : TabletId)
    (h : TabletOfTable cat T t) (h2 : TabletOfTable cat T2 t) : T = T2 := by
  obtain ⟨tablet, hl, _, htab⟩ := h
  obtain ⟨tablet2, hl2, _, htab2⟩ := h2
  rw [hl] at hl2
  cases hl2
  rw [htab] at htab2
  cases htab2
  rfl

theorem GuardedStep_refl (cat : CatalogManager) (T : TableId) (a : ClusterLoadBalancer) :
    GuardedStep cat T a a :=
  fun h => ⟨h, SamePending_refl _, [], by simp, by simp⟩

theorem SentGuarded_congr (cat : CatalogManager) (T : TableId) (a b : PerTableLoadState)
    (c : Command) (h : SamePending a b) (hb : SentGuarded cat T b c) :
    SentGuarded cat T a c := by
  refine ⟨hb.1, ?_⟩
  rw [← pendingTasksOfKind_congr a b c h]
  exact hb.2

theorem GuardedStep_trans (cat : CatalogManager) (T : TableId) (a b c : ClusterLoadBalancer)
    (h1 : GuardedStep cat T a b) (h2 : GuardedStep cat T b c) : GuardedStep cat T a c := by
  intro ha
  obtain ⟨hb, hp1, cs1, hs1, hg1⟩ := h1 ha
  obtain ⟨hc, hp2, cs2, hs2, hg2⟩ := h2 hb
  refine ⟨hc, SamePending_trans _ _ _ hp1 hp2, cs1 ++ cs2, ?_, ?_⟩
  · rw [hs2, hs1, List.append_assoc]
  · intro x hx
    rcases List.mem_append.1 hx with hx | hx
    · exact hg1 x hx
    · exact SentGuarded_congr cat T _ _ x hp1 (hg2 x hx)

/-- A change that sends nothing, keeps the pending maps and keeps the tablets of
the table state within the table is a step. -/
theorem GuardedStep_of_eq (cat : CatalogManager) (T : TableId) (a b : ClusterLoadBalancer)
    (h2 : b.sent_ = a.sent_) (h3 : SamePending a.state_ b.state_)
    (h4 : StateOfTable cat T a.state_ → StateOfTable cat T b.state_) :
    GuardedStep cat T a b :=
  fun h => ⟨h4 h, h3, [], by simp [h2], by simp⟩

theorem SendReplicaChanges_guarded (cat : CatalogManager) (T : TableId)
    (lb : ClusterLoadBalancer) (t : TabletId) (ts : TabletServerId) (is_add srl : Bool)
    (nl : TabletServerId) (ht : TabletOfTable cat T t) :
    GuardedStep cat T lb (SendReplicaChanges lb (GetTablet cat t) ts is_add srl nl).2 := by
  obtain ⟨hid, htab⟩ := TabletOfTable_get cat T t ht
  unfold SendReplicaChanges
  rw [hid, htab]
  split_ifs with h1 h2 h3 h4 h5
  · exact GuardedStep_refl cat T lb
  · refine fun hst => ⟨hst, SamePending_refl _, [_], rfl, ?_⟩
    intro c hc
    rw [List.mem_singleton] at hc
    subst hc
    exact ⟨ht, pendingCount_eq_zero _ _ _ (not_not.1 h2)⟩
  · exact GuardedStep_refl cat T lb
  · refine fun hst => ⟨hst, SamePending_refl _, [_], rfl, ?_⟩
    intro c hc
    rw [List.mem_singleton] at hc
    subst hc
    exact ⟨ht, pendingCount_eq_zero _ _ _ (not_not.1 h4)⟩
  · exact GuardedStep_refl cat T lb
  · refine fun hst => ⟨hst, SamePending_refl _, [_], rfl, ?_⟩
    intro c hc
    rw [List.mem_singleton] at hc
    subst hc
    exact ⟨ht, pendingCount_eq_zero _ _ _ (not_not.1 h5)⟩

theorem applyState_guarded (cat : CatalogManager) (T : TableId) (lb : ClusterLoadBalancer)
    (r : StatusOr Unit × (PerTableLoadState × GlobalLoadState))
    (h : SamePending lb.state_ r.2.1)
    (h2 : StateOfTable cat T lb.state_ → StateOfTable cat T r.2.1) :
    GuardedStep cat T lb (applyState lb r).2 :=
  GuardedStep_of_eq cat T _ _ rfl h h2

theorem AddReplica_guarded (env : Env) (cat : CatalogManager) (hf : PendingFrame env)
    (hk : HelpersKeepTable env cat) (T : TableId) (lb : ClusterLoadBalancer)
    (t : TabletId) (ts : TabletServerId) (ht : TabletOfTable cat T t) :
    GuardedStep cat T lb (AddReplica env cat lb t ts).2 := by
  have h := SendReplicaChanges_guarded cat T lb t ts true true "" ht
  unfold AddReplica
  rcases hs : SendReplicaChanges lb (GetTablet cat t) ts true true "" with ⟨r, lb1⟩
  rw [hs] at h
  cases r
  · exact h
  · exact GuardedStep_trans cat T _ _ _ h
      (applyState_guarded cat T lb1 _ (hf.1 _ _ _) (fun hst => hk.addReplica T _ t ts hst ht))

theorem RemoveReplica_guarded (env : Env) (cat : CatalogManager) (hf : PendingFrame env)
    (hk : HelpersKeepTable env cat) (T : TableId) (lb : ClusterLoadBalancer)
    (t : TabletId) (ts : TabletServerId) (ht : TabletOfTable cat T t) :
    GuardedStep cat T lb (RemoveReplica env cat lb t ts).2 := by
  have h := SendReplicaChanges_guarded cat T lb t ts false true "" ht
  unfold RemoveReplica
  rcases hs : SendReplicaChanges lb (GetTablet cat t) ts false true "" with ⟨r, lb1⟩
  rw [hs] at h
  cases r
  · exact h
  · exact GuardedStep_trans cat T _ _ _ h
      (applyState_guarded cat T lb1 _ (hf.2.1 _ _ _)
        (fun hst => hk.removeReplica T _ t ts hst ht))

theorem MoveLeader_guarded (env : Env) (cat : CatalogManager) (hf : PendingFrame env)
    (hk : HelpersKeepTable env cat) (T : TableId) (lb : ClusterLoadBalancer)
    (t : TabletId) (f g : TabletServerId) (ht : TabletOfTable cat T t) :
    GuardedStep cat T lb (MoveLeader env cat lb t f g).2 := by
  have h := SendReplicaChanges_guarded cat T lb t f false false g ht
  unfold MoveLeader
  rcases hs : SendReplicaChanges lb (GetTablet cat t) f false false g with ⟨r, lb1⟩
  rw [hs] at h
  cases r
  · exact h
  · exact GuardedStep_trans cat T _ _ _ h
      (applyState_guarded cat T lb1 _ (hf.2.2.1 _ _ _ _)
        (fun hst => hk.moveLeader T _ t f g hst ht))

theorem MoveReplica_guarded (env : Env) (cat : CatalogManager) (hf : PendingFrame env)
    (hk : HelpersKeepTable env cat) (T : TableId) (lb : ClusterLoadBalancer)
    (t : TabletId) (f g : TabletServerId) (ht : TabletOfTable cat T t) :
    GuardedStep cat T lb (MoveReplica env cat lb t f g).2 := by
  have h := SendReplicaChanges_guarded cat T lb t g true true "" ht
  unfold MoveReplica
  rcases hs : SendReplicaChanges lb (GetTablet cat t) g true true "" with ⟨r, lb1⟩
  rw [hs] at h
  cases r
  · exact h
  · simp only
    have h2 : GuardedStep cat T lb1
        (applyState lb1 (env.state_AddReplica (lb1.state_, lb1.global_state_) t g)).2 :=
      applyState_guarded cat T lb1 _ (hf.1 _ _ _) (fun hst => hk.addReplica T _ t g hst ht)
    rcases ha : applyState lb1 (env.state_AddReplica (lb1.state_, lb1.global_state_) t g)
      with ⟨r2, lb2⟩
    rw [ha] at h2
    have h12 := GuardedStep_trans cat T _ _ _ h h2
    cases r2
    · exact h12
    · simp only
      split_ifs
      · exact h12
      · exact GuardedStep_trans cat T _ _ _ h12
          (applyState_guarded cat T lb2 _ (hf.2.1 _ _ _)
            (fun hst => hk.removeReplica T _ t f hst ht))

theorem findWrongPlacement_mem (env : Env) (cat : CatalogManager) (st : PerTableLoadState)
    (t : TabletId) (f g : TabletServerId) (l : List TabletId)
    (h : findWrongPlacement env cat st l = .ok (some (t, f, g))) : t ∈ l := by
  induction l with
  | nil => simp [findWrongPlacement] at h
  | cons x rest ih =>
    unfold findWrongPlacement at h
    split_ifs at h
    · exact List.mem_cons_of_mem _ (ih h)
    · split at h
      · cases h
      · cases h; exact List.mem_cons_self _ _
      · exact List.mem_cons_of_mem _ (ih h)

theorem findRemoveOverReplicated_mem (env : Env) (cat : CatalogManager)
    (lb : ClusterLoadBalancer) (t : TabletId) (c : TabletServerId) (l : List TabletId)
    (h : findRemoveOverReplicated env cat lb l = .ok (some (t, c))) : t ∈ l := by
  induction l with
  | nil => simp [findRemoveOverReplicated] at h
  | cons x rest ih =>
    unfold findRemoveOverReplicated at h
    simp only at h
    split_ifs at h
    · exact List.mem_cons_of_mem _ (ih h)
    · split at h
      · cases h
      · split_ifs at h
        · split at h
          · cases h
          · split at h
            · cases h; exact List.mem_cons_self _ _
            · exact List.mem_cons_of_mem _ (ih h)
          · cases h; exact List.mem_cons_self _ _
        · cases h; exact List.mem_cons_self _ _

theorem StateOfTable_moved (cat : CatalogManager) (T : TableId) (st : PerTableLoadState)
    (drive_aware : Bool) (from_ts : TabletServerId) (t : TabletId)
    (hst : StateOfTable cat T st)
    (h : t ∈ GetTabletsOnTSToMove drive_aware (lookupD st.per_ts_meta_ from_ts default)) :
    TabletOfTable cat T t := by
  rcases GetTabletsOnTSToMove_mem _ _ t h with h1 | h1 | h1
  · exact hst.2.2.2.1 from_ts t h1.2
  · obtain ⟨_, path, _, dt, hl, hm⟩ := h1
    exact hst.2.2.2.2.2.2 from_ts path dt hl t hm
  · exact hst.2.2.2.2.1 from_ts t h1

theorem GetTabletToMove_mem (env : Env) (cat : CatalogManager) (lb : ClusterLoadBalancer)
    (from_ts to_ts : TabletServerId) (t : TabletId)
    (h : GetTabletToMove env cat lb from_ts to_ts = .ok (some t)) :
    t ∈ GetTabletsOnTSToMove lb.global_state_.drive_aware_
      (lookupD lb.state_.per_ts_meta_ from_ts default) := by
  have hc := GetTabletToMove_candidates env cat lb from_ts to_ts (some t) h
  rcases pickTabletToMove_result env cat lb.state_ from_ts to_ts t _ none hc with h1 | h1
  · cases h1
  · exact (List.mem_filter.1 h1.1).1

theorem HandleAddIfMissingPlacement_guarded (env : Env) (cat : CatalogManager)
    (hf : PendingFrame env) (hk : HelpersKeepTable env cat) (T : TableId)
    (lb : ClusterLoadBalancer) :
    GuardedStep cat T lb (HandleAddIfMissingPlacement env cat lb).2 := by
  intro hst
  have hgo : GuardedStep cat T lb (HandleAddIfMissingPlacement env cat lb).2 := by
    unfold HandleAddIfMissingPlacement
    split
    · exact GuardedStep_refl cat T lb
    · exact GuardedStep_refl cat T lb
    · rename_i t ts hfind
      obtain ⟨pre, post, hl, _, _⟩ := findMissingPlacement_some env cat lb.state_ _ t ts hfind
      have ht : TabletOfTable cat T t := hst.1 t (by rw [hl]; simp)
      have h := AddReplica_guarded env cat hf hk T lb t ts ht
      split
      · rename_i e lb1 heq; rw [heq] at h; exact h
      · rename_i u lb1 heq
        rw [heq] at h
        refine GuardedStep_trans cat T _ _ _ h
          (GuardedStep_of_eq cat T _ _ rfl ⟨rfl, rfl, rfl⟩ (fun h1 => ?_))
        exact ⟨fun x hx => h1.1 x (List.mem_filter.1 hx).1, h1.2⟩
  exact hgo hst

theorem HandleAddIfWrongPlacement_guarded (env : Env) (cat : CatalogManager)
    (hf : PendingFrame env) (hk : HelpersKeepTable env cat) (T : TableId)
    (lb : ClusterLoadBalancer) :
    GuardedStep cat T lb (HandleAddIfWrongPlacement env cat lb).2 := by
  intro hst
  have hgo : GuardedStep cat T lb (HandleAddIfWrongPlacement env cat lb).2 := by
    unfold HandleAddIfWrongPlacement
    split
    · exact GuardedStep_refl cat T lb
    · exact GuardedStep_refl cat T lb
    · rename_i t f g hfind
      have ht : TabletOfTable cat T t :=
        hst.2.1 t (findWrongPlacement_mem env cat lb.state_ t f g _ hfind)
      have h := MoveReplica_guarded env cat hf hk T lb t f g ht
      split
      · rename_i e lb1 heq; rw [heq] at h; exact h
      · rename_i u lb1 heq; rw [heq] at h; exact h
  exact hgo hst

theorem loadSearch_guarded (env : Env) (cat : CatalogManager) (hf : PendingFrame env)
    (hk : HelpersKeepTable env cat) (T : TableId) (lb : ClusterLoadBalancer)
    (high low : TabletServerId) (g : Bool) (next : Option (Decision × ClusterLoadBalancer))
    (out : Decision × ClusterLoadBalancer)
    (hnext : next = some out → GuardedStep cat T lb out.2)
    (hm : loadSearch env cat lb high low g next = some out) : GuardedStep cat T lb out.2 := by
  intro hst
  have hgo : GuardedStep cat T lb out.2 := by
    unfold loadSearch at hm
    split at hm
    · cases hm; exact GuardedStep_refl cat T lb
    · rename_i t hget
      have ht : TabletOfTable cat T t :=
        StateOfTable_moved cat T lb.state_ _ high t hst
          (GetTabletToMove_mem env cat lb high low t hget)
      have h := MoveReplica_guarded env cat hf hk T lb t high low ht
      split at hm
      · rename_i e lb1 heq; rw [heq] at h; cases hm; exact h
      · rename_i u lb1 heq
        rw [heq] at h
        cases hm
        cases g
        · exact GuardedStep_trans cat T _ _ _ h
            (GuardedStep_of_eq cat T _ _ rfl ⟨rfl, rfl, rfl⟩ (fun h1 => h1))
        · exact h
    · exact hnext hm
  exact hgo hst

theorem loadInnerLoop_guarded (env : Env) (cat : CatalogManager) (hf : PendingFrame env)
    (hk : HelpersKeepTable env cat) (T : TableId) (lb : ClusterLoadBalancer)
    (last_pos left : Nat) (rights : List Nat) (out : Decision × ClusterLoadBalancer)
    (h : loadInnerLoop env cat lb last_pos left rights = some out) :
    GuardedStep cat T lb out.2 := by
  induction rights with
  | nil => simp [loadInnerLoop] at h
  | cons right rights ih =>
    unfold loadInnerLoop at h
    simp only at h
    split_ifs at h
    · cases h; exact GuardedStep_refl cat T lb
    · cases h; exact GuardedStep_refl cat T lb
    · exact loadSearch_guarded env cat hf hk T lb _ _ true _ out ih h
    · exact loadSearch_guarded env cat hf hk T lb _ _ false _ out ih h

theorem GetLoadToMove_guarded (env : Env) (cat : CatalogManager) (hf : PendingFrame env)
    (hk : HelpersKeepTable env cat) (T : TableId) (lb : ClusterLoadBalancer) :
    GuardedStep cat T lb (GetLoadToMove env cat lb).2 := by
  have houter : ∀ last_pos lefts,
      GuardedStep cat T lb (loadOuterLoop env cat lb last_pos lefts).2 := by
    intro last_pos lefts
    induction lefts with
    | nil => exact GuardedStep_refl cat T lb
    | cons left lefts ih =>
      unfold loadOuterLoop
      split
      · rename_i r hr
        exact loadInnerLoop_guarded env cat hf hk T lb last_pos left _ r hr
      · exact ih
  unfold GetLoadToMove
  split_ifs
  · exact GuardedStep_refl cat T lb
  · exact houter _ _

theorem HandleAddReplicas_guarded (env : Env) (cat : CatalogManager) (hf : PendingFrame env)
    (hk : HelpersKeepTable env cat) (T : TableId) (lb : ClusterLoadBalancer) :
    GuardedStep cat T lb (HandleAddReplicas env cat lb).2 := by
  unfold HandleAddReplicas
  split_ifs
  · exact GuardedStep_refl cat T lb
  · exact GuardedStep_refl cat T lb
  · exact GuardedStep_refl cat T lb
  · have h1 := HandleAddIfMissingPlacement_guarded env cat hf hk T lb
    split
    · rename_i e lb1 heq; rw [heq] at h1; exact h1
    · rename_i m lb1 heq; rw [heq] at h1; exact h1
    · rename_i lb1 heq
      rw [heq] at h1
      have h2 := HandleAddIfWrongPlacement_guarded env cat hf hk T lb1
      split
      · rename_i e lb2 heq2; rw [heq2] at h2; exact GuardedStep_trans cat T _ _ _ h1 h2
      · rename_i m lb2 heq2; rw [heq2] at h2; exact GuardedStep_trans cat T _ _ _ h1 h2
      · rename_i lb2 heq2
        rw [heq2] at h2
        exact GuardedStep_trans cat T _ _ _ (GuardedStep_trans cat T _ _ _ h1 h2)
          (GetLoadToMove_guarded env cat hf hk T lb2)

theorem moveLeaderOf_guarded (env : Env) (cat : CatalogManager) (hf : PendingFrame env)
    (hk : HelpersKeepTable env cat) (T : TableId) (lb : ClusterLoadBalancer) (m : Move)
    (ht : TabletOfTable cat T m.tablet_id) :
    GuardedStep cat T lb (moveLeaderOf env cat lb m).2 := by
  have h := MoveLeader_guarded env cat hf hk T lb m.tablet_id (m.from_ts.getD "")
    (m.to_ts.getD "") ht
  unfold moveLeaderOf
  split
  · rename_i e lb1 heq; rw [heq] at h; exact h
  · rename_i u lb1 heq; rw [heq] at h; exact h

theorem HandleLeaderLoadIfNonAffinitized_mem (env : Env) (lb : ClusterLoadBalancer) (m : Move)
    (h : HandleLeaderLoadIfNonAffinitized env lb = .ok (some m)) :
    ∃ ts, m.tablet_id ∈ (lookupD lb.state_.per_ts_meta_ ts default).leaders := by
  unfold HandleLeaderLoadIfNonAffinitized at h
  have h2 : nonAffinitizedOuter env lb.state_
      (List.range lb.state_.sorted_non_affinitized_leader_load_.length).reverse = some m :=
    Except.ok.inj h
  obtain ⟨idx, _, hin⟩ := nonAffinitizedOuter_some env lb.state_ m _ h2
  obtain ⟨_, _, a, _, _, hl, _⟩ := nonAffinitizedInner_some env lb.state_ _ m _ hin
  exact ⟨_, hl⟩

theorem GetLeaderToMove_mem (env : Env) (lb : ClusterLoadBalancer) (m : Move)
    (h : (GetLeaderToMove env lb).1 = .ok (some m)) :
    ∃ ts, m.tablet_id ∈ (lookupD lb.state_.per_ts_meta_ ts default).leaders := by
  obtain ⟨high, low, _, _, hp⟩ := GetLeaderToMove_tablet env lb m h
  have hm := (pickLeaderTablet_some lb.state_ low m.tablet_id _ hp).1
  unfold leaderCandidates at hm
  exact ⟨high, (List.mem_filter.1 hm).1⟩

theorem HandleLeaderMoves_guarded (env : Env) (cat : CatalogManager) (hf : PendingFrame env)
    (hk : HelpersKeepTable env cat) (T : TableId) (lb : ClusterLoadBalancer) :
    GuardedStep cat T lb (HandleLeaderMoves env cat lb).2 := by
  intro hst
  have hgo : GuardedStep cat T lb (HandleLeaderMoves env cat lb).2 := by
    unfold HandleLeaderMoves
    simp only
    split
    · exact GuardedStep_refl cat T lb
    · rename_i m haff
      have hm : HandleLeaderLoadIfNonAffinitized env lb = .ok (some m) := by
        split_ifs at haff
        · exact haff
        · cases haff
      obtain ⟨ts, hl⟩ := HandleLeaderLoadIfNonAffinitized_mem env lb m hm
      exact moveLeaderOf_guarded env cat hf hk T lb m (hst.2.2.2.2.2.1 ts _ hl)
    · have h1 := GetLeaderToMove_sent env lb
      have h2 := GetLeaderToMove_state env lb
      have hstep : GuardedStep cat T lb (GetLeaderToMove env lb).2 :=
        GuardedStep_of_eq cat T _ _ h1 (by rw [h2]; exact SamePending_refl _)
          (fun h => by rw [h2]; exact h)
      split
      · rename_i e lb1 heq; rw [heq] at hstep; exact hstep
      · rename_i m lb1 heq
        obtain ⟨ts, hl⟩ := GetLeaderToMove_mem env lb m (by rw [heq])
        rw [heq] at hstep
        exact GuardedStep_trans cat T _ _ _ hstep
          (moveLeaderOf_guarded env cat hf hk T lb1 m (hst.2.2.2.2.2.1 ts _ hl))
      · rename_i lb1 heq; rw [heq] at hstep; exact hstep
  exact hgo hst

theorem HandleRemoveIfWrongPlacement_guarded (env : Env) (cat : CatalogManager)
    (hf : PendingFrame env) (hk : HelpersKeepTable env cat) (T : TableId)
    (lb : ClusterLoadBalancer) :
    GuardedStep cat T lb (HandleRemoveIfWrongPlacement env cat lb).2 := by
  intro hst
  have hgo : GuardedStep cat T lb (HandleRemoveIfWrongPlacement env cat lb).2 := by
    unfold HandleRemoveIfWrongPlacement
    split
    · exact GuardedStep_refl cat T lb
    · rename_i t ts hfind
      have ht : TabletOfTable cat T t :=
        hst.2.1 t (findRemoveWrongPlacement_some cat lb.state_ t ts _ hfind).1
      have h := RemoveReplica_guarded env cat hf hk T lb t ts ht
      split
      · rename_i e lb1 heq; rw [heq] at h; exact h
      · rename_i u lb1 heq; rw [heq] at h; exact h
  exact hgo hst

theorem HandleRemoveReplicas_guarded (env : Env) (cat : CatalogManager)
    (hf : PendingFrame env) (hk : HelpersKeepTable env cat) (T : TableId)
    (lb : ClusterLoadBalancer) :
    GuardedStep cat T lb (HandleRemoveReplicas env cat lb).2 := by
  intro hst
  have hgo : GuardedStep cat T lb (HandleRemoveReplicas env cat lb).2 := by
    have h1 := HandleRemoveIfWrongPlacement_guarded env cat hf hk T lb
    unfold HandleRemoveReplicas
    split
    · rename_i e lb1 heq; rw [heq] at h1; exact h1
    · rename_i m lb1 heq; rw [heq] at h1; exact h1
    · rename_i lb1 heq
      rw [heq] at h1
      split
      · exact h1
      · exact h1
      · rename_i t ts hfind
        have ht : TabletOfTable cat T t :=
          (h1 hst).1.2.2.1 t (findRemoveOverReplicated_mem env cat lb1 t ts _ hfind)
        have h := RemoveReplica_guarded env cat hf hk T lb1 t ts ht
        split
        · rename_i e lb2 heq2; rw [heq2] at h; exact GuardedStep_trans cat T _ _ _ h1 h
        · rename_i u lb2 heq2; rw [heq2] at h; exact GuardedStep_trans cat T _ _ _ h1 h
  exact hgo hst

theorem addReplicasLoop_guarded (env : Env) (cat : CatalogManager) (hf : PendingFrame env)
    (hk : HelpersKeepTable env cat) (T : TableId) (fuel : Nat) :
    ∀ s : ExecState, GuardedStep cat T s.lb (addReplicasLoop env cat fuel s).lb := by
  induction fuel with
  | zero => intro s; exact GuardedStep_refl cat T _
  | succ n ih =>
    intro s
    unfold addReplicasLoop
    split_ifs
    · exact GuardedStep_refl cat T _
    · have h := HandleAddReplicas_guarded env cat hf hk T s.lb
      split
      · rename_i e lb1 heq; rw [heq] at h; exact h
      · rename_i lb1 heq; rw [heq] at h; exact h
      · rename_i m lb1 heq
        rw [heq] at h
        exact GuardedStep_trans cat T _ _ _ h
          (ih { s with lb := lb1, remaining_adds := s.remaining_adds - 1 })
    · exact GuardedStep_refl cat T _

theorem removeReplicasLoop_guarded (env : Env) (cat : CatalogManager) (hf : PendingFrame env)
    (hk : HelpersKeepTable env cat) (T : TableId) (fuel : Nat) :
    ∀ s : ExecState, GuardedStep cat T s.lb (removeReplicasLoop env cat fuel s).lb := by
  induction fuel with
  | zero => intro s; exact GuardedStep_refl cat T _
  | succ n ih =>
    intro s
    unfold removeReplicasLoop
    split_ifs
    · exact GuardedStep_refl cat T _
    · have h := HandleRemoveReplicas_guarded env cat hf hk T s.lb
      split
      · rename_i e lb1 heq; rw [heq] at h; exact h
      · rename_i lb1 heq; rw [heq] at h; exact h
      · rename_i m lb1 heq
        rw [heq] at h
        exact GuardedStep_trans cat T _ _ _ h
          (ih { s with lb := lb1, remaining_removals := s.remaining_removals - 1 })
    · exact GuardedStep_refl cat T _

theorem leaderMovesLoop_guarded (env : Env) (cat : CatalogManager) (hf : PendingFrame env)
    (hk : HelpersKeepTable env cat) (T : TableId) (fuel : Nat) :
    ∀ s : LeaderLoopState,
      GuardedStep cat T s.exec.lb (leaderMovesLoop env cat fuel s).exec.lb := by
  induction fuel with
  | zero => intro s; exact GuardedStep_refl cat T _
  | succ n ih =>
    intro s
    unfold leaderMovesLoop
    split_ifs
    · have h := HandleLeaderMoves_guarded env cat hf hk T s.exec.lb
      split
      · rename_i e lb1 heq; rw [heq] at h; exact h
      · rename_i lb1 heq; rw [heq] at h; exact h
      · rename_i m lb1 heq
        rw [heq] at h
        exact GuardedStep_trans cat T _ _ _ h
          (ih { exec := { s.exec with
                  lb := lb1, remaining_leader_moves := s.exec.remaining_leader_moves - 1 }
                table_remaining_leader_moves := s.table_remaining_leader_moves - 1
                calls := s.calls ++ [.ok (some m)] })
    · exact GuardedStep_refl cat T _

theorem leaderMovesPhase_guarded (env : Env) (cat : CatalogManager) (hf : PendingFrame env)
    (hk : HelpersKeepTable env cat) (T : TableId) (table_id : TableId) (s : ExecState) :
    GuardedStep cat T s.lb (leaderMovesPhase env cat table_id s).exec.lb := by
  unfold leaderMovesPhase
  exact leaderMovesLoop_guarded env cat hf hk T s.remaining_leader_moves.toNat
    { exec := s
      table_remaining_leader_moves :=
        set_remaining (pendingStepdowns s.lb.state_ table_id)
          s.lb.state_.options_.kMaxConcurrentLeaderMovesPerTable
      calls := [] }

/-- The body of the EXECUTE loop for one table is a guarded step from the
balancer whose `state_` is the table state, followed by the write-back of the
table state. -/
theorem executeTable_guarded_mid (env : Env) (cat : CatalogManager) (hf : PendingFrame env)
    (hk : HelpersKeepTable env cat) (T : TableId) (table_id : TableId)
    (st : PerTableLoadState) (s : ExecState) :
    ∃ mid : ClusterLoadBalancer, GuardedStep cat T { s.lb with state_ := st } mid ∧
      (executeTable env cat table_id st s).lb =
        { mid with per_table_states_ := insertKey mid.per_table_states_ table_id mid.state_ } := by
  have h0 : GuardedStep cat T { s.lb with state_ := st }
      { s.lb with state_ := env.state_SortLoad (st, s.lb.global_state_) } :=
    GuardedStep_of_eq cat T _ _ rfl (hf.2.2.2.2.2.2.2.2.2.1 (st, s.lb.global_state_))
      (fun h => hk.sortLoad T (st, s.lb.global_state_) h)
  have h1 := addReplicasLoop_guarded env cat hf hk T s.remaining_adds.toNat
    { s with lb := { s.lb with state_ := env.state_SortLoad (st, s.lb.global_state_) } }
  have h01 := GuardedStep_trans cat T _ _ _ h0 h1
  unfold executeTable
  simp only
  split_ifs
  · exact ⟨_, h01, rfl⟩
  · refine ⟨_, ?_, rfl⟩
    exact GuardedStep_trans cat T _ _ _
      (GuardedStep_trans cat T _ _ _ h01 (removeReplicasLoop_guarded env cat hf hk T _ _))
      (leaderMovesPhase_guarded env cat hf hk T table_id _)

/-- The EXECUTE phase of the table `T` on a table state that names tablets of
`T` only: the final state still does, the pending maps are the same, and every
command sent is for a tablet of `T` without a pending task of its kind in `st`. -/
theorem executeTable_guarded (env : Env) (cat : CatalogManager) (hf : PendingFrame env)
    (hk : HelpersKeepTable env cat) (T : TableId) (st : PerTableLoadState) (s : ExecState)
    (hst : StateOfTable cat T st) :
    StateOfTable cat T (executeTable env cat T st s).lb.state_ ∧
    SamePending st (executeTable env cat T st s).lb.state_ ∧
    ∃ cs, (executeTable env cat T st s).lb.sent_ = s.lb.sent_ ++ cs ∧
      ∀ c ∈ cs, SentGuarded cat T st c := by
  obtain ⟨mid, hstep, heq⟩ := executeTable_guarded_mid env cat hf hk T T st s
  rw [heq]
  exact hstep hst

/-! ### The tablets of a table state between counting and execution -/

theorem lookup_some_mem {ν : Type} (m : List (String × ν)) (k : String) (v : ν)
    (h : m.lookup k = some v) : (k, v) ∈ m := by
  induction m with
  | nil => simp at h
  | cons e rest ih =>
    obtain ⟨a, b⟩ := e
    rw [lookup_cons_if] at h
    split_ifs at h with hk
    · cases h; subst hk; exact List.mem_cons_self _ _
    · exact List.mem_cons_of_mem _ (ih h)

theorem mem_unique_of_nodup_keys {ν : Type} (m : List (String × ν)) (k : String) (v w : ν)
    (hn : (m.map Prod.fst).Nodup) (hv : (k, v) ∈ m) (hw : (k, w) ∈ m) : v = w := by
  induction m with
  | nil => simp at hv
  | cons e rest ih =>
    rw [List.map_cons, List.nodup_cons] at hn
    rcases List.mem_cons.1 hv with hv | hv <;> rcases List.mem_cons.1 hw with hw | hw
    · rw [← hv] at hw; cases hw; rfl
    · exact absurd (List.mem_map.2 ⟨(k, w), hw, by rw [← hv]⟩) hn.1
    · exact absurd (List.mem_map.2 ⟨(k, v), hv, by rw [← hw]⟩) hn.1
    · exact ih hn.2 hv hw

theorem updateTabletServers_ofTable (env : Env) (cat : CatalogManager)
    (hk : HelpersKeepTable env cat) (T : TableId) (l : List TSDescriptor) :
    ∀ sg : PerTableLoadState × GlobalLoadState, StateOfTable cat T sg.1 →
      StateOfTable cat T
        (l.foldl (fun sg ts_desc => env.state_UpdateTabletServer sg ts_desc) sg).1 := by
  induction l with
  | nil => intro sg h; exact h
  | cons d rest ih =>
    intro sg h
    rw [List.foldl_cons]
    exact ih _ (hk.updateTabletServer T sg d h)

theorem InitializeTSDescriptors_ofTable (env : Env) (cat : CatalogManager)
    (hk : HelpersKeepTable env cat) (T : TableId) (lb : ClusterLoadBalancer)
    (h : StateOfTable cat T lb.state_) :
    StateOfTable cat T (InitializeTSDescriptors env cat lb).state_ := by
  unfold InitializeTSDescriptors
  simp only
  apply updateTabletServers_ofTable env cat hk T
  apply hk.setLeaderBlacklist
  apply hk.setBlacklist
  split_ifs
  · exact h
  · exact h

theorem countingInput_ofTable (env : Env) (cat : CatalogManager)
    (hk : HelpersKeepTable env cat) (T : TableId) (options : Options)
    (lb : ClusterLoadBalancer) (table : TableId × TableInfo) :
    StateOfTable cat T (countingInput env cat options lb table).state_ := by
  unfold countingInput
  simp only
  apply InitializeTSDescriptors_ofTable env cat hk T
  exact hk.fresh T lb.global_state_

theorem addStartingTablets_ofTable (env : Env) (cat : CatalogManager)
    (hk : HelpersKeepTable env cat) (T : TableId) (l : List (TabletId × TabletServerId)) :
    (∀ e ∈ l, TabletOfTable cat T e.1) →
    ∀ sg, StateOfTable cat T sg.1 → StateOfTable cat T (addStartingTablets env l sg).2.1 := by
  induction l with
  | nil => intro _ sg h; exact h
  | cons e rest ih =>
    intro hl sg hsg
    have h := hk.addStartingTablet T sg e.1 e.2 hsg (hl e (List.mem_cons_self _ _))
    unfold addStartingTablets
    split
    · rename_i err sg1 heq; rw [heq] at h; exact h
    · rename_i u sg1 heq
      rw [heq] at h
      exact ih (fun x hx => hl x (List.mem_cons_of_mem _ hx)) sg1 h

theorem CountPendingTasksUnlocked_ofTable (env : Env) (cat : CatalogManager)
    (hk : HelpersKeepTable env cat) (T : TableId) (table : TableInfo)
    (lb : ClusterLoadBalancer) (totals : PendingTotals)
    (hp : ∀ e ∈ table.pending_add_server_tasks, TabletOfTable cat T e.1)
    (h : StateOfTable cat T lb.state_) :
    StateOfTable cat T (CountPendingTasksUnlocked env table lb totals).2.1.state_ := by
  unfold CountPendingTasksUnlocked
  simp only
  exact addStartingTablets_ofTable env cat hk T _ hp _ h

theorem UpdateTabletInfo_ofTable (env : Env) (cat : CatalogManager)
    (hk : HelpersKeepTable env cat) (T : TableId) (lb : ClusterLoadBalancer)
    (tablet : TabletInfo) (ht : TabletOfTable cat T tablet.tablet_id)
    (h : StateOfTable cat T lb.state_) :
    StateOfTable cat T (UpdateTabletInfo env cat lb tablet).2.state_ := by
  unfold UpdateTabletInfo
  simp only
  split
  · exact h
  · rename_i lb1 heq
    have h1 : StateOfTable cat T lb1.state_ := by
      split_ifs at heq
      · cases heq; exact h
      · split at heq
        · cases heq
        · cases heq; exact h
    exact hk.updateTablet T (lb1.state_, lb1.global_state_) tablet h1 ht

theorem analyzeRunning_ofTable (env : Env) (cat : CatalogManager)
    (hk : HelpersKeepTable env cat) (T : TableId) (tablets : List TabletInfo) :
    (∀ tablet ∈ tablets, TabletOfTable cat T tablet.tablet_id) →
    ∀ lb, StateOfTable cat T lb.state_ →
      StateOfTable cat T (analyzeRunning env cat tablets lb).2.state_ := by
  induction tablets with
  | nil => intro _ lb h; exact h
  | cons tablet rest ih =>
    intro hl lb hlb
    have hrest : ∀ x ∈ rest, TabletOfTable cat T x.tablet_id :=
      fun x hx => hl x (List.mem_cons_of_mem _ hx)
    unfold analyzeRunning
    split_ifs
    · exact ih hrest lb hlb
    · have h := UpdateTabletInfo_ofTable env cat hk T lb tablet
        (hl tablet (List.mem_cons_self _ _)) hlb
      split
      · rename_i e lb1 heq; rw [heq] at h; exact h
      · rename_i u lb1 heq
        rw [heq] at h
        exact ih hrest lb1 h
    · exact ih hrest lb hlb

theorem whenPending_ofTable (cat : CatalogManager) (T : TableId) (cond : Bool)
    (lb : ClusterLoadBalancer)
    (f : PerTableLoadState × GlobalLoadState →
      StatusOr Unit × (PerTableLoadState × GlobalLoadState))
    (hf : ∀ sg, StateOfTable cat T sg.1 → StateOfTable cat T (f sg).2.1)
    (h : StateOfTable cat T lb.state_) :
    StateOfTable cat T (whenPending cond lb f).2.state_ := by
  unfold whenPending
  split_ifs
  · exact hf (lb.state_, lb.global_state_) h
  · exact h

theorem applyPending_ofTable (env : Env) (cat : CatalogManager)
    (hk : HelpersKeepTable env cat) (T : TableId) (table_uuid : TableId)
    (tablets : List TabletInfo) :
    (∀ tablet ∈ tablets, TabletOfTable cat T tablet.tablet_id) →
    ∀ lb, StateOfTable cat T lb.state_ →
      StateOfTable cat T (applyPending env table_uuid tablets lb).2.state_ := by
  induction tablets with
  | nil => intro _ lb h; exact h
  | cons tablet rest ih =>
    intro hl lb hlb
    have ht := hl tablet (List.mem_cons_self _ _)
    have hrest : ∀ x ∈ rest, TabletOfTable cat T x.tablet_id :=
      fun x hx => hl x (List.mem_cons_of_mem _ hx)
    unfold applyPending
    simp only
    have h1 := whenPending_ofTable cat T
      (((lookupD lb.state_.pending_remove_replica_tasks_ table_uuid []).lookup
        tablet.tablet_id).isSome) lb
      (fun sg => env.state_RemoveReplica sg tablet.tablet_id
        (lookupD (lookupD lb.state_.pending_remove_replica_tasks_ table_uuid [])
          tablet.tablet_id ""))
      (fun sg hsg => hk.removeReplica T sg _ _ hsg ht) hlb
    split
    · rename_i e lb1 heq; rw [heq] at h1; exact h1
    · rename_i u lb1 heq
      rw [heq] at h1
      have h2 := whenPending_ofTable cat T
        (((lookupD lb1.state_.pending_stepdown_leader_tasks_ table_uuid []).lookup
          tablet.tablet_id).isSome) lb1
        (fun sg => env.state_MoveLeader sg tablet.tablet_id
          (lookupD lb1.state_.per_tablet_meta_ tablet.tablet_id default).leader_uuid
          (lookupD (lookupD lb1.state_.pending_stepdown_leader_tasks_ table_uuid [])
            tablet.tablet_id ""))
        (fun sg hsg => hk.moveLeader T sg _ _ _ hsg ht) h1
      split
      · rename_i e lb2 heq2; rw [heq2] at h2; exact h2
      · rename_i u2 lb2 heq2
        rw [heq2] at h2
        have h3 := whenPending_ofTable cat T
          (((lookupD lb2.state_.pending_add_replica_tasks_ table_uuid []).lookup
            tablet.tablet_id).isSome) lb2
          (fun sg => env.state_AddReplica sg tablet.tablet_id
            (lookupD (lookupD lb2.state_.pending_add_replica_tasks_ table_uuid [])
              tablet.tablet_id ""))
          (fun sg hsg => hk.addReplica T sg _ _ hsg ht) h2
        split
        · rename_i e lb3 heq3; rw [heq3] at h3; exact h3
        · rename_i u3 lb3 heq3
          rw [heq3] at h3
          exact ih hrest lb3 h3

theorem AnalyzeTabletsUnlocked_ofTable (env : Env) (cat : CatalogManager)
    (hk : HelpersKeepTable env cat) (lb : ClusterLoadBalancer) (table_uuid : TableId)
    (hc : ∀ info, cat.table_ids_map_.lookup table_uuid = some info →
      ∀ tablet ∈ info.tablets, TabletOfTable cat table_uuid tablet.tablet_id)
    (h : StateOfTable cat table_uuid lb.state_) :
    StateOfTable cat table_uuid (AnalyzeTabletsUnlocked env cat lb table_uuid).2.state_ := by
  unfold AnalyzeTabletsUnlocked
  split
  · exact h
  · rename_i table_info hlook
    have htab : ∀ tablet ∈ table_info.tablets, TabletOfTable cat table_uuid tablet.tablet_id :=
      hc table_info hlook
    have h1 := analyzeRunning_ofTable env cat hk table_uuid table_info.tablets htab lb h
    split
    · rename_i e lb1 heq; rw [heq] at h1; exact h1
    · rename_i u lb1 heq
      rw [heq] at h1
      simp only
      apply applyPending_ofTable env cat hk table_uuid table_uuid table_info.tablets htab
      have ha := hk.adjustLeaderBalanceThreshold table_uuid lb1.state_ h1
      have hb := hk.sortLoad table_uuid
        (env.state_AdjustLeaderBalanceThreshold lb1.state_, lb1.global_state_) ha
      have hcc := hk.sortLeaderLoad table_uuid
        (env.state_SortLoad
          (env.state_AdjustLeaderBalanceThreshold lb1.state_, lb1.global_state_),
          lb1.global_state_) hb
      show StateOfTable cat table_uuid (if lb1.global_state_.drive_aware_ = true then _ else _)
      split_ifs
      · exact hk.sortTabletServerDriveLoad table_uuid _ hcc
      · exact hcc

/-! ### The stored table states across a pass -/

theorem countPendingStep_stored (env : Env) (cat : CatalogManager) (options : Options)
    (hk : HelpersKeepTable env cat) (hc : CatalogConsistent cat) (s : CountState)
    (table : TableId × TableInfo) (hmem : table ∈ cat.table_ids_map_)
    (h : StoredOfTable cat s.lb.per_table_states_) :
    StoredOfTable cat (countPendingStep env cat options s table).lb.per_table_states_ := by
  intro T st hlook
  by_cases hT : table.1 = T
  · subst hT
    unfold countPendingStep at hlook
    split_ifs at hlook
    · exact h _ st hlook
    · exact h _ st hlook
    · simp only at hlook
      split at hlook
      · simp only at hlook
        rw [lookup_eraseKey, if_pos rfl] at hlook
        cases hlook
      · rename_i u lb1 totals1 heq
        simp only at hlook
        rw [lookup_insertKey_self] at hlook
        cases hlook
        have hst : (CountPendingTasksUnlocked env { table.2 with id := table.1 }
            (countingInput env cat options s.lb table) s.totals).2.1.state_ = lb1.state_ :=
          congrArg (fun r => r.2.1.state_) heq
        rw [← hst]
        exact CountPendingTasksUnlocked_ofTable env cat hk table.1 _ _ _
          (hc.pending_adds table hmem) (countingInput_ofTable env cat hk table.1 options s.lb table)
  · rw [countPendingStep_keep env cat options s table T hT] at hlook
    exact h T st hlook

theorem analyzeStep_stored (env : Env) (cat : CatalogManager)
    (hk : HelpersKeepTable env cat) (hc : CatalogConsistent cat)
    (s : CountState) (table : TableId × TableInfo) (hmem : table ∈ cat.table_ids_map_)
    (h : StoredOfTable cat s.lb.per_table_states_) :
    StoredOfTable cat (analyzeStep env cat s table).lb.per_table_states_ := by
  intro T st2 hlook
  unfold analyzeStep at hlook
  split_ifs at hlook with hskip
  · exact h T st2 hlook
  · split at hlook
    · exact h T st2 hlook
    · rename_i st hst
      have ht := AnalyzeTabletsUnlocked_tables env cat { s.lb with state_ := st } table.1
      have htab : ∀ info, cat.table_ids_map_.lookup table.1 = some info →
          ∀ tablet ∈ info.tablets, TabletOfTable cat table.1 tablet.tablet_id := by
        intro info hinfo
        have heq := mem_unique_of_nodup_keys _ _ _ _ hc.keys
          (lookup_some_mem _ _ _ hinfo) (show (table.1, table.2) ∈ cat.table_ids_map_ from hmem)
        rw [heq]
        exact hc.tablets table hmem (by simpa using hskip)
      have hp := AnalyzeTabletsUnlocked_ofTable env cat hk { s.lb with state_ := st } table.1
        htab (h _ st hst)
      split at hlook
      · rename_i e lb1 heq
        rw [heq] at ht
        simp only at ht hlook
        rw [lookup_eraseKey, ht] at hlook
        split_ifs at hlook
        exact h T st2 hlook
      · rename_i u lb1 heq
        rw [heq] at ht hp
        simp only at ht hp hlook
        by_cases hT : T = table.1
        · subst hT
          rw [lookup_insertKey_self] at hlook
          cases hlook
          exact hp
        · rw [lookup_insertKey_ne _ _ _ _ hT, ht] at hlook
          exact h T st2 hlook

theorem executeTable_stored (env : Env) (cat : CatalogManager) (hf : PendingFrame env)
    (hk : HelpersKeepTable env cat) (table_id : TableId) (st : PerTableLoadState)
    (s : ExecState) (hst : s.lb.per_table_states_.lookup table_id = some st)
    (h : StoredOfTable cat s.lb.per_table_states_) :
    StoredOfTable cat (executeTable env cat table_id st s).lb.per_table_states_ := by
  intro T st2 hlook
  rw [(executeTable_step env cat table_id st s).1] at hlook
  by_cases hT : T = table_id
  · subst hT
    rw [lookup_insertKey_self] at hlook
    cases hlook
    exact (executeTable_guarded env cat hf hk _ st s (h _ st hst)).1
  · rw [lookup_insertKey_ne _ _ _ _ hT] at hlook
    exact h T st2 hlook

theorem executeEntry_stored (env : Env) (cat : CatalogManager) (options : Options)
    (hk : HelpersKeepTable env cat) (hc : CatalogConsistent cat)
    (lb : ClusterLoadBalancer) (hempty : lb.per_table_states_ = []) :
    StoredOfTable cat (executeEntry env cat options lb).lb.per_table_states_ := by
  have hcount : ∀ (l : List (TableId × TableInfo)) (s : CountState),
      (∀ x ∈ l, x ∈ cat.table_ids_map_) → StoredOfTable cat s.lb.per_table_states_ →
      StoredOfTable cat (l.foldl (countPendingStep env cat options) s).lb.per_table_states_ := by
    intro l
    induction l with
    | nil => intro s _ h; exact h
    | cons t rest ih =>
      intro s hl h
      rw [List.foldl_cons]
      exact ih _ (fun x hx => hl x (List.mem_cons_of_mem _ hx))
        (countPendingStep_stored env cat options hk hc s t (hl t (List.mem_cons_self _ _)) h)
  have hanalyze : ∀ (l : List (TableId × TableInfo)) (s : CountState),
      (∀ x ∈ l, x ∈ cat.table_ids_map_) → StoredOfTable cat s.lb.per_table_states_ →
      StoredOfTable cat (l.foldl (analyzeStep env cat) s).lb.per_table_states_ := by
    intro l
    induction l with
    | nil => intro s _ h; exact h
    | cons t rest ih =>
      intro s hl h
      rw [List.foldl_cons]
      exact ih _ (fun x hx => hl x (List.mem_cons_of_mem _ hx))
        (analyzeStep_stored env cat hk hc s t (hl t (List.mem_cons_self _ _)) h)
  rw [(executeEntry_eq env cat options lb).1]
  apply hanalyze _ _ (fun x hx => hx)
  apply hcount _ _ (fun x hx => hx)
  intro T st hlook
  simp only [countStart, hempty, List.lookup_nil] at hlook
  cases hlook

/-- Every command that the EXECUTE loop sends is for a tablet of a table of the
table map for which no table of the map has a pending task of the command's
kind. -/
theorem executeLoop_guarded (env : Env) (cat : CatalogManager) (hf : PendingFrame env)
    (hk : HelpersKeepTable env cat) (hc : CatalogConsistent cat)
    (tables : List (TableId × TableInfo)) :
    ∀ s : ExecState, RecordedPending cat s.lb.per_table_states_ →
      StoredOfTable cat s.lb.per_table_states_ →
      ∃ cs, (executeLoop env cat tables s).lb.sent_ = s.lb.sent_ ++ cs ∧
        ∀ c ∈ cs, NoPendingInCatalog cat c := by
  induction tables with
  | nil => intro s _ _; exact ⟨[], by simp [executeLoop], by simp⟩
  | cons table rest ih =>
    intro s h hs
    unfold executeLoop
    split_ifs
    · exact ⟨[], by simp, by simp⟩
    · exact ih s h hs
    · split
      · exact ih s h hs
      · rename_i st hst
        obtain ⟨_, _, cs1, hs1, hg1⟩ :=
          executeTable_guarded env cat hf hk table.1 st s (hs _ st hst)
        obtain ⟨cs2, hs2, hg2⟩ := ih (executeTable env cat table.1 st s)
          (executeTable_recorded env cat hf table.1 st s hst h)
          (executeTable_stored env cat hf hk table.1 st s hst hs)
        obtain ⟨info, hmem, hrec⟩ := h _ st hst
        refine ⟨cs1 ++ cs2, by rw [hs2, hs1, List.append_assoc], ?_⟩
        intro c hc2
        rcases List.mem_append.1 hc2 with hc2 | hc2
        · obtain ⟨hown, hnone⟩ := hg1 c hc2
          rw [hrec c] at hnone
          refine ⟨⟨table.1, info, hmem, hown⟩, ?_⟩
          intro table2 hmem2
          cases hl : (pendingOfTable table2.2 c).lookup c.tablet_id with
          | none => rfl
          | some ts =>
            exfalso
            have hin := lookup_some_mem _ _ _ hl
            have hown2 : TabletOfTable cat table2.1 c.tablet_id := by
              cases c with
              | AddServer a b d => exact hc.pending_adds table2 hmem2 _ hin
              | RemoveServer a b => exact hc.pending_removes table2 hmem2 _ hin
              | LeaderStepDown a b d e => exact hc.pending_stepdowns table2 hmem2 _ hin
            have hT := TabletOfTable_unique cat _ _ _ hown hown2
            have hmem3 : (table.1, table2.2) ∈ cat.table_ids_map_ := by
              rw [hT]; exact hmem2
            have hinfo := mem_unique_of_nodup_keys _ _ _ _ hc.keys hmem hmem3
            rw [← hinfo, hnone] at hl
            cases hl
        · exact hg2 c hc2

/-! ### The duplicate-operation guard -/

theorem StateOfTable_default (cat : CatalogManager) (T : TableId) :
    StateOfTable cat T default := by
  refine ⟨?_, ?_, ?_, ?_, ?_, ?_, ?_⟩
  · intro t ht; exact absurd ht (List.not_mem_nil t)
  · intro t ht; exact absurd ht (List.not_mem_nil t)
  · intro t ht; exact absurd ht (List.not_mem_nil t)
  · intro ts t ht; exact absurd ht (List.not_mem_nil t)
  · intro ts t ht; exact absurd ht (List.not_mem_nil t)
  · intro ts t ht; exact absurd ht (List.not_mem_nil t)
  · intro ts path dt hl
    change (none : Option (List TabletId)) = some dt at hl
    cases hl

theorem lookupD_append_registered (m : List (TabletServerId × CBTabletServerMetadata))
    (d : TSDescriptor) (ts : TabletServerId) :
    lookupD (m ++ [(d.permanent_uuid,
        { (default : CBTabletServerMetadata) with descriptor := d })]) ts default =
      lookupD m ts default ∨
    lookupD (m ++ [(d.permanent_uuid,
        { (default : CBTabletServerMetadata) with descriptor := d })]) ts default =
      { (default : CBTabletServerMetadata) with descriptor := d } := by
  unfold lookupD
  rw [lookup_append_single]
  cases m.lookup ts with
  | some x => exact Or.inl rfl
  | none =>
    simp only
    split_ifs
    · exact Or.inr rfl
    · exact Or.inl rfl

/-- Registering a node without tablets keeps the tablets of a table state within
the table. -/
theorem StateOfTable_register (cat : CatalogManager) (T : TableId) (st : PerTableLoadState)
    (d : TSDescriptor) (h : StateOfTable cat T st) :
    StateOfTable cat T
      { st with
        sorted_load_ := st.sorted_load_ ++ [d.permanent_uuid]
        per_ts_meta_ := st.per_ts_meta_ ++
          [(d.permanent_uuid, { (default : CBTabletServerMetadata) with descriptor := d })] } := by
  refine ⟨h.1, h.2.1, h.2.2.1, ?_, ?_, ?_, ?_⟩
  · intro ts t ht
    simp only at ht
    rcases lookupD_append_registered st.per_ts_meta_ d ts with he | he
    · rw [he] at ht; exact h.2.2.2.1 ts t ht
    · rw [he] at ht; exact absurd ht (List.not_mem_nil t)
  · intro ts t ht
    simp only at ht
    rcases lookupD_append_registered st.per_ts_meta_ d ts with he | he
    · rw [he] at ht; exact h.2.2.2.2.1 ts t ht
    · rw [he] at ht; exact absurd ht (List.not_mem_nil t)
  · intro ts t ht
    simp only at ht
    rcases lookupD_append_registered st.per_ts_meta_ d ts with he | he
    · rw [he] at ht; exact h.2.2.2.2.2.1 ts t ht
    · rw [he] at ht; exact absurd ht (List.not_mem_nil t)
  · intro ts path dt hl
    simp only at hl
    rcases lookupD_append_registered st.per_ts_meta_ d ts with he | he
    · rw [he] at hl; exact h.2.2.2.2.2.2 ts path dt hl
    · rw [he] at hl
      change (none : Option (List TabletId)) = some dt at hl
      cases hl

theorem exEnvUnder_pendingFrame : PendingFrame exEnvUnder :=
  ⟨fun _ _ _ => ⟨rfl, rfl, rfl⟩, fun _ _ _ => ⟨rfl, rfl, rfl⟩, fun _ _ _ _ => ⟨rfl, rfl, rfl⟩,
   fun _ _ _ => ⟨rfl, rfl, rfl⟩, fun _ _ => ⟨rfl, rfl, rfl⟩, fun _ _ => ⟨rfl, rfl, rfl⟩,
   fun _ _ => ⟨rfl, rfl, rfl⟩, fun _ _ => ⟨rfl, rfl, rfl⟩, fun _ => ⟨rfl, rfl, rfl⟩,
   fun _ => ⟨rfl, rfl, rfl⟩, fun _ => ⟨rfl, rfl, rfl⟩, fun _ => ⟨rfl, rfl, rfl⟩⟩

/-- The helpers of `exEnvUnder` put no foreign tablet into a table state:
`UpdateTablet` adds the tablet it is given to `tablets_missing_replicas_`,
`UpdateTabletServer` registers a node without tablets, and the others leave the
state as it is. -/
theorem exEnvUnder_keepsTable (cat : CatalogManager) : HelpersKeepTable exEnvUnder cat where
  fresh := fun T _ => StateOfTable_default cat T
  addReplica := fun _ _ _ _ h _ => h
  removeReplica := fun _ _ _ _ h _ => h
  moveLeader := fun _ _ _ _ _ h _ => h
  addStartingTablet := fun _ _ _ _ h _ => h
  updateTablet := fun T sg tablet h ht =>
    ⟨fun x hx => by
        rcases List.mem_append.1 hx with hx | hx
        · exact h.1 x hx
        · rw [List.mem_singleton] at hx
          rw [hx]
          exact ht,
      h.2⟩
  updateTabletServer := fun T sg d h => StateOfTable_register cat T sg.1 d h
  setBlacklist := fun _ _ _ h => h
  setLeaderBlacklist := fun _ _ _ h => h
  adjustLeaderBalanceThreshold := fun _ _ h => h
  sortLoad := fun _ _ h => h
  sortLeaderLoad := fun _ _ h => h
  sortTabletServerDriveLoad := fun _ _ h => h

theorem exCatGuard_consistent : CatalogConsistent exCatGuard where
  keys := by decide
  tablets := by
    intro table hmem _ tablet ht
    simp only [exCatGuard, List.mem_singleton] at hmem
    subst hmem
    simp only [List.mem_cons, List.mem_singleton, List.not_mem_nil, or_false] at ht
    rcases ht with ht | ht <;> subst ht
    · exact ⟨_, rfl, rfl, rfl⟩
    · exact ⟨_, rfl, rfl, rfl⟩
  pending_adds := by
    intro table hmem e he
    simp only [exCatGuard, List.mem_singleton] at hmem
    subst hmem
    simp only [List.mem_singleton] at he
    subst he
    exact ⟨_, rfl, rfl, rfl⟩
  pending_removes := by
    intro table hmem e he
    simp only [exCatGuard, List.mem_singleton] at hmem
    subst hmem
    exact absurd he (List.not_mem_nil e)
  pending_stepdowns := by
    intro table hmem e he
    simp only [exCatGuard, List.mem_singleton] at hmem
    subst hmem
    exact absurd he (List.not_mem_nil e)

/-- C13: `SendReplicaChanges` sends its command (add-server, remove-server or
leader step-down) exactly when the pending-task map of that kind of the current
table state has no entry for the tablet under the id of the tablet's table;
otherwise it returns IllegalState and the balancer, with the commands sent, is
unchanged. Consequently, in the EXECUTE phase of a table `T` whose state names
tablets of `T` only, every command sent is for a tablet of `T` that has no entry
in the state's pending-task map of the command's kind under `T`; and for every
command sent by a pass of `RunLoadBalancerWithOptions`, the command's tablet
belongs to a table of the table map and no table of the table map has a pending
task of the command's kind for that tablet: a tablet with a pending add (remove,
step-down) task at COUNT_PENDING is sent no add (remove, step-down) command in
the pass. The helper methods of `PerTableLoadState` are assumed to leave the
pending-task maps alone and to put no tablet of another table into a table
state; the table map is assumed to have distinct ids, and the tablets that a
balanced table lists and the tablets that pending tasks name are assumed to be
tablets of that table in the tablet map. -/
theorem C13_duplicate_operation_guard (env : Env) (cat : CatalogManager)
    (hframe : PendingFrame env) (hkeep : HelpersKeepTable env cat)
    (hcat : CatalogConsistent cat) :
    (∀ lb tablet ts is_add srl nl,
      pendingCount (pendingTasksOfKind lb.state_ (commandSent lb tablet ts is_add srl nl))
          tablet.table_id tablet.tablet_id = 0 →
      SendReplicaChanges lb tablet ts is_add srl nl =
        (.ok (), { lb with sent_ := lb.sent_ ++ [commandSent lb tablet ts is_add srl nl] })) ∧
    (∀ lb tablet ts is_add srl nl,
      pendingCount (pendingTasksOfKind lb.state_ (commandSent lb tablet ts is_add srl nl))
          tablet.table_id tablet.tablet_id ≠ 0 →
      ∃ msg, SendReplicaChanges lb tablet ts is_add srl nl =
        (.error (STATUS .IllegalState msg), lb)) ∧
    (∀ (T : TableId) (st : PerTableLoadState) (s : ExecState), StateOfTable cat T st →
      ∃ cs, (executeTable env cat T st s).lb.sent_ = s.lb.sent_ ++ cs ∧
        ∀ c ∈ cs, TabletOfTable cat T c.tablet_id ∧
          (lookupD (pendingTasksOfKind st c) T []).lookup c.tablet_id = none) ∧
    (∀ (options : Option Options) (lb : ClusterLoadBalancer),
      ∃ cs, (RunLoadBalancerWithOptions env cat options lb).sent_ = lb.sent_ ++ cs ∧
        ∀ c ∈ cs,
          (∃ T info, (T, info) ∈ cat.table_ids_map_ ∧ TabletOfTable cat T c.tablet_id) ∧
          ∀ table ∈ cat.table_ids_map_,
            (pendingOfTable table.2 c).lookup c.tablet_id = none) := by
  refine ⟨?_, ?_, ?_, ?_⟩
  · intro lb tablet ts is_add srl nl h
    unfold commandSent at h ⊢
    unfold SendReplicaChanges
    split_ifs at h ⊢ with h1 h2 h3 h4 h5 <;>
      first
        | rfl
        | (simp only [pendingTasksOfKind] at h; omega)
  · intro lb tablet ts is_add srl nl h
    unfold commandSent at h
    unfold SendReplicaChanges
    split_ifs at h ⊢ with h1 h2 h3 h4 h5 <;>
      first
        | exact ⟨_, rfl⟩
        | (simp only [pendingTasksOfKind] at h; omega)
  · intro T st s hst
    obtain ⟨_, _, cs, hs, hg⟩ := executeTable_guarded env cat hframe hkeep T st s hst
    exact ⟨cs, hs, hg⟩
  · intro options lb
    unfold RunLoadBalancerWithOptions
    simp only
    split_ifs
    · exact ⟨[], by simp [ResetGlobalState], by simp⟩
    · obtain ⟨cs, hs, hg⟩ := executeLoop_guarded env cat hframe hkeep hcat cat.table_ids_map_
        (executeEntry env cat (options.getD env.default_options)
          (ResetGlobalState env.flags cat.ts_descs lb))
        (executeEntry_recorded env cat _ hframe _ rfl)
        (executeEntry_stored env cat _ hkeep hcat _ rfl)
      rw [executeEntry_sent] at hs
      exact ⟨cs, hs, hg⟩

/-- Witness for C13: in the catalog `exCatGuard` the tablets "t1" and "t2" of
table "A" both miss a replica and an add of "t2" is pending. With a budget of
three adds, the pass sends the add of "t1" and refuses the add of "t2": the only
command sent is the add-server command for "t1". -/
theorem C13_duplicate_operation_guard_witness :
    PendingFrame exEnvUnder ∧ HelpersKeepTable exEnvUnder exCatGuard ∧
    CatalogConsistent exCatGuard ∧
    (lookupD exCatGuard.table_ids_map_ "A" default).pending_add_server_tasks.lookup "t2" =
      some "ts9" ∧
    (executeEntry exEnvUnder exCatGuard exOptionsThree
      (ResetGlobalState exFlags exCatGuard.ts_descs
        (ClusterLoadBalancer.new exFlags))).remaining_adds = 2 ∧
    (RunLoadBalancerWithOptions exEnvUnder exCatGuard (some exOptionsThree)
      (ClusterLoadBalancer.new exFlags)).sent_ = [Command.AddServer "t1" "ts1" .PRE_VOTER] ∧
    ∃ cs, (RunLoadBalancerWithOptions exEnvUnder exCatGuard (some exOptionsThree)
        (ClusterLoadBalancer.new exFlags)).sent_ =
          (ClusterLoadBalancer.new exFlags).sent_ ++ cs ∧
      ∀ c ∈ cs,
        (∃ T info, (T, info) ∈ exCatGuard.table_ids_map_ ∧
          TabletOfTable exCatGuard T c.tablet_id) ∧
        ∀ table ∈ exCatGuard.table_ids_map_,
          (pendingOfTable table.2 c).lookup c.tablet_id = none :=
  ⟨exEnvUnder_pendingFrame, exEnvUnder_keepsTable exCatGuard, exCatGuard_consistent,
   by rfl, by rfl, by rfl,
   (C13_duplicate_operation_guard exEnvUnder exCatGuard exEnvUnder_pendingFrame
      (exEnvUnder_keepsTable exCatGuard) exCatGuard_consistent).2.2.2
      (some exOptionsThree) (ClusterLoadBalancer.new exFlags)⟩

end ClusterBalance
